import Mathlib

/-!
# impala: a two-pass 6502 assembler for the PAL65 dialect

A shallow embedding of the assembler core (`value.cc`, `symbol_table.cc`,
`instruction_set.cc`, `pseudo_op.cc`, `ast_node.cc`, `grammar.hh`, `parser.cc`,
`assembler.cc`) together with theorems about it.

Conventions of the embedding

* `std::uint16_t` and `std::uint8_t` values are natural numbers; every place
  where C++ converts an `int` to one of them is an explicit `uint16` / `uint8`.
* A C++ function that can throw returns `Except Error _`; each constructor of
  `Error` stands for one exception class (or one `throw` site).
* `std::set<T>` is `Finset T`; `std::map<std::string, T>` is an association
  list searched by key; `std::shared_ptr<T>` to an immutable object is the
  object itself.
-/

namespace Impala

/-! ## Machine integers -/

/-- Conversion of a C++ `int` to `std::uint16_t` (reduction modulo 2^16). -/
def uint16 (i : Int) : Nat := (i % 65536).toNat

/-- Conversion of a C++ `int` to `std::uint8_t` (reduction modulo 2^8). -/
def uint8 (i : Int) : Nat := (i % 256).toNat

/-! ## Exceptions -/

deriving instance DecidableEq for Except

/-- The message of an `AssemblerError`, one constructor per `throw` site of
`assembler.cc`. -/
inductive AssemblerErrorKind where
  /-- "evaluate nullptr expression" -/
  | evaluate_nullptr_expression
  /-- "expression evaluation error" -/
  | expression_evaluation_error
  /-- "invalid pass number {}" -/
  | invalid_pass_number (pass_number : Int)
  /-- "Unrecognized mnemonic \"{}\"" -/
  | unrecognized_mnemonic (mnemonic : String)
  /-- "\"{}\" instruction requires {} operands, but {} provided" -/
  | wrong_operand_count (mnemonic : String) (expect_operand : Bool) (operand_count : Nat)
  /-- "relative branch displacement {} out of range" -/
  | displacement_out_of_range (displacement : Int)
  /-- "no \"{}\" instruction with {} byte operand for value 0x{:04x}" -/
  | no_instruction_with_operand_size (mnemonic : String) (operand_size : Nat) (operand_value : Nat)
  /-- "Pseudo-op {} not allowed to have label" -/
  | pseudo_op_label_disallowed (mnemonic : String)
  /-- "unimplmented pseudo-op {}" -/
  | unimplemented_pseudo_op (mnemonic : String)
  deriving DecidableEq, Repr

/-- The message of a `std::logic_error`, one constructor per `throw` site. -/
inductive LogicErrorKind where
  /-- "can't evaluate string constant" (`StringConstant::evaluate`) -/
  | cant_evaluate_string_constant
  /-- "duplicate opcode {:02x}" (`InstructionSet::InstructionSet`) -/
  | duplicate_opcode (opcode : Nat)
  /-- "duplicate PAL65 mnemonic {}" (`InstructionSet::InstructionSet`) -/
  | duplicate_pal65_mnemonic (pal65_mnemonic : String)
  /-- "internal error: instruction with wrong modes" -/
  | instruction_with_wrong_modes
  /-- "internal error: instruction with {} modes" -/
  | instruction_with_n_modes (n : Nat)
  /-- "internal error: AST stack has {} leftover items" (`Parser::parse`) -/
  | ast_stack_leftover (n : Nat)
  /-- "internal error: unrecognized binary adding operator \"{}\"" -/
  | unrecognized_binary_adding_operator (s : String)
  /-- "internal error: unrecognized unary operator \"{}\"" -/
  | unrecognized_unary_operator (s : String)
  /-- "internal error: unrecognized binary multiplying operator \"{}\"" -/
  | unrecognized_binary_multiplying_operator (s : String)
  deriving DecidableEq, Repr

/-- Everything that stops a C++ function before it returns: the exception
classes of the program, and the two ways the program leaves defined behaviour
(dereferencing a null `shared_ptr`, reading past the end of a vector), which
the embedding records as errors instead of giving them a meaning. -/
inductive Error where
  /-- `ValueUnknownError`, thrown by `Value::get` -/
  | ValueUnknownError (unknown_symbols : Finset String)
  /-- `ValueDivideByZeroError`, thrown by `operator/` -/
  | ValueDivideByZeroError
  /-- `SymbolTableError("symbol {} undefined")` -/
  | SymbolTableError_undefined (symbol : String)
  /-- `SymbolMultiplyDefined(symbol, line1, line2)` -/
  | SymbolMultiplyDefined (symbol : String) (line1 line2 : Nat)
  /-- `SymbolValueRedefined(symbol, value1, value2)` -/
  | SymbolValueRedefined (symbol : String) (value1 value2 : Nat)
  /-- `InstructionSet::UnrecognizedMnemonic` -/
  | UnrecognizedMnemonic (mnemonic : String)
  /-- `ParseError` -/
  | ParseError
  /-- `AssemblerError(source_line_number, what)` -/
  | AssemblerError (source_line_number : Nat) (what : AssemblerErrorKind)
  /-- `std::logic_error` -/
  | logic_error (what : LogicErrorKind)
  /-- `std::out_of_range` from `std::vector::at` / `std::map::at` -/
  | out_of_range
  /-- `std::invalid_argument` / `std::out_of_range` from `std::stoull` -/
  | stoull_error
  /-- `std::length_error` from `std::string(count, ch)` with a count above
  `max_size()` -/
  | length_error
  /-- A null `shared_ptr` is dereferenced, or a container is read out of
  bounds without a check: undefined behaviour in C++. -/
  | undefined_behaviour
  /-- No exception of the program: a loop of the recognizer was given fewer
  rounds than it needed. The recognizer gives every loop one round more than
  the input has characters. -/
  | fuel_exhausted
  deriving DecidableEq

/-- The call `x` returns, and what it returns passes the test `p`. -/
def returns {α : Type} (x : Except Error α) (p : α → Bool) : Bool :=
  match x with
  | Except.ok a => p a
  | Except.error _ => false

/-- The call `x` throws `e`. -/
def throws {α : Type} (x : Except Error α) (e : Error) : Bool :=
  match x with
  | Except.ok _ => false
  | Except.error thrown => decide (thrown = e)

/-! ## value.cc -/

/-- The class `Value`: `m_known` with `m_value`, or not `m_known` with
`m_unknown_symbols`. The constructor from `std::uint16_t` leaves
`m_unknown_symbols` empty, and the two constructors of unknown values leave
`m_value` unset, so exactly these two shapes exist. -/
inductive Value where
  | known (m_value : Nat)
  | unknown (m_unknown_symbols : Finset String)
  deriving DecidableEq

/-- Shared pointer to an (immutable) `Value`. -/
abbrev ValueSP := Value

namespace Value

/-- `Value::create(std::uint16_t value)`; the integer argument is converted
to `std::uint16_t` at the call. -/
def create (value : Int) : ValueSP := Value.known (uint16 value)

/-- `Value::create(const std::string& unknown_symbol)` -/
def create_symbol (unknown_symbol : String) : ValueSP := Value.unknown {unknown_symbol}

/-- `Value::create(const std::set<std::string>& unknown_symbols)` -/
def create_set (unknown_symbols : Finset String) : ValueSP := Value.unknown unknown_symbols

/-- `Value::known` -/
def isKnown : Value → Bool
  | Value.known _ => true
  | Value.unknown _ => false

/-- `Value::get` -/
def get : Value → Except Error Nat
  | Value.known m_value => Except.ok m_value
  | Value.unknown m_unknown_symbols => Except.error (Error.ValueUnknownError m_unknown_symbols)

/-- `Value::get_unknown_symbols` -/
def get_unknown_symbols : Value → Finset String
  | Value.known _ => ∅
  | Value.unknown m_unknown_symbols => m_unknown_symbols

end Value

/-- `merge_unknowns` of value.cc: the set starts empty and receives the
unknown symbols of each operand that is not known. -/
def merge_unknowns (left right : ValueSP) : Finset String :=
  let unknowns : Finset String := ∅
  let unknowns := if !left.isKnown then unknowns ∪ left.get_unknown_symbols else unknowns
  let unknowns := if !right.isKnown then unknowns ∪ right.get_unknown_symbols else unknowns
  unknowns

/-- `operator+` on values. The sum of the two `std::uint16_t` is an `int`. -/
def Value.add (left right : ValueSP) : ValueSP :=
  match left, right with
  | Value.known a, Value.known b => Value.create ((a : Int) + (b : Int))
  | _, _ => Value.create_set (merge_unknowns left right)

/-- `operator-` on values. The difference is a (possibly negative) `int`. -/
def Value.sub (left right : ValueSP) : ValueSP :=
  match left, right with
  | Value.known a, Value.known b => Value.create ((a : Int) - (b : Int))
  | _, _ => Value.create_set (merge_unknowns left right)

/-- `operator*` on values. The product is computed in `int`; for products
of 2^31 and more C++ leaves the signed overflow undefined, and the
two-complement result has the low 16 bits of the exact product, which is what
the embedding returns. -/
def Value.mul (left right : ValueSP) : ValueSP :=
  match left, right with
  | Value.known a, Value.known b => Value.create ((a : Int) * (b : Int))
  | _, _ => Value.create_set (merge_unknowns left right)

/-- `operator/` on values. -/
def Value.div (left right : ValueSP) : Except Error ValueSP :=
  match left, right with
  | Value.known a, Value.known b =>
    if b = 0 then Except.error Error.ValueDivideByZeroError
    else Except.ok (Value.create ((a : Int) / (b : Int)))
  | _, _ => Except.ok (Value.create_set (merge_unknowns left right))

/-- `low_byte` of value.cc -/
def low_byte (operand : ValueSP) : ValueSP :=
  match operand with
  | Value.known x => Value.create ((x &&& 0xff : Nat) : Int)
  | Value.unknown _ => operand

/-- `high_byte` of value.cc -/
def high_byte (operand : ValueSP) : ValueSP :=
  match operand with
  | Value.known x => Value.create ((x >>> 8 : Nat) : Int)
  | Value.unknown _ => operand

/-! ## symbol_table.cc -/

/-- `SymbolTable::Entry` -/
structure Entry where
  value : ValueSP
  definition_line_number : Nat
  reference_line_numbers : Finset Nat
  deriving DecidableEq

/-- The class `SymbolTable`. The `std::map` is an association list with at
most one pair per key; the order of its pairs is never observed by the
program (the only iteration, `list_symbol_table`, is compiled out). -/
structure SymbolTable where
  m_lookup_undefined_ok : Bool
  m_symbol_table : List (String × Entry)
  deriving DecidableEq

namespace SymbolTable

/-- `SymbolTable::SymbolTable` (through `SymbolTable::create`) -/
def create : SymbolTable := { m_lookup_undefined_ok := false, m_symbol_table := [] }

/-- `SymbolTable::set_lookup_undefined_ok` -/
def set_lookup_undefined_ok (t : SymbolTable) (value : Bool) : SymbolTable :=
  { t with m_lookup_undefined_ok := value }

/-- `m_symbol_table.at(symbol)`, `none` when the key is absent. -/
def find (t : SymbolTable) (symbol : String) : Option Entry :=
  t.m_symbol_table.lookup symbol

/-- `SymbolTable::contains` -/
def contains (t : SymbolTable) (symbol : String) : Bool :=
  (t.find symbol).isSome

/-- `SymbolTable::define_symbol`. Both `old_value` and `new_value` are read
from `entry.value`, as in the source. -/
def define_symbol (t : SymbolTable) (source_line_number : Nat) (symbol : String)
    (value : ValueSP) : Except Error SymbolTable :=
  match t.find symbol with
  | none =>
    Except.ok { t with m_symbol_table :=
      (symbol, { value := value, definition_line_number := source_line_number,
                 reference_line_numbers := ∅ }) :: t.m_symbol_table }
  | some entry =>
    if entry.definition_line_number ≠ source_line_number then
      Except.error (Error.SymbolMultiplyDefined symbol entry.definition_line_number
        source_line_number)
    else
      match entry.value.get with
      | Except.error e => Except.error e
      | Except.ok old_value =>
        match entry.value.get with
        | Except.error e => Except.error e
        | Except.ok new_value =>
          if new_value ≠ old_value then
            Except.error (Error.SymbolValueRedefined symbol old_value new_value)
          else Except.ok t

/-- `SymbolTable::lookup_symbol`. The source inserts the line number into
`entry`, which `auto entry = m_symbol_table.at(symbol);` declares as a copy of
the stored entry, so the table that results is the table that was given. -/
def lookup_symbol (t : SymbolTable) (source_line_number : Nat) (symbol : String) :
    Except Error (ValueSP × SymbolTable) :=
  match t.find symbol with
  | none =>
    if t.m_lookup_undefined_ok then Except.ok (Value.create_symbol symbol, t)
    else Except.error (Error.SymbolTableError_undefined symbol)
  | some stored =>
    let entry : Entry := stored
    let reference_line_numbers := insert source_line_number entry.reference_line_numbers
    let entry : Entry := { entry with reference_line_numbers := reference_line_numbers }
    let _ := entry
    Except.ok (stored.value, t)

/-- `SymbolTable::get_symbol_definition_line` -/
def get_symbol_definition_line (t : SymbolTable) (symbol : String) : Except Error Nat :=
  match t.find symbol with
  | none => Except.error (Error.SymbolTableError_undefined symbol)
  | some entry => Except.ok entry.definition_line_number

/-- `SymbolTable::get_symbol_reference_line_numbers` -/
def get_symbol_reference_line_numbers (t : SymbolTable) (symbol : String) :
    Except Error (Finset Nat) :=
  match t.find symbol with
  | none => Except.error (Error.SymbolTableError_undefined symbol)
  | some entry => Except.ok entry.reference_line_numbers

end SymbolTable

/-! ## utility.hh -/

/-- Modelled from the spec: `utility::downcase_string` (utility.hh is not part
of the sources at hand). The specification says that symbol names and
mnemonics are case-folded to lowercase; each character is mapped to its
lowercase form. -/
def utility.downcase_string (s : String) : String :=
  String.mk (s.data.map Char.toLower)

/-! ## instruction_set.cc -/

/-- `InstructionSet::Set` -/
inductive InstructionSet.Set where
  | UNDEFINED | BASE | ROCKWELL | CMOS
  deriving DecidableEq, Repr

/-- `InstructionSet::Mode` -/
inductive InstructionSet.Mode where
  | IMPLIED
  | ACCUMULATOR
  | IMMEDIATE
  | ZERO_PAGE
  | ZERO_PAGE_X
  | ZERO_PAGE_Y
  | ZP_X_IND
  | ZP_IND_Y
  | ABSOLUTE
  | ABSOLUTE_X
  | ABSOLUTE_Y
  | ABSOLUTE_IND
  | RELATIVE
  deriving DecidableEq, Repr

/-- `InstructionSet::Info` -/
structure InstructionSet.Info where
  mnemonic : String
  set : InstructionSet.Set
  mode : InstructionSet.Mode
  opcode : Nat
  deriving DecidableEq, Repr

/-- The class `InstructionSet`: the map from PAL65 mnemonic to its infos. -/
structure InstructionSet where
  m_by_mnemonic : List (String × List InstructionSet.Info)
  deriving DecidableEq, Repr

namespace InstructionSet

open Mode in
/-- `s_operand_size_bytes` -/
def s_operand_size_bytes : Mode → Nat
  | IMPLIED      => 0
  | ACCUMULATOR  => 0
  | IMMEDIATE    => 1
  | ZERO_PAGE    => 1
  | ZERO_PAGE_X  => 1
  | ZERO_PAGE_Y  => 1
  | ZP_X_IND     => 1
  | ZP_IND_Y     => 1
  | ABSOLUTE     => 2
  | ABSOLUTE_X   => 2
  | ABSOLUTE_Y   => 2
  | ABSOLUTE_IND => 2
  | RELATIVE     => 1

open Mode in
/-- `s_pal65_address_mode_suffixes` -/
def s_pal65_address_mode_suffixes : Mode → String
  | IMPLIED      => ""
  | ACCUMULATOR  => "a"
  | IMMEDIATE    => "#"
  | ZERO_PAGE    => ""
  | ZERO_PAGE_X  => "x"
  | ZERO_PAGE_Y  => "y"
  | ZP_X_IND     => "x@"
  | ZP_IND_Y     => "@y"
  | ABSOLUTE     => ""
  | ABSOLUTE_X   => "x"
  | ABSOLUTE_Y   => "y"
  | ABSOLUTE_IND => "@"
  | RELATIVE     => ""

/-- `s_main_table` -/
def s_main_table : List Info := [
  Info.mk "adc" Set.BASE Mode.IMMEDIATE 0x69,
  Info.mk "adc" Set.BASE Mode.ZERO_PAGE 0x65,
  Info.mk "adc" Set.BASE Mode.ZERO_PAGE_X 0x75,
  Info.mk "adc" Set.BASE Mode.ZP_X_IND 0x61,
  Info.mk "adc" Set.BASE Mode.ZP_IND_Y 0x71,
  Info.mk "adc" Set.BASE Mode.ABSOLUTE 0x6d,
  Info.mk "adc" Set.BASE Mode.ABSOLUTE_X 0x7d,
  Info.mk "adc" Set.BASE Mode.ABSOLUTE_Y 0x79,
  Info.mk "and" Set.BASE Mode.IMMEDIATE 0x29,
  Info.mk "and" Set.BASE Mode.ZERO_PAGE 0x25,
  Info.mk "and" Set.BASE Mode.ZP_X_IND 0x21,
  Info.mk "and" Set.BASE Mode.ZP_IND_Y 0x31,
  Info.mk "and" Set.BASE Mode.ABSOLUTE 0x2d,
  Info.mk "and" Set.BASE Mode.ABSOLUTE_X 0x3d,
  Info.mk "and" Set.BASE Mode.ABSOLUTE_Y 0x39,
  Info.mk "asl" Set.BASE Mode.ACCUMULATOR 0x0a,
  Info.mk "asl" Set.BASE Mode.ZERO_PAGE 0x06,
  Info.mk "asl" Set.BASE Mode.ZP_X_IND 0x16,
  Info.mk "asl" Set.BASE Mode.ABSOLUTE 0x0e,
  Info.mk "asl" Set.BASE Mode.ABSOLUTE_X 0x1e,
  Info.mk "bcc" Set.BASE Mode.RELATIVE 0x90,
  Info.mk "bcs" Set.BASE Mode.RELATIVE 0xb0,
  Info.mk "beq" Set.BASE Mode.RELATIVE 0xf0,
  Info.mk "bit" Set.BASE Mode.ZERO_PAGE 0x24,
  Info.mk "bit" Set.BASE Mode.ABSOLUTE 0x2c,
  Info.mk "bmi" Set.BASE Mode.RELATIVE 0x30,
  Info.mk "bne" Set.BASE Mode.RELATIVE 0xd0,
  Info.mk "bpl" Set.BASE Mode.RELATIVE 0x10,
  Info.mk "brk" Set.BASE Mode.IMPLIED 0x00,
  Info.mk "bvc" Set.BASE Mode.RELATIVE 0x50,
  Info.mk "bvs" Set.BASE Mode.RELATIVE 0x70,
  Info.mk "clc" Set.BASE Mode.IMPLIED 0x18,
  Info.mk "cld" Set.BASE Mode.IMPLIED 0xd8,
  Info.mk "cli" Set.BASE Mode.IMPLIED 0x58,
  Info.mk "clv" Set.BASE Mode.IMPLIED 0xb8,
  Info.mk "cmp" Set.BASE Mode.IMMEDIATE 0xc9,
  Info.mk "cmp" Set.BASE Mode.ZERO_PAGE 0xc5,
  Info.mk "cmp" Set.BASE Mode.ZERO_PAGE_X 0xd5,
  Info.mk "cmp" Set.BASE Mode.ZP_X_IND 0xc1,
  Info.mk "cmp" Set.BASE Mode.ZP_IND_Y 0xd1,
  Info.mk "cmp" Set.BASE Mode.ABSOLUTE 0xcd,
  Info.mk "cmp" Set.BASE Mode.ABSOLUTE_X 0xdd,
  Info.mk "cmp" Set.BASE Mode.ABSOLUTE_Y 0xd9,
  Info.mk "cpx" Set.BASE Mode.IMMEDIATE 0xe0,
  Info.mk "cpx" Set.BASE Mode.ZERO_PAGE 0xe4,
  Info.mk "cpx" Set.BASE Mode.ABSOLUTE 0xec,
  Info.mk "cpy" Set.BASE Mode.IMMEDIATE 0xc0,
  Info.mk "cpy" Set.BASE Mode.ZERO_PAGE 0xc4,
  Info.mk "cpy" Set.BASE Mode.ABSOLUTE 0xcc,
  Info.mk "dec" Set.BASE Mode.ZERO_PAGE 0xc6,
  Info.mk "dec" Set.BASE Mode.ZERO_PAGE_X 0xd6,
  Info.mk "dec" Set.BASE Mode.ABSOLUTE 0xce,
  Info.mk "dec" Set.BASE Mode.ABSOLUTE_X 0xde,
  Info.mk "dex" Set.BASE Mode.IMPLIED 0xca,
  Info.mk "dey" Set.BASE Mode.IMPLIED 0x88,
  Info.mk "eor" Set.BASE Mode.IMMEDIATE 0x49,
  Info.mk "eor" Set.BASE Mode.ZERO_PAGE 0x45,
  Info.mk "eor" Set.BASE Mode.ZERO_PAGE_X 0x55,
  Info.mk "eor" Set.BASE Mode.ZP_X_IND 0x41,
  Info.mk "eor" Set.BASE Mode.ZP_IND_Y 0x51,
  Info.mk "eor" Set.BASE Mode.ABSOLUTE 0x4d,
  Info.mk "eor" Set.BASE Mode.ABSOLUTE_X 0x5d,
  Info.mk "eor" Set.BASE Mode.ABSOLUTE_Y 0x59,
  Info.mk "inc" Set.BASE Mode.ZERO_PAGE 0xe6,
  Info.mk "inc" Set.BASE Mode.ZERO_PAGE_X 0xf6,
  Info.mk "inc" Set.BASE Mode.ABSOLUTE 0xee,
  Info.mk "inc" Set.BASE Mode.ABSOLUTE_X 0xfe,
  Info.mk "inx" Set.BASE Mode.IMPLIED 0xe8,
  Info.mk "iny" Set.BASE Mode.IMPLIED 0xc8,
  Info.mk "jmp" Set.BASE Mode.ABSOLUTE 0x4c,
  Info.mk "jmp" Set.BASE Mode.ABSOLUTE_IND 0x6c,
  Info.mk "jsr" Set.BASE Mode.ABSOLUTE 0x20,
  Info.mk "lda" Set.BASE Mode.IMMEDIATE 0xa9,
  Info.mk "lda" Set.BASE Mode.ZERO_PAGE 0xa5,
  Info.mk "lda" Set.BASE Mode.ZERO_PAGE_X 0xb5,
  Info.mk "lda" Set.BASE Mode.ZP_X_IND 0xa1,
  Info.mk "lda" Set.BASE Mode.ZP_IND_Y 0xb1,
  Info.mk "lda" Set.BASE Mode.ABSOLUTE 0xad,
  Info.mk "lda" Set.BASE Mode.ABSOLUTE_X 0xbd,
  Info.mk "lda" Set.BASE Mode.ABSOLUTE_Y 0xb9,
  Info.mk "ldx" Set.BASE Mode.IMMEDIATE 0xa2,
  Info.mk "ldx" Set.BASE Mode.ZERO_PAGE 0xa6,
  Info.mk "ldx" Set.BASE Mode.ABSOLUTE 0xae,
  Info.mk "ldx" Set.BASE Mode.ABSOLUTE_Y 0xbe,
  Info.mk "ldy" Set.BASE Mode.IMMEDIATE 0xa0,
  Info.mk "ldy" Set.BASE Mode.ZERO_PAGE 0xa4,
  Info.mk "ldy" Set.BASE Mode.ZERO_PAGE_X 0xb4,
  Info.mk "ldy" Set.BASE Mode.ABSOLUTE 0xac,
  Info.mk "ldy" Set.BASE Mode.ABSOLUTE_X 0xbc,
  Info.mk "lsr" Set.BASE Mode.ACCUMULATOR 0x4a,
  Info.mk "lsr" Set.BASE Mode.ZERO_PAGE 0x46,
  Info.mk "lsr" Set.BASE Mode.ZP_X_IND 0x56,
  Info.mk "lsr" Set.BASE Mode.ABSOLUTE 0x4e,
  Info.mk "lsr" Set.BASE Mode.ABSOLUTE_X 0x5e,
  Info.mk "nop" Set.BASE Mode.IMPLIED 0xea,
  Info.mk "ora" Set.BASE Mode.IMMEDIATE 0x09,
  Info.mk "ora" Set.BASE Mode.ZERO_PAGE 0x05,
  Info.mk "ora" Set.BASE Mode.ZP_X_IND 0x01,
  Info.mk "ora" Set.BASE Mode.ZP_IND_Y 0x11,
  Info.mk "ora" Set.BASE Mode.ABSOLUTE 0x0d,
  Info.mk "ora" Set.BASE Mode.ABSOLUTE_X 0x1d,
  Info.mk "ora" Set.BASE Mode.ABSOLUTE_Y 0x19,
  Info.mk "pha" Set.BASE Mode.IMPLIED 0x48,
  Info.mk "php" Set.BASE Mode.IMPLIED 0x08,
  Info.mk "pla" Set.BASE Mode.IMPLIED 0x68,
  Info.mk "plp" Set.BASE Mode.IMPLIED 0x28,
  Info.mk "rol" Set.BASE Mode.ACCUMULATOR 0x2a,
  Info.mk "rol" Set.BASE Mode.ZERO_PAGE 0x26,
  Info.mk "rol" Set.BASE Mode.ZP_X_IND 0x36,
  Info.mk "rol" Set.BASE Mode.ABSOLUTE 0x2e,
  Info.mk "rol" Set.BASE Mode.ABSOLUTE_X 0x3e,
  Info.mk "ror" Set.BASE Mode.ACCUMULATOR 0x6a,
  Info.mk "ror" Set.BASE Mode.ZERO_PAGE 0x66,
  Info.mk "ror" Set.BASE Mode.ZP_X_IND 0x76,
  Info.mk "ror" Set.BASE Mode.ABSOLUTE 0x6e,
  Info.mk "ror" Set.BASE Mode.ABSOLUTE_X 0x7e,
  Info.mk "rti" Set.BASE Mode.IMPLIED 0x40,
  Info.mk "rts" Set.BASE Mode.IMPLIED 0x60,
  Info.mk "sbc" Set.BASE Mode.IMMEDIATE 0xe9,
  Info.mk "sbc" Set.BASE Mode.ZERO_PAGE 0xe5,
  Info.mk "sbc" Set.BASE Mode.ZERO_PAGE_X 0xf5,
  Info.mk "sbc" Set.BASE Mode.ZP_X_IND 0xe1,
  Info.mk "sbc" Set.BASE Mode.ZP_IND_Y 0xf1,
  Info.mk "sbc" Set.BASE Mode.ABSOLUTE 0xed,
  Info.mk "sbc" Set.BASE Mode.ABSOLUTE_X 0xfd,
  Info.mk "sbc" Set.BASE Mode.ABSOLUTE_Y 0xf9,
  Info.mk "sec" Set.BASE Mode.IMPLIED 0x38,
  Info.mk "sed" Set.BASE Mode.IMPLIED 0xf8,
  Info.mk "sei" Set.BASE Mode.IMPLIED 0x78,
  Info.mk "sta" Set.BASE Mode.ZERO_PAGE 0x85,
  Info.mk "sta" Set.BASE Mode.ZERO_PAGE_X 0x95,
  Info.mk "sta" Set.BASE Mode.ZP_X_IND 0x81,
  Info.mk "sta" Set.BASE Mode.ZP_IND_Y 0x91,
  Info.mk "sta" Set.BASE Mode.ABSOLUTE 0x8d,
  Info.mk "sta" Set.BASE Mode.ABSOLUTE_X 0x9d,
  Info.mk "sta" Set.BASE Mode.ABSOLUTE_Y 0x99,
  Info.mk "stx" Set.BASE Mode.ZERO_PAGE 0x86,
  Info.mk "stx" Set.BASE Mode.ZERO_PAGE_Y 0x96,
  Info.mk "stx" Set.BASE Mode.ABSOLUTE 0x8e,
  Info.mk "sty" Set.BASE Mode.ZERO_PAGE 0x84,
  Info.mk "sty" Set.BASE Mode.ZERO_PAGE_X 0x94,
  Info.mk "sty" Set.BASE Mode.ABSOLUTE 0x8c,
  Info.mk "tax" Set.BASE Mode.IMPLIED 0xaa,
  Info.mk "tay" Set.BASE Mode.IMPLIED 0xa8,
  Info.mk "tsx" Set.BASE Mode.IMPLIED 0xba,
  Info.mk "txa" Set.BASE Mode.IMPLIED 0x8a,
  Info.mk "txs" Set.BASE Mode.IMPLIED 0x9a,
  Info.mk "tya" Set.BASE Mode.IMPLIED 0x98
  ]

/-- `InstructionSet::operand_size_bytes` -/
def operand_size_bytes (mode : Mode) : Nat := s_operand_size_bytes mode

open Mode in
/-- `InstructionSet::pal65_compatible_modes` -/
def pal65_compatible_modes (m1 m2 : Mode) : Bool :=
  if (m1 = ZERO_PAGE ∧ m2 = ABSOLUTE) ∨ (m1 = ABSOLUTE ∧ m2 = ZERO_PAGE) then true
  else if (m1 = ZERO_PAGE_X ∧ m2 = ABSOLUTE_X) ∨ (m1 = ABSOLUTE_X ∧ m2 = ZERO_PAGE_X) then true
  else if (m1 = ZERO_PAGE_Y ∧ m2 = ABSOLUTE_Y) ∨ (m1 = ABSOLUTE_Y ∧ m2 = ZERO_PAGE_Y) then true
  else false

/-- `m_by_mnemonic[key].push_back(info)`: `operator[]` makes an empty vector
for a key that is absent. -/
def push_back_at (m : List (String × List Info)) (key : String) (info : Info) :
    List (String × List Info) :=
  match m with
  | [] => [(key, [info])]
  | (k, v) :: rest =>
    if k = key then (k, v ++ [info]) :: rest else (k, v) :: push_back_at rest key info

/-- The loop of the constructor `InstructionSet::InstructionSet` over the
entries of the table that remain; `opcode_used` is the `std::bitset<0x100>`,
as the list of the positions that are set. -/
def construct_loop (opcode_used : List Nat) (m_by_mnemonic : List (String × List Info)) :
    List Info → Except Error InstructionSet
  | [] => Except.ok { m_by_mnemonic := m_by_mnemonic }
  | info :: rest =>
    let pal65_mnemonic := info.mnemonic ++ s_pal65_address_mode_suffixes info.mode
    if info.opcode ∈ opcode_used then
      Except.error (Error.logic_error (LogicErrorKind.duplicate_opcode info.opcode))
    else
      let opcode_used := info.opcode :: opcode_used
      match m_by_mnemonic.lookup pal65_mnemonic with
      | some (first :: _) =>
        if !pal65_compatible_modes first.mode info.mode then
          Except.error (Error.logic_error (LogicErrorKind.duplicate_pal65_mnemonic pal65_mnemonic))
        else construct_loop opcode_used (push_back_at m_by_mnemonic pal65_mnemonic info) rest
      | some [] => Except.error Error.out_of_range
      | none => construct_loop opcode_used (push_back_at m_by_mnemonic pal65_mnemonic info) rest

/-- `InstructionSet::InstructionSet` (through `InstructionSet::create`) -/
def create : Except Error InstructionSet := construct_loop [] [] s_main_table

/-- `InstructionSet::valid_mnemonic` -/
def valid_mnemonic (iset : InstructionSet) (mnemonic : String) : Bool :=
  let s := utility.downcase_string mnemonic
  (iset.m_by_mnemonic.lookup s).isSome

/-- `InstructionSet::get` -/
def get (iset : InstructionSet) (mnemonic : String) : Except Error (List Info) :=
  let s := utility.downcase_string mnemonic
  match iset.m_by_mnemonic.lookup s with
  | none => Except.error (Error.UnrecognizedMnemonic mnemonic)
  | some infos => Except.ok infos

end InstructionSet

/-! ## pseudo_op.cc -/

/-- `PseudoOp::PseudoOpEnum` -/
inductive PseudoOp.PseudoOpEnum where
  | ASCII | BYTE | DEF | END | HBYTE | LINK | LIST | LOC | NOLIST | PAGE | WORD
  deriving DecidableEq, Repr

/-- `PseudoOp::Flags`, a bit set over `PseudoOp::Flag`. -/
structure PseudoOp.Flags where
  LABEL_DISALLOWED : Bool
  LABEL_ISNT_LOC : Bool
  deriving DecidableEq, Repr

/-- `PseudoOp::Info`; `flags` has the default `Flags()`, in which no flag is
set. -/
structure PseudoOp.Info where
  mnemonic : String
  pseudo_op : PseudoOp.PseudoOpEnum
  flags : PseudoOp.Flags := { LABEL_DISALLOWED := false, LABEL_ISNT_LOC := false }
  deriving DecidableEq, Repr

namespace PseudoOp

open PseudoOpEnum in
/-- `PseudoOp::s_by_enum`; no entry gives a value for `flags`. -/
def s_by_enum : PseudoOpEnum → Info
  | ASCII  => { mnemonic := ".ascii",  pseudo_op := ASCII }
  | BYTE   => { mnemonic := ".byte",   pseudo_op := BYTE }
  | DEF    => { mnemonic := ".def",    pseudo_op := DEF }
  | END    => { mnemonic := ".end",    pseudo_op := END }
  | HBYTE  => { mnemonic := ".hbyte",  pseudo_op := HBYTE }
  | LINK   => { mnemonic := ".link",   pseudo_op := LINK }
  | LIST   => { mnemonic := ".list",   pseudo_op := LIST }
  | LOC    => { mnemonic := ".loc",    pseudo_op := LOC }
  | NOLIST => { mnemonic := ".nolist", pseudo_op := NOLIST }
  | PAGE   => { mnemonic := ".page",   pseudo_op := PAGE }
  | WORD   => { mnemonic := ".word",   pseudo_op := WORD }

open PseudoOpEnum in
/-- `PseudoOp::s_by_mnemonic` -/
def s_by_mnemonic : List (String × PseudoOpEnum) := [
  (".ascii",  ASCII),
  (".byte",   BYTE),
  (".def",    DEF),
  (".end",    END),
  (".hbyte",  HBYTE),
  (".link",   LINK),
  (".list",   LIST),
  (".loc",    LOC),
  (".nolist", NOLIST),
  (".page",   PAGE),
  (".word",   WORD)]

/-- `PseudoOp::valid_mnemonic` -/
def valid_mnemonic (mnemonic : String) : Bool :=
  let s := utility.downcase_string mnemonic
  (s_by_mnemonic.lookup s).isSome

/-- `PseudoOp::lookup_mnemonic` -/
def lookup_mnemonic (mnemonic : String) : Except Error Info :=
  let s := utility.downcase_string mnemonic
  match s_by_mnemonic.lookup s with
  | none => Except.error Error.out_of_range
  | some pseudo_op_enum => Except.ok (s_by_enum pseudo_op_enum)

end PseudoOp

/-! ## ast_node.cc -/

/-- `UnaryOperatorEnum` -/
inductive UnaryOperatorEnum where
  | LOW_BYTE | HIGH_BYTE
  deriving DecidableEq, Repr

/-- `BinaryOperatorEnum` -/
inductive BinaryOperatorEnum where
  | ADDITION | SUBTRACTION | MULTIPLICATION | DIVISION
  deriving DecidableEq, Repr

/-- `ExpressionSP`, a shared pointer to one of the classes derived from
`Expression`, or the null pointer. The operator of a unary or binary
expression is a shared pointer to a `UnaryOperator` / `BinaryOperator` node,
which may be null as well (`none`). -/
inductive Expression where
  | nullptr
  | Constant (m_value_sp : ValueSP)
  | StringConstant (m_string : String)
  | Symbol (m_symbol : String)
  | UnaryOperatorExpression (m_unary_operator : Option UnaryOperatorEnum)
      (m_subexpression : Expression)
  | BinaryOperatorExpression (m_left_subexpression : Expression)
      (m_binary_operator : Option BinaryOperatorEnum) (m_right_subexpression : Expression)
  deriving DecidableEq

/-- Shared pointer to an expression, possibly null. -/
abbrev ExpressionSP := Expression

/-- The virtual method `Expression::evaluate` with its overrides
(`Constant`, `StringConstant`, `Symbol`, `UnaryOperatorExpression`,
`BinaryOperatorExpression`). The evaluation context is the symbol table and
the source line number; the table is handed on because `lookup_symbol` is not
a `const` method. -/
def Expression.evaluate : Expression → SymbolTable → Nat → Except Error (ValueSP × SymbolTable)
  | Expression.nullptr, _, _ => Except.error Error.undefined_behaviour
  | Expression.Constant m_value_sp, t, _ => Except.ok (m_value_sp, t)
  | Expression.StringConstant _, _, _ =>
    Except.error (Error.logic_error LogicErrorKind.cant_evaluate_string_constant)
  | Expression.Symbol m_symbol, t, source_line_number =>
    t.lookup_symbol source_line_number m_symbol
  | Expression.UnaryOperatorExpression m_unary_operator m_subexpression, t, source_line_number =>
    match m_subexpression.evaluate t source_line_number with
    | Except.error e => Except.error e
    | Except.ok (subexpression_value_sp, t) =>
      match m_unary_operator with
      | none => Except.error Error.undefined_behaviour
      | some UnaryOperatorEnum.LOW_BYTE => Except.ok (low_byte subexpression_value_sp, t)
      | some UnaryOperatorEnum.HIGH_BYTE => Except.ok (high_byte subexpression_value_sp, t)
  | Expression.BinaryOperatorExpression m_left_subexpression m_binary_operator
      m_right_subexpression, t, source_line_number =>
    match m_left_subexpression.evaluate t source_line_number with
    | Except.error e => Except.error e
    | Except.ok (left_subexpression_value, t) =>
      match m_right_subexpression.evaluate t source_line_number with
      | Except.error e => Except.error e
      | Except.ok (right_subexpression_value, t) =>
        match m_binary_operator with
        | none => Except.error Error.undefined_behaviour
        | some BinaryOperatorEnum.ADDITION =>
          Except.ok (Value.add left_subexpression_value right_subexpression_value, t)
        | some BinaryOperatorEnum.SUBTRACTION =>
          Except.ok (Value.sub left_subexpression_value right_subexpression_value, t)
        | some BinaryOperatorEnum.MULTIPLICATION =>
          Except.ok (Value.mul left_subexpression_value right_subexpression_value, t)
        | some BinaryOperatorEnum.DIVISION =>
          match Value.div left_subexpression_value right_subexpression_value with
          | Except.error e => Except.error e
          | Except.ok v => Except.ok (v, t)

/-- The class `Statement`. -/
structure Statement where
  m_label : String := ""
  m_mnemonic : String := ""
  m_operands : List ExpressionSP := []
  deriving DecidableEq

namespace Statement

/-- `Statement::get_operand_count` -/
def get_operand_count (s : Statement) : Nat := s.m_operands.length

/-- `Statement::get_operand`, with the bounds check of `std::vector::at`. -/
def get_operand (s : Statement) (index : Nat) : Except Error ExpressionSP :=
  match s.m_operands.get? index with
  | none => Except.error Error.out_of_range
  | some e => Except.ok e

end Statement

/-! ## assembler.cc -/

/-- The do-while loop of `untabify`: append a space and advance the column,
again while `col & 7` is not zero. Eight rounds always reach a multiple of
eight, and `fuel` counts them. -/
def untabify_do_while : Nat → Nat → List Char → Nat × List Char
  | 0, col, result => (col, result)
  | fuel + 1, col, result =>
    let result := result ++ [' ']
    let col := col + 1
    if col &&& 7 ≠ 0 then untabify_do_while fuel col result else (col, result)

/-- The `for` loop of `untabify` over the characters that remain. -/
def untabify_loop : List Char → Nat → List Char → List Char
  | [], _, result => result
  | c :: rest, col, result =>
    if c = '\t' then
      let (col, result) := untabify_do_while 8 col result
      untabify_loop rest col result
    else
      untabify_loop rest (col + 1) (result ++ [c])

/-- `untabify` -/
def untabify (s : String) : String := String.mk (untabify_loop s.data 0 [])

/-- The expansion of tabs in the words of the specification, for the
characters that remain and the column reached: a character that is not a tab
is copied and advances the column by 1; a tab is replaced by
`8 - (column mod 8)` spaces. -/
def untabify_spec_scan : List Char → Nat → List Char
  | [], _ => []
  | c :: rest, column =>
    if c = '\t' then
      List.replicate (8 - column % 8) ' ' ++ untabify_spec_scan rest (column + (8 - column % 8))
    else
      c :: untabify_spec_scan rest (column + 1)

/-- The expansion of tabs in the words of the specification: the scan from
the left with the column counter starting at 0. -/
def untabify_spec (s : String) : String := String.mk (untabify_spec_scan s.data 0)

/-- The class `Assembler`. The three file streams are the text read or
written so far: the source file is the list of its lines (what successive
`std::getline` calls return); the object and listing files are the characters
written. -/
structure Assembler where
  m_object_file : String
  m_listing_file : String
  m_instruction_set_sp : InstructionSet
  m_symbol_table_sp : SymbolTable
  m_pass_number : Int
  m_end_reached : Bool
  m_error_count : Nat
  m_warning_count : Nat
  m_source_line_number : Nat
  m_source_line : String
  m_location_counter : Nat
  m_statement_sp : Option Statement
  m_prev_object_code_address : Nat
  m_object_code_address : Nat
  m_object_code_bytes : List Nat
  m_object_code_bytes_start_of_word : List Bool
  m_listing_show_address : Bool

namespace Assembler

/-- `Assembler::MAX_OBJECT_BYTES_PER_LISTING_LINE` -/
def MAX_OBJECT_BYTES_PER_LISTING_LINE : Nat := 3

/-- `Assembler::evaluate` -/
def evaluate (a : Assembler) (expression_sp : ExpressionSP) :
    Except Error (ValueSP × Assembler) :=
  if expression_sp = Expression.nullptr then
    Except.error (Error.AssemblerError a.m_source_line_number
      AssemblerErrorKind.evaluate_nullptr_expression)
  else
    match expression_sp.evaluate a.m_symbol_table_sp a.m_source_line_number with
    | Except.error e => Except.error e
    | Except.ok (v, t) => Except.ok (v, { a with m_symbol_table_sp := t })

/-- `Assembler::convert_operand_uint16`. The `try` block holds the call of
`Value::get` only, and the handler catches `ValueUnknownError` only. -/
def convert_operand_uint16 (a : Assembler) (expression_sp : ExpressionSP) :
    Except Error (Nat × Assembler) :=
  match a.evaluate expression_sp with
  | Except.error e => Except.error e
  | Except.ok (value_sp, a) =>
    match value_sp.get with
    | Except.ok v => Except.ok (v, a)
    | Except.error (Error.ValueUnknownError _) =>
      if a.m_pass_number = 1 then
        Except.ok (0x0100, a)
      else
        Except.error (Error.AssemblerError a.m_source_line_number
          AssemblerErrorKind.expression_evaluation_error)
    | Except.error e => Except.error e

/-- `Assembler::define_symbol` -/
def define_symbol (a : Assembler) (symbol : String) (value : ValueSP) :
    Except Error Assembler :=
  match a.m_symbol_table_sp.define_symbol a.m_source_line_number symbol value with
  | Except.error e => Except.error e
  | Except.ok t => Except.ok { a with m_symbol_table_sp := t }

/-- `Assembler::emit_byte`; the argument is converted to `std::uint8_t` at
the call. -/
def emit_byte (a : Assembler) (byte : Nat) : Assembler :=
  { a with
    m_object_code_bytes := a.m_object_code_bytes ++ [byte % 256]
    m_object_code_bytes_start_of_word := a.m_object_code_bytes_start_of_word ++ [false] }

/-- `Assembler::emit_word`; the argument is converted to `std::uint16_t` at
the call, and each half to `std::uint8_t` by `push_back`. -/
def emit_word (a : Assembler) (word : Nat) : Assembler :=
  let word := word % 65536
  { a with
    m_object_code_bytes := a.m_object_code_bytes ++ [(word &&& 0xff) % 256, (word >>> 8) % 256]
    m_object_code_bytes_start_of_word := a.m_object_code_bytes_start_of_word ++ [true, false] }

/-- The local variables `found`, `opcode`, `operand_value`, `operand_size`
of `assemble_instruction`. `opcode` is unset in the source until a mode is
found; it is read only after `found` is checked. -/
structure InstructionLocals where
  found : Bool
  opcode : Nat
  operand_value : Nat
  operand_size : Nat
  deriving DecidableEq, Repr

/-- The loop `for (const auto& info: infos)` of `assemble_instruction` over
the infos that remain; `infos_size` is `infos.size()`. The RELATIVE branch
does not leave the loop, the other branch does (`break`). -/
def assemble_instruction_loop (a : Assembler) (infos_size : Nat) :
    List InstructionSet.Info → InstructionLocals → Except Error InstructionLocals
  | [], locals => Except.ok locals
  | info :: rest, locals =>
    if info.mode = InstructionSet.Mode.RELATIVE then
      let displacement : Int := (locals.operand_value : Int) - ((a.m_location_counter : Int) + 2)
      if a.m_pass_number = 2 ∧ (displacement < -128 ∨ displacement > 127) then
        Except.error (Error.AssemblerError a.m_source_line_number
          (AssemblerErrorKind.displacement_out_of_range displacement))
      else
        assemble_instruction_loop a infos_size rest
          { found := true, operand_size := 1, opcode := info.opcode,
            operand_value := uint16 (displacement % 256) }
    else if infos_size = 1 ∨
        InstructionSet.operand_size_bytes info.mode ≥ locals.operand_size then
      Except.ok { locals with found := true, opcode := info.opcode,
                              operand_size := InstructionSet.operand_size_bytes info.mode }
    else
      assemble_instruction_loop a infos_size rest locals

/-- `Assembler::assemble_instruction`. A null `m_statement_sp` is
dereferenced by the first line of the function. `displacement & 0xff` in the
loop is the residue of the displacement modulo 256. -/
def assemble_instruction (a : Assembler) : Except Error Assembler :=
  match a.m_statement_sp with
  | none => Except.error Error.undefined_behaviour
  | some statement =>
    let label := statement.m_label
    let defined : Except Error Assembler :=
      if label.length ≠ 0 then a.define_symbol label (Value.create a.m_location_counter)
      else Except.ok a
    match defined with
    | Except.error e => Except.error e
    | Except.ok a =>
      let mnemonic := statement.m_mnemonic
      if mnemonic.length = 0 then
        Except.ok a
      else
        match a.m_instruction_set_sp.get mnemonic with
        | Except.error e => Except.error e
        | Except.ok infos =>
          let expect : Except Error Bool :=
            match infos with
            | [info0] => Except.ok (decide (InstructionSet.operand_size_bytes info0.mode > 0))
            | [info0, info1] =>
              if InstructionSet.operand_size_bytes info0.mode ≠ 1 ∨
                  InstructionSet.operand_size_bytes info1.mode ≠ 2 then
                Except.error (Error.logic_error LogicErrorKind.instruction_with_wrong_modes)
              else Except.ok true
            | _ => Except.error (Error.logic_error
                (LogicErrorKind.instruction_with_n_modes infos.length))
          match expect with
          | Except.error e => Except.error e
          | Except.ok expect_operand =>
            let operand_count := statement.get_operand_count
            if operand_count ≠ (if expect_operand then 1 else 0) then
              Except.error (Error.AssemblerError a.m_source_line_number
                (AssemblerErrorKind.wrong_operand_count mnemonic expect_operand operand_count))
            else
              let selected : Except Error (InstructionLocals × Assembler) :=
                if !expect_operand then
                  match infos.head? with
                  | none => Except.error Error.undefined_behaviour
                  | some info0 =>
                    Except.ok ({ found := true, opcode := info0.opcode, operand_value := 0,
                                 operand_size := 0 }, a)
                else
                  match statement.get_operand 0 with
                  | Except.error e => Except.error e
                  | Except.ok expression_sp =>
                    match a.convert_operand_uint16 expression_sp with
                    | Except.error e => Except.error e
                    | Except.ok (operand_value, a) =>
                      let operand_size := if operand_value > 0x00ff then 2 else 1
                      match assemble_instruction_loop a infos.length infos
                          { found := false, opcode := 0, operand_value := operand_value,
                            operand_size := operand_size } with
                      | Except.error e => Except.error e
                      | Except.ok locals =>
                        if !locals.found then
                          Except.error (Error.AssemblerError a.m_source_line_number
                            (AssemblerErrorKind.no_instruction_with_operand_size mnemonic
                              locals.operand_size locals.operand_value))
                        else Except.ok (locals, a)
              match selected with
              | Except.error e => Except.error e
              | Except.ok (locals, a) =>
                let a := a.emit_byte locals.opcode
                match locals.operand_size with
                | 0 => Except.ok a
                | 1 => Except.ok (a.emit_byte locals.operand_value)
                | 2 => Except.ok (a.emit_word locals.operand_value)
                | _ => Except.ok a

end Assembler

/-- The value that the constructor `InstructionSet::InstructionSet` computes
from `s_main_table` (theorem `InstructionSet.create_eq`), written out so that
a lookup does not have to run the constructor again. -/
def InstructionSet.pal65 : InstructionSet := { m_by_mnemonic := [
  ("adc#", [Info.mk "adc" Set.BASE Mode.IMMEDIATE 0x69]),
  ("adc", [Info.mk "adc" Set.BASE Mode.ZERO_PAGE 0x65, Info.mk "adc" Set.BASE Mode.ABSOLUTE 0x6d]),
  ("adcx", [Info.mk "adc" Set.BASE Mode.ZERO_PAGE_X 0x75, Info.mk "adc" Set.BASE Mode.ABSOLUTE_X 0x7d]),
  ("adcx@", [Info.mk "adc" Set.BASE Mode.ZP_X_IND 0x61]),
  ("adc@y", [Info.mk "adc" Set.BASE Mode.ZP_IND_Y 0x71]),
  ("adcy", [Info.mk "adc" Set.BASE Mode.ABSOLUTE_Y 0x79]),
  ("and#", [Info.mk "and" Set.BASE Mode.IMMEDIATE 0x29]),
  ("and", [Info.mk "and" Set.BASE Mode.ZERO_PAGE 0x25, Info.mk "and" Set.BASE Mode.ABSOLUTE 0x2d]),
  ("andx@", [Info.mk "and" Set.BASE Mode.ZP_X_IND 0x21]),
  ("and@y", [Info.mk "and" Set.BASE Mode.ZP_IND_Y 0x31]),
  ("andx", [Info.mk "and" Set.BASE Mode.ABSOLUTE_X 0x3d]),
  ("andy", [Info.mk "and" Set.BASE Mode.ABSOLUTE_Y 0x39]),
  ("asla", [Info.mk "asl" Set.BASE Mode.ACCUMULATOR 0x0a]),
  ("asl", [Info.mk "asl" Set.BASE Mode.ZERO_PAGE 0x06, Info.mk "asl" Set.BASE Mode.ABSOLUTE 0x0e]),
  ("aslx@", [Info.mk "asl" Set.BASE Mode.ZP_X_IND 0x16]),
  ("aslx", [Info.mk "asl" Set.BASE Mode.ABSOLUTE_X 0x1e]),
  ("bcc", [Info.mk "bcc" Set.BASE Mode.RELATIVE 0x90]),
  ("bcs", [Info.mk "bcs" Set.BASE Mode.RELATIVE 0xb0]),
  ("beq", [Info.mk "beq" Set.BASE Mode.RELATIVE 0xf0]),
  ("bit", [Info.mk "bit" Set.BASE Mode.ZERO_PAGE 0x24, Info.mk "bit" Set.BASE Mode.ABSOLUTE 0x2c]),
  ("bmi", [Info.mk "bmi" Set.BASE Mode.RELATIVE 0x30]),
  ("bne", [Info.mk "bne" Set.BASE Mode.RELATIVE 0xd0]),
  ("bpl", [Info.mk "bpl" Set.BASE Mode.RELATIVE 0x10]),
  ("brk", [Info.mk "brk" Set.BASE Mode.IMPLIED 0x00]),
  ("bvc", [Info.mk "bvc" Set.BASE Mode.RELATIVE 0x50]),
  ("bvs", [Info.mk "bvs" Set.BASE Mode.RELATIVE 0x70]),
  ("clc", [Info.mk "clc" Set.BASE Mode.IMPLIED 0x18]),
  ("cld", [Info.mk "cld" Set.BASE Mode.IMPLIED 0xd8]),
  ("cli", [Info.mk "cli" Set.BASE Mode.IMPLIED 0x58]),
  ("clv", [Info.mk "clv" Set.BASE Mode.IMPLIED 0xb8]),
  ("cmp#", [Info.mk "cmp" Set.BASE Mode.IMMEDIATE 0xc9]),
  ("cmp", [Info.mk "cmp" Set.BASE Mode.ZERO_PAGE 0xc5, Info.mk "cmp" Set.BASE Mode.ABSOLUTE 0xcd]),
  ("cmpx", [Info.mk "cmp" Set.BASE Mode.ZERO_PAGE_X 0xd5, Info.mk "cmp" Set.BASE Mode.ABSOLUTE_X 0xdd]),
  ("cmpx@", [Info.mk "cmp" Set.BASE Mode.ZP_X_IND 0xc1]),
  ("cmp@y", [Info.mk "cmp" Set.BASE Mode.ZP_IND_Y 0xd1]),
  ("cmpy", [Info.mk "cmp" Set.BASE Mode.ABSOLUTE_Y 0xd9]),
  ("cpx#", [Info.mk "cpx" Set.BASE Mode.IMMEDIATE 0xe0]),
  ("cpx", [Info.mk "cpx" Set.BASE Mode.ZERO_PAGE 0xe4, Info.mk "cpx" Set.BASE Mode.ABSOLUTE 0xec]),
  ("cpy#", [Info.mk "cpy" Set.BASE Mode.IMMEDIATE 0xc0]),
  ("cpy", [Info.mk "cpy" Set.BASE Mode.ZERO_PAGE 0xc4, Info.mk "cpy" Set.BASE Mode.ABSOLUTE 0xcc]),
  ("dec", [Info.mk "dec" Set.BASE Mode.ZERO_PAGE 0xc6, Info.mk "dec" Set.BASE Mode.ABSOLUTE 0xce]),
  ("decx", [Info.mk "dec" Set.BASE Mode.ZERO_PAGE_X 0xd6, Info.mk "dec" Set.BASE Mode.ABSOLUTE_X 0xde]),
  ("dex", [Info.mk "dex" Set.BASE Mode.IMPLIED 0xca]),
  ("dey", [Info.mk "dey" Set.BASE Mode.IMPLIED 0x88]),
  ("eor#", [Info.mk "eor" Set.BASE Mode.IMMEDIATE 0x49]),
  ("eor", [Info.mk "eor" Set.BASE Mode.ZERO_PAGE 0x45, Info.mk "eor" Set.BASE Mode.ABSOLUTE 0x4d]),
  ("eorx", [Info.mk "eor" Set.BASE Mode.ZERO_PAGE_X 0x55, Info.mk "eor" Set.BASE Mode.ABSOLUTE_X 0x5d]),
  ("eorx@", [Info.mk "eor" Set.BASE Mode.ZP_X_IND 0x41]),
  ("eor@y", [Info.mk "eor" Set.BASE Mode.ZP_IND_Y 0x51]),
  ("eory", [Info.mk "eor" Set.BASE Mode.ABSOLUTE_Y 0x59]),
  ("inc", [Info.mk "inc" Set.BASE Mode.ZERO_PAGE 0xe6, Info.mk "inc" Set.BASE Mode.ABSOLUTE 0xee]),
  ("incx", [Info.mk "inc" Set.BASE Mode.ZERO_PAGE_X 0xf6, Info.mk "inc" Set.BASE Mode.ABSOLUTE_X 0xfe]),
  ("inx", [Info.mk "inx" Set.BASE Mode.IMPLIED 0xe8]),
  ("iny", [Info.mk "iny" Set.BASE Mode.IMPLIED 0xc8]),
  ("jmp", [Info.mk "jmp" Set.BASE Mode.ABSOLUTE 0x4c]),
  ("jmp@", [Info.mk "jmp" Set.BASE Mode.ABSOLUTE_IND 0x6c]),
  ("jsr", [Info.mk "jsr" Set.BASE Mode.ABSOLUTE 0x20]),
  ("lda#", [Info.mk "lda" Set.BASE Mode.IMMEDIATE 0xa9]),
  ("lda", [Info.mk "lda" Set.BASE Mode.ZERO_PAGE 0xa5, Info.mk "lda" Set.BASE Mode.ABSOLUTE 0xad]),
  ("ldax", [Info.mk "lda" Set.BASE Mode.ZERO_PAGE_X 0xb5, Info.mk "lda" Set.BASE Mode.ABSOLUTE_X 0xbd]),
  ("ldax@", [Info.mk "lda" Set.BASE Mode.ZP_X_IND 0xa1]),
  ("lda@y", [Info.mk "lda" Set.BASE Mode.ZP_IND_Y 0xb1]),
  ("lday", [Info.mk "lda" Set.BASE Mode.ABSOLUTE_Y 0xb9]),
  ("ldx#", [Info.mk "ldx" Set.BASE Mode.IMMEDIATE 0xa2]),
  ("ldx", [Info.mk "ldx" Set.BASE Mode.ZERO_PAGE 0xa6, Info.mk "ldx" Set.BASE Mode.ABSOLUTE 0xae]),
  ("ldxy", [Info.mk "ldx" Set.BASE Mode.ABSOLUTE_Y 0xbe]),
  ("ldy#", [Info.mk "ldy" Set.BASE Mode.IMMEDIATE 0xa0]),
  ("ldy", [Info.mk "ldy" Set.BASE Mode.ZERO_PAGE 0xa4, Info.mk "ldy" Set.BASE Mode.ABSOLUTE 0xac]),
  ("ldyx", [Info.mk "ldy" Set.BASE Mode.ZERO_PAGE_X 0xb4, Info.mk "ldy" Set.BASE Mode.ABSOLUTE_X 0xbc]),
  ("lsra", [Info.mk "lsr" Set.BASE Mode.ACCUMULATOR 0x4a]),
  ("lsr", [Info.mk "lsr" Set.BASE Mode.ZERO_PAGE 0x46, Info.mk "lsr" Set.BASE Mode.ABSOLUTE 0x4e]),
  ("lsrx@", [Info.mk "lsr" Set.BASE Mode.ZP_X_IND 0x56]),
  ("lsrx", [Info.mk "lsr" Set.BASE Mode.ABSOLUTE_X 0x5e]),
  ("nop", [Info.mk "nop" Set.BASE Mode.IMPLIED 0xea]),
  ("ora#", [Info.mk "ora" Set.BASE Mode.IMMEDIATE 0x09]),
  ("ora", [Info.mk "ora" Set.BASE Mode.ZERO_PAGE 0x05, Info.mk "ora" Set.BASE Mode.ABSOLUTE 0x0d]),
  ("orax@", [Info.mk "ora" Set.BASE Mode.ZP_X_IND 0x01]),
  ("ora@y", [Info.mk "ora" Set.BASE Mode.ZP_IND_Y 0x11]),
  ("orax", [Info.mk "ora" Set.BASE Mode.ABSOLUTE_X 0x1d]),
  ("oray", [Info.mk "ora" Set.BASE Mode.ABSOLUTE_Y 0x19]),
  ("pha", [Info.mk "pha" Set.BASE Mode.IMPLIED 0x48]),
  ("php", [Info.mk "php" Set.BASE Mode.IMPLIED 0x08]),
  ("pla", [Info.mk "pla" Set.BASE Mode.IMPLIED 0x68]),
  ("plp", [Info.mk "plp" Set.BASE Mode.IMPLIED 0x28]),
  ("rola", [Info.mk "rol" Set.BASE Mode.ACCUMULATOR 0x2a]),
  ("rol", [Info.mk "rol" Set.BASE Mode.ZERO_PAGE 0x26, Info.mk "rol" Set.BASE Mode.ABSOLUTE 0x2e]),
  ("rolx@", [Info.mk "rol" Set.BASE Mode.ZP_X_IND 0x36]),
  ("rolx", [Info.mk "rol" Set.BASE Mode.ABSOLUTE_X 0x3e]),
  ("rora", [Info.mk "ror" Set.BASE Mode.ACCUMULATOR 0x6a]),
  ("ror", [Info.mk "ror" Set.BASE Mode.ZERO_PAGE 0x66, Info.mk "ror" Set.BASE Mode.ABSOLUTE 0x6e]),
  ("rorx@", [Info.mk "ror" Set.BASE Mode.ZP_X_IND 0x76]),
  ("rorx", [Info.mk "ror" Set.BASE Mode.ABSOLUTE_X 0x7e]),
  ("rti", [Info.mk "rti" Set.BASE Mode.IMPLIED 0x40]),
  ("rts", [Info.mk "rts" Set.BASE Mode.IMPLIED 0x60]),
  ("sbc#", [Info.mk "sbc" Set.BASE Mode.IMMEDIATE 0xe9]),
  ("sbc", [Info.mk "sbc" Set.BASE Mode.ZERO_PAGE 0xe5, Info.mk "sbc" Set.BASE Mode.ABSOLUTE 0xed]),
  ("sbcx", [Info.mk "sbc" Set.BASE Mode.ZERO_PAGE_X 0xf5, Info.mk "sbc" Set.BASE Mode.ABSOLUTE_X 0xfd]),
  ("sbcx@", [Info.mk "sbc" Set.BASE Mode.ZP_X_IND 0xe1]),
  ("sbc@y", [Info.mk "sbc" Set.BASE Mode.ZP_IND_Y 0xf1]),
  ("sbcy", [Info.mk "sbc" Set.BASE Mode.ABSOLUTE_Y 0xf9]),
  ("sec", [Info.mk "sec" Set.BASE Mode.IMPLIED 0x38]),
  ("sed", [Info.mk "sed" Set.BASE Mode.IMPLIED 0xf8]),
  ("sei", [Info.mk "sei" Set.BASE Mode.IMPLIED 0x78]),
  ("sta", [Info.mk "sta" Set.BASE Mode.ZERO_PAGE 0x85, Info.mk "sta" Set.BASE Mode.ABSOLUTE 0x8d]),
  ("stax", [Info.mk "sta" Set.BASE Mode.ZERO_PAGE_X 0x95, Info.mk "sta" Set.BASE Mode.ABSOLUTE_X 0x9d]),
  ("stax@", [Info.mk "sta" Set.BASE Mode.ZP_X_IND 0x81]),
  ("sta@y", [Info.mk "sta" Set.BASE Mode.ZP_IND_Y 0x91]),
  ("stay", [Info.mk "sta" Set.BASE Mode.ABSOLUTE_Y 0x99]),
  ("stx", [Info.mk "stx" Set.BASE Mode.ZERO_PAGE 0x86, Info.mk "stx" Set.BASE Mode.ABSOLUTE 0x8e]),
  ("stxy", [Info.mk "stx" Set.BASE Mode.ZERO_PAGE_Y 0x96]),
  ("sty", [Info.mk "sty" Set.BASE Mode.ZERO_PAGE 0x84, Info.mk "sty" Set.BASE Mode.ABSOLUTE 0x8c]),
  ("styx", [Info.mk "sty" Set.BASE Mode.ZERO_PAGE_X 0x94]),
  ("tax", [Info.mk "tax" Set.BASE Mode.IMPLIED 0xaa]),
  ("tay", [Info.mk "tay" Set.BASE Mode.IMPLIED 0xa8]),
  ("tsx", [Info.mk "tsx" Set.BASE Mode.IMPLIED 0xba]),
  ("txa", [Info.mk "txa" Set.BASE Mode.IMPLIED 0x8a]),
  ("txs", [Info.mk "txs" Set.BASE Mode.IMPLIED 0x9a]),
  ("tya", [Info.mk "tya" Set.BASE Mode.IMPLIED 0x98])
  ] }

namespace Assembler

/-- The members of a new `Assembler` once the three files are open and the
instruction set is built. The constructor gives no value to
`m_location_counter`, and nothing assigns one before the first line is
assembled: `initial_location_counter` is the value it happens to hold. The
members that `assemble_pass` assigns before they are read start at zero (or
`false`) here. -/
def construct (instruction_set : InstructionSet) (initial_location_counter : Nat) : Assembler :=
  { m_object_file := ""
    m_listing_file := ""
    m_instruction_set_sp := instruction_set
    m_symbol_table_sp := SymbolTable.create
    m_pass_number := 0
    m_end_reached := false
    m_error_count := 0
    m_warning_count := 0
    m_source_line_number := 0
    m_source_line := ""
    m_location_counter := initial_location_counter
    m_statement_sp := none
    m_prev_object_code_address := 0
    m_object_code_address := 0
    m_object_code_bytes := []
    m_object_code_bytes_start_of_word := []
    m_listing_show_address := false }

/-- `Assembler::Assembler`: `InstructionSet::create` may throw. -/
def create (initial_location_counter : Nat) : Except Error Assembler :=
  Except.map (fun instruction_set => construct instruction_set initial_location_counter)
    InstructionSet.create

end Assembler

/-! ## ast_stack.cc -/

/-- A non-null `ASTNodeSP` on the stack of the parser, by the class of the
node. The classes derived from `Expression` are one case. (The class `Label`
is never instantiated.) -/
inductive ASTNode where
  | Mnemonic (m_mnemonic : String)
  | Expression (expression : Expression)
  | UnaryOperator (m_unary_operator : UnaryOperatorEnum)
  | BinaryOperator (m_binary_operator : BinaryOperatorEnum)
  | ExpressionList (m_expressions : List ExpressionSP)
  | Statement (statement : Statement)
  deriving DecidableEq

/-- The class `ASTStack`; the back of `m_stack` is the head of the list. -/
abbrev ASTStack := List ASTNode

namespace ASTStack

/-- `ASTStack::pop`; `back()` of an empty vector is undefined. -/
def pop : ASTStack → Except Error (ASTNode × ASTStack)
  | [] => Except.error Error.undefined_behaviour
  | node :: rest => Except.ok (node, rest)

/-- `ASTStack::peek_top` -/
def peek_top : ASTStack → Except Error ASTNode
  | [] => Except.error Error.undefined_behaviour
  | node :: _ => Except.ok node

/-- `std::dynamic_pointer_cast<Expression>` -/
def cast_Expression : ASTNode → ExpressionSP
  | ASTNode.Expression e => e
  | _ => Expression.nullptr

/-- `std::dynamic_pointer_cast<Symbol>`, `none` for the null pointer. -/
def cast_Symbol : ASTNode → Option String
  | ASTNode.Expression (Impala.Expression.Symbol m_symbol) => some m_symbol
  | _ => none

/-- `std::dynamic_pointer_cast<Mnemonic>`, `none` for the null pointer. -/
def cast_Mnemonic : ASTNode → Option String
  | ASTNode.Mnemonic m => some m
  | _ => none

/-- `std::dynamic_pointer_cast<UnaryOperator>` -/
def cast_UnaryOperator : ASTNode → Option UnaryOperatorEnum
  | ASTNode.UnaryOperator op => some op
  | _ => none

/-- `std::dynamic_pointer_cast<BinaryOperator>` -/
def cast_BinaryOperator : ASTNode → Option BinaryOperatorEnum
  | ASTNode.BinaryOperator op => some op
  | _ => none

/-- `std::dynamic_pointer_cast<ExpressionList>` -/
def cast_ExpressionList : ASTNode → Option (List ExpressionSP)
  | ASTNode.ExpressionList l => some l
  | _ => none

/-- `std::dynamic_pointer_cast<Statement>` -/
def cast_Statement : ASTNode → Option Statement
  | ASTNode.Statement s => some s
  | _ => none

end ASTStack

/-! ## parser.hh -/

/-- The class `Parser`, without the members that are assigned and never
read while a line is parsed: the shared pointers to the instruction set and
to the symbol table, `m_pass_number` and `m_source_line_number`. -/
structure Parser where
  m_location_counter : Nat
  m_ast_stack : ASTStack

/-- `Parser::get_location_counter` -/
def Parser.get_location_counter (parser : Parser) : Nat := parser.m_location_counter

/-- `parser.m_ast_stack->push(node)` -/
def Parser.push (parser : Parser) (node : ASTNode) : Parser :=
  { parser with m_ast_stack := node :: parser.m_ast_stack }

/-- `parser.m_ast_stack->pop()` -/
def Parser.pop (parser : Parser) : Except Error (ASTNode × Parser) :=
  match ASTStack.pop parser.m_ast_stack with
  | Except.error e => Except.error e
  | Except.ok (node, rest) => Except.ok (node, { parser with m_ast_stack := rest })

/-! ## The PEGTL rules used by grammar.hh -/

namespace pegtl

/-- The input of the recognizer: the characters of the line from the current
position to the end. -/
abbrev Input := List Char

/-- What matching a rule gives: an exception thrown by an action, or the
state of the parser together with the rest of the input after a match
(`some`) or with the report of a local failure (`none`). The state is kept in
both cases: PEGTL does not undo the actions of a rule that matched inside a
rule that fails afterwards. The input is rewound by whoever called the rule
(every caller keeps its own position). -/
abbrev Outcome := Except Error (Option Input × Parser)

/-- A rule together with the actions attached to it and to its parts. -/
abbrev Rule := Input → Parser → Outcome

/-- `pegtl::one<cs...>` -/
def one (cs : List Char) : Rule := fun input parser =>
  match input with
  | c :: rest => if c ∈ cs then Except.ok (some rest, parser) else Except.ok (none, parser)
  | [] => Except.ok (none, parser)

/-- `pegtl::not_one<c>` -/
def not_one (x : Char) : Rule := fun input parser =>
  match input with
  | c :: rest => if c ≠ x then Except.ok (some rest, parser) else Except.ok (none, parser)
  | [] => Except.ok (none, parser)

/-- `pegtl::any` -/
def any : Rule := fun input parser =>
  match input with
  | _ :: rest => Except.ok (some rest, parser)
  | [] => Except.ok (none, parser)

/-- `pegtl::ranges<lo1, hi1, lo2, hi2, ...>` (and `pegtl::range<lo, hi>`) -/
def ranges (rs : List (Char × Char)) : Rule := fun input parser =>
  match input with
  | c :: rest =>
    if rs.any (fun r => decide (r.1 ≤ c ∧ c ≤ r.2)) then Except.ok (some rest, parser)
    else Except.ok (none, parser)
  | [] => Except.ok (none, parser)

/-- `pegtl::space`: one of space, `\n`, `\r`, `\t`, `\v`, `\f`. -/
def space : Rule := one [' ', '\n', '\r', '\t', Char.ofNat 11, Char.ofNat 12]

/-- `pegtl::ascii::print`: the range from 32 to 126. -/
def print : Rule := ranges [(Char.ofNat 32, Char.ofNat 126)]

/-- The comparison of `pegtl::istring`: a letter of the pattern matches the
same letter in either case, any other character matches itself. -/
def istring_char_equal (p c : Char) : Bool :=
  if p.isAlpha then c.toLower = p.toLower else c = p

/-- The characters of the pattern of an `istring` against the input. -/
def istring_match : List Char → Input → Option Input
  | [], input => some input
  | _ :: _, [] => none
  | p :: ps, c :: rest => if istring_char_equal p c then istring_match ps rest else none

/-- `TAO_PEGTL_ISTRING(s)` -/
def istring (s : String) : Rule := fun input parser =>
  Except.ok (istring_match s.data input, parser)

/-- `pegtl::seq<rules...>` -/
def seq : List Rule → Rule
  | [] => fun input parser => Except.ok (some input, parser)
  | r :: rs => fun input parser =>
    match r input parser with
    | Except.error e => Except.error e
    | Except.ok (none, parser) => Except.ok (none, parser)
    | Except.ok (some rest, parser) => seq rs rest parser

/-- `pegtl::sor<rules...>` -/
def sor : List Rule → Rule
  | [] => fun _ parser => Except.ok (none, parser)
  | r :: rs => fun input parser =>
    match r input parser with
    | Except.error e => Except.error e
    | Except.ok (some rest, parser) => Except.ok (some rest, parser)
    | Except.ok (none, parser) => sor rs input parser

/-- `pegtl::opt<rule>` -/
def opt (r : Rule) : Rule := fun input parser =>
  match r input parser with
  | Except.error e => Except.error e
  | Except.ok (some rest, parser) => Except.ok (some rest, parser)
  | Except.ok (none, parser) => Except.ok (some input, parser)

/-- The loop of `pegtl::star<rule>`, with the number of rounds it may take. -/
def star_loop (r : Rule) : Nat → Rule
  | 0 => fun _ _ => Except.error Error.fuel_exhausted
  | fuel + 1 => fun input parser =>
    match r input parser with
    | Except.error e => Except.error e
    | Except.ok (none, parser) => Except.ok (some input, parser)
    | Except.ok (some rest, parser) => star_loop r fuel rest parser

/-- `pegtl::star<rule>` -/
def star (r : Rule) : Rule := fun input parser =>
  star_loop r (input.length + 1) input parser

/-- `pegtl::plus<rule>` -/
def plus (r : Rule) : Rule := seq [r, star r]

/-- `pegtl::not_at<rule>`: succeeds, consuming nothing, when the rule does
not match; actions are disabled inside. -/
def not_at (r : Rule) : Rule := fun input parser =>
  match r input parser with
  | Except.error e => Except.error e
  | Except.ok (some _, _) => Except.ok (none, parser)
  | Except.ok (none, _) => Except.ok (some input, parser)

/-- The second loop of `pegtl::rep_min_max<0, max, rule>`: up to `max`
matches, and after `max` matches the rule must not match again. -/
def rep_max_loop (r : Rule) : Nat → Rule
  | 0 => not_at r
  | n + 1 => fun input parser =>
    match r input parser with
    | Except.error e => Except.error e
    | Except.ok (none, parser) => Except.ok (some input, parser)
    | Except.ok (some rest, parser) => rep_max_loop r n rest parser

/-- `pegtl::rep_max<max, rule>` -/
def rep_max (max : Nat) (r : Rule) : Rule := rep_max_loop r max

/-- A rule that has a specialisation of `grammar::action`: when the rule
matches, `apply` is called with the matched part of the input (`in.string()`)
and with the input from the start of the match to the end of the line (what
`in.begin()` points to). -/
def with_action (r : Rule) (apply : Input → Input → Parser → Except Error Parser) : Rule :=
  fun input parser =>
    match r input parser with
    | Except.error e => Except.error e
    | Except.ok (none, parser) => Except.ok (none, parser)
    | Except.ok (some rest, parser) =>
      match apply (input.take (input.length - rest.length)) input parser with
      | Except.error e => Except.error e
      | Except.ok parser => Except.ok (some rest, parser)

end pegtl

/-! ## grammar.hh -/

/-- The value of a character as a digit of `std::stoull`: `0`-`9`, then the
letters in either case from 10 on. -/
def stoull_digit (c : Char) : Option Nat :=
  if '0' ≤ c ∧ c ≤ '9' then some (c.toNat - '0'.toNat)
  else if 'a' ≤ c ∧ c ≤ 'z' then some (c.toNat - 'a'.toNat + 10)
  else if 'A' ≤ c ∧ c ≤ 'Z' then some (c.toNat - 'A'.toNat + 10)
  else none

/-- Whether a character is a digit of the base. -/
def stoull_is_digit (base : Nat) (c : Char) : Bool :=
  match stoull_digit c with
  | some d => decide (d < base)
  | none => false

/-- The digits that `std::stoull` reads: the longest run of digits of the
base, most significant first; the result is the number read so far and the
count of digits. -/
def stoull_digits (base : Nat) : List Char → Nat → Nat → Nat × Nat
  | [], acc, count => (acc, count)
  | c :: rest, acc, count =>
    match stoull_digit c with
    | some d => if d < base then stoull_digits base rest (acc * base + d) (count + 1)
                else (acc, count)
    | none => (acc, count)

/-- `std::stoull(str, nullptr, base)` where `str` is the rest of the line.
The grammar calls it at a digit of the base, so the white space and the sign
that the function would skip do not occur. With base 16 the prefix `0x` or
`0X` is skipped when a hexadecimal digit follows it. The function throws
`std::invalid_argument` without a digit and `std::out_of_range` for a number
above 2^64 - 1. -/
def stoull (str : List Char) (base : Nat) : Except Error Nat :=
  let digits : List Char :=
    match str with
    | '0' :: x :: d :: rest =>
      if base = 16 ∧ (x = 'x' ∨ x = 'X') ∧ stoull_is_digit 16 d = true then d :: rest
      else str
    | _ => str
  let (value, count) := stoull_digits base digits 0 0
  if count = 0 then Except.error Error.stoull_error
  else if value ≥ 2 ^ 64 then Except.error Error.stoull_error
  else Except.ok value

/-- `Constant::create(value)` with an `unsigned long long` argument, which is
converted to `std::uint16_t`. -/
def Constant.create (value : Nat) : Expression :=
  Expression.Constant (Value.create (value : Int))

namespace grammar

open pegtl

/-- `grammar::whitespace` -/
def whitespace : Rule := plus space

/-- `grammar::alpha` -/
def alpha : Rule := ranges [('a', 'z'), ('A', 'Z')]

/-- `grammar::odigit` -/
def odigit : Rule := ranges [('0', '7')]

/-- `grammar::digit` -/
def digit : Rule := ranges [('0', '9')]

/-- `grammar::xdigit` -/
def xdigit : Rule := ranges [('0', '9'), ('a', 'f'), ('A', 'F')]

/-- `grammar::alphanumeric` -/
def alphanumeric : Rule := ranges [('a', 'z'), ('A', 'Z'), ('0', '9')]

/-- `grammar::symbol` -/
def symbol : Rule := seq [alpha, rep_max 9 alphanumeric]

/-- `grammar::octal_constant` with `action<octal_constant>` -/
def octal_constant : Rule :=
  with_action (seq [one ['%'], plus odigit]) (fun _ begin parser =>
    match stoull (begin.drop 1) 8 with
    | Except.error e => Except.error e
    | Except.ok value => Except.ok (parser.push (ASTNode.Expression (Constant.create value))))

/-- `grammar::decimal_constant` with `action<decimal_constant>` -/
def decimal_constant : Rule :=
  with_action (plus digit) (fun _ begin parser =>
    match stoull begin 10 with
    | Except.error e => Except.error e
    | Except.ok value => Except.ok (parser.push (ASTNode.Expression (Constant.create value))))

/-- `grammar::hexadecimal_constant` with `action<hexadecimal_constant>` -/
def hexadecimal_constant : Rule :=
  with_action (seq [one ['$'], plus xdigit]) (fun _ begin parser =>
    match stoull (begin.drop 1) 16 with
    | Except.error e => Except.error e
    | Except.ok value => Except.ok (parser.push (ASTNode.Expression (Constant.create value))))

/-- `grammar::character_constant` with `action<character_constant>`: the
value is `in.begin()[1]`. -/
def character_constant : Rule :=
  with_action (seq [one ['\''], print]) (fun _ begin parser =>
    match begin.get? 1 with
    | none => Except.error Error.undefined_behaviour
    | some c => Except.ok (parser.push (ASTNode.Expression (Constant.create c.toNat))))

/-- `grammar::string_constant_single_quote` -/
def string_constant_single_quote : Rule := seq [one ['\''], star (not_one '\''), one ['\'']]

/-- `grammar::string_constant_double_quote` -/
def string_constant_double_quote : Rule := seq [one ['"'], star (not_one '"'), one ['"']]

/-- `grammar::string_constant_question_mark` -/
def string_constant_question_mark : Rule := seq [one ['?'], star (not_one '?'), one ['?']]

/-- `grammar::string_constant` with `action<string_constant>` -/
def string_constant : Rule :=
  with_action (sor [string_constant_single_quote, string_constant_double_quote,
      string_constant_question_mark]) (fun matched _ parser =>
    let s := (matched.drop 1).take (matched.length - 2)
    Except.ok (parser.push (ASTNode.Expression (Expression.StringConstant (String.mk s)))))

/-- `grammar::location_counter` with `action<location_counter>` -/
def location_counter : Rule :=
  with_action (one ['.']) (fun _ _ parser =>
    Except.ok (parser.push (ASTNode.Expression (Constant.create parser.get_location_counter))))

/-- `grammar::constant` -/
def constant : Rule :=
  sor [octal_constant, decimal_constant, hexadecimal_constant, character_constant,
    location_counter]

/-- `grammar::unary_operator` with `action<unary_operator>` -/
def unary_operator : Rule :=
  with_action (one ['<', '>']) (fun matched _ parser =>
    if matched = ['<'] then
      Except.ok (parser.push (ASTNode.UnaryOperator UnaryOperatorEnum.LOW_BYTE))
    else if matched = ['>'] then
      Except.ok (parser.push (ASTNode.UnaryOperator UnaryOperatorEnum.HIGH_BYTE))
    else
      Except.error (Error.logic_error
        (LogicErrorKind.unrecognized_unary_operator (String.mk matched))))

/-- `grammar::expression_symbol` with `action<expression_symbol>` -/
def expression_symbol : Rule :=
  with_action (seq [symbol]) (fun matched _ parser =>
    Except.ok (parser.push (ASTNode.Expression
      (Expression.Symbol (utility.downcase_string (String.mk matched))))))

/-- `grammar::unary_expression` with `action<unary_expression>` -/
def unary_expression : Rule :=
  with_action (seq [unary_operator, expression_symbol]) (fun _ _ parser =>
    match parser.pop with
    | Except.error e => Except.error e
    | Except.ok (node1, parser) =>
      let operand_expression_sp := ASTStack.cast_Expression node1
      match parser.pop with
      | Except.error e => Except.error e
      | Except.ok (node2, parser) =>
        let unary_operator := ASTStack.cast_UnaryOperator node2
        Except.ok (parser.push (ASTNode.Expression
          (Expression.UnaryOperatorExpression unary_operator operand_expression_sp))))

/-- `grammar::binary_adding_operator` with `action<binary_adding_operator>` -/
def binary_adding_operator : Rule :=
  with_action (one ['+', '-']) (fun matched _ parser =>
    if matched = ['+'] then
      Except.ok (parser.push (ASTNode.BinaryOperator BinaryOperatorEnum.ADDITION))
    else if matched = ['-'] then
      Except.ok (parser.push (ASTNode.BinaryOperator BinaryOperatorEnum.SUBTRACTION))
    else
      Except.error (Error.logic_error
        (LogicErrorKind.unrecognized_binary_adding_operator (String.mk matched))))

/-- `grammar::binary_multiplying_operator` with
`action<binary_multiplying_operator>` -/
def binary_multiplying_operator : Rule :=
  with_action (one ['*', '/']) (fun matched _ parser =>
    if matched = ['*'] then
      Except.ok (parser.push (ASTNode.BinaryOperator BinaryOperatorEnum.MULTIPLICATION))
    else if matched = ['/'] then
      Except.ok (parser.push (ASTNode.BinaryOperator BinaryOperatorEnum.DIVISION))
    else
      Except.error (Error.logic_error
        (LogicErrorKind.unrecognized_binary_multiplying_operator (String.mk matched))))

/-- The body shared by `action<term_additional_factor>` and
`action<expression_additional_term>`: pop the second operand, the operator and
the first operand, push the binary expression. -/
def reduce_binary_operator_expression (parser : Parser) : Except Error Parser :=
  match parser.pop with
  | Except.error e => Except.error e
  | Except.ok (node1, parser) =>
    let second_operand_expression_sp := ASTStack.cast_Expression node1
    match parser.pop with
    | Except.error e => Except.error e
    | Except.ok (node2, parser) =>
      let binary_operator := ASTStack.cast_BinaryOperator node2
      match parser.pop with
      | Except.error e => Except.error e
      | Except.ok (node3, parser) =>
        let first_operand_expression_sp := ASTStack.cast_Expression node3
        Except.ok (parser.push (ASTNode.Expression
          (Expression.BinaryOperatorExpression first_operand_expression_sp binary_operator
            second_operand_expression_sp)))

/-- `grammar::parenthesized_expression`, given the rule `expression`. -/
def parenthesized_expression (expression : Rule) : Rule :=
  seq [one ['('], expression, one [')']]

/-- `grammar::factor`, given the rule `expression`. -/
def factor (expression : Rule) : Rule :=
  sor [constant, expression_symbol, unary_expression, parenthesized_expression expression]

/-- `grammar::term_additional_factor` with `action<term_additional_factor>` -/
def term_additional_factor (expression : Rule) : Rule :=
  with_action (seq [binary_multiplying_operator, factor expression])
    (fun _ _ parser => reduce_binary_operator_expression parser)

/-- `grammar::term` -/
def term (expression : Rule) : Rule :=
  seq [factor expression, star (term_additional_factor expression)]

/-- `grammar::expression_additional_term` with
`action<expression_additional_term>` -/
def expression_additional_term (expression : Rule) : Rule :=
  with_action (seq [binary_adding_operator, term expression])
    (fun _ _ parser => reduce_binary_operator_expression parser)

/-- `grammar::expression`, which refers to itself through
`parenthesized_expression`, unfolded `fuel` times. -/
def expression_fuel : Nat → Rule
  | 0 => fun _ _ => Except.error Error.fuel_exhausted
  | fuel + 1 =>
    seq [term (expression_fuel fuel), star (expression_additional_term (expression_fuel fuel))]

/-- `grammar::expression`: every level of parentheses takes a character of
the input, so one unfolding more than the input has characters is enough. -/
def expression : Rule := fun input parser =>
  expression_fuel (input.length + 1) input parser

/-- `grammar::expression_list_head` with `action<expression_list_head>` -/
def expression_list_head : Rule :=
  with_action (seq [expression]) (fun _ _ parser =>
    match parser.pop with
    | Except.error e => Except.error e
    | Except.ok (node, parser) =>
      let expression_sp := ASTStack.cast_Expression node
      Except.ok (parser.push (ASTNode.ExpressionList [expression_sp])))

/-- `grammar::expression_list_additional` with
`action<expression_list_additional>`; the list on top of the stack is changed
in place. -/
def expression_list_additional : Rule :=
  with_action (seq [expression]) (fun _ _ parser =>
    match parser.pop with
    | Except.error e => Except.error e
    | Except.ok (node, parser) =>
      let expression_sp := ASTStack.cast_Expression node
      match parser.pop with
      | Except.error e => Except.error e
      | Except.ok (top, parser) =>
        match ASTStack.cast_ExpressionList top with
        | none => Except.error Error.undefined_behaviour
        | some m_expressions =>
          Except.ok (parser.push (ASTNode.ExpressionList (m_expressions ++ [expression_sp]))))

/-- `grammar::expression_list` -/
def expression_list : Rule :=
  seq [expression_list_head, star (seq [one [','], expression_list_additional])]

/-- `grammar::expression_list_empty` with `action<expression_list_empty>` -/
def expression_list_empty : Rule :=
  with_action (seq []) (fun _ _ parser => Except.ok (parser.push (ASTNode.ExpressionList [])))

/-- `grammar::label_empty` with `action<label_empty>` -/
def label_empty : Rule :=
  with_action (seq []) (fun _ _ parser =>
    Except.ok (parser.push (ASTNode.Expression (Expression.Symbol ""))))

/-- `grammar::label_nonempty` with `action<label_nonempty>` -/
def label_nonempty : Rule :=
  with_action (seq [symbol, one [':']]) (fun matched _ parser =>
    let s := matched.take (matched.length - 1)
    Except.ok (parser.push (ASTNode.Expression
      (Expression.Symbol (utility.downcase_string (String.mk s))))))

/-- `grammar::label` -/
def label : Rule := seq [opt whitespace, sor [label_nonempty, label_empty], opt whitespace]

/-- The body shared by the actions of the mnemonic rules: push a `Mnemonic`
node that holds the matched text. -/
def push_mnemonic (matched : Input) (parser : Parser) : Except Error Parser :=
  Except.ok (parser.push (ASTNode.Mnemonic (String.mk matched)))

/-- `grammar::mnemonic_instruction_zero_operand` with its action -/
def mnemonic_instruction_zero_operand : Rule :=
  with_action (sor [
    istring "asla", istring "brk", istring "clc", istring "cld", istring "cli",
    istring "clv", istring "dex", istring "dey", istring "inx", istring "iny",
    istring "lsra", istring "nop", istring "pha", istring "php", istring "pla",
    istring "plp", istring "rola", istring "rora", istring "rti", istring "rts",
    istring "sec", istring "sed", istring "sei", istring "tax", istring "tay",
    istring "tsx", istring "txa", istring "txs", istring "tya"])
    (fun matched _ parser => push_mnemonic matched parser)

/-- `grammar::mnemonic_instruction_one_operand` -/
def mnemonic_instruction_one_operand : Rule :=
  sor [
    istring "adc", istring "and", istring "asl", istring "bcc", istring "bcs",
    istring "beq", istring "bit", istring "bmi", istring "bne", istring "bpl",
    istring "bvc", istring "bvs", istring "cmp", istring "cpx", istring "cpy",
    istring "dec", istring "eor", istring "inc", istring "jmp", istring "jsr",
    istring "lda", istring "ldx", istring "ldy", istring "lsr", istring "ora",
    istring "rol", istring "ror", istring "sbc", istring "sta", istring "stx",
    istring "sty"]

/-- The texts of the alternatives of
`grammar::mnemonic_instruction_zero_operand`, in their order. -/
def zero_operand_mnemonics : List String := [
  "asla", "brk", "clc", "cld", "cli", "clv", "dex", "dey", "inx", "iny", "lsra", "nop", "pha",
  "php", "pla", "plp", "rola", "rora", "rti", "rts", "sec", "sed", "sei", "tax", "tay", "tsx",
  "txa", "txs", "tya"]

/-- The texts of the alternatives of
`grammar::mnemonic_instruction_one_operand`, in their order. -/
def one_operand_mnemonics : List String := [
  "adc", "and", "asl", "bcc", "bcs", "beq", "bit", "bmi", "bne", "bpl", "bvc", "bvs", "cmp",
  "cpx", "cpy", "dec", "eor", "inc", "jmp", "jsr", "lda", "ldx", "ldy", "lsr", "ora", "rol",
  "ror", "sbc", "sta", "stx", "sty"]

/-- `grammar::address_mode_suffix_accumulator` (used by no rule) -/
def address_mode_suffix_accumulator : Rule := one ['a', 'A']

/-- `grammar::address_mode_suffix_immediate` -/
def address_mode_suffix_immediate : Rule := one ['#']

/-- `grammar::address_mode_suffix_indexed_by_x` -/
def address_mode_suffix_indexed_by_x : Rule := one ['x', 'X']

/-- `grammar::address_mode_suffix_indexed_by_y` -/
def address_mode_suffix_indexed_by_y : Rule := one ['y', 'Y']

/-- `grammar::address_mode_suffix_indexed_by_x_indirect` -/
def address_mode_suffix_indexed_by_x_indirect : Rule := seq [one ['x', 'X'], one ['@']]

/-- `grammar::address_mode_suffix_indirect_indexed_by_y` -/
def address_mode_suffix_indirect_indexed_by_y : Rule := seq [one ['@'], one ['y', 'Y']]

/-- `grammar::address_mode_suffix_indirect` -/
def address_mode_suffix_indirect : Rule := one ['@']

/-- `grammar::address_mode_one_operand_suffix` -/
def address_mode_one_operand_suffix : Rule :=
  sor [address_mode_suffix_immediate, address_mode_suffix_indexed_by_x,
    address_mode_suffix_indexed_by_y, address_mode_suffix_indexed_by_x_indirect,
    address_mode_suffix_indirect_indexed_by_y, address_mode_suffix_indirect]

/-- `grammar::mnemonic_instruction_one_operand_suffixed` with its action -/
def mnemonic_instruction_one_operand_suffixed : Rule :=
  with_action (seq [mnemonic_instruction_one_operand, opt address_mode_one_operand_suffix])
    (fun matched _ parser => push_mnemonic matched parser)

/-- `grammar::mnemonic_pseudo_ascii` with its action -/
def mnemonic_pseudo_ascii : Rule :=
  with_action (istring ".ascii") (fun matched _ parser => push_mnemonic matched parser)

/-- `grammar::mnemonic_pseudo_byte` -/
def mnemonic_pseudo_byte : Rule := istring ".byte"

/-- `grammar::mnemonic_pseudo_def` with its action -/
def mnemonic_pseudo_def : Rule :=
  with_action (istring ".def") (fun matched _ parser => push_mnemonic matched parser)

/-- `grammar::mnemonic_pseudo_end` -/
def mnemonic_pseudo_end : Rule := istring ".end"

/-- `grammar::mnemonic_pseudo_hbyte` -/
def mnemonic_pseudo_hbyte : Rule := istring ".hbyte"

/-- `grammar::mnemonic_pseudo_link` with its action -/
def mnemonic_pseudo_link : Rule :=
  with_action (istring ".link") (fun matched _ parser => push_mnemonic matched parser)

/-- `grammar::mnemonic_pseudo_list` -/
def mnemonic_pseudo_list : Rule := istring ".list"

/-- `grammar::mnemonic_pseudo_loc` -/
def mnemonic_pseudo_loc : Rule := istring ".loc"

/-- `grammar::mnemonic_pseudo_nolist` -/
def mnemonic_pseudo_nolist : Rule := istring ".nolist"

/-- `grammar::mnemonic_pseudo_page` -/
def mnemonic_pseudo_page : Rule := istring ".page"

/-- `grammar::mnemonic_pseudo_word` -/
def mnemonic_pseudo_word : Rule := istring ".word"

/-- `grammar::mnemonic_pseudo_zero_operand` with its action -/
def mnemonic_pseudo_zero_operand : Rule :=
  with_action (sor [mnemonic_pseudo_end, mnemonic_pseudo_list, mnemonic_pseudo_nolist,
      mnemonic_pseudo_page])
    (fun matched _ parser => push_mnemonic matched parser)

/-- `grammar::mnemonic_pseudo_variable_operand` with its action -/
def mnemonic_pseudo_variable_operand : Rule :=
  with_action (sor [mnemonic_pseudo_byte, mnemonic_pseudo_hbyte, mnemonic_pseudo_loc,
      mnemonic_pseudo_word])
    (fun matched _ parser => push_mnemonic matched parser)

/-- The body shared by `action<instruction_zero_operand>` and
`action<pseudo_op_zero_operand>`: pop the mnemonic, push a statement. -/
def reduce_statement_zero_operand (parser : Parser) : Except Error Parser :=
  match parser.pop with
  | Except.error e => Except.error e
  | Except.ok (node, parser) =>
    match ASTStack.cast_Mnemonic node with
    | none => Except.error Error.undefined_behaviour
    | some mnemonic =>
      Except.ok (parser.push (ASTNode.Statement { m_mnemonic := mnemonic }))

/-- The body shared by `action<instruction_one_operand>` and
`action<pseudo_op_ascii>`: pop the operand and the mnemonic, push a
statement. -/
def reduce_statement_one_operand (parser : Parser) : Except Error Parser :=
  match parser.pop with
  | Except.error e => Except.error e
  | Except.ok (node1, parser) =>
    let operand_sp := ASTStack.cast_Expression node1
    match parser.pop with
    | Except.error e => Except.error e
    | Except.ok (node2, parser) =>
      match ASTStack.cast_Mnemonic node2 with
      | none => Except.error Error.undefined_behaviour
      | some mnemonic =>
        Except.ok (parser.push (ASTNode.Statement
          { m_mnemonic := mnemonic, m_operands := [operand_sp] }))

/-- `grammar::instruction_zero_operand` with its action -/
def instruction_zero_operand : Rule :=
  with_action (seq [mnemonic_instruction_zero_operand])
    (fun _ _ parser => reduce_statement_zero_operand parser)

/-- `grammar::instruction_one_operand` with its action -/
def instruction_one_operand : Rule :=
  with_action (seq [mnemonic_instruction_one_operand_suffixed, whitespace, expression])
    (fun _ _ parser => reduce_statement_one_operand parser)

/-- `grammar::pseudo_op_zero_operand` with its action -/
def pseudo_op_zero_operand : Rule :=
  with_action (seq [mnemonic_pseudo_zero_operand])
    (fun _ _ parser => reduce_statement_zero_operand parser)

/-- `grammar::pseudo_op_variable_operand` with its action -/
def pseudo_op_variable_operand : Rule :=
  with_action (seq [mnemonic_pseudo_variable_operand,
      sor [seq [whitespace, expression_list], expression_list_empty]])
    (fun _ _ parser =>
      match parser.pop with
      | Except.error e => Except.error e
      | Except.ok (node1, parser) =>
        let operands_sp := ASTStack.cast_ExpressionList node1
        match parser.pop with
        | Except.error e => Except.error e
        | Except.ok (node2, parser) =>
          let mnemonic_sp := ASTStack.cast_Mnemonic node2
          match mnemonic_sp, operands_sp with
          | some mnemonic, some operands =>
            Except.ok (parser.push (ASTNode.Statement
              { m_mnemonic := mnemonic, m_operands := operands }))
          | _, _ => Except.error Error.undefined_behaviour)

/-- `grammar::pseudo_op_ascii` with its action -/
def pseudo_op_ascii : Rule :=
  with_action (seq [mnemonic_pseudo_ascii, whitespace, string_constant])
    (fun _ _ parser => reduce_statement_one_operand parser)

/-- `grammar::pseudo_op_def` with its action -/
def pseudo_op_def : Rule :=
  with_action (seq [mnemonic_pseudo_def, whitespace, expression_symbol, opt whitespace,
      one ['='], opt whitespace, expression])
    (fun _ _ parser =>
      match parser.pop with
      | Except.error e => Except.error e
      | Except.ok (node1, parser) =>
        let operand2_sp := ASTStack.cast_Expression node1
        match parser.pop with
        | Except.error e => Except.error e
        | Except.ok (node2, parser) =>
          let operand1_sp := ASTStack.cast_Expression node2
          match parser.pop with
          | Except.error e => Except.error e
          | Except.ok (node3, parser) =>
            match ASTStack.cast_Mnemonic node3 with
            | none => Except.error Error.undefined_behaviour
            | some mnemonic =>
              Except.ok (parser.push (ASTNode.Statement
                { m_mnemonic := mnemonic, m_operands := [operand1_sp, operand2_sp] })))

/-- `grammar::pseudo_op_link`; no action is attached to this rule. -/
def pseudo_op_link : Rule := seq [mnemonic_pseudo_link, whitespace, symbol]

/-- `grammar::comment` -/
def comment : Rule := opt (seq [whitespace, one [';'], star any])

/-- `grammar::statement_empty` with its action -/
def statement_empty : Rule :=
  with_action (seq []) (fun _ _ parser =>
    Except.ok (parser.push (ASTNode.Statement { m_mnemonic := "" })))

/-- `grammar::statement` with `action<statement>` -/
def statement : Rule :=
  with_action (seq [label,
      sor [instruction_zero_operand, instruction_one_operand, pseudo_op_zero_operand,
        pseudo_op_variable_operand, pseudo_op_ascii, pseudo_op_def, pseudo_op_link,
        statement_empty],
      comment])
    (fun _ _ parser =>
      match parser.pop with
      | Except.error e => Except.error e
      | Except.ok (node1, parser) =>
        let statement_sp := ASTStack.cast_Statement node1
        match parser.pop with
        | Except.error e => Except.error e
        | Except.ok (node2, parser) =>
          let label_sp := ASTStack.cast_Symbol node2
          match label_sp, statement_sp with
          | some label, some statement =>
            Except.ok (parser.push (ASTNode.Statement { statement with m_label := label }))
          | _, _ => Except.error Error.undefined_behaviour)

end grammar

/-! ## parser.cc -/

/-- `Parser::parse`: `pegtl::parse<grammar::statement, grammar::action>` on
the line, then the statement is taken from the stack, which has to be empty
afterwards. The result is the `StatementSP`, `none` for a null pointer. The
pass number and the line number are stored in members that nothing reads. -/
def Parser.parse (_pass_number _source_line_number location_counter : Nat) (s : String) :
    Except Error (Option Statement) :=
  let parser : Parser := { m_location_counter := location_counter, m_ast_stack := [] }
  match grammar.statement s.data parser with
  | Except.error e => Except.error e
  | Except.ok (none, _) => Except.error Error.ParseError
  | Except.ok (some _, parser) =>
    match parser.pop with
    | Except.error e => Except.error e
    | Except.ok (node, parser) =>
      let statement_sp := ASTStack.cast_Statement node
      if parser.m_ast_stack.length ≠ 0 then
        Except.error (Error.logic_error
          (LogicErrorKind.ast_stack_leftover parser.m_ast_stack.length))
      else Except.ok statement_sp

/-! ## assembler.cc: directives, output and the two passes -/

/-- The digits of `n` in the given base for `std::format`, lowercase. -/
def format_digits (base : Nat) (n : Nat) : List Char := Nat.toDigits base n

/-- Padding on the left up to the width of a format specification. -/
def format_pad_left (fill : Char) (width : Nat) (digits : List Char) : List Char :=
  List.replicate (width - digits.length) fill ++ digits

/-- `std::format("{:04x}", n)` -/
def format_04x (n : Nat) : String := String.mk (format_pad_left '0' 4 (format_digits 16 n))

/-- `std::format("{:04X}", n)` -/
def format_04X (n : Nat) : String :=
  String.mk ((format_pad_left '0' 4 (format_digits 16 n)).map Char.toUpper)

/-- `std::format("{:02x}", n)` -/
def format_02x (n : Nat) : String := String.mk (format_pad_left '0' 2 (format_digits 16 n))

/-- `std::format("{:02X}", n)` -/
def format_02X (n : Nat) : String :=
  String.mk ((format_pad_left '0' 2 (format_digits 16 n)).map Char.toUpper)

/-- `std::format("{:-5}", n)` for an unsigned `n`: decimal, right-aligned in
a field of five. -/
def format_5 (n : Nat) : String := String.mk (format_pad_left ' ' 5 (format_digits 10 n))

/-- The lines that successive calls of `std::getline` read from a file with
the given text: the text is cut at every `\n`, and a last line without `\n`
counts when it is not empty. `current` holds the characters of the line that
is being read. -/
def getlines_loop : List Char → List Char → List String
  | current, [] => if current = [] then [] else [String.mk current]
  | current, c :: rest =>
    if c = '\n' then String.mk current :: getlines_loop [] rest
    else getlines_loop (current ++ [c]) rest

/-- The lines of a source file. -/
def getlines (text : String) : List String := getlines_loop [] text.data

namespace Assembler

/-- `Assembler::assemble_pseudo_op_unimplemented` -/
def assemble_pseudo_op_unimplemented (a : Assembler) (pseudo_op_info : PseudoOp.Info) :
    Except Error Assembler :=
  Except.error (Error.AssemblerError a.m_source_line_number
    (AssemblerErrorKind.unimplemented_pseudo_op pseudo_op_info.mnemonic))

/-- `Assembler::assemble_pseudo_op_ascii` -/
def assemble_pseudo_op_ascii (a : Assembler) (statement : Statement) : Except Error Assembler :=
  match statement.get_operand 0 with
  | Except.error e => Except.error e
  | Except.ok operand_sp =>
    match operand_sp with
    | Expression.StringConstant string =>
      Except.ok (string.data.foldl (fun a c => a.emit_byte c.toNat) a)
    | _ => Except.error Error.undefined_behaviour

/-- The loop of `assemble_pseudo_op_byte`, `_hbyte` and `_word` over the
operands that remain; `emit` is what the loop does with each value. -/
def assemble_operands_loop (emit : Assembler → Nat → Assembler) :
    List ExpressionSP → Assembler → Except Error Assembler
  | [], a => Except.ok a
  | expression_sp :: rest, a =>
    match a.convert_operand_uint16 expression_sp with
    | Except.error e => Except.error e
    | Except.ok (value, a) => assemble_operands_loop emit rest (emit a value)

/-- `Assembler::assemble_pseudo_op_byte` -/
def assemble_pseudo_op_byte (a : Assembler) (statement : Statement) : Except Error Assembler :=
  if statement.get_operand_count = 0 then
    Except.ok (a.emit_byte 0)
  else
    assemble_operands_loop (fun a value => a.emit_byte (value &&& 0xff)) statement.m_operands a

/-- `Assembler::assemble_pseudo_op_def` -/
def assemble_pseudo_op_def (a : Assembler) (statement : Statement) : Except Error Assembler :=
  match statement.get_operand 0 with
  | Except.error e => Except.error e
  | Except.ok operand_sp =>
    match statement.get_operand 1 with
    | Except.error e => Except.error e
    | Except.ok operand1_sp =>
      match a.convert_operand_uint16 operand1_sp with
      | Except.error e => Except.error e
      | Except.ok (value, a) =>
        match operand_sp with
        | Expression.Symbol symbol =>
          match a.define_symbol symbol (Value.create value) with
          | Except.error e => Except.error e
          | Except.ok a =>
            Except.ok { a with m_listing_show_address := true, m_object_code_address := value }
        | _ => Except.error Error.undefined_behaviour

/-- `Assembler::assemble_pseudo_op_end` -/
def assemble_pseudo_op_end (a : Assembler) : Except Error Assembler :=
  Except.ok { a with m_end_reached := true }

/-- `Assembler::assemble_pseudo_op_hbyte` -/
def assemble_pseudo_op_hbyte (a : Assembler) (statement : Statement) : Except Error Assembler :=
  if statement.get_operand_count = 0 then
    Except.ok (a.emit_byte 0)
  else
    assemble_operands_loop (fun a value => a.emit_byte (value >>> 8)) statement.m_operands a

/-- `Assembler::assemble_pseudo_op_list` -/
def assemble_pseudo_op_list (a : Assembler) : Except Error Assembler := Except.ok a

/-- `Assembler::assemble_pseudo_op_loc` -/
def assemble_pseudo_op_loc (a : Assembler) (statement : Statement) : Except Error Assembler :=
  match statement.get_operand 0 with
  | Except.error e => Except.error e
  | Except.ok operand_sp =>
    match a.convert_operand_uint16 operand_sp with
    | Except.error e => Except.error e
    | Except.ok (addr, a) =>
      Except.ok { a with m_location_counter := addr, m_object_code_address := addr,
                         m_listing_show_address := true }

/-- `Assembler::assemble_pseudo_op_nolist` -/
def assemble_pseudo_op_nolist (a : Assembler) : Except Error Assembler := Except.ok a

/-- `Assembler::assemble_pseudo_op_page` -/
def assemble_pseudo_op_page (a : Assembler) : Except Error Assembler := Except.ok a

/-- `Assembler::assemble_pseudo_op_word` -/
def assemble_pseudo_op_word (a : Assembler) (statement : Statement) : Except Error Assembler :=
  if statement.get_operand_count = 0 then
    Except.ok (a.emit_word 0)
  else
    assemble_operands_loop (fun a value => a.emit_word value) statement.m_operands a

/-- The call through `s_assemble_pseudo_op_fn_ptrs`; the entry for `LINK` is
`assemble_pseudo_op_unimplemented`. -/
def s_assemble_pseudo_op_fn_ptrs (a : Assembler) (statement : Statement)
    (pseudo_op_info : PseudoOp.Info) : Except Error Assembler :=
  match pseudo_op_info.pseudo_op with
  | PseudoOp.PseudoOpEnum.ASCII  => a.assemble_pseudo_op_ascii statement
  | PseudoOp.PseudoOpEnum.BYTE   => a.assemble_pseudo_op_byte statement
  | PseudoOp.PseudoOpEnum.DEF    => a.assemble_pseudo_op_def statement
  | PseudoOp.PseudoOpEnum.END    => a.assemble_pseudo_op_end
  | PseudoOp.PseudoOpEnum.HBYTE  => a.assemble_pseudo_op_hbyte statement
  | PseudoOp.PseudoOpEnum.LINK   => a.assemble_pseudo_op_unimplemented pseudo_op_info
  | PseudoOp.PseudoOpEnum.LIST   => a.assemble_pseudo_op_list
  | PseudoOp.PseudoOpEnum.LOC    => a.assemble_pseudo_op_loc statement
  | PseudoOp.PseudoOpEnum.NOLIST => a.assemble_pseudo_op_nolist
  | PseudoOp.PseudoOpEnum.PAGE   => a.assemble_pseudo_op_page
  | PseudoOp.PseudoOpEnum.WORD   => a.assemble_pseudo_op_word statement

/-- `Assembler::assemble_pseudo_op` -/
def assemble_pseudo_op (a : Assembler) : Except Error Assembler :=
  match a.m_statement_sp with
  | none => Except.error Error.undefined_behaviour
  | some statement =>
    let mnemonic := statement.m_mnemonic
    match PseudoOp.lookup_mnemonic mnemonic with
    | Except.error e => Except.error e
    | Except.ok pseudo_op_info =>
      let label := statement.m_label
      let defined : Except Error Assembler :=
        if label.length ≠ 0 then
          if pseudo_op_info.flags.LABEL_DISALLOWED then
            Except.error (Error.AssemblerError a.m_source_line_number
              (AssemblerErrorKind.pseudo_op_label_disallowed pseudo_op_info.mnemonic))
          else if !pseudo_op_info.flags.LABEL_ISNT_LOC then
            a.define_symbol label (Value.create a.m_location_counter)
          else Except.ok a
        else Except.ok a
      match defined with
      | Except.error e => Except.error e
      | Except.ok a => a.s_assemble_pseudo_op_fn_ptrs statement pseudo_op_info

/-- `Assembler::assemble_line` -/
def assemble_line (a : Assembler) : Except Error Assembler :=
  match a.m_statement_sp with
  | none => Except.error Error.undefined_behaviour
  | some statement =>
    let mnemonic := statement.m_mnemonic
    if mnemonic.length = 0 ∨ a.m_instruction_set_sp.valid_mnemonic mnemonic = true then
      a.assemble_instruction
    else if PseudoOp.valid_mnemonic mnemonic then
      a.assemble_pseudo_op
    else
      Except.error (Error.AssemblerError a.m_source_line_number
        (AssemblerErrorKind.unrecognized_mnemonic mnemonic))

/-- `Assembler::write_object_bytes` -/
def write_object_bytes (a : Assembler) : Assembler :=
  if a.m_object_code_bytes.length = 0 then a
  else
    let prefix_text :=
      if a.m_object_code_address ≠ a.m_prev_object_code_address then
        "*" ++ format_04X a.m_object_code_address
      else ""
    let bytes_text := a.m_object_code_bytes.foldl (fun text byte => text ++ format_02X byte) ""
    let m_object_code_address :=
      (a.m_object_code_address + a.m_object_code_bytes.length) % 2 ^ 32
    { a with
      m_object_file := a.m_object_file ++ prefix_text ++ bytes_text
      m_object_code_address := m_object_code_address
      m_prev_object_code_address := m_object_code_address }

/-- The `while` loop of `write_listing_line`; `i` grows in every round and
the loop ends at `MAX_OBJECT_BYTES_PER_LISTING_LINE`, so `fuel` of that size
is enough. Reading `m_object_code_bytes[i+1]` past the end is undefined. -/
def write_listing_line_loop (a : Assembler) : Nat → Nat → String → Except Error String
  | 0, _, s_obj => Except.ok s_obj
  | fuel + 1, i, s_obj =>
    if i < MAX_OBJECT_BYTES_PER_LISTING_LINE ∧ i < a.m_object_code_bytes.length then
      match a.m_object_code_bytes_start_of_word.get? i, a.m_object_code_bytes.get? i with
      | some true, some low =>
        match a.m_object_code_bytes.get? (i + 1) with
        | none => Except.error Error.undefined_behaviour
        | some high =>
          write_listing_line_loop a fuel (i + 2) (s_obj ++ " " ++ format_04x ((high <<< 8) ||| low))
      | some false, some byte =>
        write_listing_line_loop a fuel (i + 1) (s_obj ++ " " ++ format_02x byte)
      | _, _ => Except.error Error.undefined_behaviour
    else Except.ok s_obj

/-- `Assembler::write_listing_line`. `9 - s_obj.size()` is computed in
`std::size_t`: when `s_obj` has more than 9 characters the count wraps and
the constructor of `std::string` throws `std::length_error`. -/
def write_listing_line (a : Assembler) : Except Error Assembler :=
  let line := format_5 a.m_source_line_number ++ "  "
  let line :=
    if a.m_listing_show_address ∨ a.m_object_code_bytes.length ≠ 0 then
      line ++ format_04x a.m_object_code_address ++ " "
    else line ++ "     "
  match write_listing_line_loop a MAX_OBJECT_BYTES_PER_LISTING_LINE 0 "" with
  | Except.error e => Except.error e
  | Except.ok s_obj =>
    if s_obj.length > 9 then Except.error Error.length_error
    else
      let s_obj := s_obj ++ String.mk (List.replicate (9 - s_obj.length) ' ')
      let line := line ++ s_obj
      let line := line ++ "  " ++ a.m_source_line ++ "\n"
      Except.ok { a with m_listing_file := a.m_listing_file ++ line }

/-- The body of the `while` loop of `assemble_pass` for one line that
`std::getline` has read. A `ParseError` is caught (and reported on
`std::cerr`), which leaves `m_statement_sp` as it was; nothing else is
caught. -/
def assemble_pass_line (a : Assembler) (line : String) : Except Error Assembler :=
  let a := { a with m_source_line := untabify line }
  let a := { a with m_source_line_number := a.m_source_line_number + 1 }
  let a := { a with
    m_listing_show_address := false
    m_object_code_address := a.m_location_counter
    m_object_code_bytes := []
    m_object_code_bytes_start_of_word := [] }
  let parsed : Except Error Assembler :=
    match Parser.parse a.m_pass_number.toNat a.m_source_line_number a.m_location_counter
        a.m_source_line with
    | Except.ok statement_sp => Except.ok { a with m_statement_sp := statement_sp }
    | Except.error Error.ParseError => Except.ok a
    | Except.error e => Except.error e
  match parsed with
  | Except.error e => Except.error e
  | Except.ok a =>
    match a.assemble_line with
    | Except.error e => Except.error e
    | Except.ok a =>
      let written : Except Error Assembler :=
        if a.m_pass_number = 2 then
          match a.write_listing_line with
          | Except.error e => Except.error e
          | Except.ok a => Except.ok a.write_object_bytes
        else Except.ok a
      match written with
      | Except.error e => Except.error e
      | Except.ok a =>
        Except.ok { a with m_location_counter :=
          (a.m_location_counter + a.m_object_code_bytes.length) % 65536 }

/-- The `while` loop of `assemble_pass` over the lines of the source file
that have not been read. -/
def assemble_pass_loop : List String → Assembler → Except Error Assembler
  | [], a => Except.ok a
  | line :: rest, a =>
    if a.m_end_reached then Except.ok a
    else
      match a.assemble_pass_line line with
      | Except.error e => Except.error e
      | Except.ok a => assemble_pass_loop rest a

/-- The assignments at the head of `assemble_pass`, before the loop. -/
def begin_pass (a : Assembler) (pass_number : Int) : Assembler :=
  let a := { a with
    m_pass_number := pass_number
    m_end_reached := false
    m_error_count := 0
    m_warning_count := 0
    m_prev_object_code_address := 0xFFFFFFFF }
  let a := { a with m_symbol_table_sp :=
    a.m_symbol_table_sp.set_lookup_undefined_ok (decide (a.m_pass_number = 1)) }
  { a with m_source_line_number := 0 }

/-- `Assembler::assemble_pass`; `source_file` is the list of the lines of the
source file, which is read from its start in each pass. -/
def assemble_pass (a : Assembler) (source_file : List String) (pass_number : Int) :
    Except Error Assembler :=
  if pass_number < 1 ∨ pass_number > 2 then
    Except.error (Error.AssemblerError a.m_source_line_number
      (AssemblerErrorKind.invalid_pass_number pass_number))
  else
    assemble_pass_loop source_file (a.begin_pass pass_number)

/-- `Assembler::assemble` -/
def assemble (a : Assembler) (source_file : List String) : Except Error Assembler :=
  match a.assemble_pass source_file 1 with
  | Except.error e => Except.error e
  | Except.ok a => a.assemble_pass source_file 2

end Assembler

/-- What `main` does with a source file of the given text: construct the
assembler and call `assemble`. -/
def assemble_source (initial_location_counter : Nat) (text : String) : Except Error Assembler :=
  Except.bind (Assembler.create initial_location_counter) (fun a => a.assemble (getlines text))

namespace Assembler

/-- A state in which `assemble_pass` calls `assemble_line`: the instruction
set that the constructor builds, an empty byte buffer, and the given pass
number, line number, location counter, symbol table and statement. -/
def line_state (pass_number : Int) (source_line_number : Nat) (location_counter : Nat)
    (symbol_table : SymbolTable) (statement : Statement) : Assembler :=
  { m_object_file := ""
    m_listing_file := ""
    m_instruction_set_sp := InstructionSet.pal65
    m_symbol_table_sp := symbol_table.set_lookup_undefined_ok (decide (pass_number = 1))
    m_pass_number := pass_number
    m_end_reached := false
    m_error_count := 0
    m_warning_count := 0
    m_source_line_number := source_line_number
    m_source_line := ""
    m_location_counter := location_counter
    m_statement_sp := some statement
    m_prev_object_code_address := 0xFFFFFFFF
    m_object_code_address := location_counter
    m_object_code_bytes := []
    m_object_code_bytes_start_of_word := []
    m_listing_show_address := false }

/-- The state in which the loop of `assemble_pass` calls `assemble_line` for
a line that `Parser::parse` has turned into `statement_sp`: the assignments
of the head of the loop body. -/
def begin_line (a : Assembler) (line : String) (statement_sp : Option Statement) : Assembler :=
  { a with
    m_source_line := untabify line
    m_source_line_number := a.m_source_line_number + 1
    m_listing_show_address := false
    m_object_code_address := a.m_location_counter
    m_object_code_bytes := []
    m_object_code_bytes_start_of_word := []
    m_statement_sp := statement_sp }

end Assembler

/-! # Theorems -/

/-! ## Construction -/

/-- The constructor of the instruction set succeeds on `s_main_table`, and
the map it builds is `InstructionSet.pal65`. -/
theorem InstructionSet.create_eq : InstructionSet.create = Except.ok InstructionSet.pal65 := by
  decide!

theorem Assembler.create_pal65 (lc : Nat) :
    Assembler.create lc = Except.ok (Assembler.construct InstructionSet.pal65 lc) :=
  congrArg (Except.map (fun instruction_set => Assembler.construct instruction_set lc))
    InstructionSet.create_eq

theorem assemble_source_eq (lc : Nat) (text : String) :
    assemble_source lc text
      = (Assembler.construct InstructionSet.pal65 lc).assemble (getlines text) := by
  unfold assemble_source
  rw [Assembler.create_pal65]
  rfl

theorem returns_iff {α : Type} (x : Except Error α) (p : α → Bool) :
    returns x p = true ↔ ∃ a, x = Except.ok a ∧ p a = true := by
  cases x with
  | error e => simp [returns]
  | ok a => simp [returns]

theorem throws_iff {α : Type} (x : Except Error α) (e : Error) :
    throws x e = true ↔ x = Except.error e := by
  cases x with
  | error thrown => simp [throws]
  | ok a => simp [throws]

theorem and_true_split {x y : Bool} (h : (x && y) = true) : x = true ∧ y = true := by
  cases x <;> cases y <;> simp_all

/-! ## Values -/

theorem uint16_natCast (n : Nat) : uint16 (n : Int) = n % 65536 := by
  unfold uint16
  have h : ((n : Int) % 65536) = ((n % 65536 : Nat) : Int) := by push_cast; rfl
  rw [h, Int.toNat_ofNat]

theorem uint16_of_lt {n : Nat} (h : n < 65536) : uint16 (n : Int) = n := by
  rw [uint16_natCast, Nat.mod_eq_of_lt h]

theorem merge_unknowns_eq (l r : Value) :
    merge_unknowns l r = l.get_unknown_symbols ∪ r.get_unknown_symbols := by
  cases l <;> cases r <;> simp [merge_unknowns, Value.isKnown, Value.get_unknown_symbols]

/-- C7: on two known values `+`, `-`, `*` give the known value of the integer
result reduced modulo 2^16, and so does `/` for a divisor other than zero;
when an operand is unknown all four give the unknown value whose symbol set
is the union of the symbol sets of the operands. -/
theorem value_arithmetic (l r : Value) :
    (∀ a b : Nat, l = Value.known a → r = Value.known b →
      Value.add l r = Value.known ((a + b) % 65536) ∧
      Value.sub l r = Value.known (((a : Int) - (b : Int)) % 65536).toNat ∧
      Value.mul l r = Value.known ((a * b) % 65536) ∧
      (b ≠ 0 → Value.div l r = Except.ok (Value.known ((a / b) % 65536)))) ∧
    ((l.isKnown = false ∨ r.isKnown = false) →
      Value.add l r = Value.unknown (l.get_unknown_symbols ∪ r.get_unknown_symbols) ∧
      Value.sub l r = Value.unknown (l.get_unknown_symbols ∪ r.get_unknown_symbols) ∧
      Value.mul l r = Value.unknown (l.get_unknown_symbols ∪ r.get_unknown_symbols) ∧
      Value.div l r =
        Except.ok (Value.unknown (l.get_unknown_symbols ∪ r.get_unknown_symbols))) := by
  constructor
  · intro a b hl hr
    subst hl; subst hr
    refine ⟨?_, ?_, ?_, ?_⟩
    · simp only [Value.add, Value.create]
      rw [← Nat.cast_add, uint16_natCast]
    · simp only [Value.sub, Value.create, uint16]
    · simp only [Value.mul, Value.create]
      rw [← Nat.cast_mul, uint16_natCast]
    · intro hb
      simp only [Value.div, Value.create, if_neg hb]
      rw [← Int.natCast_div, uint16_natCast]
  · intro h
    have hm := merge_unknowns_eq l r
    cases l <;> cases r <;>
      simp_all [Value.add, Value.sub, Value.mul, Value.div, Value.create_set, Value.isKnown]

/-- C7, at concrete operands: 65535 and 3 (known), and the unknown `{a}`
against the known 1. -/
theorem value_arithmetic_witness :
    (Value.add (Value.known 65535) (Value.known 3) = Value.known ((65535 + 3) % 65536) ∧
      Value.sub (Value.known 65535) (Value.known 3)
        = Value.known (((65535 : Int) - (3 : Int)) % 65536).toNat ∧
      Value.mul (Value.known 65535) (Value.known 3) = Value.known ((65535 * 3) % 65536) ∧
      Value.div (Value.known 65535) (Value.known 3)
        = Except.ok (Value.known ((65535 / 3) % 65536))) ∧
    (Value.add (Value.unknown {"a"}) (Value.known 1) = Value.unknown ({"a"} ∪ ∅) ∧
      Value.sub (Value.unknown {"a"}) (Value.known 1) = Value.unknown ({"a"} ∪ ∅) ∧
      Value.mul (Value.unknown {"a"}) (Value.known 1) = Value.unknown ({"a"} ∪ ∅) ∧
      Value.div (Value.unknown {"a"}) (Value.known 1)
        = Except.ok (Value.unknown ({"a"} ∪ ∅))) := by
  have h1 := (value_arithmetic (Value.known 65535) (Value.known 3)).1 65535 3 rfl rfl
  have h2 := (value_arithmetic (Value.unknown {"a"}) (Value.known 1)).2 (Or.inl rfl)
  exact ⟨⟨h1.1, h1.2.1, h1.2.2.1, h1.2.2.2 (by decide)⟩, h2⟩

/-- C8: `operator/` throws exactly when both operands are known and the
divisor is zero, and what it throws is `ValueDivideByZeroError`; with an
unknown operand (also an unknown dividend over the known divisor zero) it
returns an unknown value. -/
theorem div_fails_iff (l r : Value) :
    (∀ e : Error, Value.div l r = Except.error e ↔
      (e = Error.ValueDivideByZeroError ∧ l.isKnown = true ∧ r = Value.known 0)) ∧
    ((l.isKnown = false ∨ r.isKnown = false) →
      Value.div l r =
        Except.ok (Value.unknown (l.get_unknown_symbols ∪ r.get_unknown_symbols))) := by
  have hm := merge_unknowns_eq l r
  constructor
  · intro e
    cases l <;> cases r
    · rename_i a b
      by_cases hb : b = 0
      · subst hb
        simp only [Value.div, if_true, Value.isKnown, and_true, true_and]
        constructor
        · intro h; injection h with h; exact h.symm
        · intro h; rw [h]
      · simp [Value.div, hb, Value.isKnown]
    · simp [Value.div, Value.isKnown]
    · simp [Value.div, Value.isKnown]
    · simp [Value.div, Value.isKnown]
  · intro h
    cases l <;> cases r <;> simp_all [Value.div, Value.create_set, Value.isKnown]

/-- C8, at concrete operands: 1 / 0 throws, and the unknown `{x}` over the
known 0 returns the unknown `{x}`. -/
theorem div_fails_iff_witness :
    Value.div (Value.known 1) (Value.known 0) = Except.error Error.ValueDivideByZeroError ∧
    Value.div (Value.unknown {"x"}) (Value.known 0) = Except.ok (Value.unknown ({"x"} ∪ ∅)) :=
  ⟨((div_fails_iff (Value.known 1) (Value.known 0)).1 Error.ValueDivideByZeroError).2
      ⟨rfl, rfl, rfl⟩,
   (div_fails_iff (Value.unknown {"x"}) (Value.known 0)).2 (Or.inl rfl)⟩

/-- C9: on a known 16-bit value `x`, `low_byte` is the known `x & 0xFF` and
`high_byte` the known `(x >> 8) & 0xFF`; an unknown value is returned as it
is by both. -/
theorem byte_extraction :
    (∀ x : Nat, x < 65536 →
      low_byte (Value.known x) = Value.known (x &&& 0xFF) ∧
      high_byte (Value.known x) = Value.known ((x >>> 8) &&& 0xFF)) ∧
    (∀ s : Finset String,
      low_byte (Value.unknown s) = Value.unknown s ∧
      high_byte (Value.unknown s) = Value.unknown s) := by
  constructor
  · intro x hx
    have h1 : x &&& 255 < 65536 := lt_of_le_of_lt Nat.and_le_right (by decide)
    have h2 : x >>> 8 < 256 := by rw [Nat.shiftRight_eq_div_pow]; omega
    have h3 : (x >>> 8) &&& 255 = x >>> 8 := by
      have := Nat.and_pow_two_sub_one_eq_mod (x >>> 8) 8
      simp only [Nat.reducePow, Nat.add_one_sub_one] at this
      rw [this, Nat.mod_eq_of_lt h2]
    constructor
    · simp only [low_byte, Value.create]
      rw [uint16_of_lt h1]
    · simp only [high_byte, Value.create]
      rw [uint16_of_lt (lt_trans h2 (by decide)), h3]
  · intro s
    exact ⟨rfl, rfl⟩

/-- C9, at the 16-bit value 0x1234. -/
theorem byte_extraction_witness :
    low_byte (Value.known 0x1234) = Value.known (0x1234 &&& 0xFF) ∧
    high_byte (Value.known 0x1234) = Value.known ((0x1234 >>> 8) &&& 0xFF) :=
  byte_extraction.1 0x1234 (by decide)

/-! ## Symbol table -/

/-- C10: `define_symbol` on a table in which the name is unbound succeeds;
in the table it leaves the name is bound, its definition line is `line`, its
reference set is empty, its stored value is `v`, and every other name has the
entry (or the absence of an entry) it had before. -/
theorem define_symbol_unbound (t : SymbolTable) (line : Nat) (name : String) (v : Value)
    (h : t.contains name = false) :
    ∃ t' : SymbolTable, t.define_symbol line name v = Except.ok t' ∧
      t'.contains name = true ∧
      t'.get_symbol_definition_line name = Except.ok line ∧
      t'.get_symbol_reference_line_numbers name = Except.ok ∅ ∧
      (t'.find name).map Entry.value = some v ∧
      (∀ other : String, other ≠ name → t'.find other = t.find other) ∧
      t'.m_lookup_undefined_ok = t.m_lookup_undefined_ok := by
  have hf : t.find name = none := by
    simpa [SymbolTable.contains] using h
  refine ⟨{ t with m_symbol_table :=
      (name, { value := v, definition_line_number := line,
               reference_line_numbers := ∅ }) :: t.m_symbol_table },
    by simp only [SymbolTable.define_symbol, hf], ?_, ?_, ?_, ?_, ?_, rfl⟩
  · simp [SymbolTable.contains, SymbolTable.find, List.lookup_cons]
  · simp [SymbolTable.get_symbol_definition_line, SymbolTable.find, List.lookup_cons]
  · simp [SymbolTable.get_symbol_reference_line_numbers, SymbolTable.find, List.lookup_cons]
  · simp [SymbolTable.find, List.lookup_cons]
  · intro other hne
    have hb : (other == name) = false := by simpa using hne
    simp only [SymbolTable.find, List.lookup_cons, hb]

/-- C10, on the empty table: defining `foo` on line 3 with the known value
0x200. -/
theorem define_symbol_unbound_witness :
    ∃ t' : SymbolTable,
      SymbolTable.create.define_symbol 3 "foo" (Value.known 0x200) = Except.ok t' ∧
      t'.contains "foo" = true ∧
      t'.get_symbol_definition_line "foo" = Except.ok 3 ∧
      t'.get_symbol_reference_line_numbers "foo" = Except.ok ∅ ∧
      (t'.find "foo").map Entry.value = some (Value.known 0x200) ∧
      (∀ other : String, other ≠ "foo" → t'.find other = SymbolTable.create.find other) ∧
      t'.m_lookup_undefined_ok = SymbolTable.create.m_lookup_undefined_ok :=
  define_symbol_unbound SymbolTable.create 3 "foo" (Value.known 0x200) (by decide)

theorem SymbolTable.define_symbol_bound (t : SymbolTable) (line : Nat) (name : String)
    (v : Value) (e : Entry) (v1 : Nat) (hf : t.find name = some e)
    (hl : e.definition_line_number = line) (hv : e.value = Value.known v1) :
    t.define_symbol line name v = Except.ok t := by
  simp only [SymbolTable.define_symbol, hf, hl, hv, Value.get, ne_eq, not_true_eq_false,
    if_false]

/-- C11: on a table in which `name` is bound with definition line `line1`,
`define_symbol` with another line `line2` throws
`SymbolMultiplyDefined(name, line1, line2)`, whatever the value `v` is. The
exception is thrown before the table is written: the call yields no table,
and the table it was called on is the value `t` as before. -/
theorem define_symbol_multiply_defined (t : SymbolTable) (line1 line2 : Nat) (name : String)
    (e : Entry) (hf : t.find name = some e) (hl : e.definition_line_number = line1)
    (hne : line1 ≠ line2) :
    ∀ v : Value, t.define_symbol line2 name v
      = Except.error (Error.SymbolMultiplyDefined name line1 line2) := by
  intro v
  simp only [SymbolTable.define_symbol, hf, hl, ne_eq, hne, not_false_eq_true, if_true]

set_option maxRecDepth 100000 in
/-- C11, on the table that `define_symbol(1, "foo", 0x200)` builds from the
empty table: a definition of `foo` on line 2 throws
`SymbolMultiplyDefined("foo", 1, 2)`, with the same value, with another known
value and with an unknown value. And the source `foo: nop` / `foo: nop` /
`.end` ends with that exception, which line 2 raises in pass 1. -/
theorem define_symbol_multiply_defined_witness :
    (∃ t : SymbolTable,
      SymbolTable.create.define_symbol 1 "foo" (Value.known 0x200) = Except.ok t ∧
      ∀ v : Value, t.define_symbol 2 "foo" v
        = Except.error (Error.SymbolMultiplyDefined "foo" 1 2)) ∧
    (∃ a0 : Assembler, Assembler.create 0 = Except.ok a0 ∧
      a0.assemble_pass ["foo: nop", "foo: nop", ".end"] 1
        = Except.error (Error.SymbolMultiplyDefined "foo" 1 2)) :=
  ⟨⟨_, rfl, define_symbol_multiply_defined
    { m_lookup_undefined_ok := false,
      m_symbol_table := [("foo", { value := Value.known 0x200, definition_line_number := 1,
                                    reference_line_numbers := ∅ })] } 1 2 "foo"
    { value := Value.known 0x200, definition_line_number := 1, reference_line_numbers := ∅ }
    rfl rfl (by decide)⟩,
   ⟨Assembler.construct InstructionSet.pal65 0, Assembler.create_pal65 0,
    (throws_iff _ _).1 (by decide!)⟩⟩

/-- C12 fails: on a table in which `name` is bound with definition line
`line` and the stored known value `v1`, `define_symbol(line, name, v2)` returns
normally and leaves the table as it is for every value `v2`, equal to `v1` or
not; and no call of `define_symbol` throws `SymbolValueRedefined`. -/
theorem define_symbol_same_line_any_value (t : SymbolTable) (line : Nat) (name : String)
    (e : Entry) (v1 : Nat) (hf : t.find name = some e)
    (hl : e.definition_line_number = line) (hv : e.value = Value.known v1) :
    (∀ v2 : Value, t.define_symbol line name v2 = Except.ok t) ∧
    (∀ (t0 : SymbolTable) (line0 : Nat) (name0 : String) (v0 : Value) (s : String)
        (x y : Nat),
      t0.define_symbol line0 name0 v0 ≠ Except.error (Error.SymbolValueRedefined s x y)) := by
  refine ⟨fun v2 => SymbolTable.define_symbol_bound t line name v2 e v1 hf hl hv, ?_⟩
  intro t0 line0 name0 v0 s x y h
  unfold SymbolTable.define_symbol at h
  split at h
  · cases h
  · split at h
    · cases h
    · split at h
      · rename_i err hget
        rename_i entry _ _ _
        cases hval : entry.value with
        | known n => rw [hval] at hget; cases hget
        | unknown u =>
          rw [hval] at hget
          simp only [Value.get] at hget
          injection hget with hget
          subst hget
          cases h
      · rename_i old hget
        simp only [hget] at h
        simp at h

/-- C12 fails, on the table that `define_symbol(3, "foo", 0x0013)` builds
from the empty table: `define_symbol(3, "foo", 0x0012)` returns normally and
`foo` keeps the value 0x0013. -/
theorem define_symbol_same_line_any_value_witness :
    ∃ t : SymbolTable,
      SymbolTable.create.define_symbol 3 "foo" (Value.known 0x0013) = Except.ok t ∧
      t.define_symbol 3 "foo" (Value.known 0x0012) = Except.ok t ∧
      (t.find "foo").map Entry.value = some (Value.known 0x0013) :=
  ⟨_, rfl, (define_symbol_same_line_any_value
    { m_lookup_undefined_ok := false,
      m_symbol_table := [("foo", { value := Value.known 0x0013, definition_line_number := 3,
                                    reference_line_numbers := ∅ })] } 3 "foo"
    { value := Value.known 0x0013, definition_line_number := 3, reference_line_numbers := ∅ }
    0x0013 rfl rfl rfl).1 (Value.known 0x0012), by decide⟩

/-- C13 fails for a table in which the name is bound on another line: on the
table that `define_symbol(1, "foo", 5)` builds from the empty table,
`define_symbol(2, "foo", 5)` throws, so it does not succeed once, let alone
twice. -/
theorem define_symbol_twice_fails :
    ∃ t : SymbolTable,
      SymbolTable.create.define_symbol 1 "foo" (Value.known 5) = Except.ok t ∧
      t.define_symbol 2 "foo" (Value.known 5)
        = Except.error (Error.SymbolMultiplyDefined "foo" 1 2) :=
  ⟨_, rfl, by decide⟩

/-- C13 as amended: for a known value `v`, whenever `define_symbol(line,
name, v)` succeeds, a second call on the table it leaves succeeds and leaves
that same table; and the first call succeeds when `name` is unbound, and when
`name` is bound with the definition line `line` and the stored value `v`. -/
theorem define_symbol_idempotent (t : SymbolTable) (line : Nat) (name : String) (v : Value)
    (hv : v.isKnown = true) :
    (∀ t1, t.define_symbol line name v = Except.ok t1 →
      t1.define_symbol line name v = Except.ok t1) ∧
    (t.find name = none → ∃ t1, t.define_symbol line name v = Except.ok t1) ∧
    (∀ e, t.find name = some e → e.definition_line_number = line → e.value = v →
      t.define_symbol line name v = Except.ok t) := by
  obtain ⟨n, rfl⟩ : ∃ n, v = Value.known n := by
    cases v with
    | known n => exact ⟨n, rfl⟩
    | unknown u => cases hv
  refine ⟨?_, ?_, ?_⟩
  · intro t1 h1
    cases hf : t.find name with
    | none =>
      simp only [SymbolTable.define_symbol, hf] at h1
      injection h1 with h1
      subst h1
      exact SymbolTable.define_symbol_bound _ line name _
        { value := Value.known n, definition_line_number := line, reference_line_numbers := ∅ } n
        (by simp [SymbolTable.find, List.lookup_cons]) rfl rfl
    | some e =>
      have hkeep : t1 = t := by
        simp only [SymbolTable.define_symbol, hf] at h1
        split at h1
        · cases h1
        · split at h1
          · cases h1
          · split at h1
            · cases h1
            · split at h1
              · cases h1
              · injection h1 with h1
                exact h1.symm
      rw [hkeep]
      rw [hkeep] at h1
      exact h1
  · intro hf
    exact ⟨{ t with m_symbol_table :=
      (name, { value := Value.known n, definition_line_number := line,
               reference_line_numbers := ∅ }) :: t.m_symbol_table },
      by simp only [SymbolTable.define_symbol, hf]⟩
  · intro e hf hl hval
    exact SymbolTable.define_symbol_bound t line name (Value.known n) e n hf hl hval

/-- C13 as amended, on the empty table: `define_symbol(3, "foo", 0x200)`
succeeds, and a second call on the table it leaves succeeds and leaves the
same table. -/
theorem define_symbol_idempotent_witness :
    ∃ t1 : SymbolTable,
      SymbolTable.create.define_symbol 3 "foo" (Value.known 0x200) = Except.ok t1 ∧
      t1.define_symbol 3 "foo" (Value.known 0x200) = Except.ok t1 :=
  ⟨_, rfl, (define_symbol_idempotent SymbolTable.create 3 "foo" (Value.known 0x200) rfl).1 _ rfl⟩

/-- C14 holds in its first half only: on a table in which `name` is bound,
`lookup_symbol(line, name)` returns the stored value, and the table it leaves
is the table it was given, so `get_symbol_reference_line_numbers(name)` is
the set it was before the call; `line` is a member afterwards only if it was
one before. -/
theorem lookup_symbol_bound (t : SymbolTable) (line : Nat) (name : String) (e : Entry)
    (hf : t.find name = some e) :
    t.lookup_symbol line name = Except.ok (e.value, t) ∧
    (∀ v t', t.lookup_symbol line name = Except.ok (v, t') →
      t'.get_symbol_reference_line_numbers name = Except.ok e.reference_line_numbers ∧
      (line ∉ e.reference_line_numbers →
        ∀ refs, t'.get_symbol_reference_line_numbers name = Except.ok refs → line ∉ refs)) := by
  have h1 : t.lookup_symbol line name = Except.ok (e.value, t) := by
    simp only [SymbolTable.lookup_symbol, hf]
  refine ⟨h1, ?_⟩
  intro v t' h
  rw [h1] at h
  injection h with h
  injection h with _ ht
  subst ht
  have h2 : t.get_symbol_reference_line_numbers name = Except.ok e.reference_line_numbers := by
    simp only [SymbolTable.get_symbol_reference_line_numbers, hf]
  refine ⟨h2, ?_⟩
  intro hn refs hr
  rw [h2] at hr
  injection hr with hr
  subst hr
  exact hn

/-- C14 fails on the table that `define_symbol(1, "foo", 5)` builds from the
empty table: `lookup_symbol(2, "foo")` returns the value 5, and afterwards
`get_symbol_reference_line_numbers("foo")` is the empty set, of which 2 is
not a member. -/
theorem lookup_symbol_bound_witness :
    ∃ t t' : SymbolTable,
      SymbolTable.create.define_symbol 1 "foo" (Value.known 5) = Except.ok t ∧
      t.lookup_symbol 2 "foo" = Except.ok (Value.known 5, t') ∧
      t'.get_symbol_reference_line_numbers "foo" = Except.ok ∅ ∧
      ∀ refs, t'.get_symbol_reference_line_numbers "foo" = Except.ok refs → 2 ∉ refs :=
  have h := lookup_symbol_bound
    { m_lookup_undefined_ok := false,
      m_symbol_table := [("foo", { value := Value.known 5, definition_line_number := 1,
                                    reference_line_numbers := ∅ })] } 2 "foo"
    { value := Value.known 5, definition_line_number := 1, reference_line_numbers := ∅ } rfl
  ⟨_, _, rfl, h.1, (h.2 _ _ h.1).1, (h.2 _ _ h.1).2 (by decide)⟩

/-- C15: on a table in which `name` is unbound, `lookup_symbol(line, name)`
returns, when `m_lookup_undefined_ok` is set, an unknown value whose set of
unknown symbols is `{name}`, and leaves the table as it was, with `name`
unbound; when the flag is clear it throws `SymbolTableError("symbol name
undefined")`. -/
theorem lookup_symbol_unbound (t : SymbolTable) (line : Nat) (name : String)
    (h : t.contains name = false) :
    (t.m_lookup_undefined_ok = true →
      ∃ (v : Value) (t' : SymbolTable), t.lookup_symbol line name = Except.ok (v, t') ∧
        v.isKnown = false ∧ v.get_unknown_symbols = {name} ∧
        t' = t ∧ t'.contains name = false) ∧
    (t.m_lookup_undefined_ok = false →
      t.lookup_symbol line name = Except.error (Error.SymbolTableError_undefined name)) := by
  have hf : t.find name = none := by
    simpa [SymbolTable.contains] using h
  constructor
  · intro hok
    exact ⟨Value.unknown {name}, t,
      by simp only [SymbolTable.lookup_symbol, hf, hok, if_true, Value.create_symbol],
      rfl, rfl, rfl, h⟩
  · intro hok
    simp only [SymbolTable.lookup_symbol, hf, hok, Bool.false_eq_true, if_false]

/-- C15, on the empty table with the flag set (as in pass 1) and with the
flag clear (as in pass 2), for the name `foo` looked up from line 4. -/
theorem lookup_symbol_unbound_witness :
    (∃ (v : Value) (t' : SymbolTable),
      (SymbolTable.create.set_lookup_undefined_ok true).lookup_symbol 4 "foo"
        = Except.ok (v, t') ∧
      v.isKnown = false ∧ v.get_unknown_symbols = {"foo"} ∧
      t' = SymbolTable.create.set_lookup_undefined_ok true ∧ t'.contains "foo" = false) ∧
    SymbolTable.create.lookup_symbol 4 "foo"
      = Except.error (Error.SymbolTableError_undefined "foo") :=
  ⟨(lookup_symbol_unbound (SymbolTable.create.set_lookup_undefined_ok true) 4 "foo"
      (by decide)).1 rfl,
   (lookup_symbol_unbound SymbolTable.create 4 "foo" (by decide)).2 rfl⟩

/-! ## Instruction set -/

/-- C16: no two entries of `s_main_table` have the same opcode, every opcode
is a valid index of the `std::bitset<0x100>`, and the constructor of
`InstructionSet` returns normally on the table: it does not throw "duplicate
opcode". -/
theorem opcodes_unique :
    InstructionSet.s_main_table.Pairwise (fun i j => i.opcode ≠ j.opcode) ∧
    (∀ info ∈ InstructionSet.s_main_table, info.opcode < 0x100) ∧
    (∃ iset : InstructionSet, InstructionSet.create = Except.ok iset) ∧
    (∀ opcode : Nat, InstructionSet.create
      ≠ Except.error (Error.logic_error (LogicErrorKind.duplicate_opcode opcode))) := by
  refine ⟨by decide!, by decide!, ⟨_, InstructionSet.create_eq⟩, ?_⟩
  intro opcode h
  rw [InstructionSet.create_eq] at h
  cases h

open InstructionSet InstructionSet.Mode in
/-- C17: the constructor of `InstructionSet` returns normally on
`s_main_table` (it does not throw "duplicate PAL65 mnemonic"); every entry
of the table is in the list of its key, the mnemonic followed by the dialect
suffix of the mode; and the list of every key holds infos of that key only
and has one info, or two infos of which the first is in zero-page,
zero-page-X or zero-page-Y mode (operand size 1) and the second in the
absolute mode with the same index (operand size 2). -/
theorem dialect_mnemonic_infos :
    InstructionSet.create = Except.ok InstructionSet.pal65 ∧
    (∀ m : String, InstructionSet.create
      ≠ Except.error (Error.logic_error (LogicErrorKind.duplicate_pal65_mnemonic m))) ∧
    (∀ info ∈ s_main_table, ∃ p ∈ InstructionSet.pal65.m_by_mnemonic,
      p.1 = info.mnemonic ++ s_pal65_address_mode_suffixes info.mode ∧ info ∈ p.2) ∧
    (∀ p ∈ InstructionSet.pal65.m_by_mnemonic,
      (∀ info ∈ p.2, p.1 = info.mnemonic ++ s_pal65_address_mode_suffixes info.mode) ∧
      (p.2.length = 1 ∨
        (p.2.map Info.mode ∈ [[ZERO_PAGE, ABSOLUTE], [ZERO_PAGE_X, ABSOLUTE_X],
            [ZERO_PAGE_Y, ABSOLUTE_Y]] ∧
         p.2.map (fun info => operand_size_bytes info.mode) = [1, 2]))) := by
  refine ⟨InstructionSet.create_eq, ?_, by decide!, by decide!⟩
  intro m h
  rw [InstructionSet.create_eq] at h
  cases h

/-! ## Operand evaluation -/

theorem Assembler.evaluate_fields (a a' : Assembler) (e : Expression) (value : Value)
    (h : a.evaluate e = Except.ok (value, a')) :
    ∃ t, a' = { a with m_symbol_table_sp := t } := by
  unfold Assembler.evaluate at h
  split at h
  · cases h
  · split at h
    · cases h
    · rename_i v t _
      injection h with h
      injection h with h1 h2
      exact ⟨t, h2.symm⟩

theorem Assembler.convert_operand_uint16_known (a a' : Assembler) (e : Expression) (v : Nat)
    (h : a.evaluate e = Except.ok (Value.known v, a')) :
    a.convert_operand_uint16 e = Except.ok (v, a') := by
  simp only [Assembler.convert_operand_uint16, h, Value.get]

/-- C3: when the operand evaluates to a known value `v`,
`convert_operand_uint16` returns `v`; when it evaluates to an unknown value
the function returns 0x0100 in pass 1 and throws the `AssemblerError`
"expression evaluation error" in pass 2. -/
theorem convert_operand_uint16_spec (a a' : Assembler) (e : Expression) (value : Value)
    (h : a.evaluate e = Except.ok (value, a')) :
    (∀ v : Nat, value = Value.known v → a.convert_operand_uint16 e = Except.ok (v, a')) ∧
    (∀ s : Finset String, value = Value.unknown s → a.m_pass_number = 1 →
      a.convert_operand_uint16 e = Except.ok (0x0100, a')) ∧
    (∀ s : Finset String, value = Value.unknown s → a.m_pass_number = 2 →
      a.convert_operand_uint16 e = Except.error (Error.AssemblerError a.m_source_line_number
        AssemblerErrorKind.expression_evaluation_error)) := by
  obtain ⟨t, ht⟩ := Assembler.evaluate_fields a a' e value h
  have hp : a'.m_pass_number = a.m_pass_number := by rw [ht]
  have hl : a'.m_source_line_number = a.m_source_line_number := by rw [ht]
  refine ⟨?_, ?_, ?_⟩
  · intro v hv
    subst hv
    simp only [Assembler.convert_operand_uint16, h, Value.get]
  · intro s hs h1
    subst hs
    simp only [Assembler.convert_operand_uint16, h, Value.get, hp, h1, if_true]
  · intro s hs h2
    subst hs
    simp only [Assembler.convert_operand_uint16, h, Value.get, hp, h2, hl]
    rfl

/-- C3, at concrete operands in the state of line 1 at location 0: the
constant 5 in pass 2, the undefined symbol `foo` in pass 1, and a constant
that holds the unknown value `{x}` in pass 2. -/
theorem convert_operand_uint16_spec_witness :
    (∃ a', (Assembler.line_state 2 1 0 SymbolTable.create {}).convert_operand_uint16
      (Expression.Constant (Value.known 5)) = Except.ok (5, a')) ∧
    (∃ a', (Assembler.line_state 1 1 0 SymbolTable.create {}).convert_operand_uint16
      (Expression.Symbol "foo") = Except.ok (0x0100, a')) ∧
    (Assembler.line_state 2 1 0 SymbolTable.create {}).convert_operand_uint16
      (Expression.Constant (Value.unknown {"x"})) =
        Except.error (Error.AssemblerError 1 AssemblerErrorKind.expression_evaluation_error) :=
  ⟨⟨_, (convert_operand_uint16_spec (Assembler.line_state 2 1 0 SymbolTable.create {}) _
      (Expression.Constant (Value.known 5)) (Value.known 5) rfl).1 5 rfl⟩,
   ⟨_, (convert_operand_uint16_spec (Assembler.line_state 1 1 0 SymbolTable.create {}) _
      (Expression.Symbol "foo") (Value.unknown {"foo"}) rfl).2.1 {"foo"} rfl rfl⟩,
   (convert_operand_uint16_spec (Assembler.line_state 2 1 0 SymbolTable.create {}) _
      (Expression.Constant (Value.unknown {"x"})) (Value.unknown {"x"}) rfl).2.2 {"x"} rfl rfl⟩

/-! ## Instruction encoding -/

theorem Assembler.define_symbol_fields (a a' : Assembler) (symbol : String) (value : Value)
    (h : a.define_symbol symbol value = Except.ok a') :
    ∃ t, a' = { a with m_symbol_table_sp := t } := by
  unfold Assembler.define_symbol at h
  split at h
  · cases h
  · rename_i t _
    injection h with h
    exact ⟨t, h.symm⟩

/-- The definition of the label at the head of `assemble_instruction` and of
`assemble_pseudo_op` changes the symbol table only. -/
theorem Assembler.label_fields (a a' : Assembler) (label : String) (value : Value)
    (h : (if label.length ≠ 0 then a.define_symbol label value else Except.ok a)
      = Except.ok a') :
    ∃ t, a' = { a with m_symbol_table_sp := t } := by
  split at h
  · exact Assembler.define_symbol_fields a a' label value h
  · injection h with h
    exact ⟨a.m_symbol_table_sp, h.symm⟩

/-- C1: for a mnemonic with two infos, a zero-page form followed by an
absolute form, and an operand that evaluates to a known 16-bit value `v`,
`assemble_instruction` emits the zero-page opcode and `v` when `v ≤ 0x00FF`,
and the absolute opcode, `v & 0xFF` and `v >> 8` when `v > 0x00FF`. -/
theorem zero_page_absolute_selection (a a1 a2 : Assembler) (statement : Statement)
    (e : Expression) (i0 i1 : InstructionSet.Info) (v : Nat)
    (hs : a.m_statement_sp = some statement)
    (hlabel : (if statement.m_label.length ≠ 0
        then a.define_symbol statement.m_label (Value.create a.m_location_counter)
        else Except.ok a) = Except.ok a1)
    (hmn : statement.m_mnemonic.length ≠ 0)
    (hget : a1.m_instruction_set_sp.get statement.m_mnemonic = Except.ok [i0, i1])
    (hzp : i0.mode = InstructionSet.Mode.ZERO_PAGE ∨ i0.mode = InstructionSet.Mode.ZERO_PAGE_X ∨
      i0.mode = InstructionSet.Mode.ZERO_PAGE_Y)
    (habs : i1.mode = InstructionSet.Mode.ABSOLUTE ∨ i1.mode = InstructionSet.Mode.ABSOLUTE_X ∨
      i1.mode = InstructionSet.Mode.ABSOLUTE_Y)
    (ho0 : i0.opcode < 256) (ho1 : i1.opcode < 256)
    (hops : statement.m_operands = [e])
    (hev : a1.evaluate e = Except.ok (Value.known v, a2))
    (hv : v < 65536) :
    ∃ a' : Assembler, a.assemble_instruction = Except.ok a' ∧
      a'.m_object_code_bytes = a.m_object_code_bytes ++
        (if v ≤ 0x00FF then [i0.opcode, v] else [i1.opcode, v &&& 0xFF, v >>> 8]) := by
  open InstructionSet in
  have hconv := Assembler.convert_operand_uint16_known a1 a2 e v hev
  have hs0 : operand_size_bytes i0.mode = 1 := by
    rcases hzp with h | h | h <;> rw [h] <;> rfl
  have hs1 : operand_size_bytes i1.mode = 2 := by
    rcases habs with h | h | h <;> rw [h] <;> rfl
  have hr0 : i0.mode ≠ Mode.RELATIVE := by
    rcases hzp with h | h | h <;> rw [h] <;> decide
  have hr1 : i1.mode ≠ Mode.RELATIVE := by
    rcases habs with h | h | h <;> rw [h] <;> decide
  obtain ⟨t1, ht1⟩ := Assembler.label_fields a a1 _ _ hlabel
  obtain ⟨t2, ht2⟩ := Assembler.evaluate_fields a1 a2 e _ hev
  have hb : a2.m_object_code_bytes = a.m_object_code_bytes := by rw [ht2, ht1]
  have hlow : (v &&& 255) < 256 := lt_of_le_of_lt Nat.and_le_right (by decide)
  have hhigh : v >>> 8 < 256 := by rw [Nat.shiftRight_eq_div_pow]; omega
  unfold Assembler.assemble_instruction
  simp only [hs, hlabel, hmn, if_false, hget, hs0, hs1, Statement.get_operand_count, hops,
    Statement.get_operand, List.get?, hconv, List.length]
  by_cases hle : v ≤ 255
  · have hgt : ¬ v > 255 := by omega
    simp [Assembler.assemble_instruction_loop, hr0, hs0, hgt, hle, Assembler.emit_byte, hb,
      Nat.mod_eq_of_lt ho0, Nat.mod_eq_of_lt (lt_of_le_of_lt hle (by decide : 255 < 256))]
  · have hgt : v > 255 := by omega
    simp [Assembler.assemble_instruction_loop, hr0, hr1, hs0, hs1, hgt, hle, Assembler.emit_byte,
      Assembler.emit_word, hb, Nat.mod_eq_of_lt ho1, Nat.mod_eq_of_lt hv,
      Nat.mod_eq_of_lt hlow, Nat.mod_eq_of_lt hhigh]


/-- C1, at `lda 255` and `lda $0100` (pass 2, line 2, location 0): the first
emits A5 FF, the second AD 00 01. -/
theorem zero_page_absolute_selection_witness :
    (∃ a' : Assembler,
      (Assembler.line_state 2 2 0 SymbolTable.create
        { m_mnemonic := "lda", m_operands := [Expression.Constant (Value.known 255)] }
        ).assemble_instruction = Except.ok a' ∧
      a'.m_object_code_bytes = [0xA5, 0xFF]) ∧
    (∃ a' : Assembler,
      (Assembler.line_state 2 2 0 SymbolTable.create
        { m_mnemonic := "lda", m_operands := [Expression.Constant (Value.known 0x0100)] }
        ).assemble_instruction = Except.ok a' ∧
      a'.m_object_code_bytes = [0xAD, 0x00, 0x01]) := by
  have h1 := zero_page_absolute_selection
    (Assembler.line_state 2 2 0 SymbolTable.create
      { m_mnemonic := "lda", m_operands := [Expression.Constant (Value.known 255)] }) _ _
    { m_mnemonic := "lda", m_operands := [Expression.Constant (Value.known 255)] }
    (Expression.Constant (Value.known 255))
    ⟨"lda", InstructionSet.Set.BASE, InstructionSet.Mode.ZERO_PAGE, 0xa5⟩
    ⟨"lda", InstructionSet.Set.BASE, InstructionSet.Mode.ABSOLUTE, 0xad⟩ 255
    rfl rfl (by decide) (by decide!) (Or.inl rfl) (Or.inl rfl) (by decide) (by decide) rfl rfl
    (by decide)
  have h2 := zero_page_absolute_selection
    (Assembler.line_state 2 2 0 SymbolTable.create
      { m_mnemonic := "lda", m_operands := [Expression.Constant (Value.known 0x0100)] }) _ _
    { m_mnemonic := "lda", m_operands := [Expression.Constant (Value.known 0x0100)] }
    (Expression.Constant (Value.known 0x0100))
    ⟨"lda", InstructionSet.Set.BASE, InstructionSet.Mode.ZERO_PAGE, 0xa5⟩
    ⟨"lda", InstructionSet.Set.BASE, InstructionSet.Mode.ABSOLUTE, 0xad⟩ 0x0100
    rfl rfl (by decide) (by decide!) (Or.inl rfl) (Or.inl rfl) (by decide) (by decide) rfl rfl
    (by decide)
  exact ⟨h1, h2⟩

/-- C2: each of bcc, bcs, beq, bmi, bne, bpl, bvc, bvs has one info, in
relative mode; and for a mnemonic with one info in relative mode, assembled
in pass 2 at location counter `pc` with an operand of known value `t`, with
`d = t - (pc + 2)`: `assemble_instruction` throws an `AssemblerError` if and
only if `d < -128` or `d > 127` (the error is "relative branch displacement d
out of range"), and otherwise emits the opcode and `d mod 256`. -/
theorem relative_branch_pass2 :
    (∀ m ∈ ["bcc", "bcs", "beq", "bmi", "bne", "bpl", "bvc", "bvs"],
      ∃ info : InstructionSet.Info, InstructionSet.pal65.get m = Except.ok [info] ∧
        info.mode = InstructionSet.Mode.RELATIVE ∧ info.opcode < 256) ∧
    (∀ (a a1 a2 : Assembler) (statement : Statement) (e : Expression)
      (info : InstructionSet.Info)
      (t : Nat) (d : Int),
      a.m_statement_sp = some statement →
      (if statement.m_label.length ≠ 0
        then a.define_symbol statement.m_label (Value.create a.m_location_counter)
        else Except.ok a) = Except.ok a1 →
      statement.m_mnemonic.length ≠ 0 →
      a1.m_instruction_set_sp.get statement.m_mnemonic = Except.ok [info] →
      info.mode = InstructionSet.Mode.RELATIVE → info.opcode < 256 →
      statement.m_operands = [e] →
      a1.evaluate e = Except.ok (Value.known t, a2) →
      a.m_pass_number = 2 →
      d = (t : Int) - ((a.m_location_counter : Int) + 2) →
      ((∃ (n : Nat) (k : AssemblerErrorKind),
          a.assemble_instruction = Except.error (Error.AssemblerError n k)) ↔
        (d < -128 ∨ d > 127)) ∧
      ((d < -128 ∨ d > 127) →
        a.assemble_instruction = Except.error (Error.AssemblerError a.m_source_line_number
          (AssemblerErrorKind.displacement_out_of_range d))) ∧
      ((-128 ≤ d ∧ d ≤ 127) →
        ∃ a' : Assembler, a.assemble_instruction = Except.ok a' ∧
          a'.m_object_code_bytes = a.m_object_code_bytes ++ [info.opcode, (d % 256).toNat])) := by
  open InstructionSet in
  constructor
  · intro m hm
    simp only [List.mem_cons, List.mem_singleton, List.not_mem_nil, or_false] at hm
    rcases hm with rfl | rfl | rfl | rfl | rfl | rfl | rfl | rfl <;>
      exact ⟨_, rfl, rfl, by decide⟩
  · intro a a1 a2 statement e info t d hs hlabel hmn hget hrel ho hops hev hpass hd
    have hconv := Assembler.convert_operand_uint16_known a1 a2 e t hev
    have hsz : operand_size_bytes info.mode = 1 := by rw [hrel]; rfl
    obtain ⟨t1, ht1⟩ := Assembler.label_fields a a1 _ _ hlabel
    obtain ⟨t2, ht2⟩ := Assembler.evaluate_fields a1 a2 e _ hev
    have hb : a2.m_object_code_bytes = a.m_object_code_bytes := by rw [ht2, ht1]
    have hp : a2.m_pass_number = 2 := by rw [ht2, ht1]; exact hpass
    have hlc : a2.m_location_counter = a.m_location_counter := by rw [ht2, ht1]
    have hln : a2.m_source_line_number = a.m_source_line_number := by rw [ht2, ht1]
    have hbad : (d < -128 ∨ d > 127) →
        a.assemble_instruction = Except.error (Error.AssemblerError a.m_source_line_number
          (AssemblerErrorKind.displacement_out_of_range d)) := by
      intro hout
      unfold Assembler.assemble_instruction
      simp only [hs, hlabel, hmn, if_false, hget, hsz, Statement.get_operand_count, hops,
        Statement.get_operand, List.get?, hconv, List.length]
      simp [Assembler.assemble_instruction_loop, hrel, hp, hlc, hln, ← hd, hout]
    have hgood : (-128 ≤ d ∧ d ≤ 127) →
        ∃ a' : Assembler, a.assemble_instruction = Except.ok a' ∧
          a'.m_object_code_bytes = a.m_object_code_bytes ++ [info.opcode, (d % 256).toNat] := by
      intro hin
      have hnot : ¬ (d < -128 ∨ d > 127) := by omega
      have hlt : (d % 256).toNat < 256 := by omega
      have hu : uint16 (d % 256) = (d % 256).toNat := by
        unfold uint16
        congr 1
        omega
      unfold Assembler.assemble_instruction
      simp only [hs, hlabel, hmn, if_false, hget, hsz, Statement.get_operand_count, hops,
        Statement.get_operand, List.get?, hconv, List.length]
      simp [Assembler.assemble_instruction_loop, hrel, hp, hlc, ← hd, hnot, Assembler.emit_byte,
        hb, Nat.mod_eq_of_lt ho, hu, Nat.mod_eq_of_lt hlt]
    refine ⟨⟨?_, ?_⟩, hbad, hgood⟩
    · rintro ⟨n, k, hfail⟩
      by_contra hnot
      obtain ⟨a', hok, _⟩ := hgood (by omega)
      rw [hok] at hfail
      cases hfail
    · intro hout
      exact ⟨_, _, hbad hout⟩


/-- C2, at `bne` in pass 2 at location 0x1000: the target 0x0F82
(displacement -128) emits D0 80, and the target 0x0F81 (displacement -129)
throws. -/
theorem relative_branch_pass2_witness :
    (∃ a' : Assembler,
      (Assembler.line_state 2 7 0x1000 SymbolTable.create
        { m_mnemonic := "bne", m_operands := [Expression.Constant (Value.known 0x0F82)] }
        ).assemble_instruction = Except.ok a' ∧
      a'.m_object_code_bytes = [0xD0, 0x80]) ∧
    (Assembler.line_state 2 7 0x1000 SymbolTable.create
        { m_mnemonic := "bne", m_operands := [Expression.Constant (Value.known 0x0F81)] }
        ).assemble_instruction =
      Except.error (Error.AssemblerError 7 (AssemblerErrorKind.displacement_out_of_range (-129))) := by
  have h1 := (relative_branch_pass2.2
    (Assembler.line_state 2 7 0x1000 SymbolTable.create
      { m_mnemonic := "bne", m_operands := [Expression.Constant (Value.known 0x0F82)] }) _ _
    { m_mnemonic := "bne", m_operands := [Expression.Constant (Value.known 0x0F82)] }
    (Expression.Constant (Value.known 0x0F82))
    ⟨"bne", InstructionSet.Set.BASE, InstructionSet.Mode.RELATIVE, 0xd0⟩ 0x0F82 (-128)
    rfl rfl (by decide) (by decide!) rfl (by decide) rfl rfl rfl (by decide)).2.2
    (by decide)
  have h2 := (relative_branch_pass2.2
    (Assembler.line_state 2 7 0x1000 SymbolTable.create
      { m_mnemonic := "bne", m_operands := [Expression.Constant (Value.known 0x0F81)] }) _ _
    { m_mnemonic := "bne", m_operands := [Expression.Constant (Value.known 0x0F81)] }
    (Expression.Constant (Value.known 0x0F81))
    ⟨"bne", InstructionSet.Set.BASE, InstructionSet.Mode.RELATIVE, 0xd0⟩ 0x0F81 (-129)
    rfl rfl (by decide) (by decide!) rfl (by decide) rfl rfl rfl (by decide)).2.1
    (by decide)
  exact ⟨h1, h2⟩

/-! ## The two passes -/

theorem Assembler.assemble_pass_one (a : Assembler) (source_file : List String) :
    a.assemble_pass source_file 1 = Assembler.assemble_pass_loop source_file (a.begin_pass 1) := by
  unfold Assembler.assemble_pass
  rw [if_neg (by decide)]

theorem Assembler.assemble_pass_two (a : Assembler) (source_file : List String) :
    a.assemble_pass source_file 2 = Assembler.assemble_pass_loop source_file (a.begin_pass 2) := by
  unfold Assembler.assemble_pass
  rw [if_neg (by decide)]

theorem Assembler.assemble_pass_loop_cons (a : Assembler) (line : String) (rest : List String)
    (h : a.m_end_reached = false) :
    Assembler.assemble_pass_loop (line :: rest) a =
      match a.assemble_pass_line line with
      | Except.error e => Except.error e
      | Except.ok a => Assembler.assemble_pass_loop rest a := by
  simp only [Assembler.assemble_pass_loop, h, Bool.false_eq_true, if_false]

set_option maxRecDepth 100000 in
set_option maxHeartbeats 4000000 in
/-- The first line `.loc $100` in pass 1 leaves the same state whatever the
location counter was before. -/
theorem loc_0100_first_line (lc : Nat) :
    Assembler.assemble_pass_line ((Assembler.construct InstructionSet.pal65 lc).begin_pass 1)
      ".loc $100"
    = Except.ok
      { (Assembler.construct InstructionSet.pal65 0x100).begin_pass 1 with
        m_source_line := ".loc $100"
        m_source_line_number := 1
        m_statement_sp := some { m_mnemonic := ".loc",
                                 m_operands := [Expression.Constant (Value.known 0x100)] }
        m_object_code_address := 0x100
        m_listing_show_address := true } := by
  rfl

set_option maxRecDepth 100000 in
/-- C6: whatever value the location counter holds at the start, the two
passes over the five-line source succeed and the object file is
`*0100D001EA60`; the branch of line 2 emits two bytes in pass 1 (D0 FE, the
operand being unknown) and D0 01 in pass 2. -/
theorem forward_branch_scenario (lc : Nat) :
    ∃ a0 a1 a2 s1 s2 : Assembler,
      Assembler.create lc = Except.ok a0 ∧
      getlines ".loc $100\nstart: bne end\n       nop\nend:   rts\n.end\n"
        = [".loc $100", "start: bne end", "       nop", "end:   rts", ".end"] ∧
      a0.assemble_pass [".loc $100", "start: bne end", "       nop", "end:   rts", ".end"] 1
        = Except.ok a1 ∧
      a1.assemble_pass [".loc $100", "start: bne end", "       nop", "end:   rts", ".end"] 2
        = Except.ok a2 ∧
      assemble_source lc ".loc $100\nstart: bne end\n       nop\nend:   rts\n.end\n"
        = Except.ok a2 ∧
      a2.m_object_file = "*0100D001EA60" ∧
      a0.assemble_pass [".loc $100", "start: bne end"] 1 = Except.ok s1 ∧
      s1.m_object_code_bytes = [0xD0, 0xFE] ∧
      a1.assemble_pass [".loc $100", "start: bne end"] 2 = Except.ok s2 ∧
      s2.m_object_code_bytes = [0xD0, 0x01] := by
  have hlines : getlines ".loc $100\nstart: bne end\n       nop\nend:   rts\n.end\n"
      = [".loc $100", "start: bne end", "       nop", "end:   rts", ".end"] := by decide!
  have hp1 : ∀ rest : List String,
      (Assembler.construct InstructionSet.pal65 lc).assemble_pass (".loc $100" :: rest) 1
      = Assembler.assemble_pass_loop rest
        { (Assembler.construct InstructionSet.pal65 0x100).begin_pass 1 with
          m_source_line := ".loc $100"
          m_source_line_number := 1
          m_statement_sp := some { m_mnemonic := ".loc",
                                   m_operands := [Expression.Constant (Value.known 0x100)] }
          m_object_code_address := 0x100
          m_listing_show_address := true } := by
    intro rest
    rw [Assembler.assemble_pass_one, Assembler.assemble_pass_loop_cons _ _ _ rfl,
      loc_0100_first_line]
  have key : returns (Assembler.assemble_pass_loop
        ["start: bne end", "       nop", "end:   rts", ".end"]
        { (Assembler.construct InstructionSet.pal65 0x100).begin_pass 1 with
          m_source_line := ".loc $100"
          m_source_line_number := 1
          m_statement_sp := some { m_mnemonic := ".loc",
                                   m_operands := [Expression.Constant (Value.known 0x100)] }
          m_object_code_address := 0x100
          m_listing_show_address := true })
      (fun a1 =>
        returns (a1.assemble_pass
            [".loc $100", "start: bne end", "       nop", "end:   rts", ".end"] 2)
          (fun a2 => decide (a2.m_object_file = "*0100D001EA60")) &&
        returns (a1.assemble_pass [".loc $100", "start: bne end"] 2)
          (fun s2 => decide (s2.m_object_code_bytes = [0xD0, 0x01]))) = true := by
    decide!
  have key1 : returns (Assembler.assemble_pass_loop ["start: bne end"]
        { (Assembler.construct InstructionSet.pal65 0x100).begin_pass 1 with
          m_source_line := ".loc $100"
          m_source_line_number := 1
          m_statement_sp := some { m_mnemonic := ".loc",
                                   m_operands := [Expression.Constant (Value.known 0x100)] }
          m_object_code_address := 0x100
          m_listing_show_address := true })
      (fun s1 => decide (s1.m_object_code_bytes = [0xD0, 0xFE])) = true := by
    decide!
  obtain ⟨a1, h1, hk⟩ := (returns_iff _ _).1 key
  obtain ⟨hk1, hk2⟩ := and_true_split hk
  obtain ⟨a2, h2, ho⟩ := (returns_iff _ _).1 hk1
  obtain ⟨s2, h3, hb2⟩ := (returns_iff _ _).1 hk2
  obtain ⟨s1, h4, hb1⟩ := (returns_iff _ _).1 key1
  refine ⟨Assembler.construct InstructionSet.pal65 lc, a1, a2, s1, s2, ?_, hlines, ?_, h2, ?_,
    of_decide_eq_true ho, ?_, of_decide_eq_true hb1, h3, of_decide_eq_true hb2⟩
  · exact Assembler.create_pal65 _
  · rw [hp1]; exact h1
  · rw [assemble_source_eq, hlines]
    unfold Assembler.assemble
    rw [hp1, h1]
    exact h2
  · rw [hp1]; exact h4

set_option maxRecDepth 100000 in
/-- C5 at the source `.loc $10` / `    lda foo` / `foo: nop` / `.end`: pass 1
stores 0x13 for `foo` (the forward reference of line 2 is sized as an
absolute operand); pass 2 reaches line 3 with the location counter 0x12, the
definition of `foo` that it issues there carries 0x12, `define_symbol`
accepts it, and the table still holds 0x13 at the end of pass 2. -/
theorem pass2_definition_differs :
    ∃ a0 a1 s2 a2 : Assembler,
      Assembler.create 0 = Except.ok a0 ∧
      a0.assemble_pass [".loc $10", "    lda foo", "foo: nop", ".end"] 1 = Except.ok a1 ∧
      (a1.m_symbol_table_sp.find "foo").map Entry.value = some (Value.known 0x13) ∧
      a1.assemble_pass [".loc $10", "    lda foo"] 2 = Except.ok s2 ∧
      s2.m_location_counter = 0x12 ∧
      s2.m_symbol_table_sp.define_symbol 3 "foo" (Value.create 0x12)
        = Except.ok s2.m_symbol_table_sp ∧
      a1.assemble_pass [".loc $10", "    lda foo", "foo: nop", ".end"] 2 = Except.ok a2 ∧
      (a2.m_symbol_table_sp.find "foo").map Entry.value = some (Value.known 0x13) := by
  have key : returns ((Assembler.construct InstructionSet.pal65 0).assemble_pass
        [".loc $10", "    lda foo", "foo: nop", ".end"] 1)
      (fun a1 =>
        decide ((a1.m_symbol_table_sp.find "foo").map Entry.value = some (Value.known 0x13)) &&
        returns (a1.assemble_pass [".loc $10", "    lda foo"] 2)
          (fun s2 => decide (s2.m_location_counter = 0x12) &&
            decide (s2.m_symbol_table_sp.define_symbol 3 "foo" (Value.create 0x12)
              = Except.ok s2.m_symbol_table_sp)) &&
        returns (a1.assemble_pass [".loc $10", "    lda foo", "foo: nop", ".end"] 2)
          (fun a2 => decide ((a2.m_symbol_table_sp.find "foo").map Entry.value
            = some (Value.known 0x13)))) = true := by
    decide!
  obtain ⟨a1, h1, hk⟩ := (returns_iff _ _).1 key
  obtain ⟨hvs, ha⟩ := and_true_split hk
  obtain ⟨hv, hs⟩ := and_true_split hvs
  obtain ⟨s2, h2, hs2⟩ := (returns_iff _ _).1 hs
  obtain ⟨a2, h3, hv2⟩ := (returns_iff _ _).1 ha
  obtain ⟨hlc, hdef⟩ := and_true_split hs2
  refine ⟨Assembler.construct InstructionSet.pal65 0, a1, s2, a2, ?_, h1, of_decide_eq_true hv,
    h2, of_decide_eq_true hlc, of_decide_eq_true hdef, h3, of_decide_eq_true hv2⟩
  exact Assembler.create_pal65 _

set_option maxRecDepth 100000 in
/-- C4 fails at the source `.loc 0` / `    lda foo` / `.def foo = 5` / `.end`:
both passes run to the end without error, line 2 emits the three bytes
AD 00 01 in pass 1 and the two bytes A5 05 in pass 2. -/
theorem byte_count_differs :
    ∃ a0 a1 a2 s1 s2 : Assembler,
      Assembler.create 0 = Except.ok a0 ∧
      a0.assemble_pass [".loc 0", "    lda foo", ".def foo = 5", ".end"] 1 = Except.ok a1 ∧
      a1.assemble_pass [".loc 0", "    lda foo", ".def foo = 5", ".end"] 2 = Except.ok a2 ∧
      a0.assemble_pass [".loc 0", "    lda foo"] 1 = Except.ok s1 ∧
      a1.assemble_pass [".loc 0", "    lda foo"] 2 = Except.ok s2 ∧
      s1.m_object_code_bytes = [0xAD, 0x00, 0x01] ∧
      s2.m_object_code_bytes = [0xA5, 0x05] ∧
      s1.m_object_code_bytes.length ≠ s2.m_object_code_bytes.length := by
  have key : returns ((Assembler.construct InstructionSet.pal65 0).assemble_pass
        [".loc 0", "    lda foo", ".def foo = 5", ".end"] 1)
      (fun a1 =>
        returns (a1.assemble_pass [".loc 0", "    lda foo", ".def foo = 5", ".end"] 2)
          (fun _ => true) &&
        returns (a1.assemble_pass [".loc 0", "    lda foo"] 2)
          (fun s2 => decide (s2.m_object_code_bytes = [0xA5, 0x05]))) = true := by
    decide!
  have key1 : returns ((Assembler.construct InstructionSet.pal65 0).assemble_pass
        [".loc 0", "    lda foo"] 1)
      (fun s1 => decide (s1.m_object_code_bytes = [0xAD, 0x00, 0x01])) = true := by
    decide!
  obtain ⟨a1, h1, hk⟩ := (returns_iff _ _).1 key
  obtain ⟨hk1, hk2⟩ := and_true_split hk
  obtain ⟨a2, h2, _⟩ := (returns_iff _ _).1 hk1
  obtain ⟨s2, h3, hb2⟩ := (returns_iff _ _).1 hk2
  obtain ⟨s1, h4, hb1⟩ := (returns_iff _ _).1 key1
  have hb1 := of_decide_eq_true hb1
  have hb2 := of_decide_eq_true hb2
  refine ⟨Assembler.construct InstructionSet.pal65 0, a1, a2, s1, s2, ?_, h1, h2, h4, h3,
    hb1, hb2, ?_⟩
  · exact Assembler.create_pal65 _
  · rw [hb1, hb2]; decide

/-! ## Byte counts of a line -/

theorem Assembler.convert_fields (a a' : Assembler) (e : Expression) (v : Nat)
    (h : a.convert_operand_uint16 e = Except.ok (v, a')) :
    ∃ t, a' = { a with m_symbol_table_sp := t } := by
  unfold Assembler.convert_operand_uint16 at h
  split at h
  · cases h
  · rename_i value_sp a1 hev
    obtain ⟨t, ht⟩ := Assembler.evaluate_fields a a1 e value_sp hev
    split at h
    · injection h with h; injection h with h1 h2; exact ⟨t, by rw [← h2, ht]⟩
    · split at h
      · injection h with h; injection h with h1 h2; exact ⟨t, by rw [← h2, ht]⟩
      · cases h
    · cases h

theorem Assembler.emit_byte_length (a : Assembler) (byte : Nat) :
    (a.emit_byte byte).m_object_code_bytes.length = a.m_object_code_bytes.length + 1 := by
  simp [Assembler.emit_byte]

theorem Assembler.emit_word_length (a : Assembler) (word : Nat) :
    (a.emit_word word).m_object_code_bytes.length = a.m_object_code_bytes.length + 2 := by
  simp [Assembler.emit_word]

theorem Assembler.assemble_operands_loop_length (emit : Assembler → Nat → Assembler) (n : Nat)
    (hemit : ∀ a v, (emit a v).m_object_code_bytes.length = a.m_object_code_bytes.length + n)
    (operands : List Expression) :
    ∀ a a' : Assembler, Assembler.assemble_operands_loop emit operands a = Except.ok a' →
      a'.m_object_code_bytes.length = a.m_object_code_bytes.length + n * operands.length := by
  induction operands with
  | nil =>
    intro a a' h
    simp only [Assembler.assemble_operands_loop] at h
    injection h with h
    simp [h]
  | cons e rest ih =>
    intro a a' h
    simp only [Assembler.assemble_operands_loop] at h
    split at h
    · cases h
    · rename_i value a1 hc
      obtain ⟨t, ht⟩ := Assembler.convert_fields a a1 e value hc
      have := ih _ _ h
      rw [this, hemit, ht]
      simp only [List.length_cons]
      ring

theorem Assembler.assemble_pseudo_op_ascii_length (a a' : Assembler) (st : Statement)
    (h : a.assemble_pseudo_op_ascii st = Except.ok a') :
    ∃ string, st.m_operands.get? 0 = some (Expression.StringConstant string) ∧
      a'.m_object_code_bytes.length = a.m_object_code_bytes.length + string.data.length := by
  unfold Assembler.assemble_pseudo_op_ascii Statement.get_operand at h
  split at h
  · cases h
  · rename_i operand_sp hop
    split at hop
    · cases hop
    · rename_i e he
      injection hop with hop
      subst hop
      split at h
      · rename_i string
        refine ⟨string, he, ?_⟩
        injection h with h
        subst h
        have : ∀ (cs : List Char) (a : Assembler),
            (cs.foldl (fun a c => a.emit_byte c.toNat) a).m_object_code_bytes.length
              = a.m_object_code_bytes.length + cs.length := by
          intro cs
          induction cs with
          | nil => intro a; simp
          | cons c cs ih =>
            intro a
            simp only [List.foldl_cons, List.length_cons]
            rw [ih, Assembler.emit_byte_length]
            ring
        exact this _ _
      · cases h

theorem Assembler.assemble_pseudo_op_byte_length (a a' : Assembler) (st : Statement)
    (h : a.assemble_pseudo_op_byte st = Except.ok a') :
    a'.m_object_code_bytes.length = a.m_object_code_bytes.length +
      (if st.m_operands.length = 0 then 1 else st.m_operands.length) := by
  unfold Assembler.assemble_pseudo_op_byte Statement.get_operand_count at h
  split at h
  · rename_i h0
    injection h with h
    rw [← h, Assembler.emit_byte_length, if_pos h0]
  · rename_i h0
    rw [if_neg h0]
    have := Assembler.assemble_operands_loop_length _ 1
      (fun a v => Assembler.emit_byte_length a _) st.m_operands a a' h
    rw [this]; ring

theorem Assembler.assemble_pseudo_op_hbyte_length (a a' : Assembler) (st : Statement)
    (h : a.assemble_pseudo_op_hbyte st = Except.ok a') :
    a'.m_object_code_bytes.length = a.m_object_code_bytes.length +
      (if st.m_operands.length = 0 then 1 else st.m_operands.length) := by
  unfold Assembler.assemble_pseudo_op_hbyte Statement.get_operand_count at h
  split at h
  · rename_i h0
    injection h with h
    rw [← h, Assembler.emit_byte_length, if_pos h0]
  · rename_i h0
    rw [if_neg h0]
    have := Assembler.assemble_operands_loop_length _ 1
      (fun a v => Assembler.emit_byte_length a _) st.m_operands a a' h
    rw [this]; ring

theorem Assembler.assemble_pseudo_op_word_length (a a' : Assembler) (st : Statement)
    (h : a.assemble_pseudo_op_word st = Except.ok a') :
    a'.m_object_code_bytes.length = a.m_object_code_bytes.length +
      (if st.m_operands.length = 0 then 2 else 2 * st.m_operands.length) := by
  unfold Assembler.assemble_pseudo_op_word Statement.get_operand_count at h
  split at h
  · rename_i h0
    injection h with h
    rw [← h, Assembler.emit_word_length, if_pos h0]
  · rename_i h0
    rw [if_neg h0]
    exact Assembler.assemble_operands_loop_length _ 2
      (fun a v => Assembler.emit_word_length a _) st.m_operands a a' h

theorem Assembler.assemble_pseudo_op_def_length (a a' : Assembler) (st : Statement)
    (h : a.assemble_pseudo_op_def st = Except.ok a') :
    a'.m_object_code_bytes.length = a.m_object_code_bytes.length := by
  unfold Assembler.assemble_pseudo_op_def at h
  split at h
  · cases h
  · split at h
    · cases h
    · split at h
      · cases h
      · rename_i value a1 hc
        obtain ⟨t, ht⟩ := Assembler.convert_fields _ _ _ _ hc
        split at h
        · split at h
          · cases h
          · rename_i a2 hd
            obtain ⟨t2, ht2⟩ := Assembler.define_symbol_fields _ _ _ _ hd
            injection h with h
            rw [← h, ht2, ht]
        · cases h

theorem Assembler.assemble_pseudo_op_loc_length (a a' : Assembler) (st : Statement)
    (h : a.assemble_pseudo_op_loc st = Except.ok a') :
    a'.m_object_code_bytes.length = a.m_object_code_bytes.length := by
  unfold Assembler.assemble_pseudo_op_loc at h
  split at h
  · cases h
  · split at h
    · cases h
    · rename_i addr a1 hc
      obtain ⟨t, ht⟩ := Assembler.convert_fields _ _ _ _ hc
      injection h with h
      rw [← h, ht]

theorem InstructionSet.operand_size_bytes_le (mode : InstructionSet.Mode) :
    InstructionSet.operand_size_bytes mode ≤ 2 := by
  cases mode <;> decide

theorem Assembler.assemble_instruction_loop_single (a : Assembler) (i : InstructionSet.Info)
    (locals locals' : Assembler.InstructionLocals)
    (h : a.assemble_instruction_loop 1 [i] locals = Except.ok locals') :
    locals'.operand_size = InstructionSet.operand_size_bytes i.mode := by
  simp only [Assembler.assemble_instruction_loop] at h
  split at h
  · rename_i hrel
    split at h
    · cases h
    · injection h with h
      rw [← h, hrel]
      rfl
  · simp only [true_or, if_true] at h
    injection h with h
    rw [← h]

theorem Assembler.assemble_instruction_loop_pair (a : Assembler) (i0 i1 : InstructionSet.Info)
    (locals locals' : Assembler.InstructionLocals)
    (h0 : InstructionSet.operand_size_bytes i0.mode = 1)
    (h1 : InstructionSet.operand_size_bytes i1.mode = 2)
    (hl : locals.operand_size = 1 ∨ locals.operand_size = 2)
    (h : a.assemble_instruction_loop 2 [i0, i1] locals = Except.ok locals') :
    locals'.operand_size = 1 ∨ locals'.operand_size = 2 := by
  have hr1 : i1.mode ≠ InstructionSet.Mode.RELATIVE := by
    intro hc
    rw [hc] at h1
    exact absurd h1 (by decide)
  simp only [Assembler.assemble_instruction_loop, hr1, if_false, h0, h1] at h
  split at h
  · split at h
    · cases h
    · simp at h
      right
      rw [← h]
  · split at h
    · injection h with h
      left
      rw [← h]
    · split at h
      · injection h with h
        right
        rw [← h]
      · rename_i hn1 hn2
        exfalso
        rcases hl with hl | hl <;> rw [hl] at hn1 hn2 <;> simp at hn1 hn2

theorem Assembler.emit_operand_length (a a' : Assembler)
    (locals : Assembler.InstructionLocals) (hsz : locals.operand_size ≤ 2)
    (h : (match locals.operand_size with
        | 0 => Except.ok (a.emit_byte locals.opcode)
        | 1 => Except.ok ((a.emit_byte locals.opcode).emit_byte locals.operand_value)
        | 2 => Except.ok ((a.emit_byte locals.opcode).emit_word locals.operand_value)
        | _ => (Except.ok (a.emit_byte locals.opcode) : Except Error Assembler)) = Except.ok a') :
    a'.m_object_code_bytes.length = a.m_object_code_bytes.length + 1 + locals.operand_size := by
  split at h
  · rename_i h0
    injection h with h
    rw [← h, h0, Assembler.emit_byte_length]
  · rename_i h0
    injection h with h
    rw [← h, h0, Assembler.emit_byte_length, Assembler.emit_byte_length]
  · rename_i h0
    injection h with h
    rw [← h, h0, Assembler.emit_word_length, Assembler.emit_byte_length]
  · rename_i _ h0 h1 h2
    exfalso
    have : locals.operand_size = 0 ∨ locals.operand_size = 1 ∨ locals.operand_size = 2 := by
      omega
    rcases this with h | h | h
    · exact h0 h
    · exact h1 h
    · exact h2 h

theorem Assembler.assemble_instruction_length (a a' : Assembler) (st : Statement)
    (hs : a.m_statement_sp = some st) (h : a.assemble_instruction = Except.ok a') :
    (st.m_mnemonic.length = 0 ∧
      a'.m_object_code_bytes.length = a.m_object_code_bytes.length) ∨
    (st.m_mnemonic.length ≠ 0 ∧
     ∃ infos, a.m_instruction_set_sp.get st.m_mnemonic = Except.ok infos ∧
      ((∃ i, infos = [i] ∧ a'.m_object_code_bytes.length =
          a.m_object_code_bytes.length + 1 + InstructionSet.operand_size_bytes i.mode) ∨
       (∃ i0 i1, infos = [i0, i1] ∧
          (a'.m_object_code_bytes.length = a.m_object_code_bytes.length + 2 ∨
           a'.m_object_code_bytes.length = a.m_object_code_bytes.length + 3)))) := by
  unfold Assembler.assemble_instruction at h
  simp only [hs] at h
  split at h
  · cases h
  · rename_i a1 hlabel
    obtain ⟨t1, ht1⟩ := Assembler.label_fields _ _ _ _ hlabel
    have hb1 : a1.m_object_code_bytes = a.m_object_code_bytes := by rw [ht1]
    split at h
    · rename_i hm
      left
      injection h with h
      exact ⟨hm, by rw [← h, ht1]⟩
    · rename_i hm
      right
      refine ⟨hm, ?_⟩
      split at h
      · cases h
      · rename_i infos hget
        have hget' : a.m_instruction_set_sp.get st.m_mnemonic = Except.ok infos := by
          rw [ht1] at hget; exact hget
        refine ⟨infos, hget', ?_⟩
        rcases infos with _ | ⟨i0, _ | ⟨i1, _ | ⟨i2, rest⟩⟩⟩
        · simp at h
        · left
          refine ⟨i0, rfl, ?_⟩
          simp only [List.length_singleton, List.head?_cons] at h
          by_cases hsz : InstructionSet.operand_size_bytes i0.mode > 0
          · simp only [hsz, decide_True, if_true, Bool.not_true, Bool.false_eq_true,
              if_false] at h
            split at h
            · cases h
            · split at h
              · cases h
              · rename_i locals a2 hsel
                split at hsel
                · cases hsel
                · split at hsel
                  · cases hsel
                  · rename_i v a3 hc
                    obtain ⟨t3, ht3⟩ := Assembler.convert_fields _ _ _ _ hc
                    split at hsel
                    · cases hsel
                    · rename_i locals3 hloop
                      split at hsel
                      · cases hsel
                      · injection hsel with hsel
                        injection hsel with hl ha
                        have hls := Assembler.assemble_instruction_loop_single _ _ _ _ hloop
                        rw [hl] at hls
                        have := Assembler.emit_operand_length a2 a' locals
                          (by rw [hls]; exact InstructionSet.operand_size_bytes_le _) h
                        rw [this, hls, ← ha, ht3, hb1]
          · simp only [hsz, decide_False, Bool.false_eq_true, if_false, Bool.not_false,
              if_true] at h
            have hsz0 : InstructionSet.operand_size_bytes i0.mode = 0 := by omega
            split at h
            · cases h
            · have := Assembler.emit_operand_length a1 a'
                { found := true, opcode := i0.opcode, operand_value := 0, operand_size := 0 }
                (Nat.zero_le 2) h
              rw [this, hsz0, hb1]
        · right
          refine ⟨i0, i1, rfl, ?_⟩
          simp only [List.length_cons, List.length_nil] at h
          by_cases hmodes : InstructionSet.operand_size_bytes i0.mode ≠ 1 ∨
              InstructionSet.operand_size_bytes i1.mode ≠ 2
          · simp only [hmodes, if_true] at h
            cases h
          · have hm0 : InstructionSet.operand_size_bytes i0.mode = 1 := by
              by_contra hc; exact hmodes (Or.inl hc)
            have hm1 : InstructionSet.operand_size_bytes i1.mode = 2 := by
              by_contra hc; exact hmodes (Or.inr hc)
            simp only [hmodes, if_false, if_true, Bool.not_true, Bool.false_eq_true] at h
            split at h
            · cases h
            · split at h
              · cases h
              · rename_i locals a2 hsel
                split at hsel
                · cases hsel
                · split at hsel
                  · cases hsel
                  · rename_i v a3 hc
                    obtain ⟨t3, ht3⟩ := Assembler.convert_fields _ _ _ _ hc
                    split at hsel
                    · cases hsel
                    · rename_i locals3 hloop
                      split at hsel
                      · cases hsel
                      · injection hsel with hsel
                        injection hsel with hl ha
                        have hls := Assembler.assemble_instruction_loop_pair _ _ _ _ _ hm0 hm1
                          (by simp only; split <;> simp) hloop
                        rw [hl] at hls
                        have := Assembler.emit_operand_length a2 a' locals (by omega) h
                        rw [this, ← ha, ht3, hb1]
                        rcases hls with hls | hls
                        · left; rw [hls]
                        · right; rw [hls]
        · simp at h

open PseudoOp.PseudoOpEnum in
theorem Assembler.assemble_pseudo_op_length (a a' : Assembler) (st : Statement)
    (hs : a.m_statement_sp = some st) (h : a.assemble_pseudo_op = Except.ok a') :
    ∃ info, PseudoOp.lookup_mnemonic st.m_mnemonic = Except.ok info ∧
      match info.pseudo_op with
      | ASCII => ∃ string, st.m_operands.get? 0 = some (Expression.StringConstant string) ∧
          a'.m_object_code_bytes.length = a.m_object_code_bytes.length + string.data.length
      | BYTE => a'.m_object_code_bytes.length = a.m_object_code_bytes.length +
          (if st.m_operands.length = 0 then 1 else st.m_operands.length)
      | HBYTE => a'.m_object_code_bytes.length = a.m_object_code_bytes.length +
          (if st.m_operands.length = 0 then 1 else st.m_operands.length)
      | WORD => a'.m_object_code_bytes.length = a.m_object_code_bytes.length +
          (if st.m_operands.length = 0 then 2 else 2 * st.m_operands.length)
      | LINK => False
      | _ => a'.m_object_code_bytes.length = a.m_object_code_bytes.length := by
  unfold Assembler.assemble_pseudo_op at h
  simp only [hs] at h
  split at h
  · cases h
  · rename_i info hinfo
    refine ⟨info, hinfo, ?_⟩
    split at h
    · cases h
    · rename_i a1 hlabel
      have hb1 : a1.m_object_code_bytes = a.m_object_code_bytes := by
        split at hlabel
        · split at hlabel
          · cases hlabel
          · split at hlabel
            · obtain ⟨t, ht⟩ := Assembler.define_symbol_fields _ _ _ _ hlabel
              rw [ht]
            · injection hlabel with hlabel; rw [hlabel]
        · injection hlabel with hlabel; rw [hlabel]
      unfold Assembler.s_assemble_pseudo_op_fn_ptrs at h
      cases hp : info.pseudo_op <;> simp only [hp] at h ⊢
      · obtain ⟨string, h1, h2⟩ := Assembler.assemble_pseudo_op_ascii_length _ _ _ h
        exact ⟨string, h1, by rw [h2, hb1]⟩
      · rw [Assembler.assemble_pseudo_op_byte_length _ _ _ h, hb1]
      · rw [Assembler.assemble_pseudo_op_def_length _ _ _ h, hb1]
      · unfold Assembler.assemble_pseudo_op_end at h
        injection h with h; rw [← h, hb1]
      · rw [Assembler.assemble_pseudo_op_hbyte_length _ _ _ h, hb1]
      · unfold Assembler.assemble_pseudo_op_unimplemented at h
        cases h
      · unfold Assembler.assemble_pseudo_op_list at h
        injection h with h; rw [← h, hb1]
      · rw [Assembler.assemble_pseudo_op_loc_length _ _ _ h, hb1]
      · unfold Assembler.assemble_pseudo_op_nolist at h
        injection h with h; rw [← h, hb1]
      · unfold Assembler.assemble_pseudo_op_page at h
        injection h with h; rw [← h, hb1]
      · rw [Assembler.assemble_pseudo_op_word_length _ _ _ h, hb1]

/-- Two states that hold the same statement and the same instruction set and
an empty byte buffer: when `assemble_line` succeeds in both, it emits the same
number of bytes in both, unless the mnemonic is an instruction with two
infos, in which case each of them emits 2 or 3 bytes. -/
theorem Assembler.assemble_line_length (a b a' b' : Assembler) (st : Statement)
    (hsa : a.m_statement_sp = some st) (hsb : b.m_statement_sp = some st)
    (hiset : a.m_instruction_set_sp = b.m_instruction_set_sp)
    (hba : a.m_object_code_bytes = []) (hbb : b.m_object_code_bytes = [])
    (ha : a.assemble_line = Except.ok a') (hb : b.assemble_line = Except.ok b') :
    a'.m_object_code_bytes.length = b'.m_object_code_bytes.length ∨
    (∃ i0 i1, a.m_instruction_set_sp.get st.m_mnemonic = Except.ok [i0, i1] ∧
      (a'.m_object_code_bytes.length = 2 ∨ a'.m_object_code_bytes.length = 3) ∧
      (b'.m_object_code_bytes.length = 2 ∨ b'.m_object_code_bytes.length = 3)) := by
  unfold Assembler.assemble_line at ha hb
  simp only [hsa] at ha
  simp only [hsb, ← hiset] at hb
  split at ha
  · rename_i hc
    rw [if_pos hc] at hb
    have la := Assembler.assemble_instruction_length a a' st hsa ha
    have lb := Assembler.assemble_instruction_length b b' st hsb hb
    rw [← hiset] at lb
    rw [hba] at la
    rw [hbb] at lb
    simp only [List.length_nil, Nat.zero_add] at la lb
    rcases la with ⟨hm, la⟩ | ⟨hm, infos, hget, la⟩
    · rcases lb with ⟨_, lb⟩ | ⟨hm', _⟩
      · left; rw [la, lb]
      · exact absurd hm hm'
    · rcases lb with ⟨hm', _⟩ | ⟨_, infos', hget', lb⟩
      · exact absurd hm' hm
      · rw [hget] at hget'
        injection hget' with hget'
        subst hget'
        rcases la with ⟨i, hi, la⟩ | ⟨i0, i1, hi, la⟩
        · rcases lb with ⟨i', hi', lb⟩ | ⟨i0', i1', hi', _⟩
          · rw [hi] at hi'
            injection hi' with hi' _
            subst hi'
            left; rw [la, lb]
          · rw [hi] at hi'; simp at hi'
        · rcases lb with ⟨i', hi', _⟩ | ⟨i0', i1', hi', lb⟩
          · rw [hi] at hi'; simp at hi'
          · right
            exact ⟨i0, i1, by rw [hget, hi], la, lb⟩
  · rename_i hc
    rw [if_neg hc] at hb
    split at ha
    · rename_i hv
      rw [if_pos hv] at hb
      obtain ⟨info, hinfo, la⟩ := Assembler.assemble_pseudo_op_length a a' st hsa ha
      obtain ⟨info', hinfo', lb⟩ := Assembler.assemble_pseudo_op_length b b' st hsb hb
      rw [hinfo] at hinfo'
      injection hinfo' with hinfo'
      subst hinfo'
      left
      rw [hba] at la
      rw [hbb] at lb
      cases hp : info.pseudo_op <;> simp only [hp] at la lb
      · obtain ⟨s1, h1, l1⟩ := la
        obtain ⟨s2, h2, l2⟩ := lb
        rw [h1] at h2
        injection h2 with h2
        injection h2 with h2
        subst h2
        rw [l1, l2]
      all_goals rw [la, lb]
    · cases ha

theorem Assembler.write_object_bytes_bytes (a : Assembler) :
    a.write_object_bytes.m_object_code_bytes = a.m_object_code_bytes := by
  unfold Assembler.write_object_bytes
  split <;> rfl

theorem Assembler.write_listing_line_bytes (a a' : Assembler)
    (h : a.write_listing_line = Except.ok a') :
    a'.m_object_code_bytes = a.m_object_code_bytes := by
  unfold Assembler.write_listing_line at h
  simp only at h
  split at h
  · cases h
  · split at h
    · cases h
    · injection h with h
      rw [← h]

/-- What a successful round of the loop of `assemble_pass` consists of: the
line is parsed at the location counter of the state (or the parse error is
caught), `assemble_line` runs on a state with an empty byte buffer, and the
bytes it leaves are the bytes of the line. -/
theorem Assembler.assemble_pass_line_bytes (s r : Assembler) (line : String)
    (h : s.assemble_pass_line line = Except.ok r) :
    ∃ a a' : Assembler,
      a.m_instruction_set_sp = s.m_instruction_set_sp ∧
      a.m_object_code_bytes = [] ∧
      (∀ statement_sp,
        Parser.parse s.m_pass_number.toNat (s.m_source_line_number + 1) s.m_location_counter
          (untabify line) = Except.ok statement_sp → a.m_statement_sp = statement_sp) ∧
      a.assemble_line = Except.ok a' ∧
      r.m_object_code_bytes = a'.m_object_code_bytes := by
  unfold Assembler.assemble_pass_line at h
  simp only at h
  split at h
  · cases h
  · rename_i a hparsed
    split at h
    · cases h
    · rename_i a' hline
      refine ⟨a, a', ?_, ?_, ?_, hline, ?_⟩
      · split at hparsed
        · injection hparsed with hparsed; rw [← hparsed]
        · injection hparsed with hparsed; rw [← hparsed]
        · cases hparsed
      · split at hparsed
        · injection hparsed with hparsed; rw [← hparsed]
        · injection hparsed with hparsed; rw [← hparsed]
        · cases hparsed
      · intro statement_sp hp
        rw [hp] at hparsed
        simp only at hparsed
        injection hparsed with hparsed
        rw [← hparsed]
      · split at h
        · cases h
        · rename_i a'' hw
          injection h with h
          rw [← h]
          simp only
          split at hw
          · split at hw
            · cases hw
            · rename_i a3 hl
              injection hw with hw
              rw [← hw, Assembler.write_object_bytes_bytes,
                Assembler.write_listing_line_bytes _ _ hl]
          · injection hw with hw
            rw [hw]

/-- C4, the part that holds: two states with the same instruction set and
the same location counter (in particular a state of pass 1 and a state of
pass 2) in which the line is parsed without a parse error and assembled
without error emit the same number of bytes for it, whether its operands are
known or not, unless its mnemonic is an instruction with two infos (a
zero-page and an absolute form): of such a line it is only known that it
emits 2 or 3 bytes in each of the two, and `byte_count_differs` shows a source
for which the two numbers differ. -/
theorem byte_count_stable (s1 s2 r1 r2 : Assembler) (line : String)
    (statement_sp : Option Statement)
    (hiset : s1.m_instruction_set_sp = s2.m_instruction_set_sp)
    (hlc : s1.m_location_counter = s2.m_location_counter)
    (hparse : Parser.parse s1.m_pass_number.toNat (s1.m_source_line_number + 1)
      s1.m_location_counter (untabify line) = Except.ok statement_sp)
    (h1 : s1.assemble_pass_line line = Except.ok r1)
    (h2 : s2.assemble_pass_line line = Except.ok r2) :
    r1.m_object_code_bytes.length = r2.m_object_code_bytes.length ∨
    (∃ st i0 i1, statement_sp = some st ∧
      s1.m_instruction_set_sp.get st.m_mnemonic = Except.ok [i0, i1] ∧
      (r1.m_object_code_bytes.length = 2 ∨ r1.m_object_code_bytes.length = 3) ∧
      (r2.m_object_code_bytes.length = 2 ∨ r2.m_object_code_bytes.length = 3)) := by
  obtain ⟨a, a', hai, hab, hast, hal, har⟩ := Assembler.assemble_pass_line_bytes s1 r1 line h1
  obtain ⟨b, b', hbi, hbb, hbst, hbl, hbr⟩ := Assembler.assemble_pass_line_bytes s2 r2 line h2
  have hparse2 : Parser.parse s2.m_pass_number.toNat (s2.m_source_line_number + 1)
      s2.m_location_counter (untabify line) = Except.ok statement_sp := by
    rw [← hlc, ← hparse]
    rfl
  have hsa := hast _ hparse
  have hsb := hbst _ hparse2
  cases statement_sp with
  | none =>
    unfold Assembler.assemble_line at hal
    simp only [hsa] at hal
    cases hal
  | some st =>
    have := Assembler.assemble_line_length a b a' b' st hsa hsb (by rw [hai, hbi, hiset])
      hab hbb hal hbl
    rw [har, hbr]
    rcases this with h | ⟨i0, i1, hget, hl⟩
    · left; exact h
    · right
      exact ⟨st, i0, i1, rfl, by rw [← hai]; exact hget, hl⟩


set_option maxRecDepth 100000 in
/-- C4, the part that holds, at the line `    bne done` on source line 4 at
location 0x0200: in a state of pass 1 where `done` is not defined yet, and in a state
of pass 2 where the table binds `done` to 0x0210. -/
theorem byte_count_stable_witness :
    ∃ r1 r2 : Assembler,
      (Assembler.line_state 1 3 0x0200 SymbolTable.create {}).assemble_pass_line
        "    bne done" = Except.ok r1 ∧
      (Assembler.line_state 2 3 0x0200
        { m_lookup_undefined_ok := false,
          m_symbol_table := [("done", { value := Value.known 0x0210,
                                        definition_line_number := 9,
                                        reference_line_numbers := ∅ })] } {}).assemble_pass_line
        "    bne done" = Except.ok r2 ∧
      (r1.m_object_code_bytes.length = r2.m_object_code_bytes.length ∨
        (∃ st i0 i1,
          some ({ m_mnemonic := "bne", m_operands := [Expression.Symbol "done"] } : Statement)
            = some st ∧
          (Assembler.line_state 1 3 0x0200 SymbolTable.create {}).m_instruction_set_sp.get
            st.m_mnemonic = Except.ok [i0, i1] ∧
          (r1.m_object_code_bytes.length = 2 ∨ r1.m_object_code_bytes.length = 3) ∧
          (r2.m_object_code_bytes.length = 2 ∨ r2.m_object_code_bytes.length = 3))) := by
  have k1 : returns ((Assembler.line_state 1 3 0x0200 SymbolTable.create {}).assemble_pass_line
      "    bne done") (fun _ => true) = true := by decide!
  have k2 : returns ((Assembler.line_state 2 3 0x0200
        { m_lookup_undefined_ok := false,
          m_symbol_table := [("done", { value := Value.known 0x0210,
                                        definition_line_number := 9,
                                        reference_line_numbers := ∅ })] } {}).assemble_pass_line
      "    bne done") (fun _ => true) = true := by decide!
  have hp : Parser.parse
      (Assembler.line_state 1 3 0x0200 SymbolTable.create {}).m_pass_number.toNat
      ((Assembler.line_state 1 3 0x0200 SymbolTable.create {}).m_source_line_number + 1)
      (Assembler.line_state 1 3 0x0200 SymbolTable.create {}).m_location_counter
      (untabify "    bne done")
      = Except.ok (some { m_mnemonic := "bne", m_operands := [Expression.Symbol "done"] }) := by
    decide!
  obtain ⟨r1, h1, _⟩ := (returns_iff _ _).1 k1
  obtain ⟨r2, h2, _⟩ := (returns_iff _ _).1 k2
  exact ⟨r1, r2, h1, h2,
    byte_count_stable (Assembler.line_state 1 3 0x0200 SymbolTable.create {})
      (Assembler.line_state 2 3 0x0200
        { m_lookup_undefined_ok := false,
          m_symbol_table := [("done", { value := Value.known 0x0210,
                                        definition_line_number := 9,
                                        reference_line_numbers := ∅ })] } {})
      r1 r2 "    bne done" _ rfl rfl hp h1 h2⟩

/-! ## Labels -/

theorem SymbolTable.lookup_symbol_table (t t' : SymbolTable) (line : Nat) (symbol : String)
    (v : Value) (h : t.lookup_symbol line symbol = Except.ok (v, t')) : t' = t := by
  unfold SymbolTable.lookup_symbol at h
  split at h
  · split at h
    · injection h with h
      injection h with _ h
      exact h.symm
    · cases h
  · injection h with h
    injection h with _ h
    exact h.symm

theorem Expression.evaluate_table (e : Expression) :
    ∀ (t t' : SymbolTable) (line : Nat) (v : Value),
      e.evaluate t line = Except.ok (v, t') → t' = t := by
  induction e with
  | nullptr => intro t t' line v h; cases h
  | Constant c =>
    intro t t' line v h
    simp only [Expression.evaluate] at h
    injection h with h
    injection h with _ h
    exact h.symm
  | StringConstant s => intro t t' line v h; cases h
  | Symbol s =>
    intro t t' line v h
    exact SymbolTable.lookup_symbol_table t t' line s v h
  | UnaryOperatorExpression op sub ih =>
    intro t t' line v h
    simp only [Expression.evaluate] at h
    split at h
    · cases h
    · rename_i sv t1 hsub
      have h1 := ih _ _ _ _ hsub
      subst h1
      split at h
      · cases h
      · injection h with h; injection h with _ h; exact h.symm
      · injection h with h; injection h with _ h; exact h.symm
  | BinaryOperatorExpression l op r ihl ihr =>
    intro t t' line v h
    simp only [Expression.evaluate] at h
    split at h
    · cases h
    · rename_i lv t1 hl
      have h1 := ihl _ _ _ _ hl
      subst h1
      split at h
      · cases h
      · rename_i rv t2 hr
        have h2 := ihr _ _ _ _ hr
        subst h2
        split at h
        · cases h
        · injection h with h; injection h with _ h; exact h.symm
        · injection h with h; injection h with _ h; exact h.symm
        · injection h with h; injection h with _ h; exact h.symm
        · split at h
          · cases h
          · injection h with h; injection h with _ h; exact h.symm

theorem Assembler.evaluate_state (a a' : Assembler) (e : Expression) (value : Value)
    (h : a.evaluate e = Except.ok (value, a')) : a' = a := by
  unfold Assembler.evaluate at h
  split at h
  · cases h
  · split at h
    · cases h
    · rename_i v t hev
      have ht := Expression.evaluate_table e _ _ _ _ hev
      subst ht
      injection h with h
      injection h with _ h
      exact h.symm

theorem Assembler.convert_state (a a' : Assembler) (e : Expression) (v : Nat)
    (h : a.convert_operand_uint16 e = Except.ok (v, a')) : a' = a := by
  unfold Assembler.convert_operand_uint16 at h
  split at h
  · cases h
  · rename_i value_sp a1 hev
    have h1 := Assembler.evaluate_state a a1 e value_sp hev
    subst h1
    split at h
    · injection h with h; injection h with _ h; exact h.symm
    · split at h
      · injection h with h; injection h with _ h; exact h.symm
      · cases h
    · cases h

theorem Assembler.emit_byte_table (a : Assembler) (byte : Nat) :
    (a.emit_byte byte).m_symbol_table_sp = a.m_symbol_table_sp := rfl

theorem Assembler.emit_word_table (a : Assembler) (word : Nat) :
    (a.emit_word word).m_symbol_table_sp = a.m_symbol_table_sp := rfl

theorem Assembler.assemble_operands_loop_table (emit : Assembler → Nat → Assembler)
    (hemit : ∀ a v, (emit a v).m_symbol_table_sp = a.m_symbol_table_sp)
    (operands : List Expression) :
    ∀ a a' : Assembler, Assembler.assemble_operands_loop emit operands a = Except.ok a' →
      a'.m_symbol_table_sp = a.m_symbol_table_sp := by
  induction operands with
  | nil =>
    intro a a' h
    simp only [Assembler.assemble_operands_loop] at h
    injection h with h
    rw [h]
  | cons e rest ih =>
    intro a a' h
    simp only [Assembler.assemble_operands_loop] at h
    split at h
    · cases h
    · rename_i value a1 hc
      have h1 := Assembler.convert_state a a1 e value hc
      subst h1
      rw [ih _ _ h, hemit]

/-- What `assemble_instruction` leaves in the symbol table is what the
definition of the label at its head leaves. -/
theorem Assembler.assemble_instruction_table (a a' : Assembler) (st : Statement)
    (hs : a.m_statement_sp = some st) (h : a.assemble_instruction = Except.ok a') :
    ∃ a1, (if st.m_label.length ≠ 0
        then a.define_symbol st.m_label (Value.create a.m_location_counter)
        else Except.ok a) = Except.ok a1 ∧
      a'.m_symbol_table_sp = a1.m_symbol_table_sp := by
  unfold Assembler.assemble_instruction at h
  simp only [hs] at h
  split at h
  · cases h
  · rename_i a1 hlabel
    refine ⟨a1, hlabel, ?_⟩
    split at h
    · injection h with h
      rw [h]
    · split at h
      · cases h
      · split at h
        · cases h
        · rename_i expect_operand _
          by_cases hcnt : st.get_operand_count ≠ (if expect_operand = true then 1 else 0)
          · rw [if_pos hcnt] at h
            cases h
          · rw [if_neg hcnt] at h
            split at h
            · cases h
            · rename_i locals a2 hsel
              have h2 : a2.m_symbol_table_sp = a1.m_symbol_table_sp := by
                split at hsel
                · split at hsel
                  · cases hsel
                  · injection hsel with hsel
                    injection hsel with _ hsel
                    rw [← hsel]
                · split at hsel
                  · cases hsel
                  · split at hsel
                    · cases hsel
                    · rename_i v a3 hc
                      have h3 := Assembler.convert_state _ _ _ _ hc
                      subst h3
                      split at hsel
                      · cases hsel
                      · split at hsel
                        · cases hsel
                        · injection hsel with hsel
                          injection hsel with _ hsel
                          rw [← hsel]
              split at h <;> injection h with h <;> rw [← h, ← h2] <;> rfl

theorem Assembler.define_symbol_table (a a' : Assembler) (symbol : String) (value : Value)
    (h : a.define_symbol symbol value = Except.ok a') :
    a.m_symbol_table_sp.define_symbol a.m_source_line_number symbol value
      = Except.ok a'.m_symbol_table_sp := by
  unfold Assembler.define_symbol at h
  split at h
  · cases h
  · rename_i t ht
    injection h with h
    rw [ht, ← h]

/-- A definition that succeeds keeps every binding that the table has. -/
theorem SymbolTable.define_symbol_find (t t' : SymbolTable) (line : Nat) (symbol : String)
    (value : Value) (h : t.define_symbol line symbol value = Except.ok t')
    (other : String) (e : Entry) (hf : t.find other = some e) : t'.find other = some e := by
  unfold SymbolTable.define_symbol at h
  split at h
  · rename_i hnone
    injection h with h
    subst h
    have hne : other ≠ symbol := by
      intro hc
      rw [hc, hnone] at hf
      cases hf
    have hb : (other == symbol) = false := by simpa using hne
    simp only [SymbolTable.find, List.lookup_cons, hb]
    exact hf
  · split at h
    · cases h
    · split at h
      · cases h
      · split at h
        · cases h
        · split at h
          · cases h
          · injection h with h
            subst h
            exact hf

/-- No entry of `s_by_enum` sets a flag. -/
theorem PseudoOp.lookup_mnemonic_flags (mnemonic : String) (info : PseudoOp.Info)
    (h : PseudoOp.lookup_mnemonic mnemonic = Except.ok info) :
    info.flags = { LABEL_DISALLOWED := false, LABEL_ISNT_LOC := false } := by
  simp only [PseudoOp.lookup_mnemonic] at h
  split at h
  · cases h
  · rename_i p _
    injection h with h
    rw [← h]
    cases p <;> rfl

open PseudoOp.PseudoOpEnum in
/-- What `assemble_pseudo_op` leaves in the symbol table: no entry of
`s_by_enum` sets a flag, so a label is defined with the location counter, and
the directive keeps every binding that the table has then. -/
theorem Assembler.assemble_pseudo_op_table (a a' : Assembler) (st : Statement)
    (hs : a.m_statement_sp = some st) (h : a.assemble_pseudo_op = Except.ok a') :
    ∃ a1, (if st.m_label.length ≠ 0
        then a.define_symbol st.m_label (Value.create a.m_location_counter)
        else Except.ok a) = Except.ok a1 ∧
      ∀ (other : String) (e : Entry), a1.m_symbol_table_sp.find other = some e →
        a'.m_symbol_table_sp.find other = some e := by
  unfold Assembler.assemble_pseudo_op at h
  simp only [hs] at h
  split at h
  · cases h
  · rename_i info hinfo
    have hflags := PseudoOp.lookup_mnemonic_flags _ _ hinfo
    simp only [hflags, Bool.false_eq_true, if_false, Bool.not_false, if_true] at h
    split at h
    · cases h
    · rename_i a1 hlabel
      refine ⟨a1, hlabel, ?_⟩
      intro other e hf
      unfold Assembler.s_assemble_pseudo_op_fn_ptrs at h
      cases hp : info.pseudo_op <;> simp only [hp] at h
      · unfold Assembler.assemble_pseudo_op_ascii at h
        split at h
        · cases h
        · split at h
          · injection h with h
            have : ∀ (cs : List Char) (a : Assembler),
                (cs.foldl (fun a c => a.emit_byte c.toNat) a).m_symbol_table_sp
                  = a.m_symbol_table_sp := by
              intro cs
              induction cs with
              | nil => intro a; rfl
              | cons c cs ih => intro a; simp only [List.foldl_cons]; rw [ih]; rfl
            rw [← h, this]
            exact hf
          · cases h
      · unfold Assembler.assemble_pseudo_op_byte at h
        split at h
        · injection h with h; rw [← h]; exact hf
        · rw [Assembler.assemble_operands_loop_table (fun a value => a.emit_byte (value &&& 0xff)) (fun _ _ => rfl) _ _ _ h]
          exact hf
      · unfold Assembler.assemble_pseudo_op_def at h
        split at h
        · cases h
        · split at h
          · cases h
          · split at h
            · cases h
            · rename_i value a2 hc
              have h2 := Assembler.convert_state _ _ _ _ hc
              subst h2
              split at h
              · split at h
                · cases h
                · rename_i a3 hd
                  injection h with h
                  rw [← h]
                  exact SymbolTable.define_symbol_find _ _ _ _ _
                    (Assembler.define_symbol_table _ _ _ _ hd) other e hf
              · cases h
      · unfold Assembler.assemble_pseudo_op_end at h
        injection h with h; rw [← h]; exact hf
      · unfold Assembler.assemble_pseudo_op_hbyte at h
        split at h
        · injection h with h; rw [← h]; exact hf
        · rw [Assembler.assemble_operands_loop_table (fun a value => a.emit_byte (value >>> 8)) (fun _ _ => rfl) _ _ _ h]
          exact hf
      · unfold Assembler.assemble_pseudo_op_unimplemented at h
        cases h
      · unfold Assembler.assemble_pseudo_op_list at h
        injection h with h; rw [← h]; exact hf
      · unfold Assembler.assemble_pseudo_op_loc at h
        split at h
        · cases h
        · split at h
          · cases h
          · rename_i addr a2 hc
            have h2 := Assembler.convert_state _ _ _ _ hc
            subst h2
            injection h with h; rw [← h]; exact hf
      · unfold Assembler.assemble_pseudo_op_nolist at h
        injection h with h; rw [← h]; exact hf
      · unfold Assembler.assemble_pseudo_op_page at h
        injection h with h; rw [← h]; exact hf
      · unfold Assembler.assemble_pseudo_op_word at h
        split at h
        · injection h with h; rw [← h]; exact hf
        · rw [Assembler.assemble_operands_loop_table (fun a value => a.emit_word value) (fun _ _ => rfl) _ _ _ h]
          exact hf

/-- `assemble_line` defines the label, if the statement has one, with the
location counter, and what follows keeps every binding of the table. -/
theorem Assembler.assemble_line_table (a a' : Assembler) (st : Statement)
    (hs : a.m_statement_sp = some st) (h : a.assemble_line = Except.ok a') :
    ∃ a1, (if st.m_label.length ≠ 0
        then a.define_symbol st.m_label (Value.create a.m_location_counter)
        else Except.ok a) = Except.ok a1 ∧
      ∀ (other : String) (e : Entry), a1.m_symbol_table_sp.find other = some e →
        a'.m_symbol_table_sp.find other = some e := by
  unfold Assembler.assemble_line at h
  simp only [hs] at h
  split at h
  · obtain ⟨a1, h1, h2⟩ := Assembler.assemble_instruction_table a a' st hs h
    exact ⟨a1, h1, fun other e hf => by rw [h2]; exact hf⟩
  · split at h
    · exact Assembler.assemble_pseudo_op_table a a' st hs h
    · cases h

/-- On a state in which the label of the statement is bound already, by the
line of the state and with a known value, the definition at the head of
`assemble_instruction` and `assemble_pseudo_op` changes nothing. -/
theorem Assembler.define_symbol_again (a : Assembler) (symbol : String) (value : Value)
    (e : Entry) (v1 : Nat) (hf : a.m_symbol_table_sp.find symbol = some e)
    (hl : e.definition_line_number = a.m_source_line_number) (hv : e.value = Value.known v1) :
    a.define_symbol symbol value = Except.ok a := by
  unfold Assembler.define_symbol
  rw [SymbolTable.define_symbol_bound _ _ _ _ e v1 hf hl hv]

/-- A line with a label that is unbound behaves as it does in the state in
which the label is bound to the location counter already. -/
theorem Assembler.assemble_line_defined (a a1 : Assembler) (st : Statement)
    (hs : a.m_statement_sp = some st) (hL : st.m_label.length ≠ 0)
    (hdef : a.define_symbol st.m_label (Value.create a.m_location_counter) = Except.ok a1)
    (hre : a1.define_symbol st.m_label (Value.create a1.m_location_counter) = Except.ok a1) :
    a.assemble_line = a1.assemble_line := by
  obtain ⟨t, ht⟩ := Assembler.define_symbol_fields a a1 _ _ hdef
  have hs1 : a1.m_statement_sp = some st := by rw [ht]; exact hs
  have hi : a1.m_instruction_set_sp = a.m_instruction_set_sp := by rw [ht]
  have hn : a1.m_source_line_number = a.m_source_line_number := by rw [ht]
  unfold Assembler.assemble_line
  simp only [hs, hs1, hi]
  unfold Assembler.assemble_instruction Assembler.assemble_pseudo_op
  simp only [hs, hs1, hL, hdef, hre, hn, ne_eq, not_false_eq_true, if_true]
  cases hlk : PseudoOp.lookup_mnemonic st.m_mnemonic with
  | error err => rfl
  | ok info =>
    simp only [PseudoOp.lookup_mnemonic_flags _ _ hlk, Bool.false_eq_true, if_false,
      Bool.not_false, if_true]

/-- The line of a `.def` statement: `assemble_line` reaches
`assemble_pseudo_op_def` in the state that the definition of the label, if
there is one, leaves. -/
theorem Assembler.assemble_line_def (a a1 : Assembler) (st : Statement)
    (hs : a.m_statement_sp = some st)
    (hm : utility.downcase_string st.m_mnemonic = ".def")
    (hi : a.m_instruction_set_sp.valid_mnemonic st.m_mnemonic = false)
    (hlabel : (if st.m_label.length ≠ 0
        then a.define_symbol st.m_label (Value.create a.m_location_counter)
        else Except.ok a) = Except.ok a1) :
    a.assemble_line = a1.assemble_pseudo_op_def st := by
  have hlen : st.m_mnemonic.length ≠ 0 := by
    intro h0
    have : st.m_mnemonic = "" := by
      cases hst : st.m_mnemonic with
      | mk data =>
        rw [hst] at h0
        cases data with
        | nil => rfl
        | cons c cs => simp [String.length] at h0
    rw [this] at hm
    revert hm
    decide
  have hv : PseudoOp.valid_mnemonic st.m_mnemonic = true := by
    simp only [PseudoOp.valid_mnemonic, hm]
    decide
  have hl : PseudoOp.lookup_mnemonic st.m_mnemonic
      = Except.ok (PseudoOp.s_by_enum PseudoOp.PseudoOpEnum.DEF) := by
    simp only [PseudoOp.lookup_mnemonic, hm]
    rfl
  unfold Assembler.assemble_line
  simp only [hs, hlen, hi, Bool.false_eq_true, or_self, if_false, hv, if_true]
  unfold Assembler.assemble_pseudo_op
  simp only [hs, hl]
  simp only [PseudoOp.s_by_enum, Bool.false_eq_true, if_false, Bool.not_false, if_true, hlabel,
    Assembler.s_assemble_pseudo_op_fn_ptrs]

/-- `assemble_pseudo_op_def` on the operands `sym` and `e`, where `e`
evaluates to the known value `v` and `sym` is unbound. -/
theorem Assembler.assemble_pseudo_op_def_unbound (a a2 : Assembler) (st : Statement)
    (sym : String) (e : Expression) (v : Nat)
    (hops : st.m_operands = [Expression.Symbol sym, e])
    (hev : a.evaluate e = Except.ok (Value.known v, a2))
    (hsym : a.m_symbol_table_sp.find sym = none) :
    a.assemble_pseudo_op_def st = Except.ok
      { a with
        m_symbol_table_sp := { a.m_symbol_table_sp with m_symbol_table :=
          (sym, { value := Value.create v, definition_line_number := a.m_source_line_number,
                  reference_line_numbers := ∅ }) :: a.m_symbol_table_sp.m_symbol_table }
        m_listing_show_address := true
        m_object_code_address := v } := by
  have h2 := Assembler.evaluate_state a a2 e _ hev
  subst h2
  have hc := Assembler.convert_operand_uint16_known _ _ e v hev
  simp only [Assembler.assemble_pseudo_op_def, Statement.get_operand, hops, List.get?, hc,
    Assembler.define_symbol, SymbolTable.define_symbol, hsym]

/-- C18, where the label is unbound before the line (as in pass 1), whatever
the body of the statement is (an instruction, a directive or nothing): the
definition of the label with the location counter succeeds; in the state it
leaves the label is bound to the location counter with the number of the line
as its definition line, and an operand that is the label evaluates to the
location counter, a known value; the line behaves as it does in that state,
where the label is bound before anything of the line is assembled; and when
the line is assembled without error the label is bound in that way after
it. -/
theorem label_defined_before_operands (a : Assembler) (st : Statement)
    (hs : a.m_statement_sp = some st) (hL : st.m_label.length ≠ 0)
    (hunbound : a.m_symbol_table_sp.find st.m_label = none) :
    ∃ a1 : Assembler,
      a.define_symbol st.m_label (Value.create a.m_location_counter) = Except.ok a1 ∧
      a1.m_symbol_table_sp.find st.m_label
        = some { value := Value.create a.m_location_counter,
                 definition_line_number := a.m_source_line_number,
                 reference_line_numbers := ∅ } ∧
      a1.evaluate (Expression.Symbol st.m_label)
        = Except.ok (Value.create a.m_location_counter, a1) ∧
      a.assemble_line = a1.assemble_line ∧
      ∀ a' : Assembler, a.assemble_line = Except.ok a' →
        a'.m_symbol_table_sp.find st.m_label
          = some { value := Value.create a.m_location_counter,
                   definition_line_number := a.m_source_line_number,
                   reference_line_numbers := ∅ } := by
  have hdef : a.define_symbol st.m_label (Value.create a.m_location_counter)
      = Except.ok { a with m_symbol_table_sp := { a.m_symbol_table_sp with m_symbol_table :=
          (st.m_label, { value := Value.create a.m_location_counter,
                         definition_line_number := a.m_source_line_number,
                         reference_line_numbers := ∅ }) :: a.m_symbol_table_sp.m_symbol_table } } := by
    simp only [Assembler.define_symbol, SymbolTable.define_symbol, hunbound]
  refine ⟨_, hdef, ?_, ?_, ?_, ?_⟩
  · simp [SymbolTable.find, List.lookup_cons]
  · simp [Assembler.evaluate, Expression.evaluate, SymbolTable.lookup_symbol, SymbolTable.find,
      List.lookup_cons]
  · refine Assembler.assemble_line_defined a _ st hs hL hdef ?_
    exact Assembler.define_symbol_again _ _ _
      { value := Value.create a.m_location_counter,
        definition_line_number := a.m_source_line_number,
        reference_line_numbers := ∅ } (uint16 a.m_location_counter)
      (by simp [SymbolTable.find, List.lookup_cons]) rfl rfl
  · intro a' h
    obtain ⟨a1, h1, h2⟩ := Assembler.assemble_line_table a a' st hs h
    rw [if_pos hL, hdef] at h1
    injection h1 with h1
    subst h1
    exact h2 _ _ (by simp [SymbolTable.find, List.lookup_cons])

set_option maxRecDepth 100000 in
/-- C18 at the line `loop: bne loop` (line 2, location 0x0200, `loop`
unbound, pass 1): the line emits D0 FE and leaves `loop` bound to 0x0200; and
the source `.loc $200` / `loop: bne loop` / `.end` emits D0 FE for line 2 in
pass 1 and in pass 2. -/
theorem label_defined_before_operands_witness :
    (∃ a1 a' : Assembler,
      (Assembler.line_state 1 2 0x0200 SymbolTable.create
        { m_label := "loop", m_mnemonic := "bne",
          m_operands := [Expression.Symbol "loop"] }).define_symbol "loop" (Value.create 0x0200)
        = Except.ok a1 ∧
      a1.evaluate (Expression.Symbol "loop") = Except.ok (Value.known 0x0200, a1) ∧
      (Assembler.line_state 1 2 0x0200 SymbolTable.create
        { m_label := "loop", m_mnemonic := "bne",
          m_operands := [Expression.Symbol "loop"] }).assemble_line = Except.ok a' ∧
      a'.m_object_code_bytes = [0xD0, 0xFE] ∧
      a'.m_symbol_table_sp.find "loop"
        = some { value := Value.known 0x0200, definition_line_number := 2,
                 reference_line_numbers := ∅ }) ∧
    (∃ a0 a1 a2 s1 s2 : Assembler,
      Assembler.create 0 = Except.ok a0 ∧
      a0.assemble_pass [".loc $200", "loop: bne loop", ".end"] 1 = Except.ok a1 ∧
      a1.assemble_pass [".loc $200", "loop: bne loop", ".end"] 2 = Except.ok a2 ∧
      a2.m_object_file = "*0200D0FE" ∧
      a0.assemble_pass [".loc $200", "loop: bne loop"] 1 = Except.ok s1 ∧
      s1.m_object_code_bytes = [0xD0, 0xFE] ∧
      a1.assemble_pass [".loc $200", "loop: bne loop"] 2 = Except.ok s2 ∧
      s2.m_object_code_bytes = [0xD0, 0xFE]) := by
  obtain ⟨a1, h1, _, h3, h4, h5⟩ := label_defined_before_operands
    (Assembler.line_state 1 2 0x0200 SymbolTable.create
      { m_label := "loop", m_mnemonic := "bne", m_operands := [Expression.Symbol "loop"] })
    { m_label := "loop", m_mnemonic := "bne", m_operands := [Expression.Symbol "loop"] }
    rfl (by decide) (by decide)
  have kline : returns ((Assembler.line_state 1 2 0x0200 SymbolTable.create
        { m_label := "loop", m_mnemonic := "bne",
          m_operands := [Expression.Symbol "loop"] }).assemble_line)
      (fun a' => decide (a'.m_object_code_bytes = [0xD0, 0xFE])) = true := by decide!
  obtain ⟨a', hl, hb⟩ := (returns_iff _ _).1 kline
  have key : returns ((Assembler.construct InstructionSet.pal65 0).assemble_pass
        [".loc $200", "loop: bne loop", ".end"] 1)
      (fun a1 =>
        returns (a1.assemble_pass [".loc $200", "loop: bne loop", ".end"] 2)
          (fun a2 => decide (a2.m_object_file = "*0200D0FE")) &&
        returns (a1.assemble_pass [".loc $200", "loop: bne loop"] 2)
          (fun s2 => decide (s2.m_object_code_bytes = [0xD0, 0xFE]))) = true := by
    decide!
  have key1 : returns ((Assembler.construct InstructionSet.pal65 0).assemble_pass
        [".loc $200", "loop: bne loop"] 1)
      (fun s1 => decide (s1.m_object_code_bytes = [0xD0, 0xFE])) = true := by
    decide!
  obtain ⟨b1, g1, gk⟩ := (returns_iff _ _).1 key
  obtain ⟨gk1, gk2⟩ := and_true_split gk
  obtain ⟨b2, g2, go⟩ := (returns_iff _ _).1 gk1
  obtain ⟨s2, g3, gb2⟩ := (returns_iff _ _).1 gk2
  obtain ⟨s1, g4, gb1⟩ := (returns_iff _ _).1 key1
  exact ⟨⟨a1, a', h1, h3, hl, of_decide_eq_true hb, h5 a' hl⟩,
    ⟨Assembler.construct InstructionSet.pal65 0, b1, b2, s1, s2, Assembler.create_pal65 _, g1, g2,
      of_decide_eq_true go, g4, of_decide_eq_true gb1, g3, of_decide_eq_true gb2⟩⟩

set_option maxRecDepth 100000 in
/-- C18 fails in pass 2 at line 3 of the source `.loc 0` / `    lda zp` /
`here: .byte 1` / `.def zp = 7` / `.end`: both passes run to the end without
error; pass 1 binds `here` to 3 (line 2 is sized as an absolute operand);
pass 2 reaches line 3 with the location counter 2, and after the line `here`
is still bound to 3. -/
theorem label_keeps_pass1_value :
    ∃ a0 a1 a2 s2 r2 : Assembler,
      Assembler.create 0 = Except.ok a0 ∧
      a0.assemble_pass [".loc 0", "    lda zp", "here: .byte 1", ".def zp = 7", ".end"] 1
        = Except.ok a1 ∧
      a1.assemble_pass [".loc 0", "    lda zp", "here: .byte 1", ".def zp = 7", ".end"] 2
        = Except.ok a2 ∧
      a1.assemble_pass [".loc 0", "    lda zp"] 2 = Except.ok s2 ∧
      s2.m_location_counter = 2 ∧
      s2.assemble_pass_line "here: .byte 1" = Except.ok r2 ∧
      r2.m_statement_sp
        = some { m_label := "here", m_mnemonic := ".byte",
                 m_operands := [Expression.Constant (Value.known 1)] } ∧
      (r2.m_symbol_table_sp.find "here").map Entry.value = some (Value.known 3) ∧
      (a2.m_symbol_table_sp.find "here").map Entry.value = some (Value.known 3) := by
  have key : returns ((Assembler.construct InstructionSet.pal65 0).assemble_pass
        [".loc 0", "    lda zp", "here: .byte 1", ".def zp = 7", ".end"] 1)
      (fun a1 =>
        returns (a1.assemble_pass
            [".loc 0", "    lda zp", "here: .byte 1", ".def zp = 7", ".end"] 2)
          (fun a2 => decide ((a2.m_symbol_table_sp.find "here").map Entry.value
            = some (Value.known 3))) &&
        returns (a1.assemble_pass [".loc 0", "    lda zp"] 2)
          (fun s2 => decide (s2.m_location_counter = 2) &&
            returns (s2.assemble_pass_line "here: .byte 1")
              (fun r2 =>
                decide (r2.m_statement_sp
                  = some { m_label := "here", m_mnemonic := ".byte",
                           m_operands := [Expression.Constant (Value.known 1)] }) &&
                decide ((r2.m_symbol_table_sp.find "here").map Entry.value
                  = some (Value.known 3))))) = true := by
    decide!
  obtain ⟨a1, h1, hk⟩ := (returns_iff _ _).1 key
  obtain ⟨hk1, hk2⟩ := and_true_split hk
  obtain ⟨a2, h2, hv2⟩ := (returns_iff _ _).1 hk1
  obtain ⟨s2, h3, hs2⟩ := (returns_iff _ _).1 hk2
  obtain ⟨hlc, hr⟩ := and_true_split hs2
  obtain ⟨r2, h4, hr2⟩ := (returns_iff _ _).1 hr
  obtain ⟨hst, hv⟩ := and_true_split hr2
  exact ⟨Assembler.construct InstructionSet.pal65 0, a1, a2, s2, r2, Assembler.create_pal65 _,
    h1, h2, h3, of_decide_eq_true hlc, h4, of_decide_eq_true hst, of_decide_eq_true hv,
    of_decide_eq_true hv2⟩

set_option maxRecDepth 100000 in
/-- C19 fails at the source `.loc $10` / `lab: .def sym = 5` / `.end`: the
two passes run to the end without error, line 2 is parsed as the statement
with the label `lab`, the mnemonic `.def` and the operands `sym` and 5, and
at the end `sym` is bound to 5 and `lab` to 0x10, the location counter of
line 2. -/
theorem def_label_not_value :
    ∃ a0 a1 a2 : Assembler,
      Assembler.create 0 = Except.ok a0 ∧
      Parser.parse 1 2 0x10 "lab: .def sym = 5"
        = Except.ok (some { m_label := "lab", m_mnemonic := ".def",
                            m_operands := [Expression.Symbol "sym",
                              Expression.Constant (Value.known 5)] }) ∧
      a0.assemble_pass [".loc $10", "lab: .def sym = 5", ".end"] 1 = Except.ok a1 ∧
      a1.assemble_pass [".loc $10", "lab: .def sym = 5", ".end"] 2 = Except.ok a2 ∧
      (a1.m_symbol_table_sp.find "sym").map Entry.value = some (Value.known 5) ∧
      (a1.m_symbol_table_sp.find "lab").map Entry.value = some (Value.known 0x10) ∧
      (a2.m_symbol_table_sp.find "sym").map Entry.value = some (Value.known 5) ∧
      (a2.m_symbol_table_sp.find "lab").map Entry.value = some (Value.known 0x10) := by
  have hp : Parser.parse 1 2 0x10 "lab: .def sym = 5"
        = Except.ok (some { m_label := "lab", m_mnemonic := ".def",
                            m_operands := [Expression.Symbol "sym",
                              Expression.Constant (Value.known 5)] }) := by
    decide!
  have key : returns ((Assembler.construct InstructionSet.pal65 0).assemble_pass
        [".loc $10", "lab: .def sym = 5", ".end"] 1)
      (fun a1 =>
        decide ((a1.m_symbol_table_sp.find "sym").map Entry.value = some (Value.known 5)) &&
        decide ((a1.m_symbol_table_sp.find "lab").map Entry.value = some (Value.known 0x10)) &&
        returns (a1.assemble_pass [".loc $10", "lab: .def sym = 5", ".end"] 2)
          (fun a2 =>
            decide ((a2.m_symbol_table_sp.find "sym").map Entry.value
              = some (Value.known 5)) &&
            decide ((a2.m_symbol_table_sp.find "lab").map Entry.value
              = some (Value.known 0x10)))) = true := by
    decide!
  obtain ⟨a1, h1, hk⟩ := (returns_iff _ _).1 key
  obtain ⟨hk12, hk3⟩ := and_true_split hk
  obtain ⟨hk1, hk2⟩ := and_true_split hk12
  obtain ⟨a2, h2, hv⟩ := (returns_iff _ _).1 hk3
  obtain ⟨hv1, hv2⟩ := and_true_split hv
  exact ⟨Assembler.construct InstructionSet.pal65 0, a1, a2, Assembler.create_pal65 _, hp, h1, h2,
    of_decide_eq_true hk1, of_decide_eq_true hk2, of_decide_eq_true hv1, of_decide_eq_true hv2⟩

/-- C19 fails for every such line: for a `.def` statement with the label
`lab` and the operands `sym` and `e`, where `lab` and `sym` are unbound before
the line and `e` evaluates to the known value `v` once `lab` is defined, the
line is assembled without error; after it `lab` is bound to the location
counter of the line, not to `v`, and `sym`, when it is another name than
`lab`, is bound to `v`, both with the number of the line as definition line.
The flag `LABEL_ISNT_LOC`, which `assemble_pseudo_op` tests before it defines
the label with the location counter, is set in no entry of `s_by_enum`. -/
theorem def_label_location_counter (a a1 a2 : Assembler) (st : Statement) (sym : String)
    (e : Expression) (v : Nat)
    (hs : a.m_statement_sp = some st) (hL : st.m_label.length ≠ 0)
    (hm : utility.downcase_string st.m_mnemonic = ".def")
    (hi : a.m_instruction_set_sp.valid_mnemonic st.m_mnemonic = false)
    (hops : st.m_operands = [Expression.Symbol sym, e])
    (hunbound : a.m_symbol_table_sp.find st.m_label = none)
    (hsym : a.m_symbol_table_sp.find sym = none)
    (hdef : a.define_symbol st.m_label (Value.create a.m_location_counter) = Except.ok a1)
    (hev : a1.evaluate e = Except.ok (Value.known v, a2)) :
    ∃ a' : Assembler, a.assemble_line = Except.ok a' ∧
      a'.m_symbol_table_sp.find st.m_label
        = some { value := Value.create a.m_location_counter,
                 definition_line_number := a.m_source_line_number,
                 reference_line_numbers := ∅ } ∧
      (sym ≠ st.m_label →
        a'.m_symbol_table_sp.find sym
          = some { value := Value.create v,
                   definition_line_number := a.m_source_line_number,
                   reference_line_numbers := ∅ }) := by
  have hlabel : SymbolTable.define_symbol a.m_symbol_table_sp a.m_source_line_number
      st.m_label (Value.create a.m_location_counter)
      = Except.ok { a.m_symbol_table_sp with m_symbol_table :=
          (st.m_label, { value := Value.create a.m_location_counter,
                         definition_line_number := a.m_source_line_number,
                         reference_line_numbers := ∅ }) :: a.m_symbol_table_sp.m_symbol_table } := by
    simp only [SymbolTable.define_symbol, hunbound]
  have ht1 : a1.m_symbol_table_sp = { a.m_symbol_table_sp with m_symbol_table :=
      (st.m_label, { value := Value.create a.m_location_counter,
                     definition_line_number := a.m_source_line_number,
                     reference_line_numbers := ∅ }) :: a.m_symbol_table_sp.m_symbol_table } := by
    have := Assembler.define_symbol_table a a1 _ _ hdef
    rw [hlabel] at this
    injection this with this
    exact this.symm
  have hn1 : a1.m_source_line_number = a.m_source_line_number := by
    obtain ⟨t, ht⟩ := Assembler.define_symbol_fields a a1 _ _ hdef
    rw [ht]
  have hfl : a1.m_symbol_table_sp.find st.m_label
      = some { value := Value.create a.m_location_counter,
               definition_line_number := a.m_source_line_number,
               reference_line_numbers := ∅ } := by
    rw [ht1]
    simp [SymbolTable.find, List.lookup_cons]
  have h2 := Assembler.evaluate_state _ _ e _ hev
  rw [h2] at hev
  have hline := Assembler.assemble_line_def a a1 st hs hm hi (by rw [if_pos hL]; exact hdef)
  have hc := Assembler.convert_operand_uint16_known _ _ e v hev
  rw [hline]
  by_cases hsl : sym = st.m_label
  · subst hsl
    have hre := Assembler.define_symbol_again a1 st.m_label (Value.create v) _
      (uint16 a.m_location_counter) hfl hn1.symm rfl
    refine ⟨{ a1 with m_listing_show_address := true, m_object_code_address := v }, ?_, hfl, ?_⟩
    · simp only [Assembler.assemble_pseudo_op_def, Statement.get_operand, hops, List.get?, hc,
        hre]
    · intro h
      exact absurd rfl h
  · have hb : (sym == st.m_label) = false := by simpa using hsl
    have hb' : (st.m_label == sym) = false := by
      simpa using (fun h : st.m_label = sym => hsl h.symm)
    have hfind : a1.m_symbol_table_sp.find sym = none := by
      rw [ht1]
      simp only [SymbolTable.find, List.lookup_cons, hb]
      exact hsym
    rw [Assembler.assemble_pseudo_op_def_unbound a1 a1 st sym e v hops hev hfind]
    refine ⟨_, rfl, ?_, ?_⟩
    · simp only [SymbolTable.find, List.lookup_cons, hb']
      exact hfl
    · intro _
      simp [SymbolTable.find, List.lookup_cons, hn1]

/-- C19 fails at the statement of `lab: .def sym = 5` on line 2 at location
0x10 in pass 1, with an empty table: `lab` is bound to 0x10 and `sym` to 5. -/
theorem def_label_location_counter_witness :
    ∃ a' : Assembler,
      (Assembler.line_state 1 2 0x10 SymbolTable.create
        { m_label := "lab", m_mnemonic := ".def",
          m_operands := [Expression.Symbol "sym", Expression.Constant (Value.known 5)] }
        ).assemble_line = Except.ok a' ∧
      a'.m_symbol_table_sp.find "lab"
        = some { value := Value.known 0x10, definition_line_number := 2,
                 reference_line_numbers := ∅ } ∧
      a'.m_symbol_table_sp.find "sym"
        = some { value := Value.known 5, definition_line_number := 2,
                 reference_line_numbers := ∅ } := by
  obtain ⟨a', h1, h2, h3⟩ := def_label_location_counter
    (Assembler.line_state 1 2 0x10 SymbolTable.create
      { m_label := "lab", m_mnemonic := ".def",
        m_operands := [Expression.Symbol "sym", Expression.Constant (Value.known 5)] }) _ _
    { m_label := "lab", m_mnemonic := ".def",
      m_operands := [Expression.Symbol "sym", Expression.Constant (Value.known 5)] }
    "sym" (Expression.Constant (Value.known 5)) 5
    rfl (by decide) (by decide) (by decide) rfl (by decide) (by decide) rfl rfl
  exact ⟨a', h1, h2, h3 (by decide)⟩

/-- C20: for a `.def` statement without a label, with the operands `sym` and
`e`, where `sym` is unbound and `e` evaluates to the known 16-bit value `v`:
the line is assembled without error; after it `sym` is bound to `v` with the
number of the line as its definition line and no reference, every other name
has the entry it had, the bytes of the line are those that were there before
(none, in the loop of `assemble_pass`, which empties the buffer before every
line), and the location counter is the same. -/
theorem def_unlabelled (a a2 : Assembler) (st : Statement) (sym : String)
    (e : Expression) (v : Nat)
    (hs : a.m_statement_sp = some st) (hL : st.m_label = "")
    (hm : utility.downcase_string st.m_mnemonic = ".def")
    (hi : a.m_instruction_set_sp.valid_mnemonic st.m_mnemonic = false)
    (hops : st.m_operands = [Expression.Symbol sym, e])
    (hsym : a.m_symbol_table_sp.contains sym = false)
    (hev : a.evaluate e = Except.ok (Value.known v, a2))
    (hv : v < 65536) :
    ∃ a' : Assembler, a.assemble_line = Except.ok a' ∧
      a'.m_symbol_table_sp.find sym
        = some { value := Value.known v,
                 definition_line_number := a.m_source_line_number,
                 reference_line_numbers := ∅ } ∧
      (∀ other : String, other ≠ sym →
        a'.m_symbol_table_sp.find other = a.m_symbol_table_sp.find other) ∧
      a'.m_object_code_bytes = a.m_object_code_bytes ∧
      (a.m_object_code_bytes = [] → a'.m_object_code_bytes = []) ∧
      a'.m_location_counter = a.m_location_counter := by
  have hf : a.m_symbol_table_sp.find sym = none := by
    simpa [SymbolTable.contains] using hsym
  have hline := Assembler.assemble_line_def a a st hs hm hi (by rw [hL]; rfl)
  have hdef := Assembler.assemble_pseudo_op_def_unbound a a2 st sym e v hops hev hf
  have hcreate : Value.create (v : Int) = Value.known v := by
    simp only [Value.create, uint16_natCast, Nat.mod_eq_of_lt hv]
  rw [hline, hdef]
  refine ⟨_, rfl, ?_, ?_, rfl, fun h => h, rfl⟩
  · simp [SymbolTable.find, List.lookup_cons, hcreate]
  · intro other hne
    have hb : (other == sym) = false := by simpa using hne
    simp only [SymbolTable.find, List.lookup_cons, hb]

set_option maxRecDepth 100000 in
/-- C20 at the line `.def foo = $1234` (line 3, location 0x0200, empty
table, pass 1): the parser gives the statement, and assembling it binds `foo`
to 0x1234 with definition line 3, emits nothing and leaves the location
counter at 0x0200. -/
theorem def_unlabelled_witness :
    Parser.parse 1 3 0x0200 ".def foo = $1234"
      = Except.ok (some { m_mnemonic := ".def",
                          m_operands := [Expression.Symbol "foo",
                            Expression.Constant (Value.known 0x1234)] }) ∧
    ∃ a' : Assembler,
      (Assembler.line_state 1 3 0x0200 SymbolTable.create
        { m_mnemonic := ".def",
          m_operands := [Expression.Symbol "foo", Expression.Constant (Value.known 0x1234)] }
        ).assemble_line = Except.ok a' ∧
      a'.m_symbol_table_sp.find "foo"
        = some { value := Value.known 0x1234, definition_line_number := 3,
                 reference_line_numbers := ∅ } ∧
      a'.m_object_code_bytes = [] ∧
      a'.m_location_counter = 0x0200 := by
  refine ⟨by decide!, ?_⟩
  obtain ⟨a', h1, h2, _, _, h5, h6⟩ := def_unlabelled
    (Assembler.line_state 1 3 0x0200 SymbolTable.create
      { m_mnemonic := ".def",
        m_operands := [Expression.Symbol "foo", Expression.Constant (Value.known 0x1234)] }) _
    { m_mnemonic := ".def",
      m_operands := [Expression.Symbol "foo", Expression.Constant (Value.known 0x1234)] }
    "foo" (Expression.Constant (Value.known 0x1234)) 0x1234
    rfl rfl (by decide) (by decide) rfl (by decide) rfl (by decide)
  exact ⟨a', h1, h2, h5 rfl, h6⟩

/-! ## The parser never reports a failure -/

theorem pegtl.opt_matches (r : pegtl.Rule) (input : pegtl.Input) (parser p : Parser) :
    pegtl.opt r input parser ≠ Except.ok (none, p) := by
  unfold pegtl.opt
  split
  · intro h; cases h
  · intro h; cases h
  · intro h; cases h

theorem pegtl.with_action_matches (r : pegtl.Rule)
    (apply : pegtl.Input → pegtl.Input → Parser → Except Error Parser)
    (hr : ∀ input parser p, r input parser ≠ Except.ok (none, p))
    (input : pegtl.Input) (parser p : Parser) :
    pegtl.with_action r apply input parser ≠ Except.ok (none, p) := by
  unfold pegtl.with_action
  split
  · intro h; cases h
  · rename_i p1 heq
    exact absurd heq (hr _ _ _)
  · split
    · intro h; cases h
    · intro h; cases h

theorem pegtl.seq_nil_matches (input : pegtl.Input) (parser p : Parser) :
    pegtl.seq [] input parser ≠ Except.ok (none, p) := by
  intro h
  cases h

theorem pegtl.seq_cons_matches (r : pegtl.Rule) (rs : List pegtl.Rule)
    (hr : ∀ input parser p, r input parser ≠ Except.ok (none, p))
    (hrs : ∀ input parser p, pegtl.seq rs input parser ≠ Except.ok (none, p))
    (input : pegtl.Input) (parser p : Parser) :
    pegtl.seq (r :: rs) input parser ≠ Except.ok (none, p) := by
  simp only [pegtl.seq]
  split
  · intro h; cases h
  · rename_i p1 heq
    exact absurd heq (hr _ _ _)
  · exact hrs _ _ _

theorem pegtl.sor_head_matches (r : pegtl.Rule) (rs : List pegtl.Rule)
    (hr : ∀ input parser p, r input parser ≠ Except.ok (none, p))
    (input : pegtl.Input) (parser p : Parser) :
    pegtl.sor (r :: rs) input parser ≠ Except.ok (none, p) := by
  simp only [pegtl.sor]
  split
  · intro h; cases h
  · intro h; cases h
  · rename_i p1 heq
    exact absurd heq (hr _ _ _)

theorem pegtl.sor_tail_matches (r : pegtl.Rule) (rs : List pegtl.Rule)
    (hrs : ∀ input parser p, pegtl.sor rs input parser ≠ Except.ok (none, p))
    (input : pegtl.Input) (parser p : Parser) :
    pegtl.sor (r :: rs) input parser ≠ Except.ok (none, p) := by
  simp only [pegtl.sor]
  split
  · intro h; cases h
  · intro h; cases h
  · exact hrs _ _ _

/-- The rule `statement` matches at the start of every line: `label_empty`
and `statement_empty` match the empty string, `comment` is optional, and
nothing asks for the end of the line. -/
theorem grammar.statement_matches (input : pegtl.Input) (parser p : Parser) :
    grammar.statement input parser ≠ Except.ok (none, p) := by
  unfold grammar.statement
  apply pegtl.with_action_matches
  apply pegtl.seq_cons_matches
  · unfold grammar.label
    apply pegtl.seq_cons_matches
    · exact pegtl.opt_matches _
    · apply pegtl.seq_cons_matches
      · apply pegtl.sor_tail_matches
        apply pegtl.sor_head_matches
        unfold grammar.label_empty
        apply pegtl.with_action_matches
        exact pegtl.seq_nil_matches
      · apply pegtl.seq_cons_matches
        · exact pegtl.opt_matches _
        · exact pegtl.seq_nil_matches
  · apply pegtl.seq_cons_matches
    · apply pegtl.sor_tail_matches
      apply pegtl.sor_tail_matches
      apply pegtl.sor_tail_matches
      apply pegtl.sor_tail_matches
      apply pegtl.sor_tail_matches
      apply pegtl.sor_tail_matches
      apply pegtl.sor_tail_matches
      apply pegtl.sor_head_matches
      unfold grammar.statement_empty
      apply pegtl.with_action_matches
      exact pegtl.seq_nil_matches
    · apply pegtl.seq_cons_matches
      · unfold grammar.comment
        exact pegtl.opt_matches _
      · exact pegtl.seq_nil_matches


/-! ## No rule of the grammar throws `ParseError` -/

theorem pegtl.one_npe (cs : List Char) (input : pegtl.Input) (parser : Parser) :
    pegtl.one cs input parser ≠ Except.error Error.ParseError := by
  unfold pegtl.one
  split
  · split <;> (intro h; cases h)
  · intro h; cases h

theorem pegtl.not_one_npe (x : Char) (input : pegtl.Input) (parser : Parser) :
    pegtl.not_one x input parser ≠ Except.error Error.ParseError := by
  unfold pegtl.not_one
  split
  · split <;> (intro h; cases h)
  · intro h; cases h

theorem pegtl.any_npe (input : pegtl.Input) (parser : Parser) :
    pegtl.any input parser ≠ Except.error Error.ParseError := by
  unfold pegtl.any
  split <;> (intro h; cases h)

theorem pegtl.ranges_npe (rs : List (Char × Char)) (input : pegtl.Input) (parser : Parser) :
    pegtl.ranges rs input parser ≠ Except.error Error.ParseError := by
  unfold pegtl.ranges
  split
  · split <;> (intro h; cases h)
  · intro h; cases h

theorem pegtl.istring_npe (s : String) (input : pegtl.Input) (parser : Parser) :
    pegtl.istring s input parser ≠ Except.error Error.ParseError := by
  intro h
  cases h

theorem pegtl.seq_nil_npe (input : pegtl.Input) (parser : Parser) :
    pegtl.seq [] input parser ≠ Except.error Error.ParseError := by
  intro h
  cases h

theorem pegtl.seq_cons_npe (r : pegtl.Rule) (rs : List pegtl.Rule)
    (hr : ∀ input parser, r input parser ≠ Except.error Error.ParseError)
    (hrs : ∀ input parser, pegtl.seq rs input parser ≠ Except.error Error.ParseError)
    (input : pegtl.Input) (parser : Parser) :
    pegtl.seq (r :: rs) input parser ≠ Except.error Error.ParseError := by
  simp only [pegtl.seq]
  split
  · rename_i e heq
    intro h
    injection h with h
    subst h
    exact hr _ _ heq
  · intro h; cases h
  · exact hrs _ _

theorem pegtl.sor_nil_npe (input : pegtl.Input) (parser : Parser) :
    pegtl.sor [] input parser ≠ Except.error Error.ParseError := by
  intro h
  cases h

theorem pegtl.sor_cons_npe (r : pegtl.Rule) (rs : List pegtl.Rule)
    (hr : ∀ input parser, r input parser ≠ Except.error Error.ParseError)
    (hrs : ∀ input parser, pegtl.sor rs input parser ≠ Except.error Error.ParseError)
    (input : pegtl.Input) (parser : Parser) :
    pegtl.sor (r :: rs) input parser ≠ Except.error Error.ParseError := by
  simp only [pegtl.sor]
  split
  · rename_i e heq
    intro h
    injection h with h
    subst h
    exact hr _ _ heq
  · intro h; cases h
  · exact hrs _ _

theorem pegtl.opt_npe (r : pegtl.Rule)
    (hr : ∀ input parser, r input parser ≠ Except.error Error.ParseError)
    (input : pegtl.Input) (parser : Parser) :
    pegtl.opt r input parser ≠ Except.error Error.ParseError := by
  unfold pegtl.opt
  split
  · rename_i e heq
    intro h
    injection h with h
    subst h
    exact hr _ _ heq
  · intro h; cases h
  · intro h; cases h

theorem pegtl.star_loop_npe (r : pegtl.Rule)
    (hr : ∀ input parser, r input parser ≠ Except.error Error.ParseError) (fuel : Nat) :
    ∀ (input : pegtl.Input) (parser : Parser),
      pegtl.star_loop r fuel input parser ≠ Except.error Error.ParseError := by
  induction fuel with
  | zero => intro input parser h; cases h
  | succ n ih =>
    intro input parser
    simp only [pegtl.star_loop]
    split
    · rename_i e heq
      intro h
      injection h with h
      subst h
      exact hr _ _ heq
    · intro h; cases h
    · exact ih _ _

theorem pegtl.star_npe (r : pegtl.Rule)
    (hr : ∀ input parser, r input parser ≠ Except.error Error.ParseError)
    (input : pegtl.Input) (parser : Parser) :
    pegtl.star r input parser ≠ Except.error Error.ParseError :=
  pegtl.star_loop_npe r hr _ _ _

theorem pegtl.plus_npe (r : pegtl.Rule)
    (hr : ∀ input parser, r input parser ≠ Except.error Error.ParseError)
    (input : pegtl.Input) (parser : Parser) :
    pegtl.plus r input parser ≠ Except.error Error.ParseError :=
  pegtl.seq_cons_npe r _ hr
    (pegtl.seq_cons_npe _ _ (pegtl.star_npe r hr) pegtl.seq_nil_npe) _ _

theorem pegtl.not_at_npe (r : pegtl.Rule)
    (hr : ∀ input parser, r input parser ≠ Except.error Error.ParseError)
    (input : pegtl.Input) (parser : Parser) :
    pegtl.not_at r input parser ≠ Except.error Error.ParseError := by
  unfold pegtl.not_at
  split
  · rename_i e heq
    intro h
    injection h with h
    subst h
    exact hr _ _ heq
  · intro h; cases h
  · intro h; cases h

theorem pegtl.rep_max_loop_npe (r : pegtl.Rule)
    (hr : ∀ input parser, r input parser ≠ Except.error Error.ParseError) (n : Nat) :
    ∀ (input : pegtl.Input) (parser : Parser),
      pegtl.rep_max_loop r n input parser ≠ Except.error Error.ParseError := by
  induction n with
  | zero => exact pegtl.not_at_npe r hr
  | succ n ih =>
    intro input parser
    simp only [pegtl.rep_max_loop]
    split
    · rename_i e heq
      intro h
      injection h with h
      subst h
      exact hr _ _ heq
    · intro h; cases h
    · exact ih _ _

theorem pegtl.rep_max_npe (max : Nat) (r : pegtl.Rule)
    (hr : ∀ input parser, r input parser ≠ Except.error Error.ParseError)
    (input : pegtl.Input) (parser : Parser) :
    pegtl.rep_max max r input parser ≠ Except.error Error.ParseError :=
  pegtl.rep_max_loop_npe r hr max _ _

theorem pegtl.with_action_npe (r : pegtl.Rule)
    (apply : pegtl.Input → pegtl.Input → Parser → Except Error Parser)
    (hr : ∀ input parser, r input parser ≠ Except.error Error.ParseError)
    (ha : ∀ matched start parser, apply matched start parser ≠ Except.error Error.ParseError)
    (input : pegtl.Input) (parser : Parser) :
    pegtl.with_action r apply input parser ≠ Except.error Error.ParseError := by
  unfold pegtl.with_action
  split
  · rename_i e heq
    intro h
    injection h with h
    subst h
    exact hr _ _ heq
  · intro h; cases h
  · split
    · rename_i e heq
      intro h
      injection h with h
      subst h
      exact ha _ _ _ heq
    · intro h; cases h

theorem Parser.pop_npe (parser : Parser) : parser.pop ≠ Except.error Error.ParseError := by
  unfold Parser.pop ASTStack.pop
  cases parser.m_ast_stack with
  | nil => intro h; cases h
  | cons n rest => intro h; cases h

theorem stoull_npe (str : List Char) (base : Nat) :
    stoull str base ≠ Except.error Error.ParseError := by
  unfold stoull
  simp only
  split
  · intro h; cases h
  · split <;> (intro h; cases h)

theorem reduce_binary_operator_expression_npe (parser : Parser) :
    grammar.reduce_binary_operator_expression parser ≠ Except.error Error.ParseError := by
  unfold grammar.reduce_binary_operator_expression
  split
  · rename_i e heq
    intro h; injection h with h; subst h
    exact Parser.pop_npe _ heq
  · split
    · rename_i e heq
      intro h; injection h with h; subst h
      exact Parser.pop_npe _ heq
    · split
      · rename_i e heq
        intro h; injection h with h; subst h
        exact Parser.pop_npe _ heq
      · intro h; cases h

theorem grammar.whitespace_npe (input : pegtl.Input) (parser : Parser) :
    grammar.whitespace input parser ≠ Except.error Error.ParseError :=
  pegtl.plus_npe _ (pegtl.one_npe _) _ _

theorem grammar.symbol_npe (input : pegtl.Input) (parser : Parser) :
    grammar.symbol input parser ≠ Except.error Error.ParseError :=
  pegtl.seq_cons_npe _ _ (pegtl.ranges_npe _)
    (pegtl.seq_cons_npe _ _ (pegtl.rep_max_npe _ _ (pegtl.ranges_npe _)) pegtl.seq_nil_npe) _ _

theorem grammar.constant_npe (input : pegtl.Input) (parser : Parser) :
    grammar.constant input parser ≠ Except.error Error.ParseError := by
  unfold grammar.constant
  apply pegtl.sor_cons_npe
  · unfold grammar.octal_constant
    apply pegtl.with_action_npe
    · exact pegtl.seq_cons_npe _ _ (pegtl.one_npe _)
        (pegtl.seq_cons_npe _ _ (pegtl.plus_npe _ (pegtl.ranges_npe _)) pegtl.seq_nil_npe)
    · intro m b p
      split
      · rename_i e heq
        intro h; injection h with h; subst h
        exact stoull_npe _ _ heq
      · intro h; cases h
  apply pegtl.sor_cons_npe
  · unfold grammar.decimal_constant
    apply pegtl.with_action_npe
    · exact pegtl.plus_npe _ (pegtl.ranges_npe _)
    · intro m b p
      split
      · rename_i e heq
        intro h; injection h with h; subst h
        exact stoull_npe _ _ heq
      · intro h; cases h
  apply pegtl.sor_cons_npe
  · unfold grammar.hexadecimal_constant
    apply pegtl.with_action_npe
    · exact pegtl.seq_cons_npe _ _ (pegtl.one_npe _)
        (pegtl.seq_cons_npe _ _ (pegtl.plus_npe _ (pegtl.ranges_npe _)) pegtl.seq_nil_npe)
    · intro m b p
      split
      · rename_i e heq
        intro h; injection h with h; subst h
        exact stoull_npe _ _ heq
      · intro h; cases h
  apply pegtl.sor_cons_npe
  · unfold grammar.character_constant
    apply pegtl.with_action_npe
    · exact pegtl.seq_cons_npe _ _ (pegtl.one_npe _)
        (pegtl.seq_cons_npe _ _ (pegtl.ranges_npe _) pegtl.seq_nil_npe)
    · intro m b p
      split <;> (intro h; cases h)
  apply pegtl.sor_cons_npe
  · unfold grammar.location_counter
    apply pegtl.with_action_npe
    · exact pegtl.one_npe _
    · intro m b p h
      cases h
  exact pegtl.sor_nil_npe

theorem grammar.expression_symbol_npe (input : pegtl.Input) (parser : Parser) :
    grammar.expression_symbol input parser ≠ Except.error Error.ParseError := by
  unfold grammar.expression_symbol
  apply pegtl.with_action_npe
  · exact pegtl.seq_cons_npe _ _ grammar.symbol_npe pegtl.seq_nil_npe
  · intro m b p h
    cases h

theorem grammar.unary_expression_npe (input : pegtl.Input) (parser : Parser) :
    grammar.unary_expression input parser ≠ Except.error Error.ParseError := by
  unfold grammar.unary_expression
  apply pegtl.with_action_npe
  · apply pegtl.seq_cons_npe
    · unfold grammar.unary_operator
      apply pegtl.with_action_npe
      · exact pegtl.one_npe _
      · intro m b p
        split
        · intro h; cases h
        · split <;> (intro h; cases h)
    · exact pegtl.seq_cons_npe _ _ grammar.expression_symbol_npe pegtl.seq_nil_npe
  · intro m b p
    split
    · rename_i e heq
      intro h; injection h with h; subst h
      exact Parser.pop_npe _ heq
    · split
      · rename_i e heq
        intro h; injection h with h; subst h
        exact Parser.pop_npe _ heq
      · intro h; cases h

theorem grammar.factor_npe (expression : pegtl.Rule)
    (he : ∀ input parser, expression input parser ≠ Except.error Error.ParseError)
    (input : pegtl.Input) (parser : Parser) :
    grammar.factor expression input parser ≠ Except.error Error.ParseError := by
  unfold grammar.factor
  apply pegtl.sor_cons_npe _ _ grammar.constant_npe
  apply pegtl.sor_cons_npe _ _ grammar.expression_symbol_npe
  apply pegtl.sor_cons_npe _ _ grammar.unary_expression_npe
  apply pegtl.sor_cons_npe
  · unfold grammar.parenthesized_expression
    exact pegtl.seq_cons_npe _ _ (pegtl.one_npe _)
      (pegtl.seq_cons_npe _ _ he (pegtl.seq_cons_npe _ _ (pegtl.one_npe _) pegtl.seq_nil_npe))
  · exact pegtl.sor_nil_npe

theorem grammar.term_npe (expression : pegtl.Rule)
    (he : ∀ input parser, expression input parser ≠ Except.error Error.ParseError)
    (input : pegtl.Input) (parser : Parser) :
    grammar.term expression input parser ≠ Except.error Error.ParseError := by
  unfold grammar.term
  apply pegtl.seq_cons_npe _ _ (grammar.factor_npe expression he)
  apply pegtl.seq_cons_npe
  · apply pegtl.star_npe
    unfold grammar.term_additional_factor
    apply pegtl.with_action_npe
    · apply pegtl.seq_cons_npe
      · unfold grammar.binary_multiplying_operator
        apply pegtl.with_action_npe
        · exact pegtl.one_npe _
        · intro m b p
          split
          · intro h; cases h
          · split <;> (intro h; cases h)
      · exact pegtl.seq_cons_npe _ _ (grammar.factor_npe expression he) pegtl.seq_nil_npe
    · intro m b p
      exact reduce_binary_operator_expression_npe p
  · exact pegtl.seq_nil_npe

theorem grammar.expression_fuel_npe (fuel : Nat) :
    ∀ (input : pegtl.Input) (parser : Parser),
      grammar.expression_fuel fuel input parser ≠ Except.error Error.ParseError := by
  induction fuel with
  | zero => intro input parser h; cases h
  | succ n ih =>
    simp only [grammar.expression_fuel]
    apply pegtl.seq_cons_npe _ _ (grammar.term_npe _ ih)
    apply pegtl.seq_cons_npe
    · apply pegtl.star_npe
      unfold grammar.expression_additional_term
      apply pegtl.with_action_npe
      · apply pegtl.seq_cons_npe
        · unfold grammar.binary_adding_operator
          apply pegtl.with_action_npe
          · exact pegtl.one_npe _
          · intro m b p
            split
            · intro h; cases h
            · split <;> (intro h; cases h)
        · exact pegtl.seq_cons_npe _ _ (grammar.term_npe _ ih) pegtl.seq_nil_npe
      · intro m b p
        exact reduce_binary_operator_expression_npe p
    · exact pegtl.seq_nil_npe

theorem grammar.expression_npe (input : pegtl.Input) (parser : Parser) :
    grammar.expression input parser ≠ Except.error Error.ParseError :=
  grammar.expression_fuel_npe _ _ _

theorem push_mnemonic_npe (matched : pegtl.Input) (parser : Parser) :
    grammar.push_mnemonic matched parser ≠ Except.error Error.ParseError := by
  intro h
  cases h

theorem reduce_statement_zero_operand_npe (parser : Parser) :
    grammar.reduce_statement_zero_operand parser ≠ Except.error Error.ParseError := by
  unfold grammar.reduce_statement_zero_operand
  split
  · rename_i e heq
    intro h; injection h with h; subst h
    exact Parser.pop_npe _ heq
  · split <;> (intro h; cases h)

theorem reduce_statement_one_operand_npe (parser : Parser) :
    grammar.reduce_statement_one_operand parser ≠ Except.error Error.ParseError := by
  unfold grammar.reduce_statement_one_operand
  split
  · rename_i e heq
    intro h; injection h with h; subst h
    exact Parser.pop_npe _ heq
  · split
    · rename_i e heq
      intro h; injection h with h; subst h
      exact Parser.pop_npe _ heq
    · split <;> (intro h; cases h)

theorem grammar.label_npe (input : pegtl.Input) (parser : Parser) :
    grammar.label input parser ≠ Except.error Error.ParseError := by
  unfold grammar.label
  apply pegtl.seq_cons_npe _ _ (pegtl.opt_npe _ grammar.whitespace_npe)
  apply pegtl.seq_cons_npe
  · apply pegtl.sor_cons_npe
    · unfold grammar.label_nonempty
      apply pegtl.with_action_npe
      · exact pegtl.seq_cons_npe _ _ grammar.symbol_npe
          (pegtl.seq_cons_npe _ _ (pegtl.one_npe _) pegtl.seq_nil_npe)
      · intro m b p h
        cases h
    apply pegtl.sor_cons_npe
    · unfold grammar.label_empty
      apply pegtl.with_action_npe
      · exact pegtl.seq_nil_npe
      · intro m b p h
        cases h
    exact pegtl.sor_nil_npe
  · exact pegtl.seq_cons_npe _ _ (pegtl.opt_npe _ grammar.whitespace_npe) pegtl.seq_nil_npe

theorem grammar.instruction_zero_operand_npe (input : pegtl.Input) (parser : Parser) :
    grammar.instruction_zero_operand input parser ≠ Except.error Error.ParseError := by
  unfold grammar.instruction_zero_operand
  apply pegtl.with_action_npe
  · apply pegtl.seq_cons_npe
    · unfold grammar.mnemonic_instruction_zero_operand
      apply pegtl.with_action_npe
      · repeat (first
          | exact pegtl.sor_nil_npe
          | apply pegtl.sor_cons_npe _ _ (pegtl.istring_npe _))
      · intro m b p
        exact push_mnemonic_npe m p
    · exact pegtl.seq_nil_npe
  · intro m b p
    exact reduce_statement_zero_operand_npe p

theorem grammar.instruction_one_operand_npe (input : pegtl.Input) (parser : Parser) :
    grammar.instruction_one_operand input parser ≠ Except.error Error.ParseError := by
  unfold grammar.instruction_one_operand
  apply pegtl.with_action_npe
  · apply pegtl.seq_cons_npe
    · unfold grammar.mnemonic_instruction_one_operand_suffixed
      apply pegtl.with_action_npe
      · apply pegtl.seq_cons_npe
        · unfold grammar.mnemonic_instruction_one_operand
          repeat (first
            | exact pegtl.sor_nil_npe
            | apply pegtl.sor_cons_npe _ _ (pegtl.istring_npe _))
        · apply pegtl.seq_cons_npe
          · apply pegtl.opt_npe
            unfold grammar.address_mode_one_operand_suffix
            apply pegtl.sor_cons_npe _ _ (pegtl.one_npe _)
            apply pegtl.sor_cons_npe _ _ (pegtl.one_npe _)
            apply pegtl.sor_cons_npe _ _ (pegtl.one_npe _)
            apply pegtl.sor_cons_npe
            · exact pegtl.seq_cons_npe _ _ (pegtl.one_npe _)
                (pegtl.seq_cons_npe _ _ (pegtl.one_npe _) pegtl.seq_nil_npe)
            apply pegtl.sor_cons_npe
            · exact pegtl.seq_cons_npe _ _ (pegtl.one_npe _)
                (pegtl.seq_cons_npe _ _ (pegtl.one_npe _) pegtl.seq_nil_npe)
            apply pegtl.sor_cons_npe _ _ (pegtl.one_npe _)
            exact pegtl.sor_nil_npe
          · exact pegtl.seq_nil_npe
      · intro m b p
        exact push_mnemonic_npe m p
    · exact pegtl.seq_cons_npe _ _ grammar.whitespace_npe
        (pegtl.seq_cons_npe _ _ grammar.expression_npe pegtl.seq_nil_npe)
  · intro m b p
    exact reduce_statement_one_operand_npe p

theorem grammar.pseudo_op_zero_operand_npe (input : pegtl.Input) (parser : Parser) :
    grammar.pseudo_op_zero_operand input parser ≠ Except.error Error.ParseError := by
  unfold grammar.pseudo_op_zero_operand
  apply pegtl.with_action_npe
  · apply pegtl.seq_cons_npe
    · unfold grammar.mnemonic_pseudo_zero_operand
      apply pegtl.with_action_npe
      · repeat (first
          | exact pegtl.sor_nil_npe
          | apply pegtl.sor_cons_npe _ _ (pegtl.istring_npe _))
      · intro m b p
        exact push_mnemonic_npe m p
    · exact pegtl.seq_nil_npe
  · intro m b p
    exact reduce_statement_zero_operand_npe p

theorem grammar.expression_list_npe (input : pegtl.Input) (parser : Parser) :
    grammar.expression_list input parser ≠ Except.error Error.ParseError := by
  unfold grammar.expression_list
  apply pegtl.seq_cons_npe
  · unfold grammar.expression_list_head
    apply pegtl.with_action_npe
    · exact pegtl.seq_cons_npe _ _ grammar.expression_npe pegtl.seq_nil_npe
    · intro m b p
      split
      · rename_i e heq
        intro h; injection h with h; subst h
        exact Parser.pop_npe _ heq
      · intro h; cases h
  · apply pegtl.seq_cons_npe
    · apply pegtl.star_npe
      apply pegtl.seq_cons_npe _ _ (pegtl.one_npe _)
      apply pegtl.seq_cons_npe
      · unfold grammar.expression_list_additional
        apply pegtl.with_action_npe
        · exact pegtl.seq_cons_npe _ _ grammar.expression_npe pegtl.seq_nil_npe
        · intro m b p
          split
          · rename_i e heq
            intro h; injection h with h; subst h
            exact Parser.pop_npe _ heq
          · split
            · rename_i e heq
              intro h; injection h with h; subst h
              exact Parser.pop_npe _ heq
            · split <;> (intro h; cases h)
      · exact pegtl.seq_nil_npe
    · exact pegtl.seq_nil_npe

theorem grammar.pseudo_op_variable_operand_npe (input : pegtl.Input) (parser : Parser) :
    grammar.pseudo_op_variable_operand input parser ≠ Except.error Error.ParseError := by
  unfold grammar.pseudo_op_variable_operand
  apply pegtl.with_action_npe
  · apply pegtl.seq_cons_npe
    · unfold grammar.mnemonic_pseudo_variable_operand
      apply pegtl.with_action_npe
      · repeat (first
          | exact pegtl.sor_nil_npe
          | apply pegtl.sor_cons_npe _ _ (pegtl.istring_npe _))
      · intro m b p
        exact push_mnemonic_npe m p
    · apply pegtl.seq_cons_npe
      · apply pegtl.sor_cons_npe
        · exact pegtl.seq_cons_npe _ _ grammar.whitespace_npe
            (pegtl.seq_cons_npe _ _ grammar.expression_list_npe pegtl.seq_nil_npe)
        apply pegtl.sor_cons_npe
        · unfold grammar.expression_list_empty
          apply pegtl.with_action_npe
          · exact pegtl.seq_nil_npe
          · intro m b p h
            cases h
        exact pegtl.sor_nil_npe
      · exact pegtl.seq_nil_npe
  · intro m b p
    split
    · rename_i e heq
      intro h; injection h with h; subst h
      exact Parser.pop_npe _ heq
    · split
      · rename_i e heq
        intro h; injection h with h; subst h
        exact Parser.pop_npe _ heq
      · simp only
        split <;> (intro h; cases h)

theorem grammar.pseudo_op_ascii_npe (input : pegtl.Input) (parser : Parser) :
    grammar.pseudo_op_ascii input parser ≠ Except.error Error.ParseError := by
  unfold grammar.pseudo_op_ascii
  apply pegtl.with_action_npe
  · apply pegtl.seq_cons_npe
    · unfold grammar.mnemonic_pseudo_ascii
      apply pegtl.with_action_npe _ _ (pegtl.istring_npe _)
      intro m b p
      exact push_mnemonic_npe m p
    · apply pegtl.seq_cons_npe _ _ grammar.whitespace_npe
      apply pegtl.seq_cons_npe
      · unfold grammar.string_constant
        apply pegtl.with_action_npe
        · apply pegtl.sor_cons_npe
          · exact pegtl.seq_cons_npe _ _ (pegtl.one_npe _)
              (pegtl.seq_cons_npe _ _ (pegtl.star_npe _ (pegtl.not_one_npe _))
                (pegtl.seq_cons_npe _ _ (pegtl.one_npe _) pegtl.seq_nil_npe))
          apply pegtl.sor_cons_npe
          · exact pegtl.seq_cons_npe _ _ (pegtl.one_npe _)
              (pegtl.seq_cons_npe _ _ (pegtl.star_npe _ (pegtl.not_one_npe _))
                (pegtl.seq_cons_npe _ _ (pegtl.one_npe _) pegtl.seq_nil_npe))
          apply pegtl.sor_cons_npe
          · exact pegtl.seq_cons_npe _ _ (pegtl.one_npe _)
              (pegtl.seq_cons_npe _ _ (pegtl.star_npe _ (pegtl.not_one_npe _))
                (pegtl.seq_cons_npe _ _ (pegtl.one_npe _) pegtl.seq_nil_npe))
          exact pegtl.sor_nil_npe
        · intro m b p h
          cases h
      · exact pegtl.seq_nil_npe
  · intro m b p
    exact reduce_statement_one_operand_npe p

theorem grammar.pseudo_op_def_npe (input : pegtl.Input) (parser : Parser) :
    grammar.pseudo_op_def input parser ≠ Except.error Error.ParseError := by
  unfold grammar.pseudo_op_def
  apply pegtl.with_action_npe
  · apply pegtl.seq_cons_npe
    · unfold grammar.mnemonic_pseudo_def
      apply pegtl.with_action_npe _ _ (pegtl.istring_npe _)
      intro m b p
      exact push_mnemonic_npe m p
    · exact pegtl.seq_cons_npe _ _ grammar.whitespace_npe
        (pegtl.seq_cons_npe _ _ grammar.expression_symbol_npe
          (pegtl.seq_cons_npe _ _ (pegtl.opt_npe _ grammar.whitespace_npe)
            (pegtl.seq_cons_npe _ _ (pegtl.one_npe _)
              (pegtl.seq_cons_npe _ _ (pegtl.opt_npe _ grammar.whitespace_npe)
                (pegtl.seq_cons_npe _ _ grammar.expression_npe pegtl.seq_nil_npe)))))
  · intro m b p
    split
    · rename_i e heq
      intro h; injection h with h; subst h
      exact Parser.pop_npe _ heq
    · split
      · rename_i e heq
        intro h; injection h with h; subst h
        exact Parser.pop_npe _ heq
      · split
        · rename_i e heq
          intro h; injection h with h; subst h
          exact Parser.pop_npe _ heq
        · split <;> (intro h; cases h)

theorem grammar.pseudo_op_link_npe (input : pegtl.Input) (parser : Parser) :
    grammar.pseudo_op_link input parser ≠ Except.error Error.ParseError := by
  unfold grammar.pseudo_op_link
  apply pegtl.seq_cons_npe
  · unfold grammar.mnemonic_pseudo_link
    apply pegtl.with_action_npe _ _ (pegtl.istring_npe _)
    intro m b p
    exact push_mnemonic_npe m p
  · exact pegtl.seq_cons_npe _ _ grammar.whitespace_npe
      (pegtl.seq_cons_npe _ _ grammar.symbol_npe pegtl.seq_nil_npe)

/-- No rule and no action of the grammar throws `ParseError`. -/
theorem grammar.statement_npe (input : pegtl.Input) (parser : Parser) :
    grammar.statement input parser ≠ Except.error Error.ParseError := by
  unfold grammar.statement
  apply pegtl.with_action_npe
  · apply pegtl.seq_cons_npe _ _ grammar.label_npe
    apply pegtl.seq_cons_npe
    · apply pegtl.sor_cons_npe _ _ grammar.instruction_zero_operand_npe
      apply pegtl.sor_cons_npe _ _ grammar.instruction_one_operand_npe
      apply pegtl.sor_cons_npe _ _ grammar.pseudo_op_zero_operand_npe
      apply pegtl.sor_cons_npe _ _ grammar.pseudo_op_variable_operand_npe
      apply pegtl.sor_cons_npe _ _ grammar.pseudo_op_ascii_npe
      apply pegtl.sor_cons_npe _ _ grammar.pseudo_op_def_npe
      apply pegtl.sor_cons_npe _ _ grammar.pseudo_op_link_npe
      apply pegtl.sor_cons_npe
      · unfold grammar.statement_empty
        apply pegtl.with_action_npe
        · exact pegtl.seq_nil_npe
        · intro m b p h
          cases h
      · exact pegtl.sor_nil_npe
    · apply pegtl.seq_cons_npe
      · unfold grammar.comment
        apply pegtl.opt_npe
        exact pegtl.seq_cons_npe _ _ grammar.whitespace_npe
          (pegtl.seq_cons_npe _ _ (pegtl.one_npe _)
            (pegtl.seq_cons_npe _ _ (pegtl.star_npe _ pegtl.any_npe) pegtl.seq_nil_npe))
      · exact pegtl.seq_nil_npe
  · intro m b p
    split
    · rename_i e heq
      intro h; injection h with h; subst h
      exact Parser.pop_npe _ heq
    · split
      · rename_i e heq
        intro h; injection h with h; subst h
        exact Parser.pop_npe _ heq
      · simp only
        split <;> (intro h; cases h)

/-- `Parser::parse` never throws `ParseError`. -/
theorem Parser.parse_npe (pass_number source_line_number location_counter : Nat) (s : String) :
    Parser.parse pass_number source_line_number location_counter s
      ≠ Except.error Error.ParseError := by
  intro h
  unfold Parser.parse at h
  simp only at h
  split at h
  · rename_i e heq
    injection h with h
    subst h
    exact grammar.statement_npe _ _ heq
  · rename_i p heq
    exact grammar.statement_matches _ _ _ heq
  · split at h
    · rename_i e heq
      injection h with h
      subst h
      exact Parser.pop_npe _ heq
    · split at h
      · cases h
      · cases h

/-- C27 fails: `Parser::parse` never fails with `ParseError`, whatever the
line. The rule `statement` ends in the alternative `statement_empty`, which
matches the empty prefix of every line, and does not require the end of the
line, so `pegtl::parse` never returns `false`. The line `???` is parsed to the
empty statement; `nop junk` and `lda 5 junk` are parsed to the statement of
their prefix; in `lda` without operand and in `lda 5+` a rule fails after an
action inside it has pushed a node (the mnemonic, the operator `+`), and the
next action that pops the stack (`action<statement>`,
`action<instruction_one_operand>`) casts that node to the class it expects
and dereferences the null pointer. -/
theorem parse_never_fails :
    (∀ (pass_number source_line_number location_counter : Nat) (s : String),
      Parser.parse pass_number source_line_number location_counter s
        ≠ Except.error Error.ParseError) ∧
    Parser.parse 1 1 0 "???" = Except.ok (some { m_label := "", m_mnemonic := "" }) ∧
    Parser.parse 1 1 0 "lda" = Except.error Error.undefined_behaviour ∧
    Parser.parse 1 1 0 "    lda 5+" = Except.error Error.undefined_behaviour ∧
    Parser.parse 1 1 0 "nop junk" = Except.ok (some { m_mnemonic := "nop" }) ∧
    Parser.parse 1 1 0 "    lda 5 junk"
      = Except.ok (some { m_mnemonic := "lda",
                          m_operands := [Expression.Constant (Value.known 5)] }) :=
  ⟨Parser.parse_npe, by decide!, by decide!, by decide!, by decide!, by decide!⟩

/-! ## What a line changes in the state -/

theorem Assembler.emit_chars_shape (cs : List Char) :
    ∀ a : Assembler, ∃ bytes sow,
      cs.foldl (fun a c => a.emit_byte c.toNat) a
        = { a with m_object_code_bytes := bytes, m_object_code_bytes_start_of_word := sow } := by
  induction cs with
  | nil => intro a; exact ⟨_, _, rfl⟩
  | cons c cs ih =>
    intro a
    obtain ⟨bytes, sow, h⟩ := ih (a.emit_byte c.toNat)
    simp only [List.foldl_cons]
    rw [h]
    exact ⟨_, _, rfl⟩

theorem Assembler.assemble_operands_loop_shape (emit : Assembler → Nat → Assembler)
    (hemit : ∀ a v, ∃ bytes sow, emit a v
      = { a with m_object_code_bytes := bytes, m_object_code_bytes_start_of_word := sow })
    (operands : List Expression) :
    ∀ a a' : Assembler, Assembler.assemble_operands_loop emit operands a = Except.ok a' →
      ∃ bytes sow, a'
        = { a with m_object_code_bytes := bytes, m_object_code_bytes_start_of_word := sow } := by
  induction operands with
  | nil =>
    intro a a' h
    simp only [Assembler.assemble_operands_loop] at h
    injection h with h
    subst h
    exact ⟨_, _, rfl⟩
  | cons e rest ih =>
    intro a a' h
    simp only [Assembler.assemble_operands_loop] at h
    split at h
    · cases h
    · rename_i value a1 hc
      have h1 := Assembler.convert_state a a1 e value hc
      subst h1
      obtain ⟨b1, s1, h1⟩ := hemit a1 value
      obtain ⟨b2, s2, h2⟩ := ih _ _ h
      rw [h2, h1]
      exact ⟨_, _, rfl⟩

/-- What `assemble_instruction` changes: the symbol table, by the definition
of the label, and the buffer of the bytes of the line. -/
theorem Assembler.assemble_instruction_shape (a a' : Assembler) (st : Statement)
    (hs : a.m_statement_sp = some st) (h : a.assemble_instruction = Except.ok a') :
    ∃ t bytes sow, a' = { a with m_symbol_table_sp := t, m_object_code_bytes := bytes,
                                 m_object_code_bytes_start_of_word := sow } := by
  unfold Assembler.assemble_instruction at h
  simp only [hs] at h
  split at h
  · cases h
  · rename_i a1 hlabel
    obtain ⟨t, ht⟩ := Assembler.label_fields _ _ _ _ hlabel
    subst ht
    split at h
    · injection h with h
      subst h
      exact ⟨_, _, _, rfl⟩
    · split at h
      · cases h
      · split at h
        · cases h
        · rename_i expect_operand _
          by_cases hcnt : st.get_operand_count ≠ (if expect_operand = true then 1 else 0)
          · rw [if_pos hcnt] at h
            cases h
          · rw [if_neg hcnt] at h
            split at h
            · cases h
            · rename_i locals a2 hsel
              have h2 : a2 = { a with m_symbol_table_sp := t } := by
                split at hsel
                · split at hsel
                  · cases hsel
                  · injection hsel with hsel
                    injection hsel with _ hsel
                    exact hsel.symm
                · split at hsel
                  · cases hsel
                  · split at hsel
                    · cases hsel
                    · rename_i v a3 hc
                      have h3 := Assembler.convert_state _ _ _ _ hc
                      subst h3
                      split at hsel
                      · cases hsel
                      · split at hsel
                        · cases hsel
                        · injection hsel with hsel
                          injection hsel with _ hsel
                          exact hsel.symm
              subst h2
              split at h <;> injection h with h <;> subst h <;> exact ⟨_, _, _, rfl⟩

open PseudoOp.PseudoOpEnum in
/-- What `assemble_pseudo_op` changes: the symbol table and the buffer of the
bytes of the line (the directives that emit), or the symbol table, the
location counter, the address of the line, the flag that shows the address in
the listing and the flag of `.end` (the directives that do not emit). -/
theorem Assembler.assemble_pseudo_op_shape (a a' : Assembler) (st : Statement)
    (hs : a.m_statement_sp = some st) (h : a.assemble_pseudo_op = Except.ok a') :
    (∃ t bytes sow, a' = { a with m_symbol_table_sp := t, m_object_code_bytes := bytes,
                                  m_object_code_bytes_start_of_word := sow }) ∨
    (∃ t lc addr show_address end_reached,
      a' = { a with m_symbol_table_sp := t, m_location_counter := lc,
                    m_object_code_address := addr, m_listing_show_address := show_address,
                    m_end_reached := end_reached }) := by
  unfold Assembler.assemble_pseudo_op at h
  simp only [hs] at h
  split at h
  · cases h
  · rename_i info hinfo
    have hflags := PseudoOp.lookup_mnemonic_flags _ _ hinfo
    simp only [hflags, Bool.false_eq_true, if_false, Bool.not_false, if_true] at h
    split at h
    · cases h
    · rename_i a1 hlabel
      obtain ⟨t, ht⟩ := Assembler.label_fields _ _ _ _ hlabel
      subst ht
      unfold Assembler.s_assemble_pseudo_op_fn_ptrs at h
      cases hp : info.pseudo_op <;> simp only [hp] at h
      · left
        unfold Assembler.assemble_pseudo_op_ascii at h
        split at h
        · cases h
        · split at h
          · injection h with h
            obtain ⟨bytes, sow, hb⟩ := Assembler.emit_chars_shape _ { a with m_symbol_table_sp := t }
            rw [hb] at h
            subst h
            exact ⟨_, _, _, rfl⟩
          · cases h
      · left
        unfold Assembler.assemble_pseudo_op_byte at h
        split at h
        · injection h with h; subst h; exact ⟨_, _, _, rfl⟩
        · obtain ⟨bytes, sow, hb⟩ := Assembler.assemble_operands_loop_shape
            (fun a value => a.emit_byte (value &&& 0xff)) (fun _ _ => ⟨_, _, rfl⟩) _ _ _ h
          rw [hb]
          exact ⟨_, _, _, rfl⟩
      · right
        unfold Assembler.assemble_pseudo_op_def at h
        split at h
        · cases h
        · split at h
          · cases h
          · split at h
            · cases h
            · rename_i value a2 hc
              have h2 := Assembler.convert_state _ _ _ _ hc
              subst h2
              split at h
              · split at h
                · cases h
                · rename_i a3 hd
                  obtain ⟨t3, ht3⟩ := Assembler.define_symbol_fields _ _ _ _ hd
                  subst ht3
                  injection h with h
                  subst h
                  exact ⟨_, _, _, _, _, rfl⟩
              · cases h
      · right
        unfold Assembler.assemble_pseudo_op_end at h
        injection h with h; subst h; exact ⟨_, _, _, _, _, rfl⟩
      · left
        unfold Assembler.assemble_pseudo_op_hbyte at h
        split at h
        · injection h with h; subst h; exact ⟨_, _, _, rfl⟩
        · obtain ⟨bytes, sow, hb⟩ := Assembler.assemble_operands_loop_shape
            (fun a value => a.emit_byte (value >>> 8)) (fun _ _ => ⟨_, _, rfl⟩) _ _ _ h
          rw [hb]
          exact ⟨_, _, _, rfl⟩
      · unfold Assembler.assemble_pseudo_op_unimplemented at h
        cases h
      · right
        unfold Assembler.assemble_pseudo_op_list at h
        injection h with h; subst h; exact ⟨_, _, _, _, _, rfl⟩
      · right
        unfold Assembler.assemble_pseudo_op_loc at h
        split at h
        · cases h
        · split at h
          · cases h
          · rename_i addr a2 hc
            have h2 := Assembler.convert_state _ _ _ _ hc
            subst h2
            injection h with h; subst h; exact ⟨_, _, _, _, _, rfl⟩
      · right
        unfold Assembler.assemble_pseudo_op_nolist at h
        injection h with h; subst h; exact ⟨_, _, _, _, _, rfl⟩
      · right
        unfold Assembler.assemble_pseudo_op_page at h
        injection h with h; subst h; exact ⟨_, _, _, _, _, rfl⟩
      · left
        unfold Assembler.assemble_pseudo_op_word at h
        split at h
        · injection h with h; subst h; exact ⟨_, _, _, rfl⟩
        · obtain ⟨bytes, sow, hb⟩ := Assembler.assemble_operands_loop_shape
            (fun a value => a.emit_word value) (fun _ _ => ⟨_, _, rfl⟩) _ _ _ h
          rw [hb]
          exact ⟨_, _, _, rfl⟩

/-- What `assemble_line` changes: a line that emits changes the symbol table
(by the definition of its label) and the buffer of its bytes; a line that does
not emit changes the symbol table, the location counter, the address of the
line and the two flags. Nothing else is written: not the object file, not the
listing, not the error count. -/
theorem Assembler.assemble_line_shape (a a' : Assembler) (h : a.assemble_line = Except.ok a') :
    (∃ t bytes sow, a' = { a with m_symbol_table_sp := t, m_object_code_bytes := bytes,
                                  m_object_code_bytes_start_of_word := sow }) ∨
    (∃ t lc addr show_address end_reached,
      a' = { a with m_symbol_table_sp := t, m_location_counter := lc,
                    m_object_code_address := addr, m_listing_show_address := show_address,
                    m_end_reached := end_reached }) := by
  unfold Assembler.assemble_line at h
  split at h
  · cases h
  · rename_i st hs
    simp only at h
    split at h
    · left
      exact Assembler.assemble_instruction_shape a a' st hs h
    · split at h
      · exact Assembler.assemble_pseudo_op_shape a a' st hs h
      · cases h

/-! ## A round of the loop of `assemble_pass` -/

theorem Assembler.write_listing_line_fields (a a' : Assembler)
    (h : a.write_listing_line = Except.ok a') :
    ∃ listing, a' = { a with m_listing_file := listing } := by
  unfold Assembler.write_listing_line at h
  simp only at h
  split at h
  · cases h
  · split at h
    · cases h
    · injection h with h
      exact ⟨_, h.symm⟩

/-- The steps of a successful round of the loop of `assemble_pass`: the line
is parsed (never with a `ParseError`), `assemble_line` runs in the state that
the head of the loop prepares, pass 2 writes the listing line and the object
bytes, and the location counter advances by the number of bytes. -/
theorem Assembler.assemble_pass_line_steps (s r : Assembler) (line : String)
    (h : s.assemble_pass_line line = Except.ok r) :
    ∃ (statement_sp : Option Statement) (a' w : Assembler),
      Parser.parse s.m_pass_number.toNat (s.m_source_line_number + 1) s.m_location_counter
        (untabify line) = Except.ok statement_sp ∧
      (s.begin_line line statement_sp).assemble_line = Except.ok a' ∧
      (if a'.m_pass_number = 2 then
          match a'.write_listing_line with
          | Except.error e => Except.error e
          | Except.ok a => Except.ok a.write_object_bytes
        else Except.ok a') = Except.ok w ∧
      r = { w with m_location_counter :=
              (w.m_location_counter + w.m_object_code_bytes.length) % 65536 } := by
  unfold Assembler.assemble_pass_line at h
  simp only at h
  split at h
  · cases h
  · rename_i a hparsed
    split at hparsed
    · rename_i statement_sp hp
      injection hparsed with hparsed
      subst hparsed
      split at h
      · cases h
      · rename_i a' hline
        split at h
        · cases h
        · rename_i w hw
          injection h with h
          exact ⟨statement_sp, a', w, hp, hline, hw, h.symm⟩
    · rename_i hp
      exact absurd hp (Parser.parse_npe _ _ _ _)
    · cases hparsed

/-- A round of the loop of `assemble_pass` leaves the instruction set, the
pass number and the two counts of errors and warnings as they are. -/
theorem Assembler.assemble_pass_line_frame (s r : Assembler) (line : String)
    (h : s.assemble_pass_line line = Except.ok r) :
    r.m_instruction_set_sp = s.m_instruction_set_sp ∧ r.m_pass_number = s.m_pass_number ∧
    r.m_error_count = s.m_error_count ∧ r.m_warning_count = s.m_warning_count := by
  obtain ⟨statement_sp, a', w, _, hline, hw, hr⟩ := Assembler.assemble_pass_line_steps s r line h
  have hw' : w.m_instruction_set_sp = a'.m_instruction_set_sp ∧
      w.m_pass_number = a'.m_pass_number ∧ w.m_error_count = a'.m_error_count ∧
      w.m_warning_count = a'.m_warning_count := by
    split at hw
    · split at hw
      · cases hw
      · rename_i a3 hl
        obtain ⟨listing, hl⟩ := Assembler.write_listing_line_fields _ _ hl
        injection hw with hw
        subst hw hl
        unfold Assembler.write_object_bytes
        split <;> exact ⟨rfl, rfl, rfl, rfl⟩
    · injection hw with hw
      subst hw
      exact ⟨rfl, rfl, rfl, rfl⟩
  subst hr
  obtain ⟨h1, h2, h3, h4⟩ := hw'
  rcases Assembler.assemble_line_shape _ _ hline with ⟨t, bytes, sow, ha⟩ | ⟨t, lc, addr, sa, er, ha⟩
  · subst ha
    exact ⟨h1, h2, h3, h4⟩
  · subst ha
    exact ⟨h1, h2, h3, h4⟩

/-- What a round of the loop of `assemble_pass` writes to the object file in
pass 2: nothing for a line without bytes; for a line with bytes an address
prefix when the location counter is not the address that
`m_prev_object_code_address` holds, then the bytes; and
`m_prev_object_code_address` becomes the 32-bit sum of the location counter
and the number of bytes. -/
theorem Assembler.assemble_pass_line_object (s r : Assembler) (line : String)
    (hpass : s.m_pass_number = 2) (h : s.assemble_pass_line line = Except.ok r) :
    (r.m_object_code_bytes = [] →
      r.m_object_file = s.m_object_file ∧
      r.m_prev_object_code_address = s.m_prev_object_code_address) ∧
    (r.m_object_code_bytes ≠ [] →
      r.m_object_file = s.m_object_file
        ++ (if s.m_location_counter ≠ s.m_prev_object_code_address
            then "*" ++ format_04X s.m_location_counter else "")
        ++ r.m_object_code_bytes.foldl (fun text byte => text ++ format_02X byte) "" ∧
      r.m_prev_object_code_address
        = (s.m_location_counter + r.m_object_code_bytes.length) % 2 ^ 32 ∧
      r.m_location_counter
        = (s.m_location_counter + r.m_object_code_bytes.length) % 65536) := by
  obtain ⟨statement_sp, a', w, _, hline, hw, hr⟩ := Assembler.assemble_pass_line_steps s r line h
  rcases Assembler.assemble_line_shape _ _ hline with ⟨t, bytes, sow, ha⟩ | ⟨t, lc, addr, sa, er, ha⟩
  · subst ha
    simp only [Assembler.begin_line, hpass, if_true] at hw
    split at hw
    · cases hw
    · rename_i a3 hl
      obtain ⟨listing, hl⟩ := Assembler.write_listing_line_fields _ _ hl
      injection hw with hw
      subst hl hw hr
      unfold Assembler.write_object_bytes
      by_cases hb : bytes = []
      · subst hb
        simp
      · have hlen : bytes.length ≠ 0 := by
          intro h0
          exact hb (List.length_eq_zero.1 h0)
        simp [hb, hlen]
  · subst ha
    simp only [Assembler.begin_line, hpass, if_true] at hw
    split at hw
    · cases hw
    · rename_i a3 hl
      obtain ⟨listing, hl⟩ := Assembler.write_listing_line_fields _ _ hl
      injection hw with hw
      subst hl hw hr
      unfold Assembler.write_object_bytes
      simp

/-- A round of the loop of `assemble_pass` for a line that the parser turns
into `statement_sp`. -/
theorem Assembler.assemble_pass_line_eq (s : Assembler) (line : String)
    (statement_sp : Option Statement)
    (hparse : Parser.parse s.m_pass_number.toNat (s.m_source_line_number + 1)
      s.m_location_counter (untabify line) = Except.ok statement_sp) :
    s.assemble_pass_line line =
      match (s.begin_line line statement_sp).assemble_line with
      | Except.error e => Except.error e
      | Except.ok a =>
        match (if a.m_pass_number = 2 then
            match a.write_listing_line with
            | Except.error e => Except.error e
            | Except.ok a => Except.ok a.write_object_bytes
          else Except.ok a) with
        | Except.error e => Except.error e
        | Except.ok a =>
          Except.ok { a with m_location_counter :=
            (a.m_location_counter + a.m_object_code_bytes.length) % 65536 } := by
  unfold Assembler.assemble_pass_line
  simp only [hparse]
  rfl

/-- The listing line of a line without bytes. -/
theorem Assembler.write_listing_line_empty (a : Assembler) (h : a.m_object_code_bytes = []) :
    a.write_listing_line = Except.ok { a with m_listing_file := a.m_listing_file ++
      ((if a.m_listing_show_address = true
          then format_5 a.m_source_line_number ++ "  " ++ format_04x a.m_object_code_address ++ " "
          else format_5 a.m_source_line_number ++ "  " ++ "     ")
        ++ ("" ++ String.mk (List.replicate 9 ' ')) ++ "  " ++ a.m_source_line ++ "\n") } := by
  unfold Assembler.write_listing_line
  simp [Assembler.write_listing_line_loop, Assembler.MAX_OBJECT_BYTES_PER_LISTING_LINE, h]

/-! ## Directives -/

/-- The line of a directive: `assemble_line` defines the label, if there is
one, and calls the handler of the directive in the state that this leaves. -/
theorem Assembler.assemble_line_pseudo_op (a : Assembler) (st : Statement)
    (p : PseudoOp.PseudoOpEnum)
    (hs : a.m_statement_sp = some st)
    (hm : PseudoOp.s_by_mnemonic.lookup (utility.downcase_string st.m_mnemonic) = some p)
    (hi : a.m_instruction_set_sp.valid_mnemonic st.m_mnemonic = false) :
    a.assemble_line =
      match (if st.m_label.length ≠ 0
        then a.define_symbol st.m_label (Value.create a.m_location_counter)
        else Except.ok a) with
      | Except.error e => Except.error e
      | Except.ok a1 => a1.s_assemble_pseudo_op_fn_ptrs st (PseudoOp.s_by_enum p) := by
  have hlen : st.m_mnemonic.length ≠ 0 := by
    intro h0
    have : st.m_mnemonic = "" := by
      cases hst : st.m_mnemonic with
      | mk data =>
        rw [hst] at h0
        cases data with
        | nil => rfl
        | cons c cs => simp [String.length] at h0
    have hnone : PseudoOp.s_by_mnemonic.lookup (utility.downcase_string "") = none := by decide
    rw [this, hnone] at hm
    cases hm
  have hv : PseudoOp.valid_mnemonic st.m_mnemonic = true := by
    simp only [PseudoOp.valid_mnemonic, hm]
    rfl
  have hl : PseudoOp.lookup_mnemonic st.m_mnemonic = Except.ok (PseudoOp.s_by_enum p) := by
    simp only [PseudoOp.lookup_mnemonic, hm]
  have hflags := PseudoOp.lookup_mnemonic_flags _ _ hl
  unfold Assembler.assemble_line
  simp only [hs, hlen, hi, Bool.false_eq_true, or_self, if_false, hv, if_true]
  unfold Assembler.assemble_pseudo_op
  simp only [hs, hl]
  simp only [hflags, Bool.false_eq_true, if_false, Bool.not_false, if_true]

/-- The mnemonics of the directives are not mnemonics of the instruction
set. -/
theorem InstructionSet.pal65_directive (mnemonic : String) (p : PseudoOp.PseudoOpEnum)
    (hm : PseudoOp.s_by_mnemonic.lookup (utility.downcase_string mnemonic) = some p) :
    InstructionSet.pal65.valid_mnemonic mnemonic = false := by
  have hmem : utility.downcase_string mnemonic ∈
      [".ascii", ".byte", ".def", ".end", ".hbyte", ".link", ".list", ".loc", ".nolist",
        ".page", ".word"] := by
    by_contra hne
    simp only [List.mem_cons, List.mem_singleton, not_or, List.not_mem_nil, or_false] at hne
    obtain ⟨h1, h2, h3, h4, h5, h6, h7, h8, h9, h10, h11⟩ := hne
    have hb : ∀ s : String, utility.downcase_string mnemonic ≠ s →
        (utility.downcase_string mnemonic == s) = false := by
      intro s hs
      simpa using hs
    simp [PseudoOp.s_by_mnemonic, List.lookup, hb _ h1, hb _ h2, hb _ h3, hb _ h4, hb _ h5,
      hb _ h6, hb _ h7, hb _ h8, hb _ h9, hb _ h10, hb _ h11] at hm
  unfold InstructionSet.valid_mnemonic
  simp only
  generalize utility.downcase_string mnemonic = s at hmem
  simp only [List.mem_cons, List.mem_singleton, List.not_mem_nil, or_false] at hmem
  rcases hmem with h | h | h | h | h | h | h | h | h | h | h <;> subst h <;> decide!

/-! ## `.loc` -/

/-- C23: for a line that the parser turns into a `.loc` statement with the
operand `e`, where `e` evaluates to the known 16-bit value `v` (in the state
that the definition of the label of the line, if there is one, leaves): the
round of the loop of `assemble_pass` for the line succeeds; the line emits no
byte; after it the location counter is `v`, the object-code address of the
line is `v` and the flag that makes the listing show the address is set, so
that in pass 2 the listing line carries the address `v`; nothing is written
to the object file; and when the next line emits bytes in pass 2, they are
written at the address `v`: after the prefix `*` with the four hexadecimal
digits of `v`, or without a prefix when `v` is the address that follows the
bytes written before. -/
theorem loc_sets_location_counter (s a1 a2 : Assembler) (line : String) (st : Statement)
    (e : Expression) (v : Nat)
    (hset : s.m_instruction_set_sp = InstructionSet.pal65)
    (hparse : Parser.parse s.m_pass_number.toNat (s.m_source_line_number + 1)
      s.m_location_counter (untabify line) = Except.ok (some st))
    (hm : utility.downcase_string st.m_mnemonic = ".loc")
    (hops : st.m_operands = [e])
    (hlabel : (if st.m_label.length ≠ 0
        then (s.begin_line line (some st)).define_symbol st.m_label
          (Value.create s.m_location_counter)
        else Except.ok (s.begin_line line (some st))) = Except.ok a1)
    (hev : a1.evaluate e = Except.ok (Value.known v, a2))
    (hv : v < 65536) :
    ∃ r : Assembler, s.assemble_pass_line line = Except.ok r ∧
      r.m_object_code_bytes = [] ∧
      r.m_location_counter = v ∧
      r.m_object_code_address = v ∧
      r.m_listing_show_address = true ∧
      r.m_object_file = s.m_object_file ∧
      (s.m_pass_number = 2 →
        r.m_listing_file = s.m_listing_file ++
          (format_5 (s.m_source_line_number + 1) ++ "  " ++ format_04x v ++ " "
            ++ ("" ++ String.mk (List.replicate 9 ' ')) ++ "  " ++ untabify line ++ "\n")) ∧
      (∀ (next : String) (r' : Assembler), r.m_pass_number = 2 →
        r.assemble_pass_line next = Except.ok r' → r'.m_object_code_bytes ≠ [] →
        r'.m_object_file = r.m_object_file
          ++ (if v ≠ r.m_prev_object_code_address then "*" ++ format_04X v else "")
          ++ r'.m_object_code_bytes.foldl (fun text byte => text ++ format_02X byte) "") := by
  have hlk : PseudoOp.s_by_mnemonic.lookup (utility.downcase_string st.m_mnemonic)
      = some PseudoOp.PseudoOpEnum.LOC := by
    rw [hm]; decide
  have hi : (s.begin_line line (some st)).m_instruction_set_sp.valid_mnemonic st.m_mnemonic
      = false := by
    show s.m_instruction_set_sp.valid_mnemonic st.m_mnemonic = false
    rw [hset]
    exact InstructionSet.pal65_directive _ _ hlk
  have hline := Assembler.assemble_line_pseudo_op (s.begin_line line (some st)) st _ rfl hlk hi
  have hlabel' : (if st.m_label.length ≠ 0
        then (s.begin_line line (some st)).define_symbol st.m_label
          (Value.create (s.begin_line line (some st)).m_location_counter)
        else Except.ok (s.begin_line line (some st))) = Except.ok a1 := hlabel
  rw [hlabel'] at hline
  obtain ⟨t, ht⟩ := Assembler.label_fields _ _ _ _ hlabel
  have h2 := Assembler.evaluate_state _ _ _ _ hev
  subst h2
  have hconv := Assembler.convert_operand_uint16_known _ _ e v hev
  have hloc : (s.begin_line line (some st)).assemble_line
      = Except.ok { a2 with m_location_counter := v, m_object_code_address := v,
                            m_listing_show_address := true } := by
    rw [hline]
    simp only [Assembler.s_assemble_pseudo_op_fn_ptrs, PseudoOp.s_by_enum,
      Assembler.assemble_pseudo_op_loc, Statement.get_operand, hops, List.get?, hconv]
  rw [Assembler.assemble_pass_line_eq s line _ hparse, hloc]
  subst ht
  by_cases hp : s.m_pass_number = 2
  · have hw := Assembler.write_listing_line_empty
      { ({ s.begin_line line (some st) with m_symbol_table_sp := t } : Assembler) with
          m_location_counter := v, m_object_code_address := v, m_listing_show_address := true }
      rfl
    simp only [Assembler.begin_line, hp, if_true] at hw ⊢
    rw [hw]
    refine ⟨_, rfl, ?_, ?_, ?_, ?_, ?_, ?_, ?_⟩
    · simp [Assembler.write_object_bytes]
    · simp [Assembler.write_object_bytes, Nat.mod_eq_of_lt hv]
    · simp [Assembler.write_object_bytes]
    · simp [Assembler.write_object_bytes]
    · simp [Assembler.write_object_bytes]
    · intro _
      simp [Assembler.write_object_bytes]
    · intro next r' hp2 hnext hne
      have := (Assembler.assemble_pass_line_object _ r' next hp2 hnext).2 hne
      simpa [Assembler.write_object_bytes, Nat.mod_eq_of_lt hv] using this.1
  · simp only [Assembler.begin_line, hp, if_false]
    refine ⟨_, rfl, rfl, ?_, rfl, rfl, rfl, ?_, ?_⟩
    · simp [Nat.mod_eq_of_lt hv]
    · intro h
      exact h.elim
    · intro next r' hp2 _ _
      exact absurd hp2 hp

set_option maxRecDepth 100000 in
/-- C23 at the line `.loc $1234` (line 2 of pass 2, location 0x0200): the
round leaves the location counter at 0x1234, and the listing line is
`    2  1234` followed by the source text. -/
theorem loc_sets_location_counter_witness :
    ∃ r : Assembler,
      (Assembler.line_state 2 1 0x0200 SymbolTable.create {}).assemble_pass_line ".loc $1234"
        = Except.ok r ∧
      r.m_object_code_bytes = [] ∧
      r.m_location_counter = 0x1234 ∧
      r.m_object_code_address = 0x1234 ∧
      r.m_listing_show_address = true ∧
      r.m_object_file = "" ∧
      r.m_listing_file = "    2  1234            .loc $1234\n" := by
  have hp : Parser.parse (Assembler.line_state 2 1 0x0200 SymbolTable.create {}).m_pass_number.toNat
      ((Assembler.line_state 2 1 0x0200 SymbolTable.create {}).m_source_line_number + 1)
      (Assembler.line_state 2 1 0x0200 SymbolTable.create {}).m_location_counter
      (untabify ".loc $1234")
      = Except.ok (some { m_mnemonic := ".loc",
                          m_operands := [Expression.Constant (Value.known 0x1234)] }) := by
    decide!
  obtain ⟨r, h, h1, h2, h3, h4, h5, h6, _⟩ := loc_sets_location_counter
    (Assembler.line_state 2 1 0x0200 SymbolTable.create {}) _ _ ".loc $1234"
    { m_mnemonic := ".loc", m_operands := [Expression.Constant (Value.known 0x1234)] }
    (Expression.Constant (Value.known 0x1234)) 0x1234 rfl hp (by decide) rfl rfl rfl (by decide)
  refine ⟨r, h, h1, h2, h3, h4, h5, ?_⟩
  rw [h6 rfl]
  decide

/-! ## `.list`, `.nolist`, `.page` and `.link` -/

/-- C25 for `.list`, `.nolist` and `.page`: the parser turns each of the
three lines into a statement without label and without operands, whatever the
location counter; and the round of the loop of `assemble_pass` for a line
that the parser turns into such a statement succeeds in every pass, emits no
byte, writes nothing to the object file, and leaves the location counter (a
16-bit value) and the symbol table as they were. -/
theorem listing_directives_no_effect (s : Assembler) (line : String) (st : Statement)
    (hset : s.m_instruction_set_sp = InstructionSet.pal65)
    (hlc : s.m_location_counter < 65536)
    (hparse : Parser.parse s.m_pass_number.toNat (s.m_source_line_number + 1)
      s.m_location_counter (untabify line) = Except.ok (some st))
    (hlabel : st.m_label = "")
    (hm : utility.downcase_string st.m_mnemonic = ".list" ∨
      utility.downcase_string st.m_mnemonic = ".nolist" ∨
      utility.downcase_string st.m_mnemonic = ".page") :
    (∀ lc : Nat, Parser.parse 1 1 lc ".list" = Except.ok (some { m_mnemonic := ".list" })) ∧
    (∀ lc : Nat, Parser.parse 1 1 lc ".nolist" = Except.ok (some { m_mnemonic := ".nolist" })) ∧
    (∀ lc : Nat, Parser.parse 1 1 lc ".page" = Except.ok (some { m_mnemonic := ".page" })) ∧
    ∃ r : Assembler, s.assemble_pass_line line = Except.ok r ∧
      r.m_object_code_bytes = [] ∧
      r.m_object_file = s.m_object_file ∧
      r.m_location_counter = s.m_location_counter ∧
      r.m_symbol_table_sp = s.m_symbol_table_sp := by
  refine ⟨fun lc => rfl, fun lc => rfl, fun lc => rfl, ?_⟩
  have hnoop : (s.begin_line line (some st)).assemble_line
      = Except.ok (s.begin_line line (some st)) := by
    have hi : ∀ p, PseudoOp.s_by_mnemonic.lookup (utility.downcase_string st.m_mnemonic) = some p →
        (s.begin_line line (some st)).m_instruction_set_sp.valid_mnemonic st.m_mnemonic
          = false := by
      intro p hlk
      show s.m_instruction_set_sp.valid_mnemonic st.m_mnemonic = false
      rw [hset]
      exact InstructionSet.pal65_directive _ _ hlk
    rcases hm with hm | hm | hm
    · have hlk : PseudoOp.s_by_mnemonic.lookup (utility.downcase_string st.m_mnemonic)
          = some PseudoOp.PseudoOpEnum.LIST := by rw [hm]; decide
      rw [Assembler.assemble_line_pseudo_op _ st _ rfl hlk (hi _ hlk), hlabel]
      rfl
    · have hlk : PseudoOp.s_by_mnemonic.lookup (utility.downcase_string st.m_mnemonic)
          = some PseudoOp.PseudoOpEnum.NOLIST := by rw [hm]; decide
      rw [Assembler.assemble_line_pseudo_op _ st _ rfl hlk (hi _ hlk), hlabel]
      rfl
    · have hlk : PseudoOp.s_by_mnemonic.lookup (utility.downcase_string st.m_mnemonic)
          = some PseudoOp.PseudoOpEnum.PAGE := by rw [hm]; decide
      rw [Assembler.assemble_line_pseudo_op _ st _ rfl hlk (hi _ hlk), hlabel]
      rfl
  rw [Assembler.assemble_pass_line_eq s line _ hparse, hnoop]
  by_cases hp : s.m_pass_number = 2
  · have hw := Assembler.write_listing_line_empty (s.begin_line line (some st)) rfl
    simp only [Assembler.begin_line, hp, if_true] at hw ⊢
    rw [hw]
    refine ⟨_, rfl, ?_, ?_, ?_, ?_⟩
    · simp [Assembler.write_object_bytes]
    · simp [Assembler.write_object_bytes]
    · simp [Assembler.write_object_bytes, Nat.mod_eq_of_lt hlc]
    · simp [Assembler.write_object_bytes]
  · simp only [Assembler.begin_line, hp, if_false]
    refine ⟨_, rfl, rfl, rfl, ?_, rfl⟩
    simp [Nat.mod_eq_of_lt hlc]

set_option maxRecDepth 100000 in
/-- C25 at the line `.page` (line 4, location 0x0200) in pass 1 and in
pass 2, with `foo` in the symbol table. -/
theorem listing_directives_no_effect_witness :
    (∃ r : Assembler,
      (Assembler.line_state 1 3 0x0200
        { m_lookup_undefined_ok := false,
          m_symbol_table := [("foo", { value := Value.known 7, definition_line_number := 1,
                                       reference_line_numbers := ∅ })] } {}).assemble_pass_line
        ".page" = Except.ok r ∧
      r.m_object_code_bytes = [] ∧ r.m_object_file = "" ∧ r.m_location_counter = 0x0200 ∧
      r.m_symbol_table_sp.find "foo"
        = some { value := Value.known 7, definition_line_number := 1,
                 reference_line_numbers := ∅ }) ∧
    (∃ r : Assembler,
      (Assembler.line_state 2 3 0x0200
        { m_lookup_undefined_ok := false,
          m_symbol_table := [("foo", { value := Value.known 7, definition_line_number := 1,
                                       reference_line_numbers := ∅ })] } {}).assemble_pass_line
        ".page" = Except.ok r ∧
      r.m_object_code_bytes = [] ∧ r.m_object_file = "" ∧ r.m_location_counter = 0x0200 ∧
      r.m_symbol_table_sp.find "foo"
        = some { value := Value.known 7, definition_line_number := 1,
                 reference_line_numbers := ∅ }) := by
  obtain ⟨_, _, _, r1, h1, hb1, ho1, hl1, ht1⟩ := listing_directives_no_effect
    (Assembler.line_state 1 3 0x0200
      { m_lookup_undefined_ok := false,
        m_symbol_table := [("foo", { value := Value.known 7, definition_line_number := 1,
                                     reference_line_numbers := ∅ })] } {})
    ".page" { m_mnemonic := ".page" } rfl (by decide) (by decide!) rfl
    (Or.inr (Or.inr (by decide)))
  obtain ⟨_, _, _, r2, h2, hb2, ho2, hl2, ht2⟩ := listing_directives_no_effect
    (Assembler.line_state 2 3 0x0200
      { m_lookup_undefined_ok := false,
        m_symbol_table := [("foo", { value := Value.known 7, definition_line_number := 1,
                                     reference_line_numbers := ∅ })] } {})
    ".page" { m_mnemonic := ".page" } rfl (by decide) (by decide!) rfl
    (Or.inr (Or.inr (by decide)))
  exact ⟨⟨r1, h1, hb1, ho1, hl1, by rw [ht1]; rfl⟩, ⟨r2, h2, hb2, ho2, hl2, by rw [ht2]; rfl⟩⟩

set_option maxRecDepth 100000 in
/-- C25 fails for `.link`: on the line `.link foo` the rule `pseudo_op_link`
matches, but it has no action, so the `Mnemonic` node stays on the stack where
`action<statement>` expects the statement, and the null pointer that the cast
gives is dereferenced; on `.link` without operand the rule fails after the
mnemonic is pushed, with the same end. A statement with the mnemonic `.link`,
which the parser never builds, is rejected by `assemble_line` with the
`AssemblerError` of an unimplemented directive. -/
theorem link_not_accepted :
    Parser.parse 1 1 0 ".link foo" = Except.error Error.undefined_behaviour ∧
    Parser.parse 1 1 0 ".link" = Except.error Error.undefined_behaviour ∧
    throws (assemble_source 0 ".link foo\n.end\n") Error.undefined_behaviour = true ∧
    throws (Assembler.line_state 1 1 0 SymbolTable.create
        { m_mnemonic := ".link", m_operands := [Expression.Symbol "foo"] }).assemble_line
      (Error.AssemblerError 1 (AssemblerErrorKind.unimplemented_pseudo_op ".link")) = true := by
  refine ⟨by decide!, by decide!, ?_, by decide!⟩
  rw [assemble_source_eq]
  decide!

/-! ## The object file -/

set_option maxRecDepth 100000 in
/-- C26 fails when the location counter wraps: in the source `.loc $FFFF` /
`nop` / `nop` / `.end` the second `nop` is at the address 0x0000, the 16-bit
address that follows the byte written at 0xFFFF, and it is written with the
prefix `*0000`: `m_prev_object_code_address` holds 0x10000, which no value of
the 16-bit location counter equals. The example of the claim gives
`*0200A942`. -/
theorem object_address_after_wrap :
    (∃ a : Assembler,
      assemble_source 0 ".loc $FFFF\n    nop\n    nop\n    .end\n" = Except.ok a ∧
      a.m_object_file = "*FFFFEA*0000EA" ∧ a.m_prev_object_code_address = 1) ∧
    (∃ a : Assembler,
      assemble_source 0 ".loc $FFFF\n    nop\n" = Except.ok a ∧
      a.m_object_file = "*FFFFEA" ∧ a.m_prev_object_code_address = 0x10000 ∧
      a.m_location_counter = 0) ∧
    (∃ a : Assembler,
      assemble_source 0 ".loc $200\n    lda# $42\n    .end\n" = Except.ok a ∧
      a.m_object_file = "*0200A942") := by
  have k1 : returns (assemble_source 0 ".loc $FFFF\n    nop\n    nop\n    .end\n")
      (fun a => decide (a.m_object_file = "*FFFFEA*0000EA" ∧ a.m_prev_object_code_address = 1))
      = true := by
    rw [assemble_source_eq]
    decide!
  have k2 : returns (assemble_source 0 ".loc $FFFF\n    nop\n")
      (fun a => decide (a.m_object_file = "*FFFFEA" ∧ a.m_prev_object_code_address = 0x10000 ∧
        a.m_location_counter = 0)) = true := by
    rw [assemble_source_eq]
    decide!
  have k3 : returns (assemble_source 0 ".loc $200\n    lda# $42\n    .end\n")
      (fun a => decide (a.m_object_file = "*0200A942")) = true := by
    rw [assemble_source_eq]
    decide!
  obtain ⟨a1, h1, p1⟩ := (returns_iff _ _).1 k1
  obtain ⟨a2, h2, p2⟩ := (returns_iff _ _).1 k2
  obtain ⟨a3, h3, p3⟩ := (returns_iff _ _).1 k3
  have q1 := of_decide_eq_true p1
  have q2 := of_decide_eq_true p2
  exact ⟨⟨a1, h1, q1.1, q1.2⟩, ⟨a2, h2, q2.1, q2.2.1, q2.2.2⟩, ⟨a3, h3, of_decide_eq_true p3⟩⟩

/-- C26 as amended: in pass 2 a round of the loop of `assemble_pass` writes
nothing to the object file for a line without bytes, and leaves
`m_prev_object_code_address` as it is; for a line with bytes it writes the
prefix `*` and the four uppercase hexadecimal digits of the location counter
of the line exactly when the location counter differs from
`m_prev_object_code_address`, and then every byte as two uppercase
hexadecimal digits; `m_prev_object_code_address` becomes the sum of the
location counter and the number of bytes, modulo 2^32 and not modulo 2^16,
while the location counter advances modulo 2^16. At the start of a pass
`m_prev_object_code_address` is 0xFFFFFFFF, which no location counter
equals. -/
theorem object_address_written (s r : Assembler) (line : String)
    (hpass : s.m_pass_number = 2) (h : s.assemble_pass_line line = Except.ok r) :
    (∀ a : Assembler, (a.begin_pass 2).m_prev_object_code_address = 0xFFFFFFFF) ∧
    (r.m_object_code_bytes = [] →
      r.m_object_file = s.m_object_file ∧
      r.m_prev_object_code_address = s.m_prev_object_code_address) ∧
    (r.m_object_code_bytes ≠ [] →
      r.m_object_file = s.m_object_file
        ++ (if s.m_location_counter ≠ s.m_prev_object_code_address
            then "*" ++ format_04X s.m_location_counter else "")
        ++ r.m_object_code_bytes.foldl (fun text byte => text ++ format_02X byte) "" ∧
      r.m_prev_object_code_address
        = (s.m_location_counter + r.m_object_code_bytes.length) % 2 ^ 32 ∧
      r.m_location_counter
        = (s.m_location_counter + r.m_object_code_bytes.length) % 65536) :=
  ⟨fun _ => rfl, Assembler.assemble_pass_line_object s r line hpass h⟩

set_option maxRecDepth 100000 in
/-- C26 as amended, at the line `    lda# $42` in pass 2 at the location
0x0200, as the first line with bytes (prefix `*0200`) and after a byte
written at 0x01FF (no prefix). -/
theorem object_address_written_witness :
    (∃ r : Assembler,
      (Assembler.line_state 2 1 0x0200 SymbolTable.create {}).assemble_pass_line "    lda# $42"
        = Except.ok r ∧
      r.m_object_code_bytes = [0xA9, 0x42] ∧
      r.m_object_file = "*0200A942" ∧
      r.m_prev_object_code_address = 0x0202) ∧
    (∃ r : Assembler,
      Assembler.assemble_pass_line
        { Assembler.line_state 2 1 0x0200 SymbolTable.create {} with
          m_prev_object_code_address := 0x0200 } "    lda# $42" = Except.ok r ∧
      r.m_object_code_bytes = [0xA9, 0x42] ∧
      r.m_object_file = "A942" ∧
      r.m_prev_object_code_address = 0x0202) := by
  have k1 : returns ((Assembler.line_state 2 1 0x0200 SymbolTable.create {}).assemble_pass_line
      "    lda# $42") (fun r => decide (r.m_object_code_bytes = [0xA9, 0x42])) = true := by
    decide!
  have k2 : returns (Assembler.assemble_pass_line
        { Assembler.line_state 2 1 0x0200 SymbolTable.create {} with
          m_prev_object_code_address := 0x0200 } "    lda# $42")
      (fun r => decide (r.m_object_code_bytes = [0xA9, 0x42])) = true := by
    decide!
  obtain ⟨r1, h1, p1⟩ := (returns_iff _ _).1 k1
  obtain ⟨r2, h2, p2⟩ := (returns_iff _ _).1 k2
  have b1 := of_decide_eq_true p1
  have b2 := of_decide_eq_true p2
  have t1 := (object_address_written _ r1 _ rfl h1).2.2 (by rw [b1]; decide)
  have t2 := (object_address_written _ r2 _ rfl h2).2.2 (by rw [b2]; decide)
  rw [b1] at t1
  rw [b2] at t2
  exact ⟨⟨r1, h1, b1, by rw [t1.1]; decide, by rw [t1.2.1]; decide⟩,
    ⟨r2, h2, b2, by rw [t2.1]; decide, by rw [t2.2.1]; decide⟩⟩

/-! ## The end of a pass -/

theorem Assembler.assemble_pass_loop_end (a : Assembler) (h : a.m_end_reached = true)
    (lines : List String) : Assembler.assemble_pass_loop lines a = Except.ok a := by
  cases lines with
  | nil => rfl
  | cons line rest => simp only [Assembler.assemble_pass_loop, h, if_true]

theorem Assembler.assemble_pass_loop_append (xs ys : List String) :
    ∀ a : Assembler, Assembler.assemble_pass_loop (xs ++ ys) a =
      match Assembler.assemble_pass_loop xs a with
      | Except.error e => Except.error e
      | Except.ok r => Assembler.assemble_pass_loop ys r := by
  induction xs with
  | nil => intro a; rfl
  | cons x xs ih =>
    intro a
    by_cases hend : a.m_end_reached = true
    · rw [Assembler.assemble_pass_loop_end a hend, Assembler.assemble_pass_loop_end a hend]
      exact (Assembler.assemble_pass_loop_end a hend ys).symm
    · have hf : a.m_end_reached = false := by simpa using hend
      rw [List.cons_append, Assembler.assemble_pass_loop_cons a x _ hf,
        Assembler.assemble_pass_loop_cons a x _ hf]
      cases hx : a.assemble_pass_line x with
      | error e => rfl
      | ok r => exact ih r

/-- The loop of `assemble_pass` leaves the instruction set, the pass number
and the count of errors as they are. -/
theorem Assembler.assemble_pass_loop_frame (lines : List String) :
    ∀ a r : Assembler, Assembler.assemble_pass_loop lines a = Except.ok r →
      r.m_instruction_set_sp = a.m_instruction_set_sp ∧ r.m_pass_number = a.m_pass_number ∧
      r.m_error_count = a.m_error_count := by
  induction lines with
  | nil =>
    intro a r h
    injection h with h
    subst h
    exact ⟨rfl, rfl, rfl⟩
  | cons x xs ih =>
    intro a r h
    by_cases hend : a.m_end_reached = true
    · rw [Assembler.assemble_pass_loop_end a hend] at h
      injection h with h
      subst h
      exact ⟨rfl, rfl, rfl⟩
    · have hf : a.m_end_reached = false := by simpa using hend
      rw [Assembler.assemble_pass_loop_cons a x _ hf] at h
      split at h
      · cases h
      · rename_i m hm
        obtain ⟨h1, h2, h3, _⟩ := Assembler.assemble_pass_line_frame a m x hm
        obtain ⟨k1, k2, k3⟩ := ih m r h
        exact ⟨k1.trans h1, k2.trans h2, k3.trans h3⟩

/-- The round of the loop of `assemble_pass` for a line that the parser turns
into an `.end` statement sets `m_end_reached`. -/
theorem Assembler.assemble_pass_line_end (s r : Assembler) (line : String)
    (hset : s.m_instruction_set_sp = InstructionSet.pal65)
    (hend : ∀ pass_number source_line_number location_counter : Nat, ∃ st : Statement,
      Parser.parse pass_number source_line_number location_counter (untabify line)
        = Except.ok (some st) ∧ utility.downcase_string st.m_mnemonic = ".end")
    (h : s.assemble_pass_line line = Except.ok r) : r.m_end_reached = true := by
  obtain ⟨statement_sp, a', w, hparse, hline, hw, hr⟩ :=
    Assembler.assemble_pass_line_steps s r line h
  obtain ⟨st, hst, hm⟩ := hend s.m_pass_number.toNat (s.m_source_line_number + 1)
    s.m_location_counter
  rw [hparse] at hst
  injection hst with hst
  subst hst
  have hlk : PseudoOp.s_by_mnemonic.lookup (utility.downcase_string st.m_mnemonic)
      = some PseudoOp.PseudoOpEnum.END := by
    rw [hm]; decide
  have hi : (s.begin_line line (some st)).m_instruction_set_sp.valid_mnemonic st.m_mnemonic
      = false := by
    show s.m_instruction_set_sp.valid_mnemonic st.m_mnemonic = false
    rw [hset]
    exact InstructionSet.pal65_directive _ _ hlk
  rw [Assembler.assemble_line_pseudo_op _ st _ rfl hlk hi] at hline
  have ha : a'.m_end_reached = true := by
    split at hline
    · cases hline
    · simp only [Assembler.s_assemble_pseudo_op_fn_ptrs, PseudoOp.s_by_enum,
        Assembler.assemble_pseudo_op_end] at hline
      injection hline with hline
      rw [← hline]
  have hwe : w.m_end_reached = a'.m_end_reached := by
    split at hw
    · split at hw
      · cases hw
      · rename_i a3 hl
        obtain ⟨listing, hl⟩ := Assembler.write_listing_line_fields _ _ hl
        injection hw with hw
        subst hw hl
        unfold Assembler.write_object_bytes
        split <;> rfl
    · injection hw with hw
      rw [hw]
  rw [hr]
  exact hwe.trans ha

/-- A pass over a source whose last line is an `.end` line ends with
`m_end_reached` set. -/
theorem Assembler.assemble_pass_loop_end_reached (xs : List String) (line : String)
    (a r : Assembler) (hset : a.m_instruction_set_sp = InstructionSet.pal65)
    (hend : ∀ pass_number source_line_number location_counter : Nat, ∃ st : Statement,
      Parser.parse pass_number source_line_number location_counter (untabify line)
        = Except.ok (some st) ∧ utility.downcase_string st.m_mnemonic = ".end")
    (h : Assembler.assemble_pass_loop (xs ++ [line]) a = Except.ok r) :
    r.m_end_reached = true := by
  rw [Assembler.assemble_pass_loop_append] at h
  split at h
  · cases h
  · rename_i m hm
    by_cases he : m.m_end_reached = true
    · rw [Assembler.assemble_pass_loop_end m he] at h
      injection h with h
      rw [← h]
      exact he
    · have hf : m.m_end_reached = false := by simpa using he
      rw [Assembler.assemble_pass_loop_cons m line _ hf] at h
      split at h
      · cases h
      · rename_i m2 hm2
        injection h with h
        rw [← h]
        have hi := (Assembler.assemble_pass_loop_frame xs a m hm).1
        exact Assembler.assemble_pass_line_end m m2 line (hi.trans hset) hend hm2

/-- The loop of `assemble_pass` does the same on a source and on the source
cut after one of its `.end` lines. -/
theorem Assembler.assemble_pass_loop_truncate (xs post : List String) (line : String)
    (a : Assembler) (hset : a.m_instruction_set_sp = InstructionSet.pal65)
    (hend : ∀ pass_number source_line_number location_counter : Nat, ∃ st : Statement,
      Parser.parse pass_number source_line_number location_counter (untabify line)
        = Except.ok (some st) ∧ utility.downcase_string st.m_mnemonic = ".end") :
    Assembler.assemble_pass_loop (xs ++ line :: post) a
      = Assembler.assemble_pass_loop (xs ++ [line]) a := by
  have hsplit : xs ++ line :: post = (xs ++ [line]) ++ post := by simp
  rw [hsplit, Assembler.assemble_pass_loop_append (xs ++ [line]) post]
  cases hp : Assembler.assemble_pass_loop (xs ++ [line]) a with
  | error e => rfl
  | ok r =>
    exact Assembler.assemble_pass_loop_end r
      (Assembler.assemble_pass_loop_end_reached xs line a r hset hend hp) post

/-- C24: for every source with an `.end` line (a line that the parser turns
into a statement with the mnemonic `.end`) and every state of the assembler
with the instruction set of the constructor: the round of the loop of
`assemble_pass` for the `.end` line sets `m_end_reached`; in a state with
`m_end_reached` set the loop returns without reading a line; and pass 1,
pass 2 and `assemble` give the same result (the same state of the assembler,
with its symbol table, object file and listing file, or the same exception)
for the source and for the source cut after the `.end` line. This holds for
every `.end` line of the source, so for the first one. -/
theorem end_truncates_source (a : Assembler) (xs post : List String) (line : String)
    (hset : a.m_instruction_set_sp = InstructionSet.pal65)
    (hend : ∀ pass_number source_line_number location_counter : Nat, ∃ st : Statement,
      Parser.parse pass_number source_line_number location_counter (untabify line)
        = Except.ok (some st) ∧ utility.downcase_string st.m_mnemonic = ".end") :
    (∀ s r : Assembler, s.m_instruction_set_sp = InstructionSet.pal65 →
      s.assemble_pass_line line = Except.ok r → r.m_end_reached = true) ∧
    (∀ r : Assembler, r.m_end_reached = true →
      Assembler.assemble_pass_loop post r = Except.ok r) ∧
    a.assemble_pass (xs ++ line :: post) 1 = a.assemble_pass (xs ++ [line]) 1 ∧
    a.assemble_pass (xs ++ line :: post) 2 = a.assemble_pass (xs ++ [line]) 2 ∧
    a.assemble (xs ++ line :: post) = a.assemble (xs ++ [line]) := by
  have h1 : a.assemble_pass (xs ++ line :: post) 1 = a.assemble_pass (xs ++ [line]) 1 := by
    rw [Assembler.assemble_pass_one, Assembler.assemble_pass_one]
    exact Assembler.assemble_pass_loop_truncate xs post line _ hset hend
  have h2 : ∀ b : Assembler, b.m_instruction_set_sp = InstructionSet.pal65 →
      b.assemble_pass (xs ++ line :: post) 2 = b.assemble_pass (xs ++ [line]) 2 := by
    intro b hb
    rw [Assembler.assemble_pass_two, Assembler.assemble_pass_two]
    exact Assembler.assemble_pass_loop_truncate xs post line _ hb hend
  refine ⟨fun s r hs h => Assembler.assemble_pass_line_end s r line hs hend h,
    fun r hr => Assembler.assemble_pass_loop_end r hr post, h1, h2 a hset, ?_⟩
  unfold Assembler.assemble
  rw [h1]
  cases hp : a.assemble_pass (xs ++ [line]) 1 with
  | error e => rfl
  | ok a1 =>
    rw [Assembler.assemble_pass_one] at hp
    exact h2 a1 ((Assembler.assemble_pass_loop_frame _ _ _ hp).1.trans hset)

set_option maxRecDepth 100000 in
/-- C24 at the source `.loc $200` / `    nop` / `    .end` followed by the
lines `    lda` and `foo: ???`: the two passes give what they give without
the two lines, the object file `*0200EA`. -/
theorem end_truncates_source_witness :
    (Assembler.construct InstructionSet.pal65 0).assemble
        ([".loc $200", "    nop"] ++ "    .end" :: ["    lda", "foo: ???"])
      = (Assembler.construct InstructionSet.pal65 0).assemble
        ([".loc $200", "    nop"] ++ ["    .end"]) ∧
    ∃ r : Assembler,
      (Assembler.construct InstructionSet.pal65 0).assemble
        [".loc $200", "    nop", "    .end", "    lda", "foo: ???"] = Except.ok r ∧
      r.m_object_file = "*0200EA" ∧ r.m_source_line_number = 3 := by
  have hend : ∀ pass_number source_line_number location_counter : Nat, ∃ st : Statement,
      Parser.parse pass_number source_line_number location_counter (untabify "    .end")
        = Except.ok (some st) ∧ utility.downcase_string st.m_mnemonic = ".end" :=
    fun _ _ _ => ⟨{ m_mnemonic := ".end" }, rfl, by decide⟩
  have h := (end_truncates_source (Assembler.construct InstructionSet.pal65 0)
    [".loc $200", "    nop"] ["    lda", "foo: ???"] "    .end" rfl hend).2.2.2.2
  refine ⟨h, ?_⟩
  have k : returns ((Assembler.construct InstructionSet.pal65 0).assemble
      ([".loc $200", "    nop"] ++ ["    .end"]))
      (fun r => decide (r.m_object_file = "*0200EA" ∧ r.m_source_line_number = 3)) = true := by
    decide!
  obtain ⟨r, hr, p⟩ := (returns_iff _ _).1 k
  have q := of_decide_eq_true p
  exact ⟨r, h.trans hr, q.1, q.2⟩

/-! ## Errors -/

set_option maxRecDepth 100000 in
/-- C28 fails: nothing in `assemble_pass` catches the exception of a user
error (the only handler is for `ParseError`, which the parser never throws),
and nothing increments `m_error_count`. An exception of a round ends the
loop and the pass with that exception; an exception of pass 1 ends
`assemble` before pass 2; a pass that returns has `m_error_count` at zero.
The undefined symbol of `lda foo` passes in pass 1 and ends pass 2 at line 2,
before the `nop` of line 3; a division by zero, a label defined twice and a
mnemonic that is not in the instruction set end pass 1; a branch out of range
ends pass 2. -/
theorem errors_end_the_pass :
    (∀ (a : Assembler) (line : String) (rest : List String) (e : Error),
      a.m_end_reached = false → a.assemble_pass_line line = Except.error e →
      Assembler.assemble_pass_loop (line :: rest) a = Except.error e) ∧
    (∀ (a : Assembler) (source : List String) (e : Error),
      a.assemble_pass source 1 = Except.error e → a.assemble source = Except.error e) ∧
    (∀ (a r : Assembler) (source : List String) (pass_number : Int),
      a.assemble_pass source pass_number = Except.ok r → r.m_error_count = 0) ∧
    returns ((Assembler.construct InstructionSet.pal65 0).assemble_pass
        [".loc $200", "    lda foo", "    nop", ".end"] 1)
      (fun a => decide (a.m_error_count = 0 ∧ a.m_source_line_number = 4)) = true ∧
    throws (assemble_source 0 ".loc $200\n    lda foo\n    nop\n.end\n")
      (Error.SymbolTableError_undefined "foo") = true ∧
    throws (assemble_source 0 ".loc $200\n    .byte 1/0\n    nop\n.end\n")
      Error.ValueDivideByZeroError = true ∧
    throws (assemble_source 0 "foo: nop\nfoo: nop\n    nop\n.end\n")
      (Error.SymbolMultiplyDefined "foo" 1 2) = true ∧
    throws (assemble_source 0 ".loc $200\n    adc@ 5\n    nop\n.end\n")
      (Error.AssemblerError 2 (AssemblerErrorKind.unrecognized_mnemonic "adc@")) = true ∧
    throws (assemble_source 0 ".loc $200\n    bne far\n    nop\n.def far = $400\n.end\n")
      (Error.AssemblerError 2 (AssemblerErrorKind.displacement_out_of_range 510)) = true := by
  refine ⟨?_, ?_, ?_, by decide!, ?_, ?_, ?_, ?_, ?_⟩
  · intro a line rest e hend h
    rw [Assembler.assemble_pass_loop_cons a line rest hend, h]
  · intro a source e h
    unfold Assembler.assemble
    rw [h]
  · intro a r source pass_number h
    unfold Assembler.assemble_pass at h
    split at h
    · cases h
    · exact (Assembler.assemble_pass_loop_frame _ _ _ h).2.2
  · rw [assemble_source_eq]; decide!
  · rw [assemble_source_eq]; decide!
  · rw [assemble_source_eq]; decide!
  · rw [assemble_source_eq]; decide!
  · rw [assemble_source_eq]; decide!

set_option maxRecDepth 100000 in
/-- C28 at the line `    lda foo` in pass 2 with `foo` undefined: the round
throws, and so does the loop over this line and the lines after it. -/
theorem errors_end_the_pass_witness :
    Assembler.assemble_pass_line (Assembler.line_state 2 1 0x0200 SymbolTable.create {})
        "    lda foo" = Except.error (Error.SymbolTableError_undefined "foo") ∧
    Assembler.assemble_pass_loop ["    lda foo", "    nop", ".end"]
        (Assembler.line_state 2 1 0x0200 SymbolTable.create {})
      = Except.error (Error.SymbolTableError_undefined "foo") := by
  have k : throws (Assembler.assemble_pass_line
      (Assembler.line_state 2 1 0x0200 SymbolTable.create {}) "    lda foo")
      (Error.SymbolTableError_undefined "foo") = true := by
    decide!
  have h := (throws_iff _ _).1 k
  exact ⟨h, errors_end_the_pass.1 _ _ _ _ rfl h⟩

/-! ## `.byte`, `.hbyte` and `.word` -/

/-- An operand that evaluates to a known value in a state converts to that
value in every state with the same symbol table and line number, and the
conversion leaves that state as it is. -/
theorem Assembler.convert_operand_uint16_congr (a b a2 : Assembler) (e : Expression) (v : Nat)
    (ht : b.m_symbol_table_sp = a.m_symbol_table_sp)
    (hn : b.m_source_line_number = a.m_source_line_number)
    (hev : a.evaluate e = Except.ok (Value.known v, a2)) :
    b.convert_operand_uint16 e = Except.ok (v, b) := by
  unfold Assembler.evaluate at hev
  split at hev
  · cases hev
  · rename_i hnull
    split at hev
    · cases hev
    · rename_i value t hE
      have htab := Expression.evaluate_table e _ _ _ _ hE
      injection hev with hev
      injection hev with hval _
      subst hval htab
      have hE' : e.evaluate b.m_symbol_table_sp b.m_source_line_number
          = Except.ok (Value.known v, b.m_symbol_table_sp) := by
        rw [ht, hn]
        exact hE
      have hb : b.evaluate e = Except.ok (Value.known v, b) := by
        unfold Assembler.evaluate
        rw [if_neg hnull, hE']
      exact Assembler.convert_operand_uint16_known b b e v hb

theorem Assembler.assemble_operands_loop_known (emit : Assembler → Nat → Assembler)
    (hemit : ∀ a v, (emit a v).m_symbol_table_sp = a.m_symbol_table_sp ∧
      (emit a v).m_source_line_number = a.m_source_line_number)
    (a0 : Assembler) (es : List Expression) (vs : List Nat)
    (hev : List.Forall₂
      (fun e v => ∃ a2 : Assembler, a0.evaluate e = Except.ok (Value.known v, a2)) es vs) :
    ∀ a : Assembler, a.m_symbol_table_sp = a0.m_symbol_table_sp →
      a.m_source_line_number = a0.m_source_line_number →
      Assembler.assemble_operands_loop emit es a = Except.ok (vs.foldl emit a) := by
  induction hev with
  | nil => intro a _ _; rfl
  | cons h _ ih =>
    intro a ht hn
    obtain ⟨a2, h⟩ := h
    simp only [Assembler.assemble_operands_loop,
      Assembler.convert_operand_uint16_congr a0 a a2 _ _ ht hn h, List.foldl_cons]
    exact ih _ ((hemit _ _).1.trans ht) ((hemit _ _).2.trans hn)

theorem Assembler.emit_low_bytes (vs : List Nat) :
    ∀ a : Assembler, (vs.foldl (fun a value => a.emit_byte (value &&& 0xff)) a).m_object_code_bytes
      = a.m_object_code_bytes ++ vs.map (fun v => v &&& 0xFF) := by
  induction vs with
  | nil => intro a; simp
  | cons v vs ih =>
    intro a
    have hlow : (v &&& 255) < 256 := lt_of_le_of_lt Nat.and_le_right (by decide)
    simp only [List.foldl_cons, List.map_cons]
    rw [ih]
    simp [Assembler.emit_byte, Nat.mod_eq_of_lt hlow]

theorem Assembler.emit_high_bytes (vs : List Nat) (hv : ∀ v ∈ vs, v < 65536) :
    ∀ a : Assembler, (vs.foldl (fun a value => a.emit_byte (value >>> 8)) a).m_object_code_bytes
      = a.m_object_code_bytes ++ vs.map (fun v => v >>> 8) := by
  induction vs with
  | nil => intro a; simp
  | cons v vs ih =>
    intro a
    have hv0 : v < 65536 := hv v (List.mem_cons_self _ _)
    have hhigh : v >>> 8 < 256 := by rw [Nat.shiftRight_eq_div_pow]; omega
    simp only [List.foldl_cons, List.map_cons]
    rw [ih (fun w hw => hv w (List.mem_cons_of_mem _ hw))]
    simp [Assembler.emit_byte, Nat.mod_eq_of_lt hhigh]

theorem Assembler.emit_words (vs : List Nat) (hv : ∀ v ∈ vs, v < 65536) :
    ∀ a : Assembler, (vs.foldl (fun a value => a.emit_word value) a).m_object_code_bytes
      = a.m_object_code_bytes ++ (vs.map (fun v => [v &&& 0xFF, v >>> 8])).flatten := by
  induction vs with
  | nil => intro a; simp
  | cons v vs ih =>
    intro a
    have hv0 : v < 65536 := hv v (List.mem_cons_self _ _)
    have hlow : (v &&& 255) < 256 := lt_of_le_of_lt Nat.and_le_right (by decide)
    have hhigh : v >>> 8 < 256 := by rw [Nat.shiftRight_eq_div_pow]; omega
    simp only [List.foldl_cons, List.map_cons, List.flatten_cons]
    rw [ih (fun w hw => hv w (List.mem_cons_of_mem _ hw))]
    simp [Assembler.emit_word, Nat.mod_eq_of_lt hv0, Nat.mod_eq_of_lt hlow,
      Nat.mod_eq_of_lt hhigh]

/-- C21: for a `.byte`, `.hbyte` or `.word` statement whose operands evaluate
to the known 16-bit values `vs` (in the state that the definition of the
label of the line, if there is one, leaves), `assemble_line` succeeds and
appends to the bytes of the line, in the order of the operands: for `.byte`
the low bytes `v & 0xFF`, for `.hbyte` the high bytes `v >> 8`, for `.word`
the two bytes `v & 0xFF`, `v >> 8` of every value; without operands `.byte`
and `.hbyte` append the byte 00 and `.word` the bytes 00 00. -/
theorem data_directives_emit (a a1 : Assembler) (st : Statement) (vs : List Nat)
    (hs : a.m_statement_sp = some st)
    (hset : a.m_instruction_set_sp = InstructionSet.pal65)
    (hlabel : (if st.m_label.length ≠ 0
        then a.define_symbol st.m_label (Value.create a.m_location_counter)
        else Except.ok a) = Except.ok a1)
    (hev : List.Forall₂
      (fun e v => ∃ a2 : Assembler, a1.evaluate e = Except.ok (Value.known v, a2))
      st.m_operands vs)
    (hv : ∀ v ∈ vs, v < 65536) :
    (utility.downcase_string st.m_mnemonic = ".byte" →
      ∃ a' : Assembler, a.assemble_line = Except.ok a' ∧
        a'.m_object_code_bytes = a.m_object_code_bytes ++
          (if vs = [] then [0x00] else vs.map (fun v => v &&& 0xFF))) ∧
    (utility.downcase_string st.m_mnemonic = ".hbyte" →
      ∃ a' : Assembler, a.assemble_line = Except.ok a' ∧
        a'.m_object_code_bytes = a.m_object_code_bytes ++
          (if vs = [] then [0x00] else vs.map (fun v => v >>> 8))) ∧
    (utility.downcase_string st.m_mnemonic = ".word" →
      ∃ a' : Assembler, a.assemble_line = Except.ok a' ∧
        a'.m_object_code_bytes = a.m_object_code_bytes ++
          (if vs = [] then [0x00, 0x00]
           else (vs.map (fun v => [v &&& 0xFF, v >>> 8])).flatten)) := by
  obtain ⟨t, ht⟩ := Assembler.label_fields a a1 _ _ hlabel
  have hb1 : a1.m_object_code_bytes = a.m_object_code_bytes := by rw [ht]
  have hline : ∀ p, PseudoOp.s_by_mnemonic.lookup (utility.downcase_string st.m_mnemonic)
      = some p → a.assemble_line = a1.s_assemble_pseudo_op_fn_ptrs st (PseudoOp.s_by_enum p) := by
    intro p hlk
    rw [Assembler.assemble_line_pseudo_op a st p hs hlk
      (by rw [hset]; exact InstructionSet.pal65_directive _ _ hlk), hlabel]
  have hcount : st.get_operand_count = 0 ↔ vs = [] := by
    unfold Statement.get_operand_count
    rw [hev.length_eq]
    exact List.length_eq_zero
  refine ⟨?_, ?_, ?_⟩
  · intro hm
    rw [hline PseudoOp.PseudoOpEnum.BYTE (by rw [hm]; decide)]
    simp only [Assembler.s_assemble_pseudo_op_fn_ptrs, PseudoOp.s_by_enum,
      Assembler.assemble_pseudo_op_byte]
    by_cases h0 : vs = []
    · rw [if_pos (hcount.2 h0), if_pos h0]
      exact ⟨_, rfl, by simp [Assembler.emit_byte, hb1]⟩
    · rw [if_neg (fun h => h0 (hcount.1 h)), if_neg h0,
        Assembler.assemble_operands_loop_known (fun a value => a.emit_byte (value &&& 0xff))
          (fun _ _ => ⟨rfl, rfl⟩) a1 _ vs hev a1 rfl rfl]
      exact ⟨_, rfl, by rw [Assembler.emit_low_bytes, hb1]⟩
  · intro hm
    rw [hline PseudoOp.PseudoOpEnum.HBYTE (by rw [hm]; decide)]
    simp only [Assembler.s_assemble_pseudo_op_fn_ptrs, PseudoOp.s_by_enum,
      Assembler.assemble_pseudo_op_hbyte]
    by_cases h0 : vs = []
    · rw [if_pos (hcount.2 h0), if_pos h0]
      exact ⟨_, rfl, by simp [Assembler.emit_byte, hb1]⟩
    · rw [if_neg (fun h => h0 (hcount.1 h)), if_neg h0,
        Assembler.assemble_operands_loop_known (fun a value => a.emit_byte (value >>> 8))
          (fun _ _ => ⟨rfl, rfl⟩) a1 _ vs hev a1 rfl rfl]
      exact ⟨_, rfl, by rw [Assembler.emit_high_bytes vs hv, hb1]⟩
  · intro hm
    rw [hline PseudoOp.PseudoOpEnum.WORD (by rw [hm]; decide)]
    simp only [Assembler.s_assemble_pseudo_op_fn_ptrs, PseudoOp.s_by_enum,
      Assembler.assemble_pseudo_op_word]
    by_cases h0 : vs = []
    · rw [if_pos (hcount.2 h0), if_pos h0]
      exact ⟨_, rfl, by simp [Assembler.emit_word, hb1]⟩
    · rw [if_neg (fun h => h0 (hcount.1 h)), if_neg h0,
        Assembler.assemble_operands_loop_known (fun a value => a.emit_word value)
          (fun _ _ => ⟨rfl, rfl⟩) a1 _ vs hev a1 rfl rfl]
      exact ⟨_, rfl, by rw [Assembler.emit_words vs hv, hb1]⟩

set_option maxRecDepth 100000 in
/-- C21 at the operands `$1234,$ABCD` (line 2, location 0x0200, pass 2):
`.byte` emits 34 CD, `.hbyte` emits 12 AB, `.word` emits 34 12 CD AB; and
without operands `.byte` emits 00 and `.word` emits 00 00. The parser gives
these statements for the lines `.word $1234,$ABCD` and `.word`. -/
theorem data_directives_emit_witness :
    Parser.parse 2 2 0x0200 ".word $1234,$ABCD"
      = Except.ok (some { m_mnemonic := ".word",
                          m_operands := [Expression.Constant (Value.known 0x1234),
                            Expression.Constant (Value.known 0xABCD)] }) ∧
    Parser.parse 2 2 0x0200 ".word" = Except.ok (some { m_mnemonic := ".word" }) ∧
    (∃ a' : Assembler,
      (Assembler.line_state 2 2 0x0200 SymbolTable.create
        { m_mnemonic := ".byte",
          m_operands := [Expression.Constant (Value.known 0x1234),
            Expression.Constant (Value.known 0xABCD)] }).assemble_line = Except.ok a' ∧
      a'.m_object_code_bytes = [0x34, 0xCD]) ∧
    (∃ a' : Assembler,
      (Assembler.line_state 2 2 0x0200 SymbolTable.create
        { m_mnemonic := ".hbyte",
          m_operands := [Expression.Constant (Value.known 0x1234),
            Expression.Constant (Value.known 0xABCD)] }).assemble_line = Except.ok a' ∧
      a'.m_object_code_bytes = [0x12, 0xAB]) ∧
    (∃ a' : Assembler,
      (Assembler.line_state 2 2 0x0200 SymbolTable.create
        { m_mnemonic := ".word",
          m_operands := [Expression.Constant (Value.known 0x1234),
            Expression.Constant (Value.known 0xABCD)] }).assemble_line = Except.ok a' ∧
      a'.m_object_code_bytes = [0x34, 0x12, 0xCD, 0xAB]) ∧
    (∃ a' : Assembler,
      (Assembler.line_state 2 2 0x0200 SymbolTable.create { m_mnemonic := ".byte" }).assemble_line
        = Except.ok a' ∧
      a'.m_object_code_bytes = [0x00]) ∧
    (∃ a' : Assembler,
      (Assembler.line_state 2 2 0x0200 SymbolTable.create { m_mnemonic := ".word" }).assemble_line
        = Except.ok a' ∧
      a'.m_object_code_bytes = [0x00, 0x00]) := by
  have hev : ∀ a1 : Assembler, List.Forall₂
      (fun e v => ∃ a2 : Assembler, a1.evaluate e = Except.ok (Value.known v, a2))
      [Expression.Constant (Value.known 0x1234), Expression.Constant (Value.known 0xABCD)]
      [0x1234, 0xABCD] :=
    fun a1 => List.Forall₂.cons ⟨_, rfl⟩ (List.Forall₂.cons ⟨_, rfl⟩ List.Forall₂.nil)
  have hv : ∀ v ∈ [0x1234, 0xABCD], v < 65536 := by decide
  obtain ⟨b1, hb1, kb1⟩ := (data_directives_emit
    (Assembler.line_state 2 2 0x0200 SymbolTable.create
      { m_mnemonic := ".byte",
        m_operands := [Expression.Constant (Value.known 0x1234),
          Expression.Constant (Value.known 0xABCD)] }) _ _ [0x1234, 0xABCD]
    rfl rfl rfl (hev _) hv).1 (by decide)
  obtain ⟨b2, hb2, kb2⟩ := (data_directives_emit
    (Assembler.line_state 2 2 0x0200 SymbolTable.create
      { m_mnemonic := ".hbyte",
        m_operands := [Expression.Constant (Value.known 0x1234),
          Expression.Constant (Value.known 0xABCD)] }) _ _ [0x1234, 0xABCD]
    rfl rfl rfl (hev _) hv).2.1 (by decide)
  obtain ⟨b3, hb3, kb3⟩ := (data_directives_emit
    (Assembler.line_state 2 2 0x0200 SymbolTable.create
      { m_mnemonic := ".word",
        m_operands := [Expression.Constant (Value.known 0x1234),
          Expression.Constant (Value.known 0xABCD)] }) _ _ [0x1234, 0xABCD]
    rfl rfl rfl (hev _) hv).2.2 (by decide)
  obtain ⟨b4, hb4, kb4⟩ := (data_directives_emit
    (Assembler.line_state 2 2 0x0200 SymbolTable.create { m_mnemonic := ".byte" }) _ _ []
    rfl rfl rfl List.Forall₂.nil (by decide)).1 (by decide)
  obtain ⟨b5, hb5, kb5⟩ := (data_directives_emit
    (Assembler.line_state 2 2 0x0200 SymbolTable.create { m_mnemonic := ".word" }) _ _ []
    rfl rfl rfl List.Forall₂.nil (by decide)).2.2 (by decide)
  exact ⟨by decide!, by decide!, ⟨b1, hb1, kb1⟩, ⟨b2, hb2, kb2⟩, ⟨b3, hb3, kb3⟩,
    ⟨b4, hb4, kb4⟩, ⟨b5, hb5, kb5⟩⟩

set_option maxRecDepth 100000 in
/-- C22 fails: the source `.def base = $1000` / `.loc base` /
`.word base+2, base+4` / `.end` gives the object file `*10000210`, two bytes
and not four. The rule `expression_list` has no white space after the comma,
so the list of line 3 ends after `base+2`; the rule `statement` does not
require the end of the line, and the rest `, base+4` is not read. Without the
space the parser gives the two operands and pass 1 emits the four bytes
02 10 04 10, but in pass 2 `write_listing_line` throws `std::length_error`
for the two words of the line, before the bytes are written. -/
theorem word_list_example :
    Parser.parse 2 3 0x1000 ".word base+2, base+4"
      = Except.ok (some { m_mnemonic := ".word",
                          m_operands := [Expression.BinaryOperatorExpression
                            (Expression.Symbol "base") (some BinaryOperatorEnum.ADDITION)
                            (Expression.Constant (Value.known 2))] }) ∧
    (∃ a : Assembler,
      assemble_source 0 ".def base = $1000\n.loc base\n.word base+2, base+4\n.end\n"
        = Except.ok a ∧
      a.m_object_file = "*10000210" ∧ a.m_location_counter = 0x1002) ∧
    Parser.parse 2 3 0x1000 ".word base+2,base+4"
      = Except.ok (some { m_mnemonic := ".word",
                          m_operands := [Expression.BinaryOperatorExpression
                            (Expression.Symbol "base") (some BinaryOperatorEnum.ADDITION)
                            (Expression.Constant (Value.known 2)),
                            Expression.BinaryOperatorExpression
                            (Expression.Symbol "base") (some BinaryOperatorEnum.ADDITION)
                            (Expression.Constant (Value.known 4))] }) ∧
    returns ((Assembler.construct InstructionSet.pal65 0).assemble_pass
        [".def base = $1000", ".loc base", ".word base+2,base+4"] 1)
      (fun a => decide (a.m_object_code_bytes = [0x02, 0x10, 0x04, 0x10])) = true ∧
    throws (assemble_source 0 ".def base = $1000\n.loc base\n.word base+2,base+4\n.end\n")
      Error.length_error = true := by
  have k : returns
      (assemble_source 0 ".def base = $1000\n.loc base\n.word base+2, base+4\n.end\n")
      (fun a => decide (a.m_object_file = "*10000210" ∧ a.m_location_counter = 0x1002))
      = true := by
    rw [assemble_source_eq]
    decide!
  obtain ⟨a, h, p⟩ := (returns_iff _ _).1 k
  have q := of_decide_eq_true p
  refine ⟨by decide!, ⟨a, h, q.1, q.2⟩, by decide!, by decide!, ?_⟩
  rw [assemble_source_eq]
  decide!

/-! ## Address-mode suffixes -/

set_option maxRecDepth 100000 in
/-- C29 fails for the suffix `x@`: in `address_mode_one_operand_suffix` the
alternative `x` stands before `x@`, and the ordered choice takes it, so that
the mnemonic matched in `ldax@ $10` is `ldax`; the white space that has to
follow is not there, `instruction_one_operand` fails after the mnemonic is
pushed, and `action<statement>` dereferences a null pointer. This is so for
each of the 31 one-operand mnemonics. With the suffixes `#`, `x`, `y`, `@y`
and `@` the line is parsed as claimed for each of the 31 mnemonics (here with
the operand `$10`), and `lda@y $10`, `jmp@ $1234` assemble to B1 10 and
6C 34 12. -/
theorem suffix_x_indirect_not_parsed :
    grammar.address_mode_one_operand_suffix "x@ $10".data
        { m_location_counter := 0, m_ast_stack := [] }
      = Except.ok (some "@ $10".data, { m_location_counter := 0, m_ast_stack := [] }) ∧
    (∀ m ∈ ["adc", "and", "asl", "bcc", "bcs", "beq", "bit", "bmi", "bne", "bpl", "bvc", "bvs",
        "cmp", "cpx", "cpy", "dec", "eor", "inc", "jmp", "jsr", "lda", "ldx", "ldy", "lsr",
        "ora", "rol", "ror", "sbc", "sta", "stx", "sty"],
      Parser.parse 1 1 0 (m ++ "x@ $10") = Except.error Error.undefined_behaviour) ∧
    (∀ m ∈ ["adc", "and", "asl", "bcc", "bcs", "beq", "bit", "bmi", "bne", "bpl", "bvc", "bvs",
        "cmp", "cpx", "cpy", "dec", "eor", "inc", "jmp", "jsr", "lda", "ldx", "ldy", "lsr",
        "ora", "rol", "ror", "sbc", "sta", "stx", "sty"],
      ∀ s ∈ ["#", "x", "y", "@y", "@"],
        Parser.parse 1 1 0 (m ++ s ++ " $10")
          = Except.ok (some { m_mnemonic := m ++ s,
                              m_operands := [Expression.Constant (Value.known 0x10)] })) ∧
    throws (assemble_source 0 ".loc $200\n    ldax@ $10\n.end\n") Error.undefined_behaviour
      = true ∧
    returns (assemble_source 0 ".loc $200\n    lda@y $10\n    jmp@ $1234\n.end\n")
      (fun a => decide (a.m_object_file = "*0200B1106C3412")) = true := by
  refine ⟨rfl, by decide!, by decide!, ?_, ?_⟩
  · rw [assemble_source_eq]; decide!
  · rw [assemble_source_eq]; decide!

/-! ## Precedence and associativity -/

theorem pegtl.star_loop_match (r : pegtl.Rule) (n : Nat) (input rest : pegtl.Input)
    (p p' : Parser) (h : r input p = Except.ok (some rest, p')) :
    pegtl.star_loop r (n + 1) input p = pegtl.star_loop r n rest p' := by
  simp only [pegtl.star_loop, h]

theorem pegtl.star_loop_fail (r : pegtl.Rule) (n : Nat) (input : pegtl.Input)
    (p p' : Parser) (h : r input p = Except.ok (none, p')) :
    pegtl.star_loop r (n + 1) input p = Except.ok (some input, p') := by
  simp only [pegtl.star_loop, h]

theorem grammar.binary_multiplying_operator_other (rest : pegtl.Input) (p : Parser)
    (h : rest.head? ≠ some '*' ∧ rest.head? ≠ some '/') :
    grammar.binary_multiplying_operator rest p = Except.ok (none, p) := by
  cases rest with
  | nil => rfl
  | cons c t =>
    have h1 : c ≠ '*' := fun hc => h.1 (by rw [hc]; rfl)
    have h2 : c ≠ '/' := fun hc => h.2 (by rw [hc]; rfl)
    simp [grammar.binary_multiplying_operator, pegtl.with_action, pegtl.one, h1, h2]

theorem grammar.binary_adding_operator_other (rest : pegtl.Input) (p : Parser)
    (h : rest.head? ≠ some '+' ∧ rest.head? ≠ some '-') :
    grammar.binary_adding_operator rest p = Except.ok (none, p) := by
  cases rest with
  | nil => rfl
  | cons c t =>
    have h1 : c ≠ '+' := fun hc => h.1 (by rw [hc]; rfl)
    have h2 : c ≠ '-' := fun hc => h.2 (by rw [hc]; rfl)
    simp [grammar.binary_adding_operator, pegtl.with_action, pegtl.one, h1, h2]

theorem grammar.binary_multiplying_operator_match (opc : Char) (op : BinaryOperatorEnum)
    (hop : (opc = '*' ∧ op = BinaryOperatorEnum.MULTIPLICATION) ∨
      (opc = '/' ∧ op = BinaryOperatorEnum.DIVISION))
    (t : pegtl.Input) (p : Parser) :
    grammar.binary_multiplying_operator (opc :: t) p
      = Except.ok (some t, p.push (ASTNode.BinaryOperator op)) := by
  rcases hop with ⟨h1, h2⟩ | ⟨h1, h2⟩ <;> subst h1 h2 <;>
    simp [grammar.binary_multiplying_operator, pegtl.with_action, pegtl.one]

theorem grammar.binary_adding_operator_match (opc : Char) (op : BinaryOperatorEnum)
    (hop : (opc = '+' ∧ op = BinaryOperatorEnum.ADDITION) ∨
      (opc = '-' ∧ op = BinaryOperatorEnum.SUBTRACTION))
    (t : pegtl.Input) (p : Parser) :
    grammar.binary_adding_operator (opc :: t) p
      = Except.ok (some t, p.push (ASTNode.BinaryOperator op)) := by
  rcases hop with ⟨h1, h2⟩ | ⟨h1, h2⟩ <;> subst h1 h2 <;>
    simp [grammar.binary_adding_operator, pegtl.with_action, pegtl.one]

theorem grammar.reduce_binary_operator_expression_push (p : Parser) (e1 e2 : Expression)
    (op : BinaryOperatorEnum) :
    grammar.reduce_binary_operator_expression
        (((p.push (ASTNode.Expression e1)).push (ASTNode.BinaryOperator op)).push
          (ASTNode.Expression e2))
      = Except.ok (p.push (ASTNode.Expression
          (Expression.BinaryOperatorExpression e1 (some op) e2))) :=
  rfl

/-- The rule `term_additional_factor` at an operator `*` or `/` followed by a
factor: the operator and the factor are taken, and the expression on top of
the stack becomes the left operand of the product or quotient. -/
theorem grammar.term_additional_factor_match (E : pegtl.Rule) (opc : Char)
    (op : BinaryOperatorEnum)
    (hop : (opc = '*' ∧ op = BinaryOperatorEnum.MULTIPLICATION) ∨
      (opc = '/' ∧ op = BinaryOperatorEnum.DIVISION))
    (x rest : pegtl.Input) (ex e1 : Expression) (p : Parser)
    (hx : ∀ q : Parser, q.m_location_counter = p.m_location_counter →
      grammar.factor E (x ++ rest) q
      = Except.ok (some rest, q.push (ASTNode.Expression ex))) :
    grammar.term_additional_factor E (opc :: (x ++ rest)) (p.push (ASTNode.Expression e1))
      = Except.ok (some rest, p.push (ASTNode.Expression
          (Expression.BinaryOperatorExpression e1 (some op) ex))) := by
  simp only [grammar.term_additional_factor, pegtl.with_action, pegtl.seq,
    grammar.binary_multiplying_operator_match opc op hop,
    hx ((p.push (ASTNode.Expression e1)).push (ASTNode.BinaryOperator op)) rfl,
    grammar.reduce_binary_operator_expression_push]

theorem grammar.term_additional_factor_other (E : pegtl.Rule) (rest : pegtl.Input) (p : Parser)
    (h : rest.head? ≠ some '*' ∧ rest.head? ≠ some '/') :
    grammar.term_additional_factor E rest p = Except.ok (none, p) := by
  simp only [grammar.term_additional_factor, pegtl.with_action, pegtl.seq,
    grammar.binary_multiplying_operator_other rest p h]

/-- The rule `term` at a single factor that no `*` or `/` follows. -/
theorem grammar.term_factor (E : pegtl.Rule) (x rest : pegtl.Input) (ex : Expression)
    (p : Parser)
    (hx : ∀ q : Parser, q.m_location_counter = p.m_location_counter →
      grammar.factor E (x ++ rest) q
      = Except.ok (some rest, q.push (ASTNode.Expression ex)))
    (h : rest.head? ≠ some '*' ∧ rest.head? ≠ some '/') :
    grammar.term E (x ++ rest) p = Except.ok (some rest, p.push (ASTNode.Expression ex)) := by
  simp only [grammar.term, pegtl.seq, hx p rfl, pegtl.star,
    pegtl.star_loop_fail _ _ _ _ _ (grammar.term_additional_factor_other E rest _ h)]

/-- The rule `term` at two factors with `*` or `/` between them. -/
theorem grammar.term_product (E : pegtl.Rule) (opc : Char) (op : BinaryOperatorEnum)
    (hop : (opc = '*' ∧ op = BinaryOperatorEnum.MULTIPLICATION) ∨
      (opc = '/' ∧ op = BinaryOperatorEnum.DIVISION))
    (x y rest : pegtl.Input) (ex ey : Expression) (p : Parser)
    (hx : ∀ q : Parser, q.m_location_counter = p.m_location_counter →
      grammar.factor E (x ++ opc :: (y ++ rest)) q
      = Except.ok (some (opc :: (y ++ rest)), q.push (ASTNode.Expression ex)))
    (hy : ∀ q : Parser, q.m_location_counter = p.m_location_counter →
      grammar.factor E (y ++ rest) q
      = Except.ok (some rest, q.push (ASTNode.Expression ey)))
    (h : rest.head? ≠ some '*' ∧ rest.head? ≠ some '/') :
    grammar.term E (x ++ opc :: (y ++ rest)) p
      = Except.ok (some rest, p.push (ASTNode.Expression
          (Expression.BinaryOperatorExpression ex (some op) ey))) := by
  simp only [grammar.term, pegtl.seq, hx p rfl, pegtl.star, List.length_cons]
  rw [pegtl.star_loop_match _ _ _ _ _ _
      (grammar.term_additional_factor_match E opc op hop y rest ey ex p hy),
    pegtl.star_loop_fail _ _ _ _ _ (grammar.term_additional_factor_other E rest _ h)]

theorem pegtl.star_loop_match_pos (r : pegtl.Rule) (n : Nat) (input rest : pegtl.Input)
    (p p' : Parser) (hn : 0 < n) (h : r input p = Except.ok (some rest, p')) :
    pegtl.star_loop r n input p = pegtl.star_loop r (n - 1) rest p' := by
  cases n with
  | zero => omega
  | succ m => exact pegtl.star_loop_match r m input rest p p' h

theorem pegtl.star_loop_fail_pos (r : pegtl.Rule) (n : Nat) (input : pegtl.Input)
    (p p' : Parser) (hn : 0 < n) (h : r input p = Except.ok (none, p')) :
    pegtl.star_loop r n input p = Except.ok (some input, p') := by
  cases n with
  | zero => omega
  | succ m => exact pegtl.star_loop_fail r m input p p' h

/-- The loop of `term` at an operator `*` or `/` and a factor that no `*` or
`/` follows. -/
theorem grammar.star_term_additional_factor_one (E : pegtl.Rule) (opc : Char)
    (op : BinaryOperatorEnum)
    (hop : (opc = '*' ∧ op = BinaryOperatorEnum.MULTIPLICATION) ∨
      (opc = '/' ∧ op = BinaryOperatorEnum.DIVISION))
    (y rest : pegtl.Input) (ey e1 : Expression) (p : Parser)
    (hy : ∀ q : Parser, q.m_location_counter = p.m_location_counter →
      grammar.factor E (y ++ rest) q
      = Except.ok (some rest, q.push (ASTNode.Expression ey)))
    (h : rest.head? ≠ some '*' ∧ rest.head? ≠ some '/') :
    pegtl.star (grammar.term_additional_factor E) (opc :: (y ++ rest))
        (p.push (ASTNode.Expression e1))
      = Except.ok (some rest, p.push (ASTNode.Expression
          (Expression.BinaryOperatorExpression e1 (some op) ey))) := by
  unfold pegtl.star
  rw [pegtl.star_loop_match_pos _ _ _ _ _ _ (by simp)
      (grammar.term_additional_factor_match E opc op hop y rest ey e1 p hy),
    pegtl.star_loop_fail_pos _ _ _ _ _ (by simp)
      (grammar.term_additional_factor_other E rest _ h)]

/-- The loop of `term` at two operators `*` or `/`, each with its factor:
the first product or quotient is the left operand of the second. -/
theorem grammar.star_term_additional_factor_two (E : pegtl.Rule) (opc1 opc2 : Char)
    (op1 op2 : BinaryOperatorEnum)
    (hop1 : (opc1 = '*' ∧ op1 = BinaryOperatorEnum.MULTIPLICATION) ∨
      (opc1 = '/' ∧ op1 = BinaryOperatorEnum.DIVISION))
    (hop2 : (opc2 = '*' ∧ op2 = BinaryOperatorEnum.MULTIPLICATION) ∨
      (opc2 = '/' ∧ op2 = BinaryOperatorEnum.DIVISION))
    (y z rest : pegtl.Input) (ey ez e1 : Expression) (p : Parser)
    (hy : ∀ q : Parser, q.m_location_counter = p.m_location_counter →
      grammar.factor E (y ++ opc2 :: (z ++ rest)) q
      = Except.ok (some (opc2 :: (z ++ rest)), q.push (ASTNode.Expression ey)))
    (hz : ∀ q : Parser, q.m_location_counter = p.m_location_counter →
      grammar.factor E (z ++ rest) q
      = Except.ok (some rest, q.push (ASTNode.Expression ez)))
    (h : rest.head? ≠ some '*' ∧ rest.head? ≠ some '/') :
    pegtl.star (grammar.term_additional_factor E) (opc1 :: (y ++ opc2 :: (z ++ rest)))
        (p.push (ASTNode.Expression e1))
      = Except.ok (some rest, p.push (ASTNode.Expression
          (Expression.BinaryOperatorExpression
            (Expression.BinaryOperatorExpression e1 (some op1) ey) (some op2) ez))) := by
  unfold pegtl.star
  rw [pegtl.star_loop_match_pos _ _ _ _ _ _ (by simp)
      (grammar.term_additional_factor_match E opc1 op1 hop1 y _ ey e1 p hy),
    pegtl.star_loop_match_pos _ _ _ _ _ _ (by simp)
      (grammar.term_additional_factor_match E opc2 op2 hop2 z rest ez _ p hz),
    pegtl.star_loop_fail_pos _ _ _ _ _ (by simp)
      (grammar.term_additional_factor_other E rest _ h)]

theorem grammar.star_term_additional_factor_none (E : pegtl.Rule) (rest : pegtl.Input)
    (p : Parser) (h : rest.head? ≠ some '*' ∧ rest.head? ≠ some '/') :
    pegtl.star (grammar.term_additional_factor E) rest p = Except.ok (some rest, p) := by
  unfold pegtl.star
  rw [pegtl.star_loop_fail_pos _ _ _ _ _ (by simp)
    (grammar.term_additional_factor_other E rest _ h)]

theorem grammar.term_of_factor (E : pegtl.Rule) (input mid : pegtl.Input) (p p1 : Parser)
    (h : grammar.factor E input p = Except.ok (some mid, p1)) :
    grammar.term E input p = pegtl.star (grammar.term_additional_factor E) mid p1 := by
  simp only [grammar.term, pegtl.seq, h]
  cases pegtl.star (grammar.term_additional_factor E) mid p1 with
  | error e => rfl
  | ok r =>
    obtain ⟨o, q⟩ := r
    cases o <;> rfl

theorem grammar.expression_additional_term_match (E : pegtl.Rule) (opc : Char)
    (op : BinaryOperatorEnum)
    (hop : (opc = '+' ∧ op = BinaryOperatorEnum.ADDITION) ∨
      (opc = '-' ∧ op = BinaryOperatorEnum.SUBTRACTION))
    (tail rest : pegtl.Input) (et e1 : Expression) (p : Parser)
    (ht : ∀ q : Parser, q.m_location_counter = p.m_location_counter →
      grammar.term E tail q
      = Except.ok (some rest, q.push (ASTNode.Expression et))) :
    grammar.expression_additional_term E (opc :: tail) (p.push (ASTNode.Expression e1))
      = Except.ok (some rest, p.push (ASTNode.Expression
          (Expression.BinaryOperatorExpression e1 (some op) et))) := by
  simp only [grammar.expression_additional_term, pegtl.with_action, pegtl.seq,
    grammar.binary_adding_operator_match opc op hop,
    ht ((p.push (ASTNode.Expression e1)).push (ASTNode.BinaryOperator op)) rfl,
    grammar.reduce_binary_operator_expression_push]

theorem grammar.expression_additional_term_other (E : pegtl.Rule) (rest : pegtl.Input)
    (p : Parser) (h : rest.head? ≠ some '+' ∧ rest.head? ≠ some '-') :
    grammar.expression_additional_term E rest p = Except.ok (none, p) := by
  simp only [grammar.expression_additional_term, pegtl.with_action, pegtl.seq,
    grammar.binary_adding_operator_other rest p h]

/-- The loop of `expression` at an operator `+` or `-` and a term that no
`+` or `-` follows. -/
theorem grammar.star_expression_additional_term_one (E : pegtl.Rule) (opc : Char)
    (op : BinaryOperatorEnum)
    (hop : (opc = '+' ∧ op = BinaryOperatorEnum.ADDITION) ∨
      (opc = '-' ∧ op = BinaryOperatorEnum.SUBTRACTION))
    (tail rest : pegtl.Input) (et e1 : Expression) (p : Parser)
    (ht : ∀ q : Parser, q.m_location_counter = p.m_location_counter →
      grammar.term E tail q
      = Except.ok (some rest, q.push (ASTNode.Expression et)))
    (h : rest.head? ≠ some '+' ∧ rest.head? ≠ some '-') :
    pegtl.star (grammar.expression_additional_term E) (opc :: tail)
        (p.push (ASTNode.Expression e1))
      = Except.ok (some rest, p.push (ASTNode.Expression
          (Expression.BinaryOperatorExpression e1 (some op) et))) := by
  unfold pegtl.star
  rw [pegtl.star_loop_match_pos _ _ _ _ _ _ (by simp)
      (grammar.expression_additional_term_match E opc op hop tail rest et e1 p ht),
    pegtl.star_loop_fail_pos _ _ _ _ _ (by simp)
      (grammar.expression_additional_term_other E rest _ h)]

theorem grammar.star_expression_additional_term_none (E : pegtl.Rule) (rest : pegtl.Input)
    (p : Parser) (h : rest.head? ≠ some '+' ∧ rest.head? ≠ some '-') :
    pegtl.star (grammar.expression_additional_term E) rest p = Except.ok (some rest, p) := by
  unfold pegtl.star
  rw [pegtl.star_loop_fail_pos _ _ _ _ _ (by simp)
    (grammar.expression_additional_term_other E rest _ h)]

theorem grammar.expression_of_term (fuel : Nat) (input mid : pegtl.Input) (p p1 : Parser)
    (h : grammar.term (grammar.expression_fuel fuel) input p = Except.ok (some mid, p1)) :
    grammar.expression_fuel (fuel + 1) input p
      = pegtl.star (grammar.expression_additional_term (grammar.expression_fuel fuel)) mid p1 := by
  simp only [grammar.expression_fuel, pegtl.seq, h]
  cases pegtl.star (grammar.expression_additional_term (grammar.expression_fuel fuel)) mid p1 with
  | error e => rfl
  | ok r =>
    obtain ⟨o, q⟩ := r
    cases o <;> rfl

/-- The rule `factor` at a `(`: the alternatives before
`parenthesized_expression` fail, and do nothing. -/
theorem grammar.factor_parenthesized (E : pegtl.Rule) (tail rest : pegtl.Input)
    (p p1 : Parser) (h : E tail p = Except.ok (some (')' :: rest), p1)) :
    grammar.factor E ('(' :: tail) p = Except.ok (some rest, p1) := by
  have h1 : grammar.constant ('(' :: tail) p = Except.ok (none, p) := rfl
  have h2 : grammar.expression_symbol ('(' :: tail) p = Except.ok (none, p) := rfl
  have h3 : grammar.unary_expression ('(' :: tail) p = Except.ok (none, p) := rfl
  have h4 : pegtl.one ['('] ('(' :: tail) p = Except.ok (some tail, p) := rfl
  have h5 : pegtl.one [')'] (')' :: rest) p1 = Except.ok (some rest, p1) := rfl
  simp only [grammar.factor, pegtl.sor, h1, h2, h3, grammar.parenthesized_expression, pegtl.seq,
    h4, h, h5]

/-- The loop of `expression` at two operators `+` or `-`, each with its
term: the first sum or difference is the left operand of the second. -/
theorem grammar.star_expression_additional_term_two (E : pegtl.Rule) (opc1 opc2 : Char)
    (op1 op2 : BinaryOperatorEnum)
    (hop1 : (opc1 = '+' ∧ op1 = BinaryOperatorEnum.ADDITION) ∨
      (opc1 = '-' ∧ op1 = BinaryOperatorEnum.SUBTRACTION))
    (hop2 : (opc2 = '+' ∧ op2 = BinaryOperatorEnum.ADDITION) ∨
      (opc2 = '-' ∧ op2 = BinaryOperatorEnum.SUBTRACTION))
    (tail1 tail2 rest : pegtl.Input) (et1 et2 e1 : Expression) (p : Parser)
    (hlen : 0 < tail1.length)
    (ht1 : ∀ q : Parser, q.m_location_counter = p.m_location_counter →
      grammar.term E tail1 q
      = Except.ok (some (opc2 :: tail2), q.push (ASTNode.Expression et1)))
    (ht2 : ∀ q : Parser, q.m_location_counter = p.m_location_counter →
      grammar.term E tail2 q
      = Except.ok (some rest, q.push (ASTNode.Expression et2)))
    (h : rest.head? ≠ some '+' ∧ rest.head? ≠ some '-') :
    pegtl.star (grammar.expression_additional_term E) (opc1 :: tail1)
        (p.push (ASTNode.Expression e1))
      = Except.ok (some rest, p.push (ASTNode.Expression
          (Expression.BinaryOperatorExpression
            (Expression.BinaryOperatorExpression e1 (some op1) et1) (some op2) et2))) := by
  unfold pegtl.star
  rw [pegtl.star_loop_match_pos _ _ _ _ _ _ (by simp)
      (grammar.expression_additional_term_match E opc1 op1 hop1 tail1 _ et1 e1 p ht1),
    pegtl.star_loop_match_pos _ _ _ _ _ _ (by simp)
      (grammar.expression_additional_term_match E opc2 op2 hop2 tail2 rest et2 _ p ht2),
    pegtl.star_loop_fail_pos _ _ _ _ _ (by simp; omega)
      (grammar.expression_additional_term_other E rest _ h)]

/-- `x+y*z` and `x-y*z`, `x+y/z`, `x-y/z`: the product or quotient is the
right operand. -/
theorem grammar.expression_sum_product (fuel : Nat) (opc1 opc2 : Char)
    (op1 op2 : BinaryOperatorEnum)
    (hop1 : (opc1 = '+' ∧ op1 = BinaryOperatorEnum.ADDITION) ∨
      (opc1 = '-' ∧ op1 = BinaryOperatorEnum.SUBTRACTION))
    (hop2 : (opc2 = '*' ∧ op2 = BinaryOperatorEnum.MULTIPLICATION) ∨
      (opc2 = '/' ∧ op2 = BinaryOperatorEnum.DIVISION))
    (input y z rest : pegtl.Input) (ex ey ez : Expression) (p : Parser)
    (hx : grammar.factor (grammar.expression_fuel fuel) input p
      = Except.ok (some (opc1 :: (y ++ opc2 :: (z ++ rest))), p.push (ASTNode.Expression ex)))
    (hy : ∀ q : Parser, q.m_location_counter = p.m_location_counter →
      grammar.factor (grammar.expression_fuel fuel) (y ++ opc2 :: (z ++ rest)) q
      = Except.ok (some (opc2 :: (z ++ rest)), q.push (ASTNode.Expression ey)))
    (hz : ∀ q : Parser, q.m_location_counter = p.m_location_counter →
      grammar.factor (grammar.expression_fuel fuel) (z ++ rest) q
      = Except.ok (some rest, q.push (ASTNode.Expression ez)))
    (h1 : rest.head? ≠ some '*' ∧ rest.head? ≠ some '/')
    (h2 : rest.head? ≠ some '+' ∧ rest.head? ≠ some '-') :
    grammar.expression_fuel (fuel + 1) input p
      = Except.ok (some rest, p.push (ASTNode.Expression
          (Expression.BinaryOperatorExpression ex (some op1)
            (Expression.BinaryOperatorExpression ey (some op2) ez)))) := by
  have hc1 : (opc1 :: (y ++ opc2 :: (z ++ rest))).head? ≠ some '*' ∧
      (opc1 :: (y ++ opc2 :: (z ++ rest))).head? ≠ some '/' := by
    rcases hop1 with ⟨h, _⟩ | ⟨h, _⟩ <;> subst h <;> simp
  have hterm : grammar.term (grammar.expression_fuel fuel) input p
      = Except.ok (some (opc1 :: (y ++ opc2 :: (z ++ rest))),
          p.push (ASTNode.Expression ex)) := by
    rw [grammar.term_of_factor _ _ _ _ _ hx, grammar.star_term_additional_factor_none _ _ _ hc1]
  rw [grammar.expression_of_term fuel _ _ _ _ hterm]
  refine grammar.star_expression_additional_term_one _ opc1 op1 hop1 _ rest _ ex p ?_ h2
  intro q hq
  rw [grammar.term_of_factor _ _ _ _ _ (hy q hq)]
  exact grammar.star_term_additional_factor_one _ opc2 op2 hop2 z rest ez ey q
    (fun q1 hq1 => hz q1 (hq1.trans hq)) h1

/-- `x+y` and `x-y`. -/
theorem grammar.expression_sum (fuel : Nat) (opc : Char) (op : BinaryOperatorEnum)
    (hop : (opc = '+' ∧ op = BinaryOperatorEnum.ADDITION) ∨
      (opc = '-' ∧ op = BinaryOperatorEnum.SUBTRACTION))
    (input y rest : pegtl.Input) (ex ey : Expression) (p : Parser)
    (hx : grammar.factor (grammar.expression_fuel fuel) input p
      = Except.ok (some (opc :: (y ++ rest)), p.push (ASTNode.Expression ex)))
    (hy : ∀ q : Parser, q.m_location_counter = p.m_location_counter →
      grammar.factor (grammar.expression_fuel fuel) (y ++ rest) q
      = Except.ok (some rest, q.push (ASTNode.Expression ey)))
    (h1 : rest.head? ≠ some '*' ∧ rest.head? ≠ some '/')
    (h2 : rest.head? ≠ some '+' ∧ rest.head? ≠ some '-') :
    grammar.expression_fuel (fuel + 1) input p
      = Except.ok (some rest, p.push (ASTNode.Expression
          (Expression.BinaryOperatorExpression ex (some op) ey))) := by
  have hc1 : (opc :: (y ++ rest)).head? ≠ some '*' ∧ (opc :: (y ++ rest)).head? ≠ some '/' := by
    rcases hop with ⟨h, _⟩ | ⟨h, _⟩ <;> subst h <;> simp
  have hterm : grammar.term (grammar.expression_fuel fuel) input p
      = Except.ok (some (opc :: (y ++ rest)), p.push (ASTNode.Expression ex)) := by
    rw [grammar.term_of_factor _ _ _ _ _ hx, grammar.star_term_additional_factor_none _ _ _ hc1]
  rw [grammar.expression_of_term fuel _ _ _ _ hterm]
  refine grammar.star_expression_additional_term_one _ opc op hop _ rest _ ex p ?_ h2
  intro q hq
  rw [grammar.term_of_factor _ _ _ _ _ (hy q hq)]
  exact grammar.star_term_additional_factor_none _ _ _ h1

/-- `x-y-z` and the other chains of `+` and `-`: the first sum or difference
is the left operand. -/
theorem grammar.expression_sum_left (fuel : Nat) (opc1 opc2 : Char)
    (op1 op2 : BinaryOperatorEnum)
    (hop1 : (opc1 = '+' ∧ op1 = BinaryOperatorEnum.ADDITION) ∨
      (opc1 = '-' ∧ op1 = BinaryOperatorEnum.SUBTRACTION))
    (hop2 : (opc2 = '+' ∧ op2 = BinaryOperatorEnum.ADDITION) ∨
      (opc2 = '-' ∧ op2 = BinaryOperatorEnum.SUBTRACTION))
    (input y z rest : pegtl.Input) (ex ey ez : Expression) (p : Parser)
    (hx : grammar.factor (grammar.expression_fuel fuel) input p
      = Except.ok (some (opc1 :: (y ++ opc2 :: (z ++ rest))), p.push (ASTNode.Expression ex)))
    (hy : ∀ q : Parser, q.m_location_counter = p.m_location_counter →
      grammar.factor (grammar.expression_fuel fuel) (y ++ opc2 :: (z ++ rest)) q
      = Except.ok (some (opc2 :: (z ++ rest)), q.push (ASTNode.Expression ey)))
    (hz : ∀ q : Parser, q.m_location_counter = p.m_location_counter →
      grammar.factor (grammar.expression_fuel fuel) (z ++ rest) q
      = Except.ok (some rest, q.push (ASTNode.Expression ez)))
    (h1 : rest.head? ≠ some '*' ∧ rest.head? ≠ some '/')
    (h2 : rest.head? ≠ some '+' ∧ rest.head? ≠ some '-') :
    grammar.expression_fuel (fuel + 1) input p
      = Except.ok (some rest, p.push (ASTNode.Expression
          (Expression.BinaryOperatorExpression
            (Expression.BinaryOperatorExpression ex (some op1) ey) (some op2) ez))) := by
  have hc1 : (opc1 :: (y ++ opc2 :: (z ++ rest))).head? ≠ some '*' ∧
      (opc1 :: (y ++ opc2 :: (z ++ rest))).head? ≠ some '/' := by
    rcases hop1 with ⟨h, _⟩ | ⟨h, _⟩ <;> subst h <;> simp
  have hc2 : (opc2 :: (z ++ rest)).head? ≠ some '*' ∧
      (opc2 :: (z ++ rest)).head? ≠ some '/' := by
    rcases hop2 with ⟨h, _⟩ | ⟨h, _⟩ <;> subst h <;> simp
  have hterm : grammar.term (grammar.expression_fuel fuel) input p
      = Except.ok (some (opc1 :: (y ++ opc2 :: (z ++ rest))),
          p.push (ASTNode.Expression ex)) := by
    rw [grammar.term_of_factor _ _ _ _ _ hx, grammar.star_term_additional_factor_none _ _ _ hc1]
  rw [grammar.expression_of_term fuel _ _ _ _ hterm]
  refine grammar.star_expression_additional_term_two _ opc1 opc2 op1 op2 hop1 hop2
    (y ++ opc2 :: (z ++ rest)) (z ++ rest) rest ey ez ex p (by simp) ?_ ?_ h2
  · intro q hq
    rw [grammar.term_of_factor _ _ _ _ _ (hy q hq)]
    exact grammar.star_term_additional_factor_none _ _ _ hc2
  · intro q hq
    rw [grammar.term_of_factor _ _ _ _ _ (hz q hq)]
    exact grammar.star_term_additional_factor_none _ _ _ h1

/-- `x/y/z` and the other chains of `*` and `/`: the first product or
quotient is the left operand. -/
theorem grammar.expression_product_left (fuel : Nat) (opc1 opc2 : Char)
    (op1 op2 : BinaryOperatorEnum)
    (hop1 : (opc1 = '*' ∧ op1 = BinaryOperatorEnum.MULTIPLICATION) ∨
      (opc1 = '/' ∧ op1 = BinaryOperatorEnum.DIVISION))
    (hop2 : (opc2 = '*' ∧ op2 = BinaryOperatorEnum.MULTIPLICATION) ∨
      (opc2 = '/' ∧ op2 = BinaryOperatorEnum.DIVISION))
    (input y z rest : pegtl.Input) (ex ey ez : Expression) (p : Parser)
    (hx : grammar.factor (grammar.expression_fuel fuel) input p
      = Except.ok (some (opc1 :: (y ++ opc2 :: (z ++ rest))), p.push (ASTNode.Expression ex)))
    (hy : ∀ q : Parser, q.m_location_counter = p.m_location_counter →
      grammar.factor (grammar.expression_fuel fuel) (y ++ opc2 :: (z ++ rest)) q
      = Except.ok (some (opc2 :: (z ++ rest)), q.push (ASTNode.Expression ey)))
    (hz : ∀ q : Parser, q.m_location_counter = p.m_location_counter →
      grammar.factor (grammar.expression_fuel fuel) (z ++ rest) q
      = Except.ok (some rest, q.push (ASTNode.Expression ez)))
    (h1 : rest.head? ≠ some '*' ∧ rest.head? ≠ some '/')
    (h2 : rest.head? ≠ some '+' ∧ rest.head? ≠ some '-') :
    grammar.expression_fuel (fuel + 1) input p
      = Except.ok (some rest, p.push (ASTNode.Expression
          (Expression.BinaryOperatorExpression
            (Expression.BinaryOperatorExpression ex (some op1) ey) (some op2) ez))) := by
  have hterm : grammar.term (grammar.expression_fuel fuel) input p
      = Except.ok (some rest, p.push (ASTNode.Expression
          (Expression.BinaryOperatorExpression
            (Expression.BinaryOperatorExpression ex (some op1) ey) (some op2) ez))) := by
    rw [grammar.term_of_factor _ _ _ _ _ hx]
    exact grammar.star_term_additional_factor_two _ opc1 opc2 op1 op2 hop1 hop2 y z rest
      ey ez ex p hy hz h1
  rw [grammar.expression_of_term fuel _ _ _ _ hterm]
  exact grammar.star_expression_additional_term_none _ _ _ h2

/-- `(x+y)*z`: the sum in parentheses is the left operand of the product. -/
theorem grammar.expression_parenthesized_sum (fuel : Nat) (opc1 opc2 : Char)
    (op1 op2 : BinaryOperatorEnum)
    (hop1 : (opc1 = '+' ∧ op1 = BinaryOperatorEnum.ADDITION) ∨
      (opc1 = '-' ∧ op1 = BinaryOperatorEnum.SUBTRACTION))
    (hop2 : (opc2 = '*' ∧ op2 = BinaryOperatorEnum.MULTIPLICATION) ∨
      (opc2 = '/' ∧ op2 = BinaryOperatorEnum.DIVISION))
    (x y z rest : pegtl.Input) (ex ey ez : Expression) (p : Parser)
    (hx : ∀ q : Parser, q.m_location_counter = p.m_location_counter →
      grammar.factor (grammar.expression_fuel fuel)
        (x ++ opc1 :: (y ++ ')' :: opc2 :: (z ++ rest))) q
      = Except.ok (some (opc1 :: (y ++ ')' :: opc2 :: (z ++ rest))),
          q.push (ASTNode.Expression ex)))
    (hy : ∀ q : Parser, q.m_location_counter = p.m_location_counter →
      grammar.factor (grammar.expression_fuel fuel)
        (y ++ ')' :: opc2 :: (z ++ rest)) q
      = Except.ok (some (')' :: opc2 :: (z ++ rest)), q.push (ASTNode.Expression ey)))
    (hz : ∀ q : Parser, q.m_location_counter = p.m_location_counter →
      grammar.factor (grammar.expression_fuel (fuel + 1)) (z ++ rest) q
      = Except.ok (some rest, q.push (ASTNode.Expression ez)))
    (h1 : rest.head? ≠ some '*' ∧ rest.head? ≠ some '/')
    (h2 : rest.head? ≠ some '+' ∧ rest.head? ≠ some '-') :
    grammar.expression_fuel (fuel + 1 + 1)
        ('(' :: (x ++ opc1 :: (y ++ ')' :: opc2 :: (z ++ rest)))) p
      = Except.ok (some rest, p.push (ASTNode.Expression
          (Expression.BinaryOperatorExpression
            (Expression.BinaryOperatorExpression ex (some op1) ey) (some op2) ez))) := by
  have hinner : grammar.expression_fuel (fuel + 1)
      (x ++ opc1 :: (y ++ ')' :: opc2 :: (z ++ rest))) p
      = Except.ok (some (')' :: opc2 :: (z ++ rest)), p.push (ASTNode.Expression
          (Expression.BinaryOperatorExpression ex (some op1) ey))) :=
    grammar.expression_sum fuel opc1 op1 hop1 _ y (')' :: opc2 :: (z ++ rest)) ex ey p (hx p rfl) hy
      (by simp) (by simp)
  have hfactor := grammar.factor_parenthesized (grammar.expression_fuel (fuel + 1)) _ _ p _ hinner
  have hterm : grammar.term (grammar.expression_fuel (fuel + 1))
      ('(' :: (x ++ opc1 :: (y ++ ')' :: opc2 :: (z ++ rest)))) p
      = Except.ok (some rest, p.push (ASTNode.Expression
          (Expression.BinaryOperatorExpression
            (Expression.BinaryOperatorExpression ex (some op1) ey) (some op2) ez))) := by
    rw [grammar.term_of_factor _ _ _ _ _ hfactor]
    exact grammar.star_term_additional_factor_one _ opc2 op2 hop2 z rest ez _ p hz h1
  rw [grammar.expression_of_term (fuel + 1) _ _ _ _ hterm]
  exact grammar.star_expression_additional_term_none _ _ _ h2

set_option maxRecDepth 100000 in
/-- C30: let `a`, `b`, `c` be factors, that is, texts that the rule `factor`
takes as a whole and for which it pushes the expressions `ea`, `eb`, `ec`, in
every state of the parser that has the location counter of the line (the
stack may be any; for the factor `.` the expression is the constant of that
location counter), whenever the end of the line, an operator or a `)`
follows and the rule `expression` may be unfolded as often as the text has
characters. Then the rule `expression` takes the whole of `a+b*c`, `a-b-c`,
`a/b/c` and `(a+b)*c` and pushes `ea + (eb * ec)`, `(ea - eb) - ec`,
`(ea / eb) / ec` and `(ea + eb) * ec`. The operands `2+3*4`, `10-3-2` and `(2+3)*4` of `lda` are
parsed to such trees, which evaluate to 14, 5 and 20, the bytes that
`.byte 2+3*4,10-3-2,(2+3)*4` emits. -/
theorem precedence_and_associativity (a b c : String) (ea eb ec : Expression) (parser : Parser)
    (ha : ∀ fuel : Nat, a.length ≤ fuel → ∀ (rest : List Char) (q : Parser),
      q.m_location_counter = parser.m_location_counter →
      rest.head? ∈ [none, some '+', some '-', some '*', some '/', some ')'] →
      grammar.factor (grammar.expression_fuel fuel) (a.data ++ rest) q
        = Except.ok (some rest, q.push (ASTNode.Expression ea)))
    (hb : ∀ fuel : Nat, b.length ≤ fuel → ∀ (rest : List Char) (q : Parser),
      q.m_location_counter = parser.m_location_counter →
      rest.head? ∈ [none, some '+', some '-', some '*', some '/', some ')'] →
      grammar.factor (grammar.expression_fuel fuel) (b.data ++ rest) q
        = Except.ok (some rest, q.push (ASTNode.Expression eb)))
    (hc : ∀ fuel : Nat, c.length ≤ fuel → ∀ (rest : List Char) (q : Parser),
      q.m_location_counter = parser.m_location_counter →
      rest.head? ∈ [none, some '+', some '-', some '*', some '/', some ')'] →
      grammar.factor (grammar.expression_fuel fuel) (c.data ++ rest) q
        = Except.ok (some rest, q.push (ASTNode.Expression ec))) :
    grammar.expression (a ++ "+" ++ b ++ "*" ++ c).data parser
      = Except.ok (some [], parser.push (ASTNode.Expression
          (Expression.BinaryOperatorExpression ea (some BinaryOperatorEnum.ADDITION)
            (Expression.BinaryOperatorExpression eb (some BinaryOperatorEnum.MULTIPLICATION)
              ec)))) ∧
    grammar.expression (a ++ "-" ++ b ++ "-" ++ c).data parser
      = Except.ok (some [], parser.push (ASTNode.Expression
          (Expression.BinaryOperatorExpression
            (Expression.BinaryOperatorExpression ea (some BinaryOperatorEnum.SUBTRACTION) eb)
            (some BinaryOperatorEnum.SUBTRACTION) ec))) ∧
    grammar.expression (a ++ "/" ++ b ++ "/" ++ c).data parser
      = Except.ok (some [], parser.push (ASTNode.Expression
          (Expression.BinaryOperatorExpression
            (Expression.BinaryOperatorExpression ea (some BinaryOperatorEnum.DIVISION) eb)
            (some BinaryOperatorEnum.DIVISION) ec))) ∧
    grammar.expression ("(" ++ a ++ "+" ++ b ++ ")" ++ "*" ++ c).data parser
      = Except.ok (some [], parser.push (ASTNode.Expression
          (Expression.BinaryOperatorExpression
            (Expression.BinaryOperatorExpression ea (some BinaryOperatorEnum.ADDITION) eb)
            (some BinaryOperatorEnum.MULTIPLICATION) ec))) ∧
    Parser.parse 1 1 0 "    lda 2+3*4"
      = Except.ok (some { m_mnemonic := "lda",
                          m_operands := [Expression.BinaryOperatorExpression
                            (Expression.Constant (Value.known 2))
                            (some BinaryOperatorEnum.ADDITION)
                            (Expression.BinaryOperatorExpression
                              (Expression.Constant (Value.known 3))
                              (some BinaryOperatorEnum.MULTIPLICATION)
                              (Expression.Constant (Value.known 4)))] }) ∧
    Parser.parse 1 1 0 "    lda 10-3-2"
      = Except.ok (some { m_mnemonic := "lda",
                          m_operands := [Expression.BinaryOperatorExpression
                            (Expression.BinaryOperatorExpression
                              (Expression.Constant (Value.known 10))
                              (some BinaryOperatorEnum.SUBTRACTION)
                              (Expression.Constant (Value.known 3)))
                            (some BinaryOperatorEnum.SUBTRACTION)
                            (Expression.Constant (Value.known 2))] }) ∧
    Parser.parse 1 1 0 "    lda (2+3)*4"
      = Except.ok (some { m_mnemonic := "lda",
                          m_operands := [Expression.BinaryOperatorExpression
                            (Expression.BinaryOperatorExpression
                              (Expression.Constant (Value.known 2))
                              (some BinaryOperatorEnum.ADDITION)
                              (Expression.Constant (Value.known 3)))
                            (some BinaryOperatorEnum.MULTIPLICATION)
                            (Expression.Constant (Value.known 4))] }) ∧
    returns (Expression.evaluate
        (Expression.BinaryOperatorExpression (Expression.Constant (Value.known 2))
          (some BinaryOperatorEnum.ADDITION)
          (Expression.BinaryOperatorExpression (Expression.Constant (Value.known 3))
            (some BinaryOperatorEnum.MULTIPLICATION) (Expression.Constant (Value.known 4))))
        SymbolTable.create 1)
      (fun r => decide (r.1 = Value.known 14)) = true ∧
    returns (Expression.evaluate
        (Expression.BinaryOperatorExpression
          (Expression.BinaryOperatorExpression (Expression.Constant (Value.known 10))
            (some BinaryOperatorEnum.SUBTRACTION) (Expression.Constant (Value.known 3)))
          (some BinaryOperatorEnum.SUBTRACTION) (Expression.Constant (Value.known 2)))
        SymbolTable.create 1)
      (fun r => decide (r.1 = Value.known 5)) = true ∧
    returns (Expression.evaluate
        (Expression.BinaryOperatorExpression
          (Expression.BinaryOperatorExpression (Expression.Constant (Value.known 2))
            (some BinaryOperatorEnum.ADDITION) (Expression.Constant (Value.known 3)))
          (some BinaryOperatorEnum.MULTIPLICATION) (Expression.Constant (Value.known 4)))
        SymbolTable.create 1)
      (fun r => decide (r.1 = Value.known 20)) = true ∧
    returns ((Assembler.line_state 2 1 0x0200 SymbolTable.create {}).assemble_pass_line
        "    .byte 2+3*4,10-3-2,(2+3)*4")
      (fun r => decide (r.m_object_code_bytes = [14, 5, 20])) = true := by
  have hla : ∀ l : List Char, a.data.length ≤ (a.data ++ l).length := by
    intro l; simp
  have hlb : ∀ l : List Char, b.data.length ≤ (b.data ++ l).length := by
    intro l; simp
  have hlc : ∀ l : List Char, c.data.length ≤ (c.data ++ l).length := by
    intro l; simp
  have hend : ([] : List Char).head? ∈
      [none, some '+', some '-', some '*', some '/', some ')'] := by simp
  refine ⟨?_, ?_, ?_, ?_, by decide!, by decide!, by decide!, by decide!, by decide!, by decide!,
    by decide!⟩
  · have hd : (a ++ "+" ++ b ++ "*" ++ c).data
        = a.data ++ '+' :: (b.data ++ '*' :: (c.data ++ [])) := by
      simp [String.data_append]
    rw [hd]
    exact grammar.expression_sum_product _ '+' '*' _ _ (Or.inl ⟨rfl, rfl⟩) (Or.inl ⟨rfl, rfl⟩)
      _ b.data c.data [] ea eb ec parser
      (ha _ (hla _) _ _ rfl (by simp))
      (fun q hq => hb _ (le_trans (hlb ('*' :: (c.data ++ []))) (by simp; omega)) _ q hq (by simp))
      (fun q hq => hc _ (le_trans (hlc []) (by simp; omega)) _ q hq hend)
      (by simp) (by simp)
  · have hd : (a ++ "-" ++ b ++ "-" ++ c).data
        = a.data ++ '-' :: (b.data ++ '-' :: (c.data ++ [])) := by
      simp [String.data_append]
    rw [hd]
    exact grammar.expression_sum_left _ '-' '-' _ _ (Or.inr ⟨rfl, rfl⟩) (Or.inr ⟨rfl, rfl⟩)
      _ b.data c.data [] ea eb ec parser
      (ha _ (hla _) _ _ rfl (by simp))
      (fun q hq => hb _ (le_trans (hlb ('-' :: (c.data ++ []))) (by simp; omega)) _ q hq (by simp))
      (fun q hq => hc _ (le_trans (hlc []) (by simp; omega)) _ q hq hend)
      (by simp) (by simp)
  · have hd : (a ++ "/" ++ b ++ "/" ++ c).data
        = a.data ++ '/' :: (b.data ++ '/' :: (c.data ++ [])) := by
      simp [String.data_append]
    rw [hd]
    exact grammar.expression_product_left _ '/' '/' _ _ (Or.inr ⟨rfl, rfl⟩) (Or.inr ⟨rfl, rfl⟩)
      _ b.data c.data [] ea eb ec parser
      (ha _ (hla _) _ _ rfl (by simp))
      (fun q hq => hb _ (le_trans (hlb ('/' :: (c.data ++ []))) (by simp; omega)) _ q hq (by simp))
      (fun q hq => hc _ (le_trans (hlc []) (by simp; omega)) _ q hq hend)
      (by simp) (by simp)
  · have hd : ("(" ++ a ++ "+" ++ b ++ ")" ++ "*" ++ c).data
        = '(' :: (a.data ++ '+' :: (b.data ++ ')' :: '*' :: (c.data ++ []))) := by
      simp [String.data_append]
    rw [hd]
    exact grammar.expression_parenthesized_sum _ '+' '*' _ _ (Or.inl ⟨rfl, rfl⟩)
      (Or.inl ⟨rfl, rfl⟩) a.data b.data c.data [] ea eb ec parser
      (fun q hq => ha _ (hla _) _ q hq (by simp))
      (fun q hq => hb _ (le_trans (hlb (')' :: '*' :: (c.data ++ []))) (by simp; omega)) _ q hq
        (by simp))
      (fun q hq => hc _ (le_trans (hlc []) (by simp; omega)) _ q hq hend)
      (by simp) (by simp)

set_option maxRecDepth 100000 in
/-- C30 at the factors `2`, `3` and `4`, and at the factors `.`, `3` and `.`
on a line that starts at the location 0x0200. -/
theorem precedence_and_associativity_witness :
    grammar.expression "2+3*4".data { m_location_counter := 0, m_ast_stack := [] }
      = Except.ok (some [], { m_location_counter := 0, m_ast_stack := [ASTNode.Expression
          (Expression.BinaryOperatorExpression (Expression.Constant (Value.known 2))
            (some BinaryOperatorEnum.ADDITION)
            (Expression.BinaryOperatorExpression (Expression.Constant (Value.known 3))
              (some BinaryOperatorEnum.MULTIPLICATION)
              (Expression.Constant (Value.known 4))))] }) ∧
    grammar.expression "(2+3)*4".data { m_location_counter := 0, m_ast_stack := [] }
      = Except.ok (some [], { m_location_counter := 0, m_ast_stack := [ASTNode.Expression
          (Expression.BinaryOperatorExpression
            (Expression.BinaryOperatorExpression (Expression.Constant (Value.known 2))
              (some BinaryOperatorEnum.ADDITION) (Expression.Constant (Value.known 3)))
            (some BinaryOperatorEnum.MULTIPLICATION)
            (Expression.Constant (Value.known 4)))] }) ∧
    grammar.expression ".+3*.".data { m_location_counter := 0x0200, m_ast_stack := [] }
      = Except.ok (some [], { m_location_counter := 0x0200, m_ast_stack := [ASTNode.Expression
          (Expression.BinaryOperatorExpression (Expression.Constant (Value.known 0x0200))
            (some BinaryOperatorEnum.ADDITION)
            (Expression.BinaryOperatorExpression (Expression.Constant (Value.known 3))
              (some BinaryOperatorEnum.MULTIPLICATION)
              (Expression.Constant (Value.known 0x0200))))] }) ∧
    grammar.expression ".-.-3".data { m_location_counter := 0x0200, m_ast_stack := [] }
      = Except.ok (some [], { m_location_counter := 0x0200, m_ast_stack := [ASTNode.Expression
          (Expression.BinaryOperatorExpression
            (Expression.BinaryOperatorExpression (Expression.Constant (Value.known 0x0200))
              (some BinaryOperatorEnum.SUBTRACTION) (Expression.Constant (Value.known 0x0200)))
            (some BinaryOperatorEnum.SUBTRACTION)
            (Expression.Constant (Value.known 3)))] }) := by
  have hdigit : ∀ (lc : Nat) (d : Char) (n : Nat),
      (d, n) = ('2', 2) ∨ (d, n) = ('3', 3) ∨ (d, n) = ('4', 4) →
      ∀ fuel : Nat, (String.mk [d]).length ≤ fuel → ∀ (rest : List Char) (q : Parser),
      q.m_location_counter = lc →
      rest.head? ∈ [none, some '+', some '-', some '*', some '/', some ')'] →
      grammar.factor (grammar.expression_fuel fuel) ((String.mk [d]).data ++ rest) q
        = Except.ok (some rest, q.push (ASTNode.Expression
            (Expression.Constant (Value.known n)))) := by
    intro lc d n hd fuel _ rest q _ hrest
    cases rest with
    | nil => rcases hd with h | h | h <;> cases h <;> rfl
    | cons ch t =>
      simp only [List.head?_cons, List.mem_cons, Option.some.injEq, List.mem_singleton,
        reduceCtorEq, false_or, List.not_mem_nil, or_false] at hrest
      rcases hd with h | h | h <;> cases h <;>
        rcases hrest with h | h | h | h | h <;> subst h <;> rfl
  have hdot : ∀ fuel : Nat, (".": String).length ≤ fuel → ∀ (rest : List Char) (q : Parser),
      q.m_location_counter = 0x0200 →
      rest.head? ∈ [none, some '+', some '-', some '*', some '/', some ')'] →
      grammar.factor (grammar.expression_fuel fuel) ((".": String).data ++ rest) q
        = Except.ok (some rest, q.push (ASTNode.Expression
            (Expression.Constant (Value.known 0x0200)))) := by
    intro fuel _ rest q hq _
    have h : grammar.factor (grammar.expression_fuel fuel) ('.' :: rest) q
        = Except.ok (some rest, q.push (ASTNode.Expression
            (Constant.create q.m_location_counter))) := rfl
    rw [hq] at h
    exact h
  have h := precedence_and_associativity "2" "3" "4" (Expression.Constant (Value.known 2))
    (Expression.Constant (Value.known 3)) (Expression.Constant (Value.known 4))
    { m_location_counter := 0, m_ast_stack := [] }
    (hdigit 0 '2' 2 (Or.inl rfl)) (hdigit 0 '3' 3 (Or.inr (Or.inl rfl)))
    (hdigit 0 '4' 4 (Or.inr (Or.inr rfl)))
  have h1 := precedence_and_associativity "." "3" "." (Expression.Constant (Value.known 0x0200))
    (Expression.Constant (Value.known 3)) (Expression.Constant (Value.known 0x0200))
    { m_location_counter := 0x0200, m_ast_stack := [] }
    hdot (hdigit 0x0200 '3' 3 (Or.inr (Or.inl rfl))) hdot
  have h2 := precedence_and_associativity "." "." "3" (Expression.Constant (Value.known 0x0200))
    (Expression.Constant (Value.known 0x0200)) (Expression.Constant (Value.known 3))
    { m_location_counter := 0x0200, m_ast_stack := [] }
    hdot hdot (hdigit 0x0200 '3' 3 (Or.inr (Or.inl rfl)))
  exact ⟨h.1, h.2.2.2.1, h1.1, h2.2.1⟩

/-! ## The mnemonics of the grammar and of the instruction set -/

/-- C40: the rules `mnemonic_instruction_zero_operand` and
`mnemonic_instruction_one_operand` are the ordered choices over the texts of
`zero_operand_mnemonics` and `one_operand_mnemonics`, and the suffix rule is
the ordered choice `#`, `x`, `y`, `x@`, `@y`, `@`. Every text of the
zero-operand list is a key of the instruction set, all of whose infos are in
implied or accumulator mode (operand size 0); a key of the instruction set
with an info of operand size 0 is in the zero-operand list; and every other
key of the instruction set is a text of the one-operand list followed by
nothing or by one of the six suffixes. -/
theorem grammar_mnemonics_agree :
    grammar.mnemonic_instruction_zero_operand
      = pegtl.with_action (pegtl.sor (grammar.zero_operand_mnemonics.map pegtl.istring))
          (fun matched _ parser => grammar.push_mnemonic matched parser) ∧
    grammar.mnemonic_instruction_one_operand
      = pegtl.sor (grammar.one_operand_mnemonics.map pegtl.istring) ∧
    grammar.address_mode_one_operand_suffix
      = pegtl.sor [pegtl.one ['#'], pegtl.one ['x', 'X'], pegtl.one ['y', 'Y'],
          pegtl.seq [pegtl.one ['x', 'X'], pegtl.one ['@']],
          pegtl.seq [pegtl.one ['@'], pegtl.one ['y', 'Y']], pegtl.one ['@']] ∧
    (∀ m ∈ grammar.zero_operand_mnemonics, ∃ p ∈ InstructionSet.pal65.m_by_mnemonic,
      p.1 = m ∧ ∀ info ∈ p.2, InstructionSet.operand_size_bytes info.mode = 0 ∧
        (info.mode = InstructionSet.Mode.IMPLIED ∨
          (info.mode = InstructionSet.Mode.ACCUMULATOR ∧ m = info.mnemonic ++ "a"))) ∧
    (∀ p ∈ InstructionSet.pal65.m_by_mnemonic,
      (∃ info ∈ p.2, InstructionSet.operand_size_bytes info.mode = 0) →
        p.1 ∈ grammar.zero_operand_mnemonics) ∧
    (∀ p ∈ InstructionSet.pal65.m_by_mnemonic, p.1 ∉ grammar.zero_operand_mnemonics →
      ∃ base ∈ grammar.one_operand_mnemonics, ∃ suffix ∈ ["", "#", "x", "y", "x@", "@y", "@"],
        p.1 = base ++ suffix) := by
  refine ⟨rfl, rfl, rfl, by decide!, by decide!, by decide!⟩

/-! ## Instructions with one info -/

open InstructionSet in
/-- C38: for a mnemonic with a single info in a mode that is not relative,
with operand size 1 or 2, and an operand that evaluates to a known 16-bit
value `v`, `assemble_instruction` emits the opcode and `v & 0xFF` when the
operand size is 1, whatever `v` is, and the opcode, `v & 0xFF` and `v >> 8`
when the operand size is 2. -/
theorem single_info_instruction (a a1 a2 : Assembler) (statement : Statement)
    (e : Expression) (info : InstructionSet.Info) (v : Nat)
    (hs : a.m_statement_sp = some statement)
    (hlabel : (if statement.m_label.length ≠ 0
        then a.define_symbol statement.m_label (Value.create a.m_location_counter)
        else Except.ok a) = Except.ok a1)
    (hmn : statement.m_mnemonic.length ≠ 0)
    (hget : a1.m_instruction_set_sp.get statement.m_mnemonic = Except.ok [info])
    (hrel : info.mode ≠ InstructionSet.Mode.RELATIVE)
    (hsize : InstructionSet.operand_size_bytes info.mode = 1 ∨
      InstructionSet.operand_size_bytes info.mode = 2)
    (ho : info.opcode < 256)
    (hops : statement.m_operands = [e])
    (hev : a1.evaluate e = Except.ok (Value.known v, a2))
    (hv : v < 65536) :
    ∃ a' : Assembler, a.assemble_instruction = Except.ok a' ∧
      a'.m_object_code_bytes = a.m_object_code_bytes ++
        (if InstructionSet.operand_size_bytes info.mode = 1 then [info.opcode, v &&& 0xFF]
         else [info.opcode, v &&& 0xFF, v >>> 8]) := by
  have hconv := Assembler.convert_operand_uint16_known a1 a2 e v hev
  obtain ⟨t1, ht1⟩ := Assembler.label_fields a a1 _ _ hlabel
  obtain ⟨t2, ht2⟩ := Assembler.evaluate_fields a1 a2 e _ hev
  have hb : a2.m_object_code_bytes = a.m_object_code_bytes := by rw [ht2, ht1]
  have hlow : (v &&& 255) < 256 := lt_of_le_of_lt Nat.and_le_right (by decide)
  have hmod : v % 256 = v &&& 255 := (Nat.and_pow_two_sub_one_eq_mod v 8).symm
  have hhigh : v >>> 8 < 256 := by rw [Nat.shiftRight_eq_div_pow]; omega
  unfold Assembler.assemble_instruction
  simp only [hs, hlabel, hmn, if_false, hget, Statement.get_operand_count, hops,
    Statement.get_operand, List.get?, hconv, List.length]
  rcases hsize with h1 | h2
  · simp [Assembler.assemble_instruction_loop, hrel, h1, Assembler.emit_byte, hb,
      Nat.mod_eq_of_lt ho, hmod]
  · simp [Assembler.assemble_instruction_loop, hrel, h2, Assembler.emit_byte,
      Assembler.emit_word, hb, Nat.mod_eq_of_lt ho, Nat.mod_eq_of_lt hv,
      Nat.mod_eq_of_lt hlow, Nat.mod_eq_of_lt hhigh]

set_option maxRecDepth 100000 in
/-- C38 at `lda# $1234` and `jmp 5` (pass 2, line 2, location 0): the first
emits A9 34, the second 4C 05 00; the parser gives these statements for the
two lines. -/
theorem single_info_instruction_witness :
    Parser.parse 2 2 0 "    lda# $1234"
      = Except.ok (some { m_mnemonic := "lda#",
                          m_operands := [Expression.Constant (Value.known 0x1234)] }) ∧
    Parser.parse 2 2 0 "    jmp 5"
      = Except.ok (some { m_mnemonic := "jmp",
                          m_operands := [Expression.Constant (Value.known 5)] }) ∧
    (∃ a' : Assembler,
      (Assembler.line_state 2 2 0 SymbolTable.create
        { m_mnemonic := "lda#", m_operands := [Expression.Constant (Value.known 0x1234)] }
        ).assemble_instruction = Except.ok a' ∧
      a'.m_object_code_bytes = [0xA9, 0x34]) ∧
    (∃ a' : Assembler,
      (Assembler.line_state 2 2 0 SymbolTable.create
        { m_mnemonic := "jmp", m_operands := [Expression.Constant (Value.known 5)] }
        ).assemble_instruction = Except.ok a' ∧
      a'.m_object_code_bytes = [0x4C, 0x05, 0x00]) := by
  have h1 := single_info_instruction
    (Assembler.line_state 2 2 0 SymbolTable.create
      { m_mnemonic := "lda#", m_operands := [Expression.Constant (Value.known 0x1234)] }) _ _
    { m_mnemonic := "lda#", m_operands := [Expression.Constant (Value.known 0x1234)] }
    (Expression.Constant (Value.known 0x1234))
    ⟨"lda", InstructionSet.Set.BASE, InstructionSet.Mode.IMMEDIATE, 0xa9⟩ 0x1234
    rfl rfl (by decide) (by decide!) (by decide) (Or.inl rfl) (by decide) rfl rfl (by decide)
  have h2 := single_info_instruction
    (Assembler.line_state 2 2 0 SymbolTable.create
      { m_mnemonic := "jmp", m_operands := [Expression.Constant (Value.known 5)] }) _ _
    { m_mnemonic := "jmp", m_operands := [Expression.Constant (Value.known 5)] }
    (Expression.Constant (Value.known 5))
    ⟨"jmp", InstructionSet.Set.BASE, InstructionSet.Mode.ABSOLUTE, 0x4c⟩ 5
    rfl rfl (by decide) (by decide!) (by decide) (Or.inr rfl) (by decide) rfl rfl (by decide)
  exact ⟨by decide!, by decide!, h1, h2⟩

/-! ## Branches in pass 1 -/

/-- The exceptions of `Expression::evaluate`: a null pointer, a string
constant, a division by zero, or a symbol that the table does not hold. -/
theorem Expression.evaluate_error (e : Expression) :
    ∀ (t : SymbolTable) (line : Nat) (err : Error), e.evaluate t line = Except.error err →
      err = Error.undefined_behaviour ∨
      err = Error.logic_error LogicErrorKind.cant_evaluate_string_constant ∨
      err = Error.ValueDivideByZeroError ∨
      ∃ s : String, err = Error.SymbolTableError_undefined s ∧ t.find s = none := by
  induction e with
  | nullptr =>
    intro t line err h
    simp only [Expression.evaluate] at h
    injection h with h
    exact Or.inl h.symm
  | Constant c => intro t line err h; cases h
  | StringConstant s =>
    intro t line err h
    simp only [Expression.evaluate] at h
    injection h with h
    exact Or.inr (Or.inl h.symm)
  | Symbol s =>
    intro t line err h
    simp only [Expression.evaluate, SymbolTable.lookup_symbol] at h
    split at h
    · rename_i hnone
      split at h
      · cases h
      · injection h with h
        exact Or.inr (Or.inr (Or.inr ⟨s, h.symm, hnone⟩))
    · cases h
  | UnaryOperatorExpression op sub ih =>
    intro t line err h
    simp only [Expression.evaluate] at h
    split at h
    · rename_i e1 he
      injection h with h
      subst h
      exact ih _ _ _ he
    · split at h
      · injection h with h
        exact Or.inl h.symm
      · cases h
      · cases h
  | BinaryOperatorExpression left op right ihl ihr =>
    intro t line err h
    simp only [Expression.evaluate] at h
    split at h
    · rename_i e1 he
      injection h with h
      subst h
      exact ihl _ _ _ he
    · rename_i lv t1 hl
      have ht1 := Expression.evaluate_table left _ _ _ _ hl
      subst ht1
      split at h
      · rename_i e1 he
        injection h with h
        subst h
        exact ihr _ _ _ he
      · split at h
        · injection h with h
          exact Or.inl h.symm
        · cases h
        · cases h
        · cases h
        · split at h
          · rename_i e1 hd
            injection h with h
            subst h
            unfold Value.div at hd
            split at hd
            · split at hd
              · injection hd with hd
                exact Or.inr (Or.inr (Or.inl hd.symm))
              · cases hd
            · cases hd
          · cases h

/-- The exceptions of `convert_operand_uint16`: those of the evaluation, and
the two `AssemblerError`s of a null expression and of an unknown value. -/
theorem Assembler.convert_operand_uint16_error (a : Assembler) (e : Expression) (err : Error)
    (h : a.convert_operand_uint16 e = Except.error err) :
    err = Error.undefined_behaviour ∨
    err = Error.logic_error LogicErrorKind.cant_evaluate_string_constant ∨
    err = Error.ValueDivideByZeroError ∨
    (∃ s : String, err = Error.SymbolTableError_undefined s ∧
      a.m_symbol_table_sp.find s = none) ∨
    err = Error.AssemblerError a.m_source_line_number
      AssemblerErrorKind.evaluate_nullptr_expression ∨
    err = Error.AssemblerError a.m_source_line_number
      AssemblerErrorKind.expression_evaluation_error := by
  unfold Assembler.convert_operand_uint16 at h
  split at h
  · rename_i e1 he
    injection h with h
    subst h
    unfold Assembler.evaluate at he
    split at he
    · injection he with he
      exact Or.inr (Or.inr (Or.inr (Or.inr (Or.inl he.symm))))
    · split at he
      · rename_i e2 hev
        injection he with he
        subst he
        rcases Expression.evaluate_error e _ _ _ hev with h1 | h1 | h1 | h1
        · exact Or.inl h1
        · exact Or.inr (Or.inl h1)
        · exact Or.inr (Or.inr (Or.inl h1))
        · exact Or.inr (Or.inr (Or.inr (Or.inl h1)))
      · cases he
  · rename_i value a1 hev
    have h1 := Assembler.evaluate_state a a1 e value hev
    subst h1
    cases value with
    | known v =>
      simp only [Value.get] at h
      cases h
    | unknown u =>
      simp only [Value.get] at h
      split at h
      · cases h
      · injection h with h
        exact Or.inr (Or.inr (Or.inr (Or.inr (Or.inr h.symm))))

/-- The exceptions of `SymbolTable::define_symbol`. -/
theorem SymbolTable.define_symbol_error (t : SymbolTable) (line : Nat) (symbol : String)
    (value : Value) (err : Error) (h : t.define_symbol line symbol value = Except.error err) :
    (∃ l1 l2 : Nat, err = Error.SymbolMultiplyDefined symbol l1 l2) ∨
    (∃ u : Finset String, err = Error.ValueUnknownError u) ∨
    (∃ v1 v2 : Nat, err = Error.SymbolValueRedefined symbol v1 v2) := by
  unfold SymbolTable.define_symbol at h
  split at h
  · cases h
  · rename_i entry _
    split at h
    · injection h with h
      exact Or.inl ⟨_, _, h.symm⟩
    · cases hv : entry.value with
      | known v =>
        simp only [hv, Value.get] at h
        split at h
        · injection h with h
          exact Or.inr (Or.inr ⟨_, _, h.symm⟩)
        · cases h
      | unknown u =>
        simp only [hv, Value.get] at h
        injection h with h
        exact Or.inr (Or.inl ⟨_, h.symm⟩)

/-- The exceptions of the definition of the label at the head of
`assemble_instruction` and `assemble_pseudo_op`. -/
theorem Assembler.label_error (a : Assembler) (label : String) (value : Value) (err : Error)
    (h : (if label.length ≠ 0 then a.define_symbol label value else Except.ok a)
      = Except.error err) :
    (∃ l1 l2 : Nat, err = Error.SymbolMultiplyDefined label l1 l2) ∨
    (∃ u : Finset String, err = Error.ValueUnknownError u) ∨
    (∃ v1 v2 : Nat, err = Error.SymbolValueRedefined label v1 v2) := by
  split at h
  · unfold Assembler.define_symbol at h
    split at h
    · rename_i e1 hd
      injection h with h
      subst h
      exact SymbolTable.define_symbol_error _ _ _ _ _ hd
    · cases h
  · cases h

theorem InstructionSet.lookup_mem (l : List (String × List InstructionSet.Info)) :
    ∀ (key : String) (infos : List InstructionSet.Info), l.lookup key = some infos →
      ∃ k : String, (k, infos) ∈ l := by
  induction l with
  | nil => intro key infos h; cases h
  | cons p rest ih =>
    intro key infos h
    obtain ⟨k, v⟩ := p
    simp only [List.lookup] at h
    split at h
    · injection h with h
      subst h
      exact ⟨k, List.mem_cons_self _ _⟩
    · obtain ⟨k', hk⟩ := ih key infos h
      exact ⟨k', List.mem_cons_of_mem _ hk⟩

/-- The infos of a mnemonic of the instruction set: one info, or an info of
operand size 1 followed by an info of operand size 2, neither in relative
mode. -/
theorem InstructionSet.pal65_get_shape (mnemonic : String) (infos : List InstructionSet.Info)
    (h : InstructionSet.pal65.get mnemonic = Except.ok infos) :
    (∃ i, infos = [i]) ∨
    (∃ i0 i1, infos = [i0, i1] ∧ InstructionSet.operand_size_bytes i0.mode = 1 ∧
      InstructionSet.operand_size_bytes i1.mode = 2 ∧
      i0.mode ≠ InstructionSet.Mode.RELATIVE ∧ i1.mode ≠ InstructionSet.Mode.RELATIVE) := by
  have hall : ∀ p ∈ InstructionSet.pal65.m_by_mnemonic,
      p.2.length = 1 ∨
      (p.2.map (fun i => InstructionSet.operand_size_bytes i.mode) = [1, 2] ∧
        ∀ i ∈ p.2, i.mode ≠ InstructionSet.Mode.RELATIVE) := by
    decide!
  unfold InstructionSet.get at h
  simp only at h
  split at h
  · cases h
  · rename_i found hl
    injection h with h
    subst h
    obtain ⟨k, hk⟩ := InstructionSet.lookup_mem _ _ _ hl
    rcases hall _ hk with h1 | ⟨h2, h3⟩
    · left
      simp only at h1
      cases found with
      | nil => simp at h1
      | cons i r1 =>
        cases r1 with
        | nil => exact ⟨i, rfl⟩
        | cons _ _ => simp at h1
    · right
      simp only at h2 h3
      cases found with
      | nil => simp at h2
      | cons i0 r1 =>
        cases r1 with
        | nil => simp at h2
        | cons i1 r2 =>
          cases r2 with
          | nil =>
            simp only [List.map_cons, List.map_nil, List.cons.injEq, and_true] at h2
            exact ⟨i0, i1, rfl, h2.1, h2.2, h3 i0 (by simp), h3 i1 (by simp)⟩
          | cons _ _ => simp at h2

/-- The exceptions of `assemble_instruction` with the instruction set of the
constructor: the exception of the definition of the label, an unrecognized
mnemonic, a wrong number of operands, the exception of the conversion of the
operand, or, in pass 2, a branch out of range. -/
theorem Assembler.assemble_instruction_error (a : Assembler) (st : Statement) (err : Error)
    (hset : a.m_instruction_set_sp = InstructionSet.pal65)
    (hs : a.m_statement_sp = some st) (h : a.assemble_instruction = Except.error err) :
    ((if st.m_label.length ≠ 0
        then a.define_symbol st.m_label (Value.create a.m_location_counter)
        else Except.ok a) = Except.error err) ∨
    err = Error.UnrecognizedMnemonic st.m_mnemonic ∨
    (∃ (b : Bool) (n : Nat), err = Error.AssemblerError a.m_source_line_number
      (AssemblerErrorKind.wrong_operand_count st.m_mnemonic b n)) ∨
    (∃ (a1 : Assembler) (e : Expression),
      (if st.m_label.length ≠ 0
        then a.define_symbol st.m_label (Value.create a.m_location_counter)
        else Except.ok a) = Except.ok a1 ∧
      e ∈ st.m_operands ∧ a1.convert_operand_uint16 e = Except.error err) ∨
    (∃ d : Int, a.m_pass_number = 2 ∧ err = Error.AssemblerError a.m_source_line_number
      (AssemblerErrorKind.displacement_out_of_range d)) := by
  unfold Assembler.assemble_instruction at h
  simp only [hs] at h
  split at h
  · rename_i e1 hl
    injection h with h
    subst h
    exact Or.inl hl
  · rename_i a1 hlabel
    obtain ⟨t1, ht1⟩ := Assembler.label_fields _ _ _ _ hlabel
    have hset1 : a1.m_instruction_set_sp = InstructionSet.pal65 := by rw [ht1]; exact hset
    have hline1 : a1.m_source_line_number = a.m_source_line_number := by rw [ht1]
    have hpass1 : a1.m_pass_number = a.m_pass_number := by rw [ht1]
    split at h
    · cases h
    · split at h
      · rename_i e1 hget
        injection h with h
        subst h
        unfold InstructionSet.get at hget
        simp only at hget
        split at hget
        · injection hget with hget
          exact Or.inr (Or.inl hget.symm)
        · cases hget
      · rename_i infos hget
        rw [hset1] at hget
        have hshape := InstructionSet.pal65_get_shape _ _ hget
        split at h
        · rename_i e1 hexpect
          exfalso
          rcases hshape with ⟨i, rfl⟩ | ⟨i0, i1, rfl, h0, h1, _, _⟩
          · simp only at hexpect
            cases hexpect
          · simp only [h0, h1, ne_eq, not_true_eq_false, or_self, if_false] at hexpect
            cases hexpect
        · rename_i expect_operand hexpect
          by_cases hcnt : st.get_operand_count ≠ (if expect_operand = true then 1 else 0)
          · rw [if_pos hcnt] at h
            injection h with h
            rw [hline1] at h
            exact Or.inr (Or.inr (Or.inl ⟨_, _, h.symm⟩))
          · rw [if_neg hcnt] at h
            split at h
            · rename_i e1 hsel
              injection h with h
              subst h
              split at hsel
              · split at hsel
                · exfalso
                  rename_i hhead
                  rcases hshape with ⟨i, rfl⟩ | ⟨i0, i1, rfl, _, _, _, _⟩ <;> simp at hhead
                · cases hsel
              · rename_i hexp
                have hexp1 : expect_operand = true := by simpa using hexp
                rw [hexp1] at hcnt
                simp only [if_true, ne_eq, not_not, Statement.get_operand_count] at hcnt
                split at hsel
                · exfalso
                  rename_i e2 hop
                  unfold Statement.get_operand at hop
                  split at hop
                  · rename_i hnone
                    cases hm : st.m_operands with
                    | nil => rw [hm] at hcnt; simp at hcnt
                    | cons x xs => rw [hm] at hnone; simp at hnone
                  · cases hop
                · rename_i expression_sp hop
                  have hmem : expression_sp ∈ st.m_operands := by
                    unfold Statement.get_operand at hop
                    split at hop
                    · cases hop
                    · rename_i e3 hsome
                      injection hop with hop
                      subst hop
                      exact List.get?_mem hsome
                  split at hsel
                  · rename_i e2 hconv
                    injection hsel with hsel
                    subst hsel
                    exact Or.inr (Or.inr (Or.inr (Or.inl ⟨a1, expression_sp, hlabel, hmem, hconv⟩)))
                  · rename_i operand_value a2 hconv
                    have h2 := Assembler.convert_state _ _ _ _ hconv
                    subst h2
                    split at hsel
                    · rename_i e2 hloop
                      injection hsel with hsel
                      subst hsel
                      rcases hshape with ⟨i, rfl⟩ | ⟨i0, i1, rfl, h0, h1, hr0, hr1⟩
                      · simp only [Assembler.assemble_instruction_loop] at hloop
                        split at hloop
                        · split at hloop
                          · rename_i hout
                            injection hloop with hloop
                            rw [hline1] at hloop
                            rw [hpass1] at hout
                            exact Or.inr (Or.inr (Or.inr (Or.inr ⟨_, hout.1, hloop.symm⟩)))
                          · cases hloop
                        · simp at hloop
                      · exfalso
                        by_cases hv : operand_value > 0xff
                        · simp [Assembler.assemble_instruction_loop, hr0, hr1, h0, h1, hv] at hloop
                        · simp [Assembler.assemble_instruction_loop, hr0, hr1, h0, h1, hv] at hloop
                    · rename_i locals hloop
                      split at hsel
                      · exfalso
                        rename_i hnf
                        rcases hshape with ⟨i, rfl⟩ | ⟨i0, i1, rfl, h0, h1, hr0, hr1⟩
                        · simp only [Assembler.assemble_instruction_loop] at hloop
                          split at hloop
                          · split at hloop
                            · cases hloop
                            · injection hloop with hloop
                              rw [← hloop] at hnf
                              simp at hnf
                          · simp only [List.length_singleton, true_or, if_true] at hloop
                            injection hloop with hloop
                            rw [← hloop] at hnf
                            simp at hnf
                        · by_cases hv : operand_value > 0xff
                          · simp [Assembler.assemble_instruction_loop, hr0, hr1, h0, h1, hv]
                              at hloop
                            rw [← hloop] at hnf
                            simp at hnf
                          · simp [Assembler.assemble_instruction_loop, hr0, hr1, h0, h1, hv]
                              at hloop
                            rw [← hloop] at hnf
                            simp at hnf
                      · cases hsel
            · split at h <;> cases h

/-- C39: with the instruction set that the constructor builds from
`s_main_table`, in every state (either pass, every operand):
`assemble_instruction` throws only the exception of the definition of the
label, `UnrecognizedMnemonic`, "wrong number of operands", an exception of
the conversion of the operand, or, in pass 2, "displacement out of range";
so it never throws the logic errors "instruction with wrong modes" and
"instruction with N modes", and never "no instruction with N byte operand";
and when it returns for a statement with a mnemonic, it has emitted the
opcode and the operand of one of the infos of the mnemonic, which is
1 + (operand size of the mode) bytes, between 1 and 3. -/
theorem instruction_info_found (a : Assembler) (st : Statement)
    (hset : a.m_instruction_set_sp = InstructionSet.pal65)
    (hs : a.m_statement_sp = some st) :
    (∀ err : Error, a.assemble_instruction = Except.error err →
      (((if st.m_label.length ≠ 0
          then a.define_symbol st.m_label (Value.create a.m_location_counter)
          else Except.ok a) = Except.error err) ∨
        err = Error.UnrecognizedMnemonic st.m_mnemonic ∨
        (∃ (b : Bool) (n : Nat), err = Error.AssemblerError a.m_source_line_number
          (AssemblerErrorKind.wrong_operand_count st.m_mnemonic b n)) ∨
        (∃ (a1 : Assembler) (e : Expression),
          (if st.m_label.length ≠ 0
            then a.define_symbol st.m_label (Value.create a.m_location_counter)
            else Except.ok a) = Except.ok a1 ∧
          e ∈ st.m_operands ∧ a1.convert_operand_uint16 e = Except.error err) ∨
        (∃ d : Int, a.m_pass_number = 2 ∧ err = Error.AssemblerError a.m_source_line_number
          (AssemblerErrorKind.displacement_out_of_range d))) ∧
      err ≠ Error.logic_error LogicErrorKind.instruction_with_wrong_modes ∧
      (∀ n : Nat, err ≠ Error.logic_error (LogicErrorKind.instruction_with_n_modes n)) ∧
      (∀ (line : Nat) (m : String) (size value : Nat), err ≠ Error.AssemblerError line
        (AssemblerErrorKind.no_instruction_with_operand_size m size value))) ∧
    (∀ a' : Assembler, a.assemble_instruction = Except.ok a' → st.m_mnemonic.length ≠ 0 →
      ∃ (infos : List InstructionSet.Info) (info : InstructionSet.Info),
        InstructionSet.pal65.get st.m_mnemonic = Except.ok infos ∧ info ∈ infos ∧
        a'.m_object_code_bytes.length
          = a.m_object_code_bytes.length + (1 + InstructionSet.operand_size_bytes info.mode) ∧
        1 ≤ 1 + InstructionSet.operand_size_bytes info.mode ∧
        1 + InstructionSet.operand_size_bytes info.mode ≤ 3) := by
  constructor
  · intro err h
    have hc := Assembler.assemble_instruction_error a st err hset hs h
    refine ⟨hc, ?_, ?_, ?_⟩
    · intro he
      subst he
      rcases hc with hl | hu | ⟨_, _, hw⟩ | ⟨a1, e, _, _, hconv⟩ | ⟨_, _, hd⟩
      · rcases Assembler.label_error _ _ _ _ hl with ⟨_, _, k⟩ | ⟨_, k⟩ | ⟨_, _, k⟩ <;> cases k
      · cases hu
      · cases hw
      · rcases Assembler.convert_operand_uint16_error _ _ _ hconv with
          k | k | k | ⟨_, k, _⟩ | k | k <;> cases k
      · cases hd
    · intro n he
      subst he
      rcases hc with hl | hu | ⟨_, _, hw⟩ | ⟨a1, e, _, _, hconv⟩ | ⟨_, _, hd⟩
      · rcases Assembler.label_error _ _ _ _ hl with ⟨_, _, k⟩ | ⟨_, k⟩ | ⟨_, _, k⟩ <;> cases k
      · cases hu
      · cases hw
      · rcases Assembler.convert_operand_uint16_error _ _ _ hconv with
          k | k | k | ⟨_, k, _⟩ | k | k <;> cases k
      · cases hd
    · intro line m size value he
      subst he
      rcases hc with hl | hu | ⟨_, _, hw⟩ | ⟨a1, e, _, _, hconv⟩ | ⟨_, _, hd⟩
      · rcases Assembler.label_error _ _ _ _ hl with ⟨_, _, k⟩ | ⟨_, k⟩ | ⟨_, _, k⟩ <;> cases k
      · cases hu
      · cases hw
      · rcases Assembler.convert_operand_uint16_error _ _ _ hconv with
          k | k | k | ⟨_, k, _⟩ | k | k <;> cases k
      · cases hd
  · intro a' h hmn
    rcases Assembler.assemble_instruction_length a a' st hs h with ⟨h0, _⟩ | ⟨_, infos, hget, hlen⟩
    · exact absurd h0 hmn
    · rw [hset] at hget
      refine ⟨infos, ?_⟩
      rcases hlen with ⟨i, hi, hl⟩ | ⟨i0, i1, hi, hl⟩
      · refine ⟨i, hget, by rw [hi]; simp, by rw [hl]; omega, by omega, ?_⟩
        have := InstructionSet.operand_size_bytes_le i.mode
        omega
      · rcases InstructionSet.pal65_get_shape _ _ hget with ⟨j, hj⟩ | ⟨j0, j1, hj, h0, h1, _, _⟩
        · rw [hi] at hj
          cases hj
        · rw [hi] at hj
          injection hj with e0 hj
          injection hj with e1 _
          subst e0 e1
          rcases hl with hl | hl
          · exact ⟨i0, hget, by rw [hi]; simp, by rw [hl, h0], by omega, by omega⟩
          · exact ⟨i1, hget, by rw [hi]; simp, by rw [hl, h1], by omega, by omega⟩

set_option maxRecDepth 100000 in
/-- C39 at `lda $1234` (three bytes) and at `lda foo` in pass 2 with `foo`
undefined (the exception of the operand). -/
theorem instruction_info_found_witness :
    (∃ a' : Assembler,
      (Assembler.line_state 2 2 0 SymbolTable.create
        { m_mnemonic := "lda", m_operands := [Expression.Constant (Value.known 0x1234)] }
        ).assemble_instruction = Except.ok a' ∧
      a'.m_object_code_bytes.length = 3) ∧
    (Assembler.line_state 2 2 0 SymbolTable.create
        { m_mnemonic := "lda", m_operands := [Expression.Symbol "foo"] }
        ).assemble_instruction = Except.error (Error.SymbolTableError_undefined "foo") ∧
    Error.SymbolTableError_undefined "foo"
      ≠ Error.logic_error LogicErrorKind.instruction_with_wrong_modes := by
  have k1 : returns (Assembler.line_state 2 2 0 SymbolTable.create
        { m_mnemonic := "lda", m_operands := [Expression.Constant (Value.known 0x1234)] }
        ).assemble_instruction (fun a' => decide (a'.m_object_code_bytes.length = 3)) = true := by
    decide!
  have k2 : throws (Assembler.line_state 2 2 0 SymbolTable.create
        { m_mnemonic := "lda", m_operands := [Expression.Symbol "foo"] }
        ).assemble_instruction (Error.SymbolTableError_undefined "foo") = true := by
    decide!
  obtain ⟨a', h1, p1⟩ := (returns_iff _ _).1 k1
  have h2 := (throws_iff _ _).1 k2
  have t := instruction_info_found
    (Assembler.line_state 2 2 0 SymbolTable.create
      { m_mnemonic := "lda", m_operands := [Expression.Symbol "foo"] })
    { m_mnemonic := "lda", m_operands := [Expression.Symbol "foo"] } rfl rfl
  exact ⟨⟨a', h1, of_decide_eq_true p1⟩, h2, (t.1 _ h2).2.1⟩

/-! ## `untabify` -/

theorem untabify_do_while_eq (fuel : Nat) :
    ∀ (col : Nat) (result : List Char), 8 - col % 8 ≤ fuel →
      untabify_do_while fuel col result
        = (col + (8 - col % 8), result ++ List.replicate (8 - col % 8) ' ') := by
  induction fuel with
  | zero => intro col result h; omega
  | succ fuel ih =>
    intro col result h
    have hand : (col + 1) &&& 7 = (col + 1) % 8 := Nat.and_pow_two_sub_one_eq_mod (col + 1) 3
    simp only [untabify_do_while, hand]
    by_cases hc : (col + 1) % 8 = 0
    · have hk : 8 - col % 8 = 1 := by omega
      simp [hc, hk]
    · have hk : 8 - col % 8 = (8 - (col + 1) % 8) + 1 := by omega
      rw [if_pos hc, ih (col + 1) _ (by omega), hk, List.replicate_succ]
      simp only [List.append_assoc, List.singleton_append, Prod.mk.injEq, and_true]
      omega

/-- The loop of `untabify` appends to what it has what the scan of the
specification gives from the same column. -/
theorem untabify_loop_eq (cs : List Char) :
    ∀ (col : Nat) (result : List Char),
      untabify_loop cs col result = result ++ untabify_spec_scan cs col := by
  induction cs with
  | nil => intro col result; simp [untabify_loop, untabify_spec_scan]
  | cons c cs ih =>
    intro col result
    by_cases hc : c = '\t'
    · simp only [untabify_loop, untabify_spec_scan, hc, if_true,
        untabify_do_while_eq 8 col result (by omega), ih, List.append_assoc]
    · simp only [untabify_loop, untabify_spec_scan, hc, if_false, ih, List.append_assoc,
        List.singleton_append]

theorem untabify_spec_scan_no_tab (cs : List Char) :
    ∀ col : Nat, '\t' ∉ untabify_spec_scan cs col := by
  induction cs with
  | nil => intro col; simp [untabify_spec_scan]
  | cons c cs ih =>
    intro col
    by_cases hc : c = '\t'
    · simp only [untabify_spec_scan, hc, if_true, List.mem_append, not_or]
      refine ⟨?_, ih _⟩
      intro hmem
      have := List.eq_of_mem_replicate hmem
      revert this
      decide
    · simp only [untabify_spec_scan, hc, if_false, List.mem_cons, not_or]
      exact ⟨fun h => hc h.symm, ih _⟩

theorem untabify_spec_scan_tab_free (cs : List Char) (h : '\t' ∉ cs) :
    ∀ col : Nat, untabify_spec_scan cs col = cs := by
  induction cs with
  | nil => intro col; rfl
  | cons c cs ih =>
    intro col
    simp only [List.mem_cons, not_or] at h
    have hc : c ≠ '\t' := fun hc => h.1 hc.symm
    simp only [untabify_spec_scan, hc, if_false, ih h.2]

/-- The scan of a text in two parts: the second part is scanned from the
column that the first part reaches, which is the starting column plus the
number of characters written. -/
theorem untabify_spec_scan_append (p q : List Char) :
    ∀ col : Nat, untabify_spec_scan (p ++ q) col
      = untabify_spec_scan p col
        ++ untabify_spec_scan q (col + (untabify_spec_scan p col).length) := by
  induction p with
  | nil => intro col; simp [untabify_spec_scan]
  | cons c p ih =>
    intro col
    by_cases hc : c = '\t'
    · simp only [List.cons_append, untabify_spec_scan, hc, if_true, List.append_eq, ih,
        List.append_assoc, List.length_append, List.length_replicate, Nat.add_assoc]
    · simp only [List.cons_append, untabify_spec_scan, hc, if_false, List.append_eq, ih,
        List.length_cons]
      have : col + 1 + (untabify_spec_scan p (col + 1)).length
          = col + ((untabify_spec_scan p (col + 1)).length + 1) := by omega
      rw [this]

theorem untabify_data (s : String) : (untabify s).data = untabify_spec_scan s.data 0 := by
  show untabify_loop s.data 0 [] = _
  rw [untabify_loop_eq]
  rfl

/-- C33: for every string, `untabify` gives what the scan of the
specification gives (from the left, with a column counter that starts at 0, a
character that is not a tab copied, a tab replaced by `8 - (column mod 8)`
spaces); the result has no tab; a string without tabs is returned as it is;
and what is written for a text up to and including a tab is the start of what
is written for the whole text and has a length that is a multiple of 8. The
column counter of the source is a 32-bit `unsigned`, of which only `col & 7`
is read, so that its wrapping at 2^32 changes nothing. -/
theorem untabify_expands_tabs (s p q : String) :
    untabify s = untabify_spec s ∧
    '\t' ∉ (untabify s).data ∧
    ('\t' ∉ s.data → untabify s = s) ∧
    (∃ r : String, untabify (p ++ "\t" ++ q) = untabify (p ++ "\t") ++ r) ∧
    (untabify (p ++ "\t")).length % 8 = 0 := by
  have hs : untabify s = untabify_spec s := by
    apply String.ext
    rw [untabify_data]
    rfl
  refine ⟨hs, ?_, ?_, ?_, ?_⟩
  · rw [untabify_data]
    exact untabify_spec_scan_no_tab _ _
  · intro h
    apply String.ext
    rw [untabify_data, untabify_spec_scan_tab_free _ h]
  · refine ⟨String.mk (untabify_spec_scan q.data
      (0 + (untabify_spec_scan (p ++ "\t").data 0).length)), ?_⟩
    apply String.ext
    simp only [untabify_data, String.data_append, untabify_spec_scan_append]
  · show (untabify (p ++ "\t")).data.length % 8 = 0
    rw [untabify_data, String.data_append, untabify_spec_scan_append]
    have ht : ("\t" : String).data = ['\t'] := rfl
    simp only [ht, untabify_spec_scan, if_true, List.length_append, List.length_replicate,
      List.append_nil, Nat.zero_add]
    omega

/-! ## The rule `symbol` -/

theorem grammar.alpha_cons (c : Char) (t : List Char) (p : Parser) :
    grammar.alpha (c :: t) p
      = if c.isAlpha = true then Except.ok (some t, p) else Except.ok (none, p) := by
  have h : ([('a', 'z'), ('A', 'Z')].any (fun r : Char × Char => decide (r.1 ≤ c ∧ c ≤ r.2)))
      = c.isAlpha := by
    simp only [List.any, Char.isAlpha, Char.isUpper, Char.isLower, Bool.or_false,
      Bool.decide_and, Char.le_def]
    rw [Bool.or_comm]
    rfl
  simp only [grammar.alpha, pegtl.ranges, h]

theorem grammar.alphanumeric_cons (c : Char) (t : List Char) (p : Parser) :
    grammar.alphanumeric (c :: t) p
      = if c.isAlphanum = true then Except.ok (some t, p) else Except.ok (none, p) := by
  have h : ([('a', 'z'), ('A', 'Z'), ('0', '9')].any
      (fun r : Char × Char => decide (r.1 ≤ c ∧ c ≤ r.2))) = c.isAlphanum := by
    simp only [List.any, Char.isAlphanum, Char.isAlpha, Char.isUpper, Char.isLower,
      Char.isDigit, Bool.or_false, Bool.decide_and, Char.le_def]
    rw [← Bool.or_assoc, Bool.or_comm (decide _ && decide _) (decide _ && decide _)]
    rfl
  simp only [grammar.alphanumeric, pegtl.ranges, h]

theorem grammar.alphanumeric_stops (rest : List Char) (p : Parser)
    (hrest : ∀ d, rest.head? = some d → d.isAlphanum = false) :
    grammar.alphanumeric rest p = Except.ok (none, p) := by
  cases rest with
  | nil => rfl
  | cons d t =>
    rw [grammar.alphanumeric_cons, hrest d rfl]
    rfl

/-- The loop of `rep_max` over letters and digits followed by something else:
it takes them all when there are at most `n`, and fails when there are more. -/
theorem grammar.rep_max_alphanumeric (n : Nat) :
    ∀ (cs rest : List Char) (p : Parser), (∀ d ∈ cs, d.isAlphanum = true) →
      ((∀ d, rest.head? = some d → d.isAlphanum = false) → cs.length ≤ n →
        pegtl.rep_max_loop grammar.alphanumeric n (cs ++ rest) p = Except.ok (some rest, p)) ∧
      (n < cs.length →
        pegtl.rep_max_loop grammar.alphanumeric n (cs ++ rest) p = Except.ok (none, p)) := by
  induction n with
  | zero =>
    intro cs rest p hcs
    cases cs with
    | nil =>
      refine ⟨fun hrest _ => ?_, fun h => absurd h (by simp)⟩
      simp only [pegtl.rep_max_loop, pegtl.not_at, List.nil_append,
        grammar.alphanumeric_stops rest p hrest]
    | cons d cs =>
      refine ⟨fun _ h => absurd h (by simp), fun _ => ?_⟩
      simp only [pegtl.rep_max_loop, pegtl.not_at, List.cons_append,
        grammar.alphanumeric_cons, hcs d (List.mem_cons_self _ _), if_true]
  | succ n ih =>
    intro cs rest p hcs
    cases cs with
    | nil =>
      refine ⟨fun hrest _ => ?_, fun h => absurd h (by simp)⟩
      simp only [pegtl.rep_max_loop, List.nil_append, grammar.alphanumeric_stops rest p hrest]
    | cons d cs =>
      have hd := hcs d (List.mem_cons_self _ _)
      have hcs' : ∀ e ∈ cs, e.isAlphanum = true := fun e he => hcs e (List.mem_cons_of_mem _ he)
      have hih := ih cs rest p hcs'
      refine ⟨fun hrest h => ?_, fun h => ?_⟩
      · simp only [pegtl.rep_max_loop, List.cons_append, grammar.alphanumeric_cons, hd, if_true]
        exact hih.1 hrest (by simpa using h)
      · simp only [pegtl.rep_max_loop, List.cons_append, grammar.alphanumeric_cons, hd, if_true]
        exact hih.2 (by simpa using h)

/-- What the loop of `rep_max` over letters and digits has taken when it
matched. -/
theorem grammar.rep_max_alphanumeric_matched (n : Nat) :
    ∀ (t rest : List Char) (p q : Parser),
      pegtl.rep_max_loop grammar.alphanumeric n t p = Except.ok (some rest, q) →
      ∃ cs, t = cs ++ rest ∧ (∀ d ∈ cs, d.isAlphanum = true) ∧ cs.length ≤ n ∧
        (∀ d, rest.head? = some d → d.isAlphanum = false) ∧ q = p := by
  induction n with
  | zero =>
    intro t rest p q h
    cases t with
    | nil =>
      simp only [pegtl.rep_max_loop, pegtl.not_at, grammar.alphanumeric, pegtl.ranges,
        Except.ok.injEq, Prod.mk.injEq, Option.some.injEq] at h
      refine ⟨[], by simp [← h.1], by simp, by simp, ?_, h.2.symm⟩
      intro d hd
      rw [← h.1] at hd
      cases hd
    | cons d t =>
      by_cases hd : d.isAlphanum = true
      · simp [pegtl.rep_max_loop, pegtl.not_at, grammar.alphanumeric_cons, hd] at h
      · have hd1 : d.isAlphanum = false := by simpa using hd
        simp only [pegtl.rep_max_loop, pegtl.not_at, grammar.alphanumeric_cons, hd1,
          Bool.false_eq_true, if_false, Except.ok.injEq, Prod.mk.injEq, Option.some.injEq] at h
        refine ⟨[], by simp [← h.1], by simp, by simp, ?_, h.2.symm⟩
        intro e he
        rw [← h.1] at he
        cases he
        simpa using hd
  | succ n ih =>
    intro t rest p q h
    cases t with
    | nil =>
      simp only [pegtl.rep_max_loop, grammar.alphanumeric, pegtl.ranges,
        Except.ok.injEq, Prod.mk.injEq, Option.some.injEq] at h
      refine ⟨[], by simp [← h.1], by simp, by simp, ?_, h.2.symm⟩
      intro d hd
      rw [← h.1] at hd
      cases hd
    | cons d t =>
      by_cases hd : d.isAlphanum = true
      · simp only [pegtl.rep_max_loop, grammar.alphanumeric_cons, hd, if_true] at h
        obtain ⟨cs, ht, hcs, hlen, hrest, hq⟩ := ih t rest p q h
        refine ⟨d :: cs, by simp [ht], ?_, by simpa using hlen, hrest, hq⟩
        intro e he
        cases he with
        | head => exact hd
        | tail _ he => exact hcs e he
      · have hd1 : d.isAlphanum = false := by simpa using hd
        simp only [pegtl.rep_max_loop, grammar.alphanumeric_cons, hd1,
          Bool.false_eq_true, if_false, Except.ok.injEq, Prod.mk.injEq, Option.some.injEq] at h
        refine ⟨[], by simp [← h.1], by simp, by simp, ?_, h.2.symm⟩
        intro e he
        rw [← h.1] at he
        cases he
        simpa using hd

theorem grammar.symbol_cons (c : Char) (t : List Char) (p : Parser) (hc : c.isAlpha = true) :
    grammar.symbol (c :: t) p
      = match pegtl.rep_max_loop grammar.alphanumeric 9 t p with
        | Except.error e => Except.error e
        | Except.ok (none, q) => Except.ok (none, q)
        | Except.ok (some rest, q) => Except.ok (some rest, q) := by
  simp only [grammar.symbol, pegtl.seq, pegtl.rep_max, grammar.alpha_cons, hc, if_true]

/-- C31: the rule `symbol` on a letter `c` followed by the letters and digits
`cs`: when what follows is not a letter or digit and there are at most 10
characters in all, the rule matches exactly these characters; when there are
more than 10, the rule fails, and so do the rule of a label and the rule of a
symbol in an expression. Conversely, whatever the rule matches is a letter
followed by at most 9 letters and digits, and is not followed by a letter or
digit. The parser is left as it was. -/
theorem symbol_at_most_ten_characters (c : Char) (cs rest : List Char) (parser : Parser)
    (hc : c.isAlpha = true) (hcs : ∀ d ∈ cs, d.isAlphanum = true) :
    ((∀ d, rest.head? = some d → d.isAlphanum = false) → (c :: cs).length ≤ 10 →
      grammar.symbol (c :: cs ++ rest) parser = Except.ok (some rest, parser)) ∧
    (10 < (c :: cs).length →
      grammar.symbol (c :: cs ++ rest) parser = Except.ok (none, parser) ∧
      grammar.label_nonempty (c :: cs ++ rest) parser = Except.ok (none, parser) ∧
      grammar.expression_symbol (c :: cs ++ rest) parser = Except.ok (none, parser)) ∧
    (∀ (input after : List Char) (q : Parser),
      grammar.symbol input parser = Except.ok (some after, q) →
      ∃ (c1 : Char) (cs1 : List Char), input = c1 :: cs1 ++ after ∧ c1.isAlpha = true ∧
        (∀ d ∈ cs1, d.isAlphanum = true) ∧ (c1 :: cs1).length ≤ 10 ∧
        (∀ d, after.head? = some d → d.isAlphanum = false) ∧ q = parser) := by
  have hloop := grammar.rep_max_alphanumeric 9 cs rest parser hcs
  refine ⟨fun hrest hlen => ?_, fun hlen => ?_, ?_⟩
  · rw [List.cons_append, grammar.symbol_cons c _ parser hc,
      hloop.1 hrest (by simp at hlen; omega)]
  · have hsym : grammar.symbol (c :: cs ++ rest) parser = Except.ok (none, parser) := by
      rw [List.cons_append, grammar.symbol_cons c _ parser hc,
        hloop.2 (by simp at hlen; omega)]
    refine ⟨hsym, ?_, ?_⟩
    · simp only [grammar.label_nonempty, pegtl.with_action, pegtl.seq, hsym]
    · simp only [grammar.expression_symbol, pegtl.with_action, pegtl.seq, hsym]
  · intro input after q h
    cases input with
    | nil => simp [grammar.symbol, pegtl.seq, grammar.alpha, pegtl.ranges] at h
    | cons c1 t =>
      by_cases hc1 : c1.isAlpha = true
      · rw [grammar.symbol_cons c1 t parser hc1] at h
        cases hr : pegtl.rep_max_loop grammar.alphanumeric 9 t parser with
        | error e => rw [hr] at h; cases h
        | ok r =>
          obtain ⟨o, q1⟩ := r
          cases o with
          | none => rw [hr] at h; cases h
          | some rest1 =>
            rw [hr] at h
            simp only [Except.ok.injEq, Prod.mk.injEq, Option.some.injEq] at h
            obtain ⟨cs1, ht, hcs1, hlen, hrest1, hq⟩ :=
              grammar.rep_max_alphanumeric_matched 9 t rest1 parser q1 hr
            refine ⟨c1, cs1, ?_, hc1, hcs1, by simpa using hlen, ?_, ?_⟩
            · rw [ht, ← h.1]; rfl
            · rw [← h.1]; exact hrest1
            · rw [← h.2]; exact hq
      · simp [grammar.symbol, pegtl.seq, grammar.alpha_cons, hc1] at h

theorem symbol_at_most_ten_characters_witness :
    grammar.symbol "abcdefghi9: nop".data { m_location_counter := 0, m_ast_stack := [] }
        = Except.ok (some ": nop".data, { m_location_counter := 0, m_ast_stack := [] }) ∧
    (∀ (input after : List Char) (q : Parser),
      grammar.symbol input { m_location_counter := 0, m_ast_stack := [] }
        = Except.ok (some after, q) →
      ∃ (c1 : Char) (cs1 : List Char), input = c1 :: cs1 ++ after ∧ c1.isAlpha = true ∧
        (∀ d ∈ cs1, d.isAlphanum = true) ∧ (c1 :: cs1).length ≤ 10 ∧
        (∀ d, after.head? = some d → d.isAlphanum = false) ∧
        q = { m_location_counter := 0, m_ast_stack := [] }) :=
  ⟨(symbol_at_most_ten_characters 'a' "bcdefghi9".data ": nop".data
      { m_location_counter := 0, m_ast_stack := [] } (by decide) (by decide)).1
      (by decide) (by decide),
    (symbol_at_most_ten_characters 'a' "bcdefghi9".data ": nop".data
      { m_location_counter := 0, m_ast_stack := [] } (by decide) (by decide)).2.2⟩

/-! ## The object-code column of the listing -/

theorem format_02x_length (n : Nat) (h : n < 256) : (format_02x n).length = 2 := by
  have hd := Nat.toDigitsCore_length 16 (by decide) (n + 1) n 2 (by simpa using h) (by decide)
  show (format_pad_left '0' 2 (format_digits 16 n)).length = 2
  simp only [format_pad_left, format_digits, Nat.toDigits, List.length_append,
    List.length_replicate]
  omega

theorem format_04x_length (n : Nat) (h : n < 65536) : (format_04x n).length = 4 := by
  have hd := Nat.toDigitsCore_length 16 (by decide) (n + 1) n 4 (by simpa using h) (by decide)
  show (format_pad_left '0' 4 (format_digits 16 n)).length = 4
  simp only [format_pad_left, format_digits, Nat.toDigits, List.length_append,
    List.length_replicate]
  omega

theorem format_04x_length_ge (n : Nat) : 4 ≤ (format_04x n).length := by
  show 4 ≤ (format_pad_left '0' 4 (format_digits 16 n)).length
  simp only [format_pad_left, List.length_append, List.length_replicate]
  omega

theorem word_of_bytes_lt (low high : Nat) (hl : low < 256) (hh : high < 256) :
    (high <<< 8) ||| low < 65536 := by
  have h1 : high <<< 8 < 2 ^ 16 := by rw [Nat.shiftLeft_eq]; omega
  have h2 : low < 2 ^ 16 := by omega
  exact Nat.or_lt_two_pow h1 h2

/-- The rest of `write_listing_line` after its loop, when the text of the
bytes has at most 9 characters: the text is padded to 9 characters. -/
theorem Assembler.write_listing_line_of_loop (a : Assembler) (s_obj : String)
    (hloop : a.write_listing_line_loop Assembler.MAX_OBJECT_BYTES_PER_LISTING_LINE 0 ""
      = Except.ok s_obj)
    (hlen : s_obj.length ≤ 9) :
    a.write_listing_line = Except.ok { a with m_listing_file := a.m_listing_file ++
      ((if a.m_listing_show_address = true ∨ a.m_object_code_bytes.length ≠ 0
          then format_5 a.m_source_line_number ++ "  " ++ format_04x a.m_object_code_address ++ " "
          else format_5 a.m_source_line_number ++ "  " ++ "     ")
        ++ (s_obj ++ String.mk (List.replicate (9 - s_obj.length) ' ')) ++ "  "
        ++ a.m_source_line ++ "\n") } ∧
    (s_obj ++ String.mk (List.replicate (9 - s_obj.length) ' ')).length = 9 := by
  refine ⟨?_, ?_⟩
  · unfold Assembler.write_listing_line
    simp only [hloop]
    rw [if_neg (by omega)]
  · rw [String.length_append]
    show s_obj.length + (List.replicate (9 - s_obj.length) ' ').length = 9
    rw [List.length_replicate]
    omega

/-- The loop of `write_listing_line` for a line of bytes: up to three bytes
are written, each as a space and two digits. -/
theorem Assembler.write_listing_line_loop_bytes (a : Assembler)
    (hb : ∀ b ∈ a.m_object_code_bytes, b < 256)
    (hs : a.m_object_code_bytes_start_of_word
      = List.replicate a.m_object_code_bytes.length false) :
    ∃ s_obj : String,
      a.write_listing_line_loop Assembler.MAX_OBJECT_BYTES_PER_LISTING_LINE 0 ""
        = Except.ok s_obj ∧
      s_obj.length = 3 * min a.m_object_code_bytes.length 3 := by
  cases hbytes : a.m_object_code_bytes with
  | nil =>
    refine ⟨"", ?_, rfl⟩
    simp [Assembler.write_listing_line_loop, Assembler.MAX_OBJECT_BYTES_PER_LISTING_LINE, hbytes]
  | cons b0 t0 =>
    rw [hbytes] at hs hb
    have h0 := format_02x_length b0 (hb b0 (by simp))
    cases t0 with
    | nil =>
      refine ⟨"" ++ " " ++ format_02x b0, ?_, ?_⟩
      · simp [Assembler.write_listing_line_loop, Assembler.MAX_OBJECT_BYTES_PER_LISTING_LINE,
          hbytes, hs]
      · simp only [String.length_append, h0]
        rfl
    | cons b1 t1 =>
      have h1 := format_02x_length b1 (hb b1 (by simp))
      cases t1 with
      | nil =>
        refine ⟨"" ++ " " ++ format_02x b0 ++ " " ++ format_02x b1, ?_, ?_⟩
        · simp [Assembler.write_listing_line_loop, Assembler.MAX_OBJECT_BYTES_PER_LISTING_LINE,
            hbytes, hs, List.replicate]
        · simp only [String.length_append, h0, h1]
          rfl
      | cons b2 t2 =>
        have h2 := format_02x_length b2 (hb b2 (by simp))
        refine ⟨"" ++ " " ++ format_02x b0 ++ " " ++ format_02x b1 ++ " " ++ format_02x b2,
          ?_, ?_⟩
        · simp [Assembler.write_listing_line_loop, Assembler.MAX_OBJECT_BYTES_PER_LISTING_LINE,
            hbytes, hs, List.replicate]
        · simp only [String.length_append, h0, h1, h2, List.length_cons]
          have : min (t2.length + 1 + 1 + 1) 3 = 3 := by omega
          rw [this]
          rfl

/-- The loop of `write_listing_line` for a line of one word: a space and four
digits. -/
theorem Assembler.write_listing_line_loop_word (a : Assembler) (low high : Nat)
    (hl : low < 256) (hh : high < 256)
    (hb : a.m_object_code_bytes = [low, high])
    (hs : a.m_object_code_bytes_start_of_word = [true, false]) :
    a.write_listing_line_loop Assembler.MAX_OBJECT_BYTES_PER_LISTING_LINE 0 ""
        = Except.ok ("" ++ " " ++ format_04x ((high <<< 8) ||| low)) ∧
    ("" ++ " " ++ format_04x ((high <<< 8) ||| low)).length = 5 := by
  refine ⟨?_, ?_⟩
  · simp [Assembler.write_listing_line_loop, Assembler.MAX_OBJECT_BYTES_PER_LISTING_LINE, hb, hs]
  · simp only [String.length_append, format_04x_length _ (word_of_bytes_lt low high hl hh)]
    rfl

/-- The loop of `write_listing_line` for the line of an instruction with an
operand of two bytes: the opcode as a byte, the operand as a word. -/
theorem Assembler.write_listing_line_loop_byte_word (a : Assembler) (opcode low high : Nat)
    (ho : opcode < 256) (hl : low < 256) (hh : high < 256)
    (hb : a.m_object_code_bytes = [opcode, low, high])
    (hs : a.m_object_code_bytes_start_of_word = [false, true, false]) :
    a.write_listing_line_loop Assembler.MAX_OBJECT_BYTES_PER_LISTING_LINE 0 ""
        = Except.ok ("" ++ " " ++ format_02x opcode ++ " " ++ format_04x ((high <<< 8) ||| low)) ∧
    ("" ++ " " ++ format_02x opcode ++ " " ++ format_04x ((high <<< 8) ||| low)).length = 8 := by
  refine ⟨?_, ?_⟩
  · simp [Assembler.write_listing_line_loop, Assembler.MAX_OBJECT_BYTES_PER_LISTING_LINE, hb, hs]
  · simp only [String.length_append, format_04x_length _ (word_of_bytes_lt low high hl hh),
      format_02x_length opcode ho]
    rfl

/-- The loop of `write_listing_line` for a line that starts with two words:
two times a space and at least four digits. -/
theorem Assembler.write_listing_line_loop_words (a : Assembler) (b0 b1 b2 b3 : Nat)
    (rest : List Nat) (x : Bool) (sw : List Bool)
    (hb : a.m_object_code_bytes = b0 :: b1 :: b2 :: b3 :: rest)
    (hs : a.m_object_code_bytes_start_of_word = true :: x :: true :: sw) :
    a.write_listing_line_loop Assembler.MAX_OBJECT_BYTES_PER_LISTING_LINE 0 ""
        = Except.ok ("" ++ " " ++ format_04x ((b1 <<< 8) ||| b0) ++ " "
            ++ format_04x ((b3 <<< 8) ||| b2)) ∧
    9 < ("" ++ " " ++ format_04x ((b1 <<< 8) ||| b0) ++ " "
            ++ format_04x ((b3 <<< 8) ||| b2)).length := by
  refine ⟨?_, ?_⟩
  · simp [Assembler.write_listing_line_loop, Assembler.MAX_OBJECT_BYTES_PER_LISTING_LINE, hb, hs]
  · have h1 := format_04x_length_ge ((b1 <<< 8) ||| b0)
    have h2 := format_04x_length_ge ((b3 <<< 8) ||| b2)
    simp only [String.length_append]
    have h3 : (" " : String).length = 1 := rfl
    have h4 : ("" : String).length = 0 := rfl
    omega

/-- C34 fails for a line of two or more words. `write_listing_line` pads the
text that its loop makes of the bytes to 9 characters when the text has at
most 9 characters, and throws `std::length_error` when it has more. The loop
makes ` XX` of each of up to three bytes of a line of bytes (at most 9
characters), ` XXXX` of a line of one word (5 characters) and ` XX XXXX` of
an opcode and a word (8 characters); but for a line that starts with two
words, as the line of `.word` with two operands does, it makes two times
` XXXX`, 10 characters or more, and `write_listing_line` throws. -/
theorem listing_object_column (a : Assembler) (hb : ∀ b ∈ a.m_object_code_bytes, b < 256) :
    (∀ s_obj : String,
      a.write_listing_line_loop Assembler.MAX_OBJECT_BYTES_PER_LISTING_LINE 0 ""
        = Except.ok s_obj →
      (s_obj.length ≤ 9 →
        a.write_listing_line = Except.ok { a with m_listing_file := a.m_listing_file ++
          ((if a.m_listing_show_address = true ∨ a.m_object_code_bytes.length ≠ 0
              then format_5 a.m_source_line_number ++ "  "
                ++ format_04x a.m_object_code_address ++ " "
              else format_5 a.m_source_line_number ++ "  " ++ "     ")
            ++ (s_obj ++ String.mk (List.replicate (9 - s_obj.length) ' ')) ++ "  "
            ++ a.m_source_line ++ "\n") } ∧
        (s_obj ++ String.mk (List.replicate (9 - s_obj.length) ' ')).length = 9) ∧
      (9 < s_obj.length → a.write_listing_line = Except.error Error.length_error)) ∧
    (a.m_object_code_bytes_start_of_word = List.replicate a.m_object_code_bytes.length false →
      ∃ s_obj : String,
        a.write_listing_line_loop Assembler.MAX_OBJECT_BYTES_PER_LISTING_LINE 0 ""
          = Except.ok s_obj ∧
        s_obj.length = 3 * min a.m_object_code_bytes.length 3) ∧
    (∀ low high : Nat, a.m_object_code_bytes = [low, high] →
      a.m_object_code_bytes_start_of_word = [true, false] →
      a.write_listing_line_loop Assembler.MAX_OBJECT_BYTES_PER_LISTING_LINE 0 ""
          = Except.ok ("" ++ " " ++ format_04x ((high <<< 8) ||| low)) ∧
      ("" ++ " " ++ format_04x ((high <<< 8) ||| low)).length = 5) ∧
    (∀ opcode low high : Nat, a.m_object_code_bytes = [opcode, low, high] →
      a.m_object_code_bytes_start_of_word = [false, true, false] →
      a.write_listing_line_loop Assembler.MAX_OBJECT_BYTES_PER_LISTING_LINE 0 ""
          = Except.ok ("" ++ " " ++ format_02x opcode ++ " "
              ++ format_04x ((high <<< 8) ||| low)) ∧
      ("" ++ " " ++ format_02x opcode ++ " " ++ format_04x ((high <<< 8) ||| low)).length = 8) ∧
    (∀ (b0 b1 b2 b3 : Nat) (rest : List Nat) (x : Bool) (sw : List Bool),
      a.m_object_code_bytes = b0 :: b1 :: b2 :: b3 :: rest →
      a.m_object_code_bytes_start_of_word = true :: x :: true :: sw →
      a.write_listing_line = Except.error Error.length_error) := by
  have hfail : ∀ s_obj : String,
      a.write_listing_line_loop Assembler.MAX_OBJECT_BYTES_PER_LISTING_LINE 0 ""
        = Except.ok s_obj → 9 < s_obj.length →
      a.write_listing_line = Except.error Error.length_error := by
    intro s_obj hloop hlen
    unfold Assembler.write_listing_line
    simp only [hloop]
    rw [if_pos hlen]
  refine ⟨fun s_obj hloop => ⟨fun hlen => Assembler.write_listing_line_of_loop a s_obj hloop hlen,
    hfail s_obj hloop⟩, fun hs => Assembler.write_listing_line_loop_bytes a hb hs, ?_, ?_, ?_⟩
  · intro low high hbytes hs
    exact Assembler.write_listing_line_loop_word a low high
      (hb low (by simp [hbytes])) (hb high (by simp [hbytes])) hbytes hs
  · intro opcode low high hbytes hs
    exact Assembler.write_listing_line_loop_byte_word a opcode low high
      (hb opcode (by simp [hbytes])) (hb low (by simp [hbytes])) (hb high (by simp [hbytes]))
      hbytes hs
  · intro b0 b1 b2 b3 rest x sw hbytes hs
    obtain ⟨hloop, hlen⟩ := Assembler.write_listing_line_loop_words a b0 b1 b2 b3 rest x sw hbytes hs
    exact hfail _ hloop hlen

/-- C34 at the bytes 01 00 02 00 of the line `.word 1,2` (line 2, location
0x0200, pass 2): `write_listing_line` throws `std::length_error`. -/
theorem listing_object_column_witness :
    (∀ b ∈ [1, 0, 2, 0], b < 256) ∧
    ({ Assembler.line_state 2 2 0x0200 SymbolTable.create
          { m_mnemonic := ".word",
            m_operands := [Expression.Constant (Value.known 1),
              Expression.Constant (Value.known 2)] } with
        m_object_code_bytes := [1, 0, 2, 0]
        m_object_code_bytes_start_of_word := [true, false, true, false] } :
      Assembler).write_listing_line = Except.error Error.length_error :=
  ⟨by decide,
    (listing_object_column
      { Assembler.line_state 2 2 0x0200 SymbolTable.create
          { m_mnemonic := ".word",
            m_operands := [Expression.Constant (Value.known 1),
              Expression.Constant (Value.known 2)] } with
        m_object_code_bytes := [1, 0, 2, 0]
        m_object_code_bytes_start_of_word := [true, false, true, false] }
      (by decide)).2.2.2.2 1 0 2 0 [] false [false] rfl rfl⟩

set_option maxRecDepth 100000 in
/-- C34 fails: the source `.loc $200` / `.word 1,2` / `.end` ends pass 2 with
`std::length_error`, thrown by `write_listing_line` for the second line,
while pass 1 gives the four bytes 01 00 02 00 for that line; with one operand
in `.word 1` the run succeeds. -/
theorem listing_line_of_two_words_throws :
    Parser.parse 2 2 0x0200 "    .word 1,2"
      = Except.ok (some { m_mnemonic := ".word",
                          m_operands := [Expression.Constant (Value.known 1),
                            Expression.Constant (Value.known 2)] }) ∧
    returns ((Assembler.construct InstructionSet.pal65 0).assemble_pass
        [".loc $200", "    .word 1,2"] 1)
      (fun a => decide (a.m_object_code_bytes = [0x01, 0x00, 0x02, 0x00])) = true ∧
    throws (assemble_source 0 ".loc $200\n    .word 1,2\n.end\n") Error.length_error = true ∧
    returns (assemble_source 0 ".loc $200\n    .word 1\n.end\n")
      (fun a => decide (a.m_object_file = "*02000100")) = true := by
  exact ⟨by decide!, by decide!, by decide!, by decide!⟩

/-! ## The location counter in an expression -/

theorem Assembler.evaluate_location_constant (a : Assembler) (location : Nat)
    (h : location < 65536) :
    a.evaluate (Constant.create location) = Except.ok (Value.known location, a) := by
  simp [Assembler.evaluate, Expression.evaluate, Constant.create, Value.create, uint16_of_lt h]

/-- The round of the loop of `assemble_pass` for a line without label that
holds `.word` with one operand of a known value. -/
theorem Assembler.assemble_pass_line_one_word (s : Assembler) (line : String) (st : Statement)
    (e : Expression) (v : Nat)
    (hset : s.m_instruction_set_sp = InstructionSet.pal65)
    (hparse : Parser.parse s.m_pass_number.toNat (s.m_source_line_number + 1)
      s.m_location_counter (untabify line) = Except.ok (some st))
    (hlabel : st.m_label = "") (hm : st.m_mnemonic = ".word") (hops : st.m_operands = [e])
    (hev : ∀ a : Assembler, a.evaluate e = Except.ok (Value.known v, a))
    (hv : v < 65536) :
    ∃ r : Assembler, s.assemble_pass_line line = Except.ok r ∧
      r.m_object_code_bytes = [v &&& 0xFF, v >>> 8] ∧
      r.m_location_counter = (s.m_location_counter + 2) % 65536 ∧
      r.m_symbol_table_sp = s.m_symbol_table_sp := by
  have hlow : (v &&& 255) < 256 := lt_of_le_of_lt Nat.and_le_right (by decide)
  have hhigh : v >>> 8 < 256 := by rw [Nat.shiftRight_eq_div_pow]; omega
  have hlk : PseudoOp.s_by_mnemonic.lookup (utility.downcase_string st.m_mnemonic)
      = some PseudoOp.PseudoOpEnum.WORD := by rw [hm]; decide
  obtain ⟨b, hb⟩ : ∃ b : Assembler, b = s.begin_line line (some st) := ⟨_, rfl⟩
  have hb1 : b.m_statement_sp = some st := by rw [hb]; rfl
  have hb2 : b.m_instruction_set_sp = InstructionSet.pal65 := by rw [hb]; exact hset
  have hb3 : b.m_object_code_bytes = [] := by rw [hb]; rfl
  have hb4 : b.m_object_code_bytes_start_of_word = [] := by rw [hb]; rfl
  have hb5 : b.m_pass_number = s.m_pass_number := by rw [hb]; rfl
  have hb6 : b.m_location_counter = s.m_location_counter := by rw [hb]; rfl
  have hb7 : b.m_symbol_table_sp = s.m_symbol_table_sp := by rw [hb]; rfl
  have hline := Assembler.assemble_line_pseudo_op b st _ hb1 hlk
    (by rw [hb2]; exact InstructionSet.pal65_directive _ _ hlk)
  have hloop := Assembler.assemble_operands_loop_known (fun a value => a.emit_word value)
    (fun _ _ => ⟨rfl, rfl⟩) b [e] [v] (List.Forall₂.cons ⟨_, hev b⟩ List.Forall₂.nil) b rfl rfl
  have hres : b.assemble_line = Except.ok (b.emit_word v) := by
    rw [hline]
    simp only [hlabel, Assembler.s_assemble_pseudo_op_fn_ptrs, PseudoOp.s_by_enum,
      Assembler.assemble_pseudo_op_word, Statement.get_operand_count, hops]
    exact hloop
  have hbytes : (b.emit_word v).m_object_code_bytes = [v &&& 0xFF, v >>> 8] := by
    simp [Assembler.emit_word, hb3, Nat.mod_eq_of_lt hv, Nat.mod_eq_of_lt hlow,
      Nat.mod_eq_of_lt hhigh]
  have hsow : (b.emit_word v).m_object_code_bytes_start_of_word = [true, false] := by
    simp [Assembler.emit_word, hb4]
  rw [Assembler.assemble_pass_line_eq s line _ hparse, ← hb, hres]
  by_cases hp : s.m_pass_number = 2
  · obtain ⟨hl, hlen⟩ := Assembler.write_listing_line_loop_word _ _ _ hlow hhigh hbytes hsow
    obtain ⟨hw, _⟩ := Assembler.write_listing_line_of_loop _ _ hl (by rw [hlen]; decide)
    have hp2 : (b.emit_word v).m_pass_number = 2 := by rw [← hp, ← hb5]; rfl
    simp only [hp2, if_true, hw]
    refine ⟨_, rfl, ?_, ?_, ?_⟩
    · simp only [Assembler.write_object_bytes_bytes]
      exact hbytes
    · simp [Assembler.write_object_bytes, hbytes, Assembler.emit_word, hb6, hb3]
    · simp [Assembler.write_object_bytes, hbytes, Assembler.emit_word, hb7]
  · have hp2 : ¬ (b.emit_word v).m_pass_number = 2 := by
      intro h
      exact hp (by rw [← hb5]; exact h)
    simp only [hp2, if_false]
    refine ⟨_, rfl, hbytes, ?_, ?_⟩
    · simp [Assembler.emit_word, hb6, hb3]
    · simp [Assembler.emit_word, hb7]

/-- The round of the loop of `assemble_pass` for a line without label that
holds `.byte` with two operands of known values. -/
theorem Assembler.assemble_pass_line_two_bytes (s : Assembler) (line : String) (st : Statement)
    (e1 e2 : Expression) (v1 v2 : Nat)
    (hset : s.m_instruction_set_sp = InstructionSet.pal65)
    (hparse : Parser.parse s.m_pass_number.toNat (s.m_source_line_number + 1)
      s.m_location_counter (untabify line) = Except.ok (some st))
    (hlabel : st.m_label = "") (hm : st.m_mnemonic = ".byte") (hops : st.m_operands = [e1, e2])
    (hev1 : ∀ a : Assembler, a.evaluate e1 = Except.ok (Value.known v1, a))
    (hev2 : ∀ a : Assembler, a.evaluate e2 = Except.ok (Value.known v2, a)) :
    ∃ r : Assembler, s.assemble_pass_line line = Except.ok r ∧
      r.m_object_code_bytes = [v1 &&& 0xFF, v2 &&& 0xFF] ∧
      r.m_location_counter = (s.m_location_counter + 2) % 65536 ∧
      r.m_symbol_table_sp = s.m_symbol_table_sp := by
  have hlow1 : (v1 &&& 255) < 256 := lt_of_le_of_lt Nat.and_le_right (by decide)
  have hlow2 : (v2 &&& 255) < 256 := lt_of_le_of_lt Nat.and_le_right (by decide)
  have hlk : PseudoOp.s_by_mnemonic.lookup (utility.downcase_string st.m_mnemonic)
      = some PseudoOp.PseudoOpEnum.BYTE := by rw [hm]; decide
  obtain ⟨b, hb⟩ : ∃ b : Assembler, b = s.begin_line line (some st) := ⟨_, rfl⟩
  have hb1 : b.m_statement_sp = some st := by rw [hb]; rfl
  have hb2 : b.m_instruction_set_sp = InstructionSet.pal65 := by rw [hb]; exact hset
  have hb3 : b.m_object_code_bytes = [] := by rw [hb]; rfl
  have hb4 : b.m_object_code_bytes_start_of_word = [] := by rw [hb]; rfl
  have hb5 : b.m_pass_number = s.m_pass_number := by rw [hb]; rfl
  have hb6 : b.m_location_counter = s.m_location_counter := by rw [hb]; rfl
  have hb7 : b.m_symbol_table_sp = s.m_symbol_table_sp := by rw [hb]; rfl
  have hline := Assembler.assemble_line_pseudo_op b st _ hb1 hlk
    (by rw [hb2]; exact InstructionSet.pal65_directive _ _ hlk)
  have hloop := Assembler.assemble_operands_loop_known
    (fun a value => a.emit_byte (value &&& 0xff))
    (fun _ _ => ⟨rfl, rfl⟩) b [e1, e2] [v1, v2]
    (List.Forall₂.cons ⟨_, hev1 b⟩ (List.Forall₂.cons ⟨_, hev2 b⟩ List.Forall₂.nil)) b rfl rfl
  obtain ⟨c, hc⟩ : ∃ c : Assembler,
      c = (b.emit_byte (v1 &&& 0xff)).emit_byte (v2 &&& 0xff) := ⟨_, rfl⟩
  have hres : b.assemble_line = Except.ok c := by
    rw [hline, hc]
    simp only [hlabel, Assembler.s_assemble_pseudo_op_fn_ptrs, PseudoOp.s_by_enum,
      Assembler.assemble_pseudo_op_byte, Statement.get_operand_count, hops]
    exact hloop
  have hbytes : c.m_object_code_bytes = [v1 &&& 0xFF, v2 &&& 0xFF] := by
    rw [hc]
    simp [Assembler.emit_byte, hb3, Nat.mod_eq_of_lt hlow1, Nat.mod_eq_of_lt hlow2]
  have hsow : c.m_object_code_bytes_start_of_word
      = List.replicate c.m_object_code_bytes.length false := by
    rw [hbytes, hc]
    simp [Assembler.emit_byte, hb4, List.replicate]
  have hc5 : c.m_pass_number = s.m_pass_number := by rw [hc, ← hb5]; rfl
  have hc6 : c.m_location_counter = s.m_location_counter := by rw [hc, ← hb6]; rfl
  have hc7 : c.m_symbol_table_sp = s.m_symbol_table_sp := by rw [hc, ← hb7]; rfl
  rw [Assembler.assemble_pass_line_eq s line _ hparse, ← hb, hres]
  by_cases hp : s.m_pass_number = 2
  · obtain ⟨s_obj, hl, hlen⟩ := Assembler.write_listing_line_loop_bytes c
      (by
        intro x hx
        rw [hbytes] at hx
        simp only [List.mem_cons, List.mem_singleton, List.not_mem_nil, or_false] at hx
        rcases hx with hx | hx
        · rw [hx]; exact hlow1
        · rw [hx]; exact hlow2) hsow
    obtain ⟨hw, _⟩ := Assembler.write_listing_line_of_loop c s_obj hl
      (by rw [hlen, hbytes]; simp)
    have hp2 : c.m_pass_number = 2 := by rw [hc5]; exact hp
    simp only [hp2, if_true, hw]
    refine ⟨_, rfl, ?_, ?_, ?_⟩
    · simp only [Assembler.write_object_bytes_bytes]
      exact hbytes
    · simp [Assembler.write_object_bytes, hbytes, hc6]
    · simp [Assembler.write_object_bytes, hbytes, hc7]
  · have hp2 : ¬ c.m_pass_number = 2 := by rw [hc5]; exact hp
    simp only [hp2, if_false]
    refine ⟨_, rfl, hbytes, ?_, ?_⟩
    · simp [hbytes, hc6]
    · simp [hc7]

/-- C32: in a state with the location counter `a` (below 2^16): the rule
`factor` turns a `.` into a constant that holds the location counter of the
parser, whatever follows and whatever is on the stack; `assemble_pass` gives
the parser the location counter at the start of the line, so that for the
lines `.word .` and `.byte .,.` the operands are constants of the known value
`a`; such a constant evaluates to `a` in every symbol table; and the round of
the loop of `assemble_pass` succeeds for these lines in either pass, `.word .`
emits the two bytes `a & 0xFF`, `a >> 8`, and `.byte .,.` emits `a & 0xFF`
twice, the second `.` being the same `a` after the first byte of the line. -/
theorem location_counter_token (s : Assembler)
    (hset : s.m_instruction_set_sp = InstructionSet.pal65)
    (hlc : s.m_location_counter < 65536) :
    (∀ (expression : pegtl.Rule) (rest : List Char) (parser : Parser),
      grammar.factor expression ('.' :: rest) parser
        = Except.ok (some rest, parser.push
            (ASTNode.Expression (Constant.create parser.m_location_counter)))) ∧
    Constant.create s.m_location_counter = Expression.Constant (Value.known s.m_location_counter) ∧
    Parser.parse s.m_pass_number.toNat (s.m_source_line_number + 1) s.m_location_counter
        (untabify ".word .")
      = Except.ok (some { m_mnemonic := ".word",
                          m_operands := [Constant.create s.m_location_counter] }) ∧
    Parser.parse s.m_pass_number.toNat (s.m_source_line_number + 1) s.m_location_counter
        (untabify ".byte .,.")
      = Except.ok (some { m_mnemonic := ".byte",
                          m_operands := [Constant.create s.m_location_counter,
                            Constant.create s.m_location_counter] }) ∧
    (∀ (t : SymbolTable) (line : Nat),
      (Constant.create s.m_location_counter).evaluate t line
        = Except.ok (Value.known s.m_location_counter, t)) ∧
    (∃ r : Assembler, s.assemble_pass_line ".word ." = Except.ok r ∧
      r.m_object_code_bytes = [s.m_location_counter &&& 0xFF, s.m_location_counter >>> 8] ∧
      r.m_location_counter = (s.m_location_counter + 2) % 65536 ∧
      r.m_symbol_table_sp = s.m_symbol_table_sp) ∧
    (∃ r : Assembler, s.assemble_pass_line ".byte .,." = Except.ok r ∧
      r.m_object_code_bytes = [s.m_location_counter &&& 0xFF, s.m_location_counter &&& 0xFF] ∧
      r.m_location_counter = (s.m_location_counter + 2) % 65536 ∧
      r.m_symbol_table_sp = s.m_symbol_table_sp) := by
  have hparse1 : Parser.parse s.m_pass_number.toNat (s.m_source_line_number + 1)
      s.m_location_counter (untabify ".word .")
      = Except.ok (some { m_mnemonic := ".word",
                          m_operands := [Constant.create s.m_location_counter] }) := rfl
  have hparse2 : Parser.parse s.m_pass_number.toNat (s.m_source_line_number + 1)
      s.m_location_counter (untabify ".byte .,.")
      = Except.ok (some { m_mnemonic := ".byte",
                          m_operands := [Constant.create s.m_location_counter,
                            Constant.create s.m_location_counter] }) := rfl
  refine ⟨fun _ _ _ => rfl, ?_, hparse1, hparse2, ?_, ?_, ?_⟩
  · simp only [Constant.create, Value.create, uint16_of_lt hlc]
  · intro t line
    simp [Expression.evaluate, Constant.create, Value.create, uint16_of_lt hlc]
  · exact Assembler.assemble_pass_line_one_word s ".word ." _ _ _ hset hparse1 rfl rfl rfl
      (fun a => Assembler.evaluate_location_constant a _ hlc) hlc
  · exact Assembler.assemble_pass_line_two_bytes s ".byte .,." _ _ _ _ _ hset hparse2 rfl rfl rfl
      (fun a => Assembler.evaluate_location_constant a _ hlc)
      (fun a => Assembler.evaluate_location_constant a _ hlc)

set_option maxRecDepth 100000 in
/-- C32 in the state after `.loc $1234` in pass 2: `.word .` emits 34 12; and
the source `.loc $1234` / `.word .` / `.byte .,.` / `.end` gives the object
file `*123434123636`, the `.` of the third line being 0x1236. -/
theorem location_counter_token_witness :
    (Assembler.line_state 2 1 0x1234 SymbolTable.create { m_mnemonic := "" }).m_instruction_set_sp
      = InstructionSet.pal65 ∧
    (∃ r : Assembler,
      (Assembler.line_state 2 1 0x1234 SymbolTable.create { m_mnemonic := "" }).assemble_pass_line
        ".word ." = Except.ok r ∧
      r.m_object_code_bytes = [0x34, 0x12] ∧ r.m_location_counter = 0x1236) ∧
    returns (assemble_source 0 ".loc $1234\n.word .\n.byte .,.\n.end\n")
      (fun a => decide (a.m_object_file = "*123434123636")) = true := by
  obtain ⟨r, h1, h2, h3, _⟩ := (location_counter_token
    (Assembler.line_state 2 1 0x1234 SymbolTable.create { m_mnemonic := "" }) rfl
    (by decide)).2.2.2.2.2.1
  exact ⟨rfl, ⟨r, h1, h2, h3⟩, by decide!⟩

/-! ## Blank lines and comment lines -/

theorem untabify_spec_scan_space (ws : List Char)
    (hws : ∀ c ∈ ws, c ∈ [' ', '\n', '\r', '\t', Char.ofNat 11, Char.ofNat 12]) :
    ∀ col : Nat, ∀ c ∈ untabify_spec_scan ws col,
      c ∈ [' ', '\n', '\r', '\t', Char.ofNat 11, Char.ofNat 12] := by
  induction ws with
  | nil => intro col c hc; simp [untabify_spec_scan] at hc
  | cons d ws ih =>
    intro col c hc
    have hws' : ∀ c ∈ ws, c ∈ [' ', '\n', '\r', '\t', Char.ofNat 11, Char.ofNat 12] :=
      fun c h => hws c (List.mem_cons_of_mem _ h)
    by_cases hd : d = '\t'
    · simp only [untabify_spec_scan, hd, if_true, List.mem_append] at hc
      rcases hc with hc | hc
      · rw [List.eq_of_mem_replicate hc]
        decide
      · exact ih hws' _ c hc
    · simp only [untabify_spec_scan, hd, if_false, List.mem_cons] at hc
      rcases hc with hc | hc
      · rw [hc]
        exact hws d (List.mem_cons_self _ _)
      · exact ih hws' _ c hc

theorem pegtl.space_cons (c : Char) (t : List Char) (p : Parser) :
    pegtl.space (c :: t) p
      = if c ∈ [' ', '\n', '\r', '\t', Char.ofNat 11, Char.ofNat 12]
        then Except.ok (some t, p) else Except.ok (none, p) := rfl

/-- The loop of `star<space>` over white space that is followed by something
else, or by the end of the line. -/
theorem pegtl.star_loop_space (ws : List Char) (rest : List Char)
    (hrest : pegtl.space rest = fun p => Except.ok (none, p)) :
    ∀ (n : Nat) (p : Parser), ws.length < n →
      (∀ c ∈ ws, c ∈ [' ', '\n', '\r', '\t', Char.ofNat 11, Char.ofNat 12]) →
      pegtl.star_loop pegtl.space n (ws ++ rest) p = Except.ok (some rest, p) := by
  induction ws with
  | nil =>
    intro n p hn _
    cases n with
    | zero => omega
    | succ n => simp only [pegtl.star_loop, List.nil_append, hrest]
  | cons c ws ih =>
    intro n p hn hws
    cases n with
    | zero => omega
    | succ n =>
      simp only [pegtl.star_loop, List.cons_append, pegtl.space_cons,
        hws c (List.mem_cons_self _ _), if_true]
      exact ih n p (by simpa using hn) (fun d hd => hws d (List.mem_cons_of_mem _ hd))

/-- The rule `opt<whitespace>` takes all the white space before the end of
the line or before a semicolon. -/
theorem grammar.opt_whitespace_skips (ws rest : List Char) (p : Parser)
    (hws : ∀ c ∈ ws, c ∈ [' ', '\n', '\r', '\t', Char.ofNat 11, Char.ofNat 12])
    (hrest : pegtl.space rest = fun p => Except.ok (none, p)) :
    pegtl.opt grammar.whitespace (ws ++ rest) p = Except.ok (some rest, p) := by
  cases ws with
  | nil =>
    simp only [pegtl.opt, grammar.whitespace, pegtl.plus, pegtl.seq, List.nil_append, hrest]
  | cons c ws =>
    have hloop := pegtl.star_loop_space ws rest hrest ((ws ++ rest).length + 1) p
      (by simp; omega) (fun d hd => hws d (List.mem_cons_of_mem _ hd))
    simp only [pegtl.opt, grammar.whitespace, pegtl.plus, pegtl.seq, List.cons_append,
      pegtl.space_cons, hws c (List.mem_cons_self _ _), if_true, pegtl.star, hloop]

theorem pegtl.space_semicolon (cmt : List Char) :
    pegtl.space (';' :: cmt) = fun p => Except.ok (none, p) := rfl

theorem pegtl.space_nil : pegtl.space [] = fun p => Except.ok (none, p) := rfl

/-- The rule `statement` on white space that is followed by the end of the
line or by a semicolon: an empty label and an empty statement. What follows
the white space is left unread. -/
theorem grammar.statement_blank (ws rest : List Char) (p : Parser)
    (hws : ∀ c ∈ ws, c ∈ [' ', '\n', '\r', '\t', Char.ofNat 11, Char.ofNat 12])
    (hrest : rest = [] ∨ ∃ cmt, rest = ';' :: cmt) :
    grammar.statement (ws ++ rest) p
      = Except.ok (some rest, p.push (ASTNode.Statement { m_mnemonic := "" })) := by
  have hsp : pegtl.space rest = fun p => Except.ok (none, p) := by
    rcases hrest with h | ⟨cmt, h⟩
    · rw [h]; rfl
    · rw [h]; rfl
  have hlabel : grammar.label (ws ++ rest) p
      = Except.ok (some rest, p.push (ASTNode.Expression (Expression.Symbol ""))) := by
    simp only [grammar.label, pegtl.seq, grammar.opt_whitespace_skips ws rest p hws hsp]
    rcases hrest with h | ⟨cmt, h⟩
    · rw [h]; rfl
    · rw [h]; rfl
  simp only [grammar.statement, pegtl.with_action, pegtl.seq, hlabel]
  rcases hrest with h | ⟨cmt, h⟩
  · rw [h]; rfl
  · rw [h]; rfl

/-- The parser on a line of white space that is followed by nothing or by a
semicolon and a comment: the empty statement. -/
theorem Parser.parse_blank (pass_number source_line_number location_counter : Nat)
    (line : String) (ws cmt : List Char)
    (hws : ∀ c ∈ ws, c ∈ [' ', '\n', '\r', '\t', Char.ofNat 11, Char.ofNat 12])
    (hline : line.data = ws ∨ line.data = ws ++ ';' :: cmt) :
    Parser.parse pass_number source_line_number location_counter (untabify line)
      = Except.ok (some { m_label := "", m_mnemonic := "", m_operands := [] }) := by
  have hdata : ∃ rest, (rest = [] ∨ ∃ cmt1, rest = ';' :: cmt1) ∧
      (untabify line).data = untabify_spec_scan ws 0 ++ rest := by
    rw [untabify_data]
    rcases hline with h | h
    · exact ⟨[], Or.inl rfl, by rw [h, List.append_nil]⟩
    · have h2 : untabify_spec_scan (ws ++ ';' :: cmt) 0
          = untabify_spec_scan ws 0
            ++ ';' :: untabify_spec_scan cmt (0 + (untabify_spec_scan ws 0).length + 1) := by
        rw [untabify_spec_scan_append]
        simp only [untabify_spec_scan]
        rw [if_neg (by decide)]
      exact ⟨';' :: untabify_spec_scan cmt (0 + (untabify_spec_scan ws 0).length + 1),
        Or.inr ⟨_, rfl⟩, by rw [h, h2]⟩
  obtain ⟨rest, hrest, hdata⟩ := hdata
  have hst := grammar.statement_blank (untabify_spec_scan ws 0) rest
    { m_location_counter := location_counter, m_ast_stack := [] }
    (untabify_spec_scan_space ws hws 0) hrest
  unfold Parser.parse
  simp only [hdata, hst]
  rfl

/-- C35: for a line of white space (spaces, tabs and the other characters of
`pegtl::space`) that is followed by nothing or by a semicolon and a comment:
the parser gives the statement with the empty label, the empty mnemonic and
no operand; and the round of the loop of `assemble_pass` for the line
succeeds in any pass and with any instruction set, emits no byte and leaves
the location counter, the symbol table and the object file as they were. -/
theorem blank_line_no_effect (s : Assembler) (line : String) (ws cmt : List Char)
    (hws : ∀ c ∈ ws, c ∈ [' ', '\n', '\r', '\t', Char.ofNat 11, Char.ofNat 12])
    (hline : line.data = ws ∨ line.data = ws ++ ';' :: cmt)
    (hlc : s.m_location_counter < 65536) :
    Parser.parse s.m_pass_number.toNat (s.m_source_line_number + 1) s.m_location_counter
        (untabify line)
      = Except.ok (some { m_label := "", m_mnemonic := "", m_operands := [] }) ∧
    ∃ r : Assembler, s.assemble_pass_line line = Except.ok r ∧
      r.m_object_code_bytes = [] ∧
      r.m_location_counter = s.m_location_counter ∧
      r.m_symbol_table_sp = s.m_symbol_table_sp ∧
      r.m_object_file = s.m_object_file := by
  have hparse := Parser.parse_blank s.m_pass_number.toNat (s.m_source_line_number + 1)
    s.m_location_counter line ws cmt hws hline
  refine ⟨hparse, ?_⟩
  have hres : (s.begin_line line
      (some { m_label := "", m_mnemonic := "", m_operands := [] })).assemble_line
      = Except.ok (s.begin_line line
          (some { m_label := "", m_mnemonic := "", m_operands := [] })) := by
    simp [Assembler.assemble_line, Assembler.assemble_instruction, Assembler.begin_line]
  rw [Assembler.assemble_pass_line_eq s line _ hparse, hres]
  by_cases hp : s.m_pass_number = 2
  · have hw := Assembler.write_listing_line_empty
      (s.begin_line line (some { m_label := "", m_mnemonic := "", m_operands := [] })) rfl
    simp only [Assembler.begin_line, hp, if_true] at hw ⊢
    rw [hw]
    refine ⟨_, rfl, rfl, ?_, ?_, ?_⟩
    · simp [Assembler.write_object_bytes, Nat.mod_eq_of_lt hlc]
    · simp [Assembler.write_object_bytes]
    · simp [Assembler.write_object_bytes]
  · simp only [Assembler.begin_line, hp, if_false]
    refine ⟨_, rfl, rfl, ?_, rfl, rfl⟩
    simp [Nat.mod_eq_of_lt hlc]

set_option maxRecDepth 100000 in
/-- C35 at the line of a tab, two spaces and the comment `; note` in pass 2
at the location 0x0200; and the source `.loc $200`, an empty line, a line of
spaces, a comment line, `nop`, `.end` gives the object file `*0200EA`. -/
theorem blank_line_no_effect_witness :
    (∃ r : Assembler,
      (Assembler.line_state 2 1 0x0200 SymbolTable.create { m_mnemonic := "" }).assemble_pass_line
        "\t  ; note" = Except.ok r ∧
      r.m_object_code_bytes = [] ∧ r.m_location_counter = 0x0200 ∧
      r.m_symbol_table_sp = SymbolTable.create ∧ r.m_object_file = "") ∧
    returns (assemble_source 0 ".loc $200\n\n     \n  ; a comment\n    nop\n.end\n")
      (fun a => decide (a.m_object_file = "*0200EA")) = true := by
  obtain ⟨r, h1, h2, h3, h4, h5⟩ := (blank_line_no_effect
    (Assembler.line_state 2 1 0x0200 SymbolTable.create { m_mnemonic := "" })
    "\t  ; note" ['\t', ' ', ' '] " note".data (by decide) (Or.inr rfl) (by decide)).2
  exact ⟨⟨r, h1, h2, h3, h4, h5⟩, by decide!⟩

/-! ## No rule of the grammar throws the exception of an undefined symbol -/

theorem pegtl.one_nud {sym : String} (cs : List Char) (input : pegtl.Input) (parser : Parser) :
    pegtl.one cs input parser ≠ Except.error (Error.SymbolTableError_undefined sym) := by
  unfold pegtl.one
  split
  · split <;> (intro h; cases h)
  · intro h; cases h

theorem pegtl.not_one_nud {sym : String} (x : Char) (input : pegtl.Input) (parser : Parser) :
    pegtl.not_one x input parser ≠ Except.error (Error.SymbolTableError_undefined sym) := by
  unfold pegtl.not_one
  split
  · split <;> (intro h; cases h)
  · intro h; cases h

theorem pegtl.any_nud {sym : String} (input : pegtl.Input) (parser : Parser) :
    pegtl.any input parser ≠ Except.error (Error.SymbolTableError_undefined sym) := by
  unfold pegtl.any
  split <;> (intro h; cases h)

theorem pegtl.ranges_nud {sym : String} (rs : List (Char × Char)) (input : pegtl.Input) (parser : Parser) :
    pegtl.ranges rs input parser ≠ Except.error (Error.SymbolTableError_undefined sym) := by
  unfold pegtl.ranges
  split
  · split <;> (intro h; cases h)
  · intro h; cases h

theorem pegtl.istring_nud {sym : String} (s : String) (input : pegtl.Input) (parser : Parser) :
    pegtl.istring s input parser ≠ Except.error (Error.SymbolTableError_undefined sym) := by
  intro h
  cases h

theorem pegtl.seq_nil_nud {sym : String} (input : pegtl.Input) (parser : Parser) :
    pegtl.seq [] input parser ≠ Except.error (Error.SymbolTableError_undefined sym) := by
  intro h
  cases h

theorem pegtl.seq_cons_nud {sym : String} (r : pegtl.Rule) (rs : List pegtl.Rule)
    (hr : ∀ input parser, r input parser ≠ Except.error (Error.SymbolTableError_undefined sym))
    (hrs : ∀ input parser, pegtl.seq rs input parser ≠ Except.error (Error.SymbolTableError_undefined sym))
    (input : pegtl.Input) (parser : Parser) :
    pegtl.seq (r :: rs) input parser ≠ Except.error (Error.SymbolTableError_undefined sym) := by
  simp only [pegtl.seq]
  split
  · rename_i e heq
    intro h
    injection h with h
    subst h
    exact hr _ _ heq
  · intro h; cases h
  · exact hrs _ _

theorem pegtl.sor_nil_nud {sym : String} (input : pegtl.Input) (parser : Parser) :
    pegtl.sor [] input parser ≠ Except.error (Error.SymbolTableError_undefined sym) := by
  intro h
  cases h

theorem pegtl.sor_cons_nud {sym : String} (r : pegtl.Rule) (rs : List pegtl.Rule)
    (hr : ∀ input parser, r input parser ≠ Except.error (Error.SymbolTableError_undefined sym))
    (hrs : ∀ input parser, pegtl.sor rs input parser ≠ Except.error (Error.SymbolTableError_undefined sym))
    (input : pegtl.Input) (parser : Parser) :
    pegtl.sor (r :: rs) input parser ≠ Except.error (Error.SymbolTableError_undefined sym) := by
  simp only [pegtl.sor]
  split
  · rename_i e heq
    intro h
    injection h with h
    subst h
    exact hr _ _ heq
  · intro h; cases h
  · exact hrs _ _

theorem pegtl.opt_nud {sym : String} (r : pegtl.Rule)
    (hr : ∀ input parser, r input parser ≠ Except.error (Error.SymbolTableError_undefined sym))
    (input : pegtl.Input) (parser : Parser) :
    pegtl.opt r input parser ≠ Except.error (Error.SymbolTableError_undefined sym) := by
  unfold pegtl.opt
  split
  · rename_i e heq
    intro h
    injection h with h
    subst h
    exact hr _ _ heq
  · intro h; cases h
  · intro h; cases h

theorem pegtl.star_loop_nud {sym : String} (r : pegtl.Rule)
    (hr : ∀ input parser, r input parser ≠ Except.error (Error.SymbolTableError_undefined sym)) (fuel : Nat) :
    ∀ (input : pegtl.Input) (parser : Parser),
      pegtl.star_loop r fuel input parser ≠ Except.error (Error.SymbolTableError_undefined sym) := by
  induction fuel with
  | zero => intro input parser h; cases h
  | succ n ih =>
    intro input parser
    simp only [pegtl.star_loop]
    split
    · rename_i e heq
      intro h
      injection h with h
      subst h
      exact hr _ _ heq
    · intro h; cases h
    · exact ih _ _

theorem pegtl.star_nud {sym : String} (r : pegtl.Rule)
    (hr : ∀ input parser, r input parser ≠ Except.error (Error.SymbolTableError_undefined sym))
    (input : pegtl.Input) (parser : Parser) :
    pegtl.star r input parser ≠ Except.error (Error.SymbolTableError_undefined sym) :=
  pegtl.star_loop_nud r hr _ _ _

theorem pegtl.plus_nud {sym : String} (r : pegtl.Rule)
    (hr : ∀ input parser, r input parser ≠ Except.error (Error.SymbolTableError_undefined sym))
    (input : pegtl.Input) (parser : Parser) :
    pegtl.plus r input parser ≠ Except.error (Error.SymbolTableError_undefined sym) :=
  pegtl.seq_cons_nud r _ hr
    (pegtl.seq_cons_nud _ _ (pegtl.star_nud r hr) pegtl.seq_nil_nud) _ _

theorem pegtl.not_at_nud {sym : String} (r : pegtl.Rule)
    (hr : ∀ input parser, r input parser ≠ Except.error (Error.SymbolTableError_undefined sym))
    (input : pegtl.Input) (parser : Parser) :
    pegtl.not_at r input parser ≠ Except.error (Error.SymbolTableError_undefined sym) := by
  unfold pegtl.not_at
  split
  · rename_i e heq
    intro h
    injection h with h
    subst h
    exact hr _ _ heq
  · intro h; cases h
  · intro h; cases h

theorem pegtl.rep_max_loop_nud {sym : String} (r : pegtl.Rule)
    (hr : ∀ input parser, r input parser ≠ Except.error (Error.SymbolTableError_undefined sym)) (n : Nat) :
    ∀ (input : pegtl.Input) (parser : Parser),
      pegtl.rep_max_loop r n input parser ≠ Except.error (Error.SymbolTableError_undefined sym) := by
  induction n with
  | zero => exact pegtl.not_at_nud r hr
  | succ n ih =>
    intro input parser
    simp only [pegtl.rep_max_loop]
    split
    · rename_i e heq
      intro h
      injection h with h
      subst h
      exact hr _ _ heq
    · intro h; cases h
    · exact ih _ _

theorem pegtl.rep_max_nud {sym : String} (max : Nat) (r : pegtl.Rule)
    (hr : ∀ input parser, r input parser ≠ Except.error (Error.SymbolTableError_undefined sym))
    (input : pegtl.Input) (parser : Parser) :
    pegtl.rep_max max r input parser ≠ Except.error (Error.SymbolTableError_undefined sym) :=
  pegtl.rep_max_loop_nud r hr max _ _

theorem pegtl.with_action_nud {sym : String} (r : pegtl.Rule)
    (apply : pegtl.Input → pegtl.Input → Parser → Except Error Parser)
    (hr : ∀ input parser, r input parser ≠ Except.error (Error.SymbolTableError_undefined sym))
    (ha : ∀ matched start parser, apply matched start parser ≠ Except.error (Error.SymbolTableError_undefined sym))
    (input : pegtl.Input) (parser : Parser) :
    pegtl.with_action r apply input parser ≠ Except.error (Error.SymbolTableError_undefined sym) := by
  unfold pegtl.with_action
  split
  · rename_i e heq
    intro h
    injection h with h
    subst h
    exact hr _ _ heq
  · intro h; cases h
  · split
    · rename_i e heq
      intro h
      injection h with h
      subst h
      exact ha _ _ _ heq
    · intro h; cases h

theorem Parser.pop_nud {sym : String} (parser : Parser) : parser.pop ≠ Except.error (Error.SymbolTableError_undefined sym) := by
  unfold Parser.pop ASTStack.pop
  cases parser.m_ast_stack with
  | nil => intro h; cases h
  | cons n rest => intro h; cases h

theorem stoull_nud {sym : String} (str : List Char) (base : Nat) :
    stoull str base ≠ Except.error (Error.SymbolTableError_undefined sym) := by
  unfold stoull
  simp only
  split
  · intro h; cases h
  · split <;> (intro h; cases h)

theorem reduce_binary_operator_expression_nud {sym : String} (parser : Parser) :
    grammar.reduce_binary_operator_expression parser ≠ Except.error (Error.SymbolTableError_undefined sym) := by
  unfold grammar.reduce_binary_operator_expression
  split
  · rename_i e heq
    intro h; injection h with h; subst h
    exact Parser.pop_nud _ heq
  · split
    · rename_i e heq
      intro h; injection h with h; subst h
      exact Parser.pop_nud _ heq
    · split
      · rename_i e heq
        intro h; injection h with h; subst h
        exact Parser.pop_nud _ heq
      · intro h; cases h

theorem grammar.whitespace_nud {sym : String} (input : pegtl.Input) (parser : Parser) :
    grammar.whitespace input parser ≠ Except.error (Error.SymbolTableError_undefined sym) :=
  pegtl.plus_nud _ (pegtl.one_nud _) _ _

theorem grammar.symbol_nud {sym : String} (input : pegtl.Input) (parser : Parser) :
    grammar.symbol input parser ≠ Except.error (Error.SymbolTableError_undefined sym) :=
  pegtl.seq_cons_nud _ _ (pegtl.ranges_nud _)
    (pegtl.seq_cons_nud _ _ (pegtl.rep_max_nud _ _ (pegtl.ranges_nud _)) pegtl.seq_nil_nud) _ _

theorem grammar.constant_nud {sym : String} (input : pegtl.Input) (parser : Parser) :
    grammar.constant input parser ≠ Except.error (Error.SymbolTableError_undefined sym) := by
  unfold grammar.constant
  apply pegtl.sor_cons_nud
  · unfold grammar.octal_constant
    apply pegtl.with_action_nud
    · exact pegtl.seq_cons_nud _ _ (pegtl.one_nud _)
        (pegtl.seq_cons_nud _ _ (pegtl.plus_nud _ (pegtl.ranges_nud _)) pegtl.seq_nil_nud)
    · intro m b p
      split
      · rename_i e heq
        intro h; injection h with h; subst h
        exact stoull_nud _ _ heq
      · intro h; cases h
  apply pegtl.sor_cons_nud
  · unfold grammar.decimal_constant
    apply pegtl.with_action_nud
    · exact pegtl.plus_nud _ (pegtl.ranges_nud _)
    · intro m b p
      split
      · rename_i e heq
        intro h; injection h with h; subst h
        exact stoull_nud _ _ heq
      · intro h; cases h
  apply pegtl.sor_cons_nud
  · unfold grammar.hexadecimal_constant
    apply pegtl.with_action_nud
    · exact pegtl.seq_cons_nud _ _ (pegtl.one_nud _)
        (pegtl.seq_cons_nud _ _ (pegtl.plus_nud _ (pegtl.ranges_nud _)) pegtl.seq_nil_nud)
    · intro m b p
      split
      · rename_i e heq
        intro h; injection h with h; subst h
        exact stoull_nud _ _ heq
      · intro h; cases h
  apply pegtl.sor_cons_nud
  · unfold grammar.character_constant
    apply pegtl.with_action_nud
    · exact pegtl.seq_cons_nud _ _ (pegtl.one_nud _)
        (pegtl.seq_cons_nud _ _ (pegtl.ranges_nud _) pegtl.seq_nil_nud)
    · intro m b p
      split <;> (intro h; cases h)
  apply pegtl.sor_cons_nud
  · unfold grammar.location_counter
    apply pegtl.with_action_nud
    · exact pegtl.one_nud _
    · intro m b p h
      cases h
  exact pegtl.sor_nil_nud

theorem grammar.expression_symbol_nud {sym : String} (input : pegtl.Input) (parser : Parser) :
    grammar.expression_symbol input parser ≠ Except.error (Error.SymbolTableError_undefined sym) := by
  unfold grammar.expression_symbol
  apply pegtl.with_action_nud
  · exact pegtl.seq_cons_nud _ _ grammar.symbol_nud pegtl.seq_nil_nud
  · intro m b p h
    cases h

theorem grammar.unary_expression_nud {sym : String} (input : pegtl.Input) (parser : Parser) :
    grammar.unary_expression input parser ≠ Except.error (Error.SymbolTableError_undefined sym) := by
  unfold grammar.unary_expression
  apply pegtl.with_action_nud
  · apply pegtl.seq_cons_nud
    · unfold grammar.unary_operator
      apply pegtl.with_action_nud
      · exact pegtl.one_nud _
      · intro m b p
        split
        · intro h; cases h
        · split <;> (intro h; cases h)
    · exact pegtl.seq_cons_nud _ _ grammar.expression_symbol_nud pegtl.seq_nil_nud
  · intro m b p
    split
    · rename_i e heq
      intro h; injection h with h; subst h
      exact Parser.pop_nud _ heq
    · split
      · rename_i e heq
        intro h; injection h with h; subst h
        exact Parser.pop_nud _ heq
      · intro h; cases h

theorem grammar.factor_nud {sym : String} (expression : pegtl.Rule)
    (he : ∀ input parser, expression input parser ≠ Except.error (Error.SymbolTableError_undefined sym))
    (input : pegtl.Input) (parser : Parser) :
    grammar.factor expression input parser ≠ Except.error (Error.SymbolTableError_undefined sym) := by
  unfold grammar.factor
  apply pegtl.sor_cons_nud _ _ grammar.constant_nud
  apply pegtl.sor_cons_nud _ _ grammar.expression_symbol_nud
  apply pegtl.sor_cons_nud _ _ grammar.unary_expression_nud
  apply pegtl.sor_cons_nud
  · unfold grammar.parenthesized_expression
    exact pegtl.seq_cons_nud _ _ (pegtl.one_nud _)
      (pegtl.seq_cons_nud _ _ he (pegtl.seq_cons_nud _ _ (pegtl.one_nud _) pegtl.seq_nil_nud))
  · exact pegtl.sor_nil_nud

theorem grammar.term_nud {sym : String} (expression : pegtl.Rule)
    (he : ∀ input parser, expression input parser ≠ Except.error (Error.SymbolTableError_undefined sym))
    (input : pegtl.Input) (parser : Parser) :
    grammar.term expression input parser ≠ Except.error (Error.SymbolTableError_undefined sym) := by
  unfold grammar.term
  apply pegtl.seq_cons_nud _ _ (grammar.factor_nud expression he)
  apply pegtl.seq_cons_nud
  · apply pegtl.star_nud
    unfold grammar.term_additional_factor
    apply pegtl.with_action_nud
    · apply pegtl.seq_cons_nud
      · unfold grammar.binary_multiplying_operator
        apply pegtl.with_action_nud
        · exact pegtl.one_nud _
        · intro m b p
          split
          · intro h; cases h
          · split <;> (intro h; cases h)
      · exact pegtl.seq_cons_nud _ _ (grammar.factor_nud expression he) pegtl.seq_nil_nud
    · intro m b p
      exact reduce_binary_operator_expression_nud p
  · exact pegtl.seq_nil_nud

theorem grammar.expression_fuel_nud {sym : String} (fuel : Nat) :
    ∀ (input : pegtl.Input) (parser : Parser),
      grammar.expression_fuel fuel input parser ≠ Except.error (Error.SymbolTableError_undefined sym) := by
  induction fuel with
  | zero => intro input parser h; cases h
  | succ n ih =>
    simp only [grammar.expression_fuel]
    apply pegtl.seq_cons_nud _ _ (grammar.term_nud _ ih)
    apply pegtl.seq_cons_nud
    · apply pegtl.star_nud
      unfold grammar.expression_additional_term
      apply pegtl.with_action_nud
      · apply pegtl.seq_cons_nud
        · unfold grammar.binary_adding_operator
          apply pegtl.with_action_nud
          · exact pegtl.one_nud _
          · intro m b p
            split
            · intro h; cases h
            · split <;> (intro h; cases h)
        · exact pegtl.seq_cons_nud _ _ (grammar.term_nud _ ih) pegtl.seq_nil_nud
      · intro m b p
        exact reduce_binary_operator_expression_nud p
    · exact pegtl.seq_nil_nud

theorem grammar.expression_nud {sym : String} (input : pegtl.Input) (parser : Parser) :
    grammar.expression input parser ≠ Except.error (Error.SymbolTableError_undefined sym) :=
  grammar.expression_fuel_nud _ _ _

theorem push_mnemonic_nud {sym : String} (matched : pegtl.Input) (parser : Parser) :
    grammar.push_mnemonic matched parser ≠ Except.error (Error.SymbolTableError_undefined sym) := by
  intro h
  cases h

theorem reduce_statement_zero_operand_nud {sym : String} (parser : Parser) :
    grammar.reduce_statement_zero_operand parser ≠ Except.error (Error.SymbolTableError_undefined sym) := by
  unfold grammar.reduce_statement_zero_operand
  split
  · rename_i e heq
    intro h; injection h with h; subst h
    exact Parser.pop_nud _ heq
  · split <;> (intro h; cases h)

theorem reduce_statement_one_operand_nud {sym : String} (parser : Parser) :
    grammar.reduce_statement_one_operand parser ≠ Except.error (Error.SymbolTableError_undefined sym) := by
  unfold grammar.reduce_statement_one_operand
  split
  · rename_i e heq
    intro h; injection h with h; subst h
    exact Parser.pop_nud _ heq
  · split
    · rename_i e heq
      intro h; injection h with h; subst h
      exact Parser.pop_nud _ heq
    · split <;> (intro h; cases h)

theorem grammar.label_nud {sym : String} (input : pegtl.Input) (parser : Parser) :
    grammar.label input parser ≠ Except.error (Error.SymbolTableError_undefined sym) := by
  unfold grammar.label
  apply pegtl.seq_cons_nud _ _ (pegtl.opt_nud _ grammar.whitespace_nud)
  apply pegtl.seq_cons_nud
  · apply pegtl.sor_cons_nud
    · unfold grammar.label_nonempty
      apply pegtl.with_action_nud
      · exact pegtl.seq_cons_nud _ _ grammar.symbol_nud
          (pegtl.seq_cons_nud _ _ (pegtl.one_nud _) pegtl.seq_nil_nud)
      · intro m b p h
        cases h
    apply pegtl.sor_cons_nud
    · unfold grammar.label_empty
      apply pegtl.with_action_nud
      · exact pegtl.seq_nil_nud
      · intro m b p h
        cases h
    exact pegtl.sor_nil_nud
  · exact pegtl.seq_cons_nud _ _ (pegtl.opt_nud _ grammar.whitespace_nud) pegtl.seq_nil_nud

theorem grammar.instruction_zero_operand_nud {sym : String} (input : pegtl.Input) (parser : Parser) :
    grammar.instruction_zero_operand input parser ≠ Except.error (Error.SymbolTableError_undefined sym) := by
  unfold grammar.instruction_zero_operand
  apply pegtl.with_action_nud
  · apply pegtl.seq_cons_nud
    · unfold grammar.mnemonic_instruction_zero_operand
      apply pegtl.with_action_nud
      · repeat (first
          | exact pegtl.sor_nil_nud
          | apply pegtl.sor_cons_nud _ _ (pegtl.istring_nud _))
      · intro m b p
        exact push_mnemonic_nud m p
    · exact pegtl.seq_nil_nud
  · intro m b p
    exact reduce_statement_zero_operand_nud p

theorem grammar.instruction_one_operand_nud {sym : String} (input : pegtl.Input) (parser : Parser) :
    grammar.instruction_one_operand input parser ≠ Except.error (Error.SymbolTableError_undefined sym) := by
  unfold grammar.instruction_one_operand
  apply pegtl.with_action_nud
  · apply pegtl.seq_cons_nud
    · unfold grammar.mnemonic_instruction_one_operand_suffixed
      apply pegtl.with_action_nud
      · apply pegtl.seq_cons_nud
        · unfold grammar.mnemonic_instruction_one_operand
          repeat (first
            | exact pegtl.sor_nil_nud
            | apply pegtl.sor_cons_nud _ _ (pegtl.istring_nud _))
        · apply pegtl.seq_cons_nud
          · apply pegtl.opt_nud
            unfold grammar.address_mode_one_operand_suffix
            apply pegtl.sor_cons_nud _ _ (pegtl.one_nud _)
            apply pegtl.sor_cons_nud _ _ (pegtl.one_nud _)
            apply pegtl.sor_cons_nud _ _ (pegtl.one_nud _)
            apply pegtl.sor_cons_nud
            · exact pegtl.seq_cons_nud _ _ (pegtl.one_nud _)
                (pegtl.seq_cons_nud _ _ (pegtl.one_nud _) pegtl.seq_nil_nud)
            apply pegtl.sor_cons_nud
            · exact pegtl.seq_cons_nud _ _ (pegtl.one_nud _)
                (pegtl.seq_cons_nud _ _ (pegtl.one_nud _) pegtl.seq_nil_nud)
            apply pegtl.sor_cons_nud _ _ (pegtl.one_nud _)
            exact pegtl.sor_nil_nud
          · exact pegtl.seq_nil_nud
      · intro m b p
        exact push_mnemonic_nud m p
    · exact pegtl.seq_cons_nud _ _ grammar.whitespace_nud
        (pegtl.seq_cons_nud _ _ grammar.expression_nud pegtl.seq_nil_nud)
  · intro m b p
    exact reduce_statement_one_operand_nud p

theorem grammar.pseudo_op_zero_operand_nud {sym : String} (input : pegtl.Input) (parser : Parser) :
    grammar.pseudo_op_zero_operand input parser ≠ Except.error (Error.SymbolTableError_undefined sym) := by
  unfold grammar.pseudo_op_zero_operand
  apply pegtl.with_action_nud
  · apply pegtl.seq_cons_nud
    · unfold grammar.mnemonic_pseudo_zero_operand
      apply pegtl.with_action_nud
      · repeat (first
          | exact pegtl.sor_nil_nud
          | apply pegtl.sor_cons_nud _ _ (pegtl.istring_nud _))
      · intro m b p
        exact push_mnemonic_nud m p
    · exact pegtl.seq_nil_nud
  · intro m b p
    exact reduce_statement_zero_operand_nud p

theorem grammar.expression_list_nud {sym : String} (input : pegtl.Input) (parser : Parser) :
    grammar.expression_list input parser ≠ Except.error (Error.SymbolTableError_undefined sym) := by
  unfold grammar.expression_list
  apply pegtl.seq_cons_nud
  · unfold grammar.expression_list_head
    apply pegtl.with_action_nud
    · exact pegtl.seq_cons_nud _ _ grammar.expression_nud pegtl.seq_nil_nud
    · intro m b p
      split
      · rename_i e heq
        intro h; injection h with h; subst h
        exact Parser.pop_nud _ heq
      · intro h; cases h
  · apply pegtl.seq_cons_nud
    · apply pegtl.star_nud
      apply pegtl.seq_cons_nud _ _ (pegtl.one_nud _)
      apply pegtl.seq_cons_nud
      · unfold grammar.expression_list_additional
        apply pegtl.with_action_nud
        · exact pegtl.seq_cons_nud _ _ grammar.expression_nud pegtl.seq_nil_nud
        · intro m b p
          split
          · rename_i e heq
            intro h; injection h with h; subst h
            exact Parser.pop_nud _ heq
          · split
            · rename_i e heq
              intro h; injection h with h; subst h
              exact Parser.pop_nud _ heq
            · split <;> (intro h; cases h)
      · exact pegtl.seq_nil_nud
    · exact pegtl.seq_nil_nud

theorem grammar.pseudo_op_variable_operand_nud {sym : String} (input : pegtl.Input) (parser : Parser) :
    grammar.pseudo_op_variable_operand input parser ≠ Except.error (Error.SymbolTableError_undefined sym) := by
  unfold grammar.pseudo_op_variable_operand
  apply pegtl.with_action_nud
  · apply pegtl.seq_cons_nud
    · unfold grammar.mnemonic_pseudo_variable_operand
      apply pegtl.with_action_nud
      · repeat (first
          | exact pegtl.sor_nil_nud
          | apply pegtl.sor_cons_nud _ _ (pegtl.istring_nud _))
      · intro m b p
        exact push_mnemonic_nud m p
    · apply pegtl.seq_cons_nud
      · apply pegtl.sor_cons_nud
        · exact pegtl.seq_cons_nud _ _ grammar.whitespace_nud
            (pegtl.seq_cons_nud _ _ grammar.expression_list_nud pegtl.seq_nil_nud)
        apply pegtl.sor_cons_nud
        · unfold grammar.expression_list_empty
          apply pegtl.with_action_nud
          · exact pegtl.seq_nil_nud
          · intro m b p h
            cases h
        exact pegtl.sor_nil_nud
      · exact pegtl.seq_nil_nud
  · intro m b p
    split
    · rename_i e heq
      intro h; injection h with h; subst h
      exact Parser.pop_nud _ heq
    · split
      · rename_i e heq
        intro h; injection h with h; subst h
        exact Parser.pop_nud _ heq
      · simp only
        split <;> (intro h; cases h)

theorem grammar.pseudo_op_ascii_nud {sym : String} (input : pegtl.Input) (parser : Parser) :
    grammar.pseudo_op_ascii input parser ≠ Except.error (Error.SymbolTableError_undefined sym) := by
  unfold grammar.pseudo_op_ascii
  apply pegtl.with_action_nud
  · apply pegtl.seq_cons_nud
    · unfold grammar.mnemonic_pseudo_ascii
      apply pegtl.with_action_nud _ _ (pegtl.istring_nud _)
      intro m b p
      exact push_mnemonic_nud m p
    · apply pegtl.seq_cons_nud _ _ grammar.whitespace_nud
      apply pegtl.seq_cons_nud
      · unfold grammar.string_constant
        apply pegtl.with_action_nud
        · apply pegtl.sor_cons_nud
          · exact pegtl.seq_cons_nud _ _ (pegtl.one_nud _)
              (pegtl.seq_cons_nud _ _ (pegtl.star_nud _ (pegtl.not_one_nud _))
                (pegtl.seq_cons_nud _ _ (pegtl.one_nud _) pegtl.seq_nil_nud))
          apply pegtl.sor_cons_nud
          · exact pegtl.seq_cons_nud _ _ (pegtl.one_nud _)
              (pegtl.seq_cons_nud _ _ (pegtl.star_nud _ (pegtl.not_one_nud _))
                (pegtl.seq_cons_nud _ _ (pegtl.one_nud _) pegtl.seq_nil_nud))
          apply pegtl.sor_cons_nud
          · exact pegtl.seq_cons_nud _ _ (pegtl.one_nud _)
              (pegtl.seq_cons_nud _ _ (pegtl.star_nud _ (pegtl.not_one_nud _))
                (pegtl.seq_cons_nud _ _ (pegtl.one_nud _) pegtl.seq_nil_nud))
          exact pegtl.sor_nil_nud
        · intro m b p h
          cases h
      · exact pegtl.seq_nil_nud
  · intro m b p
    exact reduce_statement_one_operand_nud p

theorem grammar.pseudo_op_def_nud {sym : String} (input : pegtl.Input) (parser : Parser) :
    grammar.pseudo_op_def input parser ≠ Except.error (Error.SymbolTableError_undefined sym) := by
  unfold grammar.pseudo_op_def
  apply pegtl.with_action_nud
  · apply pegtl.seq_cons_nud
    · unfold grammar.mnemonic_pseudo_def
      apply pegtl.with_action_nud _ _ (pegtl.istring_nud _)
      intro m b p
      exact push_mnemonic_nud m p
    · exact pegtl.seq_cons_nud _ _ grammar.whitespace_nud
        (pegtl.seq_cons_nud _ _ grammar.expression_symbol_nud
          (pegtl.seq_cons_nud _ _ (pegtl.opt_nud _ grammar.whitespace_nud)
            (pegtl.seq_cons_nud _ _ (pegtl.one_nud _)
              (pegtl.seq_cons_nud _ _ (pegtl.opt_nud _ grammar.whitespace_nud)
                (pegtl.seq_cons_nud _ _ grammar.expression_nud pegtl.seq_nil_nud)))))
  · intro m b p
    split
    · rename_i e heq
      intro h; injection h with h; subst h
      exact Parser.pop_nud _ heq
    · split
      · rename_i e heq
        intro h; injection h with h; subst h
        exact Parser.pop_nud _ heq
      · split
        · rename_i e heq
          intro h; injection h with h; subst h
          exact Parser.pop_nud _ heq
        · split <;> (intro h; cases h)

theorem grammar.pseudo_op_link_nud {sym : String} (input : pegtl.Input) (parser : Parser) :
    grammar.pseudo_op_link input parser ≠ Except.error (Error.SymbolTableError_undefined sym) := by
  unfold grammar.pseudo_op_link
  apply pegtl.seq_cons_nud
  · unfold grammar.mnemonic_pseudo_link
    apply pegtl.with_action_nud _ _ (pegtl.istring_nud _)
    intro m b p
    exact push_mnemonic_nud m p
  · exact pegtl.seq_cons_nud _ _ grammar.whitespace_nud
      (pegtl.seq_cons_nud _ _ grammar.symbol_nud pegtl.seq_nil_nud)

/-- No rule and no action of the grammar throws the exception of an undefined symbol. -/
theorem grammar.statement_nud {sym : String} (input : pegtl.Input) (parser : Parser) :
    grammar.statement input parser ≠ Except.error (Error.SymbolTableError_undefined sym) := by
  unfold grammar.statement
  apply pegtl.with_action_nud
  · apply pegtl.seq_cons_nud _ _ grammar.label_nud
    apply pegtl.seq_cons_nud
    · apply pegtl.sor_cons_nud _ _ grammar.instruction_zero_operand_nud
      apply pegtl.sor_cons_nud _ _ grammar.instruction_one_operand_nud
      apply pegtl.sor_cons_nud _ _ grammar.pseudo_op_zero_operand_nud
      apply pegtl.sor_cons_nud _ _ grammar.pseudo_op_variable_operand_nud
      apply pegtl.sor_cons_nud _ _ grammar.pseudo_op_ascii_nud
      apply pegtl.sor_cons_nud _ _ grammar.pseudo_op_def_nud
      apply pegtl.sor_cons_nud _ _ grammar.pseudo_op_link_nud
      apply pegtl.sor_cons_nud
      · unfold grammar.statement_empty
        apply pegtl.with_action_nud
        · exact pegtl.seq_nil_nud
        · intro m b p h
          cases h
      · exact pegtl.sor_nil_nud
    · apply pegtl.seq_cons_nud
      · unfold grammar.comment
        apply pegtl.opt_nud
        exact pegtl.seq_cons_nud _ _ grammar.whitespace_nud
          (pegtl.seq_cons_nud _ _ (pegtl.one_nud _)
            (pegtl.seq_cons_nud _ _ (pegtl.star_nud _ pegtl.any_nud) pegtl.seq_nil_nud))
      · exact pegtl.seq_nil_nud
  · intro m b p
    split
    · rename_i e heq
      intro h; injection h with h; subst h
      exact Parser.pop_nud _ heq
    · split
      · rename_i e heq
        intro h; injection h with h; subst h
        exact Parser.pop_nud _ heq
      · simp only
        split <;> (intro h; cases h)

/-- `Parser::parse` never throws the exception of an undefined symbol. -/
theorem Parser.parse_nud {sym : String} (pass_number source_line_number location_counter : Nat)
    (s : String) :
    Parser.parse pass_number source_line_number location_counter s
      ≠ Except.error (Error.SymbolTableError_undefined sym) := by
  intro h
  unfold Parser.parse at h
  simp only at h
  split at h
  · rename_i e heq
    injection h with h
    subst h
    exact grammar.statement_nud _ _ heq
  · cases h
  · split at h
    · rename_i e heq
      injection h with h
      subst h
      exact Parser.pop_nud _ heq
    · split at h
      · cases h
      · cases h

/-! ## Undefined symbols -/

/-- A definition that succeeds leaves the symbol bound. -/
theorem SymbolTable.define_symbol_binds (t t' : SymbolTable) (line : Nat) (symbol : String)
    (value : Value) (h : t.define_symbol line symbol value = Except.ok t') :
    t'.find symbol ≠ none := by
  unfold SymbolTable.define_symbol at h
  split at h
  · injection h with h
    subst h
    simp [SymbolTable.find, List.lookup_cons]
  · rename_i entry hf
    split at h
    · cases h
    · split at h
      · cases h
      · split at h
        · cases h
        · split at h
          · cases h
          · injection h with h
            subst h
            rw [hf]
            exact fun hc => Option.noConfusion hc

/-- The definition of the label of a line keeps every binding of the table,
and binds the label when there is one. -/
theorem Assembler.label_bindings (a a1 : Assembler) (label : String) (value : Value)
    (h : (if label.length ≠ 0 then a.define_symbol label value else Except.ok a)
      = Except.ok a1) :
    (∀ (other : String) (e : Entry), a.m_symbol_table_sp.find other = some e →
      a1.m_symbol_table_sp.find other = some e) ∧
    (label.length ≠ 0 → a1.m_symbol_table_sp.find label ≠ none) := by
  split at h
  · have ht := Assembler.define_symbol_table a a1 label value h
    exact ⟨fun other e hf => SymbolTable.define_symbol_find _ _ _ _ _ ht other e hf,
      fun _ => SymbolTable.define_symbol_binds _ _ _ _ _ ht⟩
  · rename_i hl
    injection h with h
    subst h
    exact ⟨fun _ _ hf => hf, fun hc => absurd hc hl⟩

/-- A symbol that the table holds before the definition of the label is not
one that the table lacks after it. -/
theorem Assembler.label_unbound (a a1 : Assembler) (label : String) (value : Value)
    (h : (if label.length ≠ 0 then a.define_symbol label value else Except.ok a)
      = Except.ok a1)
    (x : String) (hx : a1.m_symbol_table_sp.find x = none) :
    a.m_symbol_table_sp.find x = none := by
  cases hf : a.m_symbol_table_sp.find x with
  | none => rfl
  | some e =>
    rw [(Assembler.label_bindings a a1 label value h).1 x e hf] at hx
    cases hx

theorem Assembler.label_not_undefined (a : Assembler) (label : String) (value : Value)
    (x : String) :
    (if label.length ≠ 0 then a.define_symbol label value else Except.ok a)
      ≠ Except.error (Error.SymbolTableError_undefined x) := by
  intro h
  rcases Assembler.label_error a label value _ h with ⟨_, _, h1⟩ | ⟨_, h1⟩ | ⟨_, _, h1⟩ <;>
    cases h1

/-- An operand whose conversion fails with an undefined symbol names a symbol
that the table does not hold. -/
theorem Assembler.convert_operand_uint16_undefined (a : Assembler) (e : Expression)
    (x : String)
    (h : a.convert_operand_uint16 e = Except.error (Error.SymbolTableError_undefined x)) :
    a.m_symbol_table_sp.find x = none := by
  rcases Assembler.convert_operand_uint16_error a e _ h with
    h1 | h1 | h1 | ⟨s, h1, h2⟩ | h1 | h1
  · cases h1
  · cases h1
  · cases h1
  · injection h1 with h1
    rw [h1]
    exact h2
  · cases h1
  · cases h1

theorem Assembler.assemble_operands_loop_undefined (emit : Assembler → Nat → Assembler)
    (hemit : ∀ a v, (emit a v).m_symbol_table_sp = a.m_symbol_table_sp)
    (x : String) (operands : List Expression) :
    ∀ a : Assembler, Assembler.assemble_operands_loop emit operands a
        = Except.error (Error.SymbolTableError_undefined x) →
      a.m_symbol_table_sp.find x = none := by
  induction operands with
  | nil => intro a h; cases h
  | cons e rest ih =>
    intro a h
    simp only [Assembler.assemble_operands_loop] at h
    split at h
    · rename_i e1 hc
      injection h with h
      subst h
      exact Assembler.convert_operand_uint16_undefined a e x hc
    · rename_i value a1 hc
      have h1 := Assembler.convert_state a a1 e value hc
      subst h1
      have := ih _ h
      rw [hemit] at this
      exact this

theorem Assembler.assemble_instruction_undefined (a : Assembler) (st : Statement) (x : String)
    (hset : a.m_instruction_set_sp = InstructionSet.pal65)
    (hs : a.m_statement_sp = some st)
    (h : a.assemble_instruction = Except.error (Error.SymbolTableError_undefined x)) :
    a.m_symbol_table_sp.find x = none := by
  rcases Assembler.assemble_instruction_error a st _ hset hs h with
    h1 | h1 | ⟨_, _, h1⟩ | ⟨a1, e, hl, _, hc⟩ | ⟨_, _, h1⟩
  · exact absurd h1 (Assembler.label_not_undefined _ _ _ _)
  · cases h1
  · cases h1
  · exact Assembler.label_unbound a a1 _ _ hl x
      (Assembler.convert_operand_uint16_undefined a1 e x hc)
  · cases h1

open PseudoOp.PseudoOpEnum in
theorem Assembler.assemble_pseudo_op_undefined (a : Assembler) (st : Statement) (x : String)
    (hs : a.m_statement_sp = some st)
    (h : a.assemble_pseudo_op = Except.error (Error.SymbolTableError_undefined x)) :
    a.m_symbol_table_sp.find x = none := by
  unfold Assembler.assemble_pseudo_op at h
  simp only [hs] at h
  split at h
  · rename_i e1 hl
    injection h with h
    subst h
    simp only [PseudoOp.lookup_mnemonic] at hl
    split at hl <;> cases hl
  · rename_i info hinfo
    have hflags := PseudoOp.lookup_mnemonic_flags _ _ hinfo
    simp only [hflags, Bool.false_eq_true, if_false, Bool.not_false, if_true] at h
    split at h
    · rename_i e1 hl
      injection h with h
      subst h
      exact absurd hl (Assembler.label_not_undefined _ _ _ _)
    · rename_i a1 hlabel
      apply Assembler.label_unbound a a1 _ _ hlabel x
      unfold Assembler.s_assemble_pseudo_op_fn_ptrs at h
      cases hp : info.pseudo_op <;> simp only [hp] at h
      · unfold Assembler.assemble_pseudo_op_ascii at h
        split at h
        · rename_i e1 hg
          injection h with h
          subst h
          simp only [Statement.get_operand] at hg
          split at hg <;> cases hg
        · split at h <;> cases h
      · unfold Assembler.assemble_pseudo_op_byte at h
        split at h
        · cases h
        · exact Assembler.assemble_operands_loop_undefined
            (fun a value => a.emit_byte (value &&& 0xff)) (fun _ _ => rfl) x _ _ h
      · unfold Assembler.assemble_pseudo_op_def at h
        split at h
        · rename_i e1 hg
          injection h with h
          subst h
          simp only [Statement.get_operand] at hg
          split at hg <;> cases hg
        · split at h
          · rename_i e1 hg
            injection h with h
            subst h
            simp only [Statement.get_operand] at hg
            split at hg <;> cases hg
          · split at h
            · rename_i e1 hc
              injection h with h
              subst h
              exact Assembler.convert_operand_uint16_undefined a1 _ x hc
            · rename_i value a2 hc
              have h2 := Assembler.convert_state _ _ _ _ hc
              subst h2
              split at h
              · split at h
                · rename_i e1 hd
                  injection h with h
                  subst h
                  unfold Assembler.define_symbol at hd
                  split at hd
                  · rename_i e2 hd2
                    injection hd with hd
                    subst hd
                    rcases SymbolTable.define_symbol_error _ _ _ _ _ hd2 with
                      ⟨_, _, h1⟩ | ⟨_, h1⟩ | ⟨_, _, h1⟩ <;> cases h1
                  · cases hd
                · cases h
              · cases h
      · unfold Assembler.assemble_pseudo_op_end at h
        cases h
      · unfold Assembler.assemble_pseudo_op_hbyte at h
        split at h
        · cases h
        · exact Assembler.assemble_operands_loop_undefined
            (fun a value => a.emit_byte (value >>> 8)) (fun _ _ => rfl) x _ _ h
      · unfold Assembler.assemble_pseudo_op_unimplemented at h
        cases h
      · unfold Assembler.assemble_pseudo_op_list at h
        cases h
      · unfold Assembler.assemble_pseudo_op_loc at h
        split at h
        · rename_i e1 hg
          injection h with h
          subst h
          simp only [Statement.get_operand] at hg
          split at hg <;> cases hg
        · split at h
          · rename_i e1 hc
            injection h with h
            subst h
            exact Assembler.convert_operand_uint16_undefined a1 _ x hc
          · cases h
      · unfold Assembler.assemble_pseudo_op_nolist at h
        cases h
      · unfold Assembler.assemble_pseudo_op_page at h
        cases h
      · unfold Assembler.assemble_pseudo_op_word at h
        split at h
        · cases h
        · exact Assembler.assemble_operands_loop_undefined
            (fun a value => a.emit_word value) (fun _ _ => rfl) x _ _ h

/-- A line that fails with an undefined symbol names a symbol that the table
does not hold when the line starts. -/
theorem Assembler.assemble_line_undefined (a : Assembler) (x : String)
    (hset : a.m_instruction_set_sp = InstructionSet.pal65)
    (h : a.assemble_line = Except.error (Error.SymbolTableError_undefined x)) :
    a.m_symbol_table_sp.find x = none := by
  cases hs : a.m_statement_sp with
  | none =>
    unfold Assembler.assemble_line at h
    simp only [hs] at h
    cases h
  | some st =>
    unfold Assembler.assemble_line at h
    simp only [hs] at h
    split at h
    · exact Assembler.assemble_instruction_undefined a st x hset hs h
    · split at h
      · exact Assembler.assemble_pseudo_op_undefined a st x hs h
      · cases h

theorem Assembler.write_listing_line_loop_undefined (a : Assembler) (x : String) (fuel : Nat) :
    ∀ (i : Nat) (s_obj : String), a.write_listing_line_loop fuel i s_obj
      ≠ Except.error (Error.SymbolTableError_undefined x) := by
  induction fuel with
  | zero => intro i s_obj h; cases h
  | succ fuel ih =>
    intro i s_obj h
    simp only [Assembler.write_listing_line_loop] at h
    split at h
    · split at h
      · split at h
        · cases h
        · exact ih _ _ h
      · exact ih _ _ h
      · cases h
    · cases h

theorem Assembler.write_listing_line_undefined (a : Assembler) (x : String) :
    a.write_listing_line ≠ Except.error (Error.SymbolTableError_undefined x) := by
  intro h
  unfold Assembler.write_listing_line at h
  simp only at h
  split at h
  · rename_i e1 hl
    injection h with h
    subst h
    exact Assembler.write_listing_line_loop_undefined a x _ _ _ hl
  · split at h <;> cases h

/-- A round of the loop of `assemble_pass` that fails with an undefined
symbol names a symbol that the table does not hold when the round starts. -/
theorem Assembler.assemble_pass_line_undefined (s : Assembler) (line : String) (x : String)
    (hset : s.m_instruction_set_sp = InstructionSet.pal65)
    (h : s.assemble_pass_line line = Except.error (Error.SymbolTableError_undefined x)) :
    s.m_symbol_table_sp.find x = none := by
  cases hp : Parser.parse s.m_pass_number.toNat (s.m_source_line_number + 1)
      s.m_location_counter (untabify line) with
  | error e =>
    exfalso
    unfold Assembler.assemble_pass_line at h
    simp only [hp] at h
    split at h
    · rename_i e1 hparsed
      injection h with h
      subst h
      split at hparsed
      · cases hparsed
      · cases hparsed
      · rename_i e2 _ hp2
        injection hparsed with hparsed
        injection hp2 with hp2
        rw [hp2, hparsed] at hp
        exact Parser.parse_nud _ _ _ _ hp
    · rename_i a hparsed
      split at hparsed
      · rename_i hp2
        cases hp2
      · rename_i hp2
        injection hp2 with hp2
        rw [hp2] at hp
        exact Parser.parse_npe _ _ _ _ hp
      · cases hparsed
  | ok statement_sp =>
    rw [Assembler.assemble_pass_line_eq s line _ hp] at h
    split at h
    · rename_i e1 hline
      injection h with h
      subst h
      exact Assembler.assemble_line_undefined (s.begin_line line statement_sp) x hset hline
    · rename_i a' hline
      split at h
      · rename_i e1 hw
        injection h with h
        subst h
        split at hw
        · split at hw
          · rename_i e2 hl
            injection hw with hw
            subst hw
            exact absurd hl (Assembler.write_listing_line_undefined _ _)
          · cases hw
        · cases hw
      · cases h

theorem Assembler.write_object_bytes_table (a : Assembler) :
    a.write_object_bytes.m_symbol_table_sp = a.m_symbol_table_sp := by
  unfold Assembler.write_object_bytes
  split <;> rfl

/-- A round of the loop of `assemble_pass` keeps every binding of the symbol
table, binds the label of the line, and binds the symbol of a `.def`. -/
theorem Assembler.assemble_pass_line_bindings (s r : Assembler) (line : String)
    (hset : s.m_instruction_set_sp = InstructionSet.pal65)
    (h : s.assemble_pass_line line = Except.ok r) :
    (∀ (other : String) (e : Entry), s.m_symbol_table_sp.find other = some e →
      r.m_symbol_table_sp.find other = some e) ∧
    (∀ st : Statement,
      Parser.parse s.m_pass_number.toNat (s.m_source_line_number + 1) s.m_location_counter
        (untabify line) = Except.ok (some st) →
      (st.m_label.length ≠ 0 → r.m_symbol_table_sp.find st.m_label ≠ none) ∧
      (∀ (name : String) (e : Expression), utility.downcase_string st.m_mnemonic = ".def" →
        st.m_operands = [Expression.Symbol name, e] →
        r.m_symbol_table_sp.find name ≠ none)) := by
  obtain ⟨statement_sp, a', w, hp, hline, hw, hr⟩ := Assembler.assemble_pass_line_steps s r line h
  have hwt : w.m_symbol_table_sp = a'.m_symbol_table_sp := by
    split at hw
    · split at hw
      · cases hw
      · rename_i a3 hl
        obtain ⟨listing, hl⟩ := Assembler.write_listing_line_fields _ _ hl
        injection hw with hw
        rw [← hw, Assembler.write_object_bytes_table, hl]
    · injection hw with hw
      rw [hw]
  have hrt : r.m_symbol_table_sp = a'.m_symbol_table_sp := by
    rw [hr]
    exact hwt
  cases statement_sp with
  | none =>
    unfold Assembler.assemble_line at hline
    simp [Assembler.begin_line] at hline
  | some st =>
    obtain ⟨a1, hlab, hpres⟩ := Assembler.assemble_line_table _ a' st rfl hline
    obtain ⟨hkeep, hbind⟩ := Assembler.label_bindings _ a1 _ _ hlab
    refine ⟨?_, ?_⟩
    · intro other e hf
      rw [hrt]
      exact hpres other e (hkeep other e hf)
    · intro st1 hp1
      rw [hp] at hp1
      injection hp1 with hp1
      injection hp1 with hp1
      subst hp1
      refine ⟨?_, ?_⟩
      · intro hl hnone
        rw [hrt] at hnone
        cases hf : a1.m_symbol_table_sp.find st.m_label with
        | none => exact hbind hl hf
        | some e =>
          rw [hpres _ e hf] at hnone
          cases hnone
      · intro name e hm hops hnone
        rw [hrt] at hnone
        have hlk : PseudoOp.s_by_mnemonic.lookup (utility.downcase_string st.m_mnemonic)
            = some PseudoOp.PseudoOpEnum.DEF := by rw [hm]; decide
        have hi : (s.begin_line line (some st)).m_instruction_set_sp.valid_mnemonic
            st.m_mnemonic = false := by
          show s.m_instruction_set_sp.valid_mnemonic st.m_mnemonic = false
          rw [hset]
          exact InstructionSet.pal65_directive _ _ hlk
        have hdef := Assembler.assemble_line_def _ a1 st rfl hm hi hlab
        rw [hdef] at hline
        unfold Assembler.assemble_pseudo_op_def at hline
        simp only [Statement.get_operand, hops, List.get?] at hline
        split at hline
        · cases hline
        · rename_i value a2 hc
          have h2 := Assembler.convert_state _ _ _ _ hc
          subst h2
          split at hline
          · cases hline
          · rename_i a3 hd
            injection hline with hline
            have hb := SymbolTable.define_symbol_binds _ _ _ _ _
              (Assembler.define_symbol_table _ _ _ _ hd)
            rw [← hline] at hnone
            exact hb hnone

theorem Assembler.assemble_pass_loop_undefined (x : String) (lines : List String) :
    ∀ s : Assembler, s.m_instruction_set_sp = InstructionSet.pal65 →
      Assembler.assemble_pass_loop lines s = Except.error (Error.SymbolTableError_undefined x) →
      s.m_symbol_table_sp.find x = none := by
  induction lines with
  | nil => intro s _ h; cases h
  | cons line rest ih =>
    intro s hset h
    by_cases hend : s.m_end_reached = true
    · rw [Assembler.assemble_pass_loop_end s hend] at h
      cases h
    · have hf : s.m_end_reached = false := by simpa using hend
      rw [Assembler.assemble_pass_loop_cons s line rest hf] at h
      cases hr : s.assemble_pass_line line with
      | error e =>
        rw [hr] at h
        injection h with h
        subst h
        exact Assembler.assemble_pass_line_undefined s line x hset hr
      | ok r =>
        rw [hr] at h
        have hset' : r.m_instruction_set_sp = InstructionSet.pal65 := by
          rw [(Assembler.assemble_pass_line_frame s r line hr).1]
          exact hset
        have hnone := ih r hset' h
        cases hfs : s.m_symbol_table_sp.find x with
        | none => rfl
        | some e =>
          rw [(Assembler.assemble_pass_line_bindings s r line hset hr).1 x e hfs] at hnone
          cases hnone

theorem Assembler.assemble_pass_loop_bindings (lines : List String) :
    ∀ s r : Assembler, s.m_instruction_set_sp = InstructionSet.pal65 →
      Assembler.assemble_pass_loop lines s = Except.ok r →
      ∀ (other : String) (e : Entry), s.m_symbol_table_sp.find other = some e →
        r.m_symbol_table_sp.find other = some e := by
  induction lines with
  | nil =>
    intro s r _ h other e hf
    injection h with h
    rw [← h]
    exact hf
  | cons line rest ih =>
    intro s r hset h other e hf
    by_cases hend : s.m_end_reached = true
    · rw [Assembler.assemble_pass_loop_end s hend] at h
      injection h with h
      rw [← h]
      exact hf
    · have hfalse : s.m_end_reached = false := by simpa using hend
      rw [Assembler.assemble_pass_loop_cons s line rest hfalse] at h
      cases hr : s.assemble_pass_line line with
      | error e1 => rw [hr] at h; cases h
      | ok r1 =>
        rw [hr] at h
        have hset' : r1.m_instruction_set_sp = InstructionSet.pal65 := by
          rw [(Assembler.assemble_pass_line_frame s r1 line hr).1]
          exact hset
        exact ih r1 r hset' h other e
          ((Assembler.assemble_pass_line_bindings s r1 line hset hr).1 other e hf)

/-- C37: when pass 1 over a source file returns, with the instruction set
that the constructor builds: if pass 2 over the same file fails with the
exception of an undefined symbol, the symbol is one that the table does not
hold at the end of pass 1 (nothing catches that exception, so a call of
`lookup_symbol` that throws it ends the pass with it); and the label of
every line that pass 1 reaches before the end of its loop, and the symbol of
every `.def` among these lines, is in the table at the end of pass 1, so
that pass 2 does not fail with that symbol undefined. -/
theorem pass_two_symbols_defined (a a1 : Assembler) (source : List String)
    (hset : a.m_instruction_set_sp = InstructionSet.pal65)
    (h1 : a.assemble_pass source 1 = Except.ok a1) :
    (∀ x : String,
      a1.assemble_pass source 2 = Except.error (Error.SymbolTableError_undefined x) →
      a1.m_symbol_table_sp.find x = none) ∧
    (∀ (pre post : List String) (line : String) (s : Assembler) (st : Statement),
      source = pre ++ line :: post →
      Assembler.assemble_pass_loop pre (a.begin_pass 1) = Except.ok s →
      s.m_end_reached = false →
      Parser.parse s.m_pass_number.toNat (s.m_source_line_number + 1) s.m_location_counter
        (untabify line) = Except.ok (some st) →
      (st.m_label.length ≠ 0 →
        a1.m_symbol_table_sp.find st.m_label ≠ none ∧
        a1.assemble_pass source 2
          ≠ Except.error (Error.SymbolTableError_undefined st.m_label)) ∧
      (∀ (name : String) (e : Expression), utility.downcase_string st.m_mnemonic = ".def" →
        st.m_operands = [Expression.Symbol name, e] →
        a1.m_symbol_table_sp.find name ≠ none ∧
        a1.assemble_pass source 2 ≠ Except.error (Error.SymbolTableError_undefined name))) := by
  have hloop1 : Assembler.assemble_pass_loop source (a.begin_pass 1) = Except.ok a1 := by
    rw [← Assembler.assemble_pass_one]
    exact h1
  have ha1 : a1.m_instruction_set_sp = InstructionSet.pal65 := by
    rw [(Assembler.assemble_pass_loop_frame source _ _ hloop1).1]
    exact hset
  have hpass2 : ∀ x : String,
      a1.assemble_pass source 2 = Except.error (Error.SymbolTableError_undefined x) →
      a1.m_symbol_table_sp.find x = none := by
    intro x h2
    rw [Assembler.assemble_pass_two] at h2
    exact Assembler.assemble_pass_loop_undefined x source (a1.begin_pass 2) ha1 h2
  refine ⟨hpass2, ?_⟩
  intro pre post line s st hsrc hpre hend hparse
  subst hsrc
  rw [Assembler.assemble_pass_loop_append, hpre] at hloop1
  simp only at hloop1
  rw [Assembler.assemble_pass_loop_cons s line post hend] at hloop1
  have hs : s.m_instruction_set_sp = InstructionSet.pal65 := by
    rw [(Assembler.assemble_pass_loop_frame pre _ _ hpre).1]
    exact hset
  cases hr : s.assemble_pass_line line with
  | error e => rw [hr] at hloop1; cases hloop1
  | ok r =>
    rw [hr] at hloop1
    simp only at hloop1
    have hrs : r.m_instruction_set_sp = InstructionSet.pal65 := by
      rw [(Assembler.assemble_pass_line_frame s r line hr).1]
      exact hs
    have hkeep := Assembler.assemble_pass_loop_bindings post r a1 hrs hloop1
    have hlift : ∀ name : String, r.m_symbol_table_sp.find name ≠ none →
        a1.m_symbol_table_sp.find name ≠ none := by
      intro name hne
      cases hf : r.m_symbol_table_sp.find name with
      | none => exact absurd hf hne
      | some e =>
        rw [hkeep name e hf]
        exact fun hc => Option.noConfusion hc
    obtain ⟨hlabel, hdef⟩ := (Assembler.assemble_pass_line_bindings s r line hs hr).2 st hparse
    refine ⟨fun hl => ?_, fun name e hm hops => ?_⟩
    · have hfound := hlift _ (hlabel hl)
      exact ⟨hfound, fun h2 => hfound (hpass2 _ h2)⟩
    · have hfound := hlift _ (hdef name e hm hops)
      exact ⟨hfound, fun h2 => hfound (hpass2 _ h2)⟩

set_option maxRecDepth 100000 in
/-- C37 at the source `.loc $200` / `start: jmp later` / `.def k = 5` /
`lda# k` / `later: nop` / `.end`: after pass 1 the table holds `later` and
`k`, and pass 2 does not fail with either of them undefined; the run gives
the object file `*02004C0502A905EA`. Without the line of the label, in `jmp later` / `.end`,
pass 1 returns and pass 2 throws the exception that `later` is undefined. -/
theorem pass_two_symbols_defined_witness :
    (∃ a1 : Assembler,
      (Assembler.construct InstructionSet.pal65 0).assemble_pass
        [".loc $200", "start:  jmp later", ".def k = 5", "        lda# k", "later:  nop",
          "        .end"] 1
        = Except.ok a1 ∧
      a1.m_symbol_table_sp.find "later" ≠ none ∧
      a1.m_symbol_table_sp.find "k" ≠ none ∧
      a1.assemble_pass
        [".loc $200", "start:  jmp later", ".def k = 5", "        lda# k", "later:  nop",
          "        .end"] 2
        ≠ Except.error (Error.SymbolTableError_undefined "later") ∧
      a1.assemble_pass
        [".loc $200", "start:  jmp later", ".def k = 5", "        lda# k", "later:  nop",
          "        .end"] 2
        ≠ Except.error (Error.SymbolTableError_undefined "k")) ∧
    returns (assemble_source 0
        ".loc $200\nstart:  jmp later\n.def k = 5\n        lda# k\nlater:  nop\n        .end\n")
      (fun a => decide (a.m_object_file = "*02004C0502A905EA")) = true ∧
    returns ((Assembler.construct InstructionSet.pal65 0).assemble_pass
        ["        jmp later", "        .end"] 1) (fun _ => true) = true ∧
    throws (assemble_source 0 "        jmp later\n        .end\n")
      (Error.SymbolTableError_undefined "later") = true := by
  have key : returns ((Assembler.construct InstructionSet.pal65 0).assemble_pass
      [".loc $200", "start:  jmp later", ".def k = 5", "        lda# k", "later:  nop",
          "        .end"] 1)
      (fun a1 => decide (a1.m_symbol_table_sp.find "later" ≠ none ∧
        a1.m_symbol_table_sp.find "k" ≠ none)) = true := by
    decide!
  obtain ⟨a1, h1, hk⟩ := (returns_iff _ _).1 key
  have hk' := of_decide_eq_true hk
  have ht := pass_two_symbols_defined (Assembler.construct InstructionSet.pal65 0) a1
    [".loc $200", "start:  jmp later", ".def k = 5", "        lda# k", "later:  nop",
          "        .end"] rfl h1
  exact ⟨⟨a1, h1, hk'.1, hk'.2, fun h2 => hk'.1 (ht.1 "later" h2),
    fun h2 => hk'.2 (ht.1 "k" h2)⟩, by decide!, by decide!, by decide!⟩

end Impala
